import Mathlib

/-!
libvideo-raw: a shallow embedding of the packed 10-bit codec, the frame reader
and the frame writer.

The definitions below follow `tools/vraw_conv_10bit.c`, `src/vraw_reader.c` and
`src/vraw_writer.c`.  Bytes are `Fin 256`; the C casts to `uint8_t` are
`toByte` (reduction modulo `2 ^ 8`).  Memory is a flat map from addresses to
bytes, and a pointer is an address (`0` is `NULL`).  The 64-bit accumulators of
the codec never exceed `2 ^ 48`, so they are plain naturals.
-/

namespace Vraw

/-! ## Bytes and memory -/

/-- One `uint8_t`. -/
abbrev Byte := Fin 256

/-- The cast `(uint8_t)x`. -/
def toByte (x : Nat) : Byte := ⟨x % 256, Nat.mod_lt x (by decide)⟩

/-- A flat byte-addressed memory. -/
abbrev Mem := Nat → Byte

/-- The store `p[0] = v` at address `p`. -/
def Mem.set (m : Mem) (p : Nat) (v : Byte) : Mem :=
  fun a => if a = p then v else m a

/-- The 16-bit little-endian sample whose low byte is at address `p`. -/
def sample16le (m : Mem) (p : Nat) : Nat := (m p).val + 256 * (m (p + 1)).val

/-! ## Packed 10-bit codec (`tools/vraw_conv_10bit.c`) -/

/-- The serialisation loop `for (i = 0; i < 5; i++) { out[i] = (uint8_t)(t & 0xFF); t >>= 8; }`,
with `i` running from `5 - cnt` (address `out`) upwards. -/
def store_bytes (dst : Mem) (out : Nat) (t : Nat) : (cnt : Nat) → Mem
  | 0 => dst
  | cnt + 1 => store_bytes (dst.set out (toByte (t &&& 0xFF))) (out + 1) (t >>> 8) cnt

/-- The accumulator that `conv_16le_to_10packed` builds for one block. -/
def conv_16le_block (src : Mem) (in1 in2 step : Nat) : Nat :=
  let t := (src (in2 + step + 1)).val &&& 3
  let t := (t <<< 8) + (src (in2 + step)).val
  let t := (t <<< 2) + ((src (in1 + step + 1)).val &&& 3)
  let t := (t <<< 8) + (src (in1 + step)).val
  let t := (t <<< 2) + ((src (in2 + 1)).val &&& 3)
  let t := (t <<< 8) + (src (in2 + 0)).val
  let t := (t <<< 2) + ((src (in1 + 1)).val &&& 3)
  let t := (t <<< 8) + (src (in1 + 0)).val
  t

/-- The function `conv_16le_to_10packed`: `nb_blk` blocks, the input pointers
advancing by `2 * step` and the output pointer by 5 per block. -/
def conv_16le_to_10packed (src : Mem) (in1 in2 : Nat) (dst : Mem) (out : Nat) (step : Nat) :
    (nb_blk : Nat) → Mem
  | 0 => dst
  | n + 1 =>
    conv_16le_to_10packed src (in1 + 2 * step) (in2 + 2 * step)
      (store_bytes dst out (conv_16le_block src in1 in2 step) 5) (out + 5) step n

/-- The accumulator that `conv_16be_to_10packed` builds for one block. -/
def conv_16be_block (src : Mem) (in1 in2 step : Nat) : Nat :=
  let t := (src (in2 + step)).val &&& 3
  let t := (t <<< 8) + (src (in2 + step + 1)).val
  let t := (t <<< 2) + ((src (in1 + step)).val &&& 3)
  let t := (t <<< 8) + (src (in1 + step + 1)).val
  let t := (t <<< 2) + ((src (in2 + 0)).val &&& 3)
  let t := (t <<< 8) + (src (in2 + 1)).val
  let t := (t <<< 2) + ((src (in1 + 0)).val &&& 3)
  let t := (t <<< 8) + (src (in1 + 1)).val
  t

/-- The function `conv_16be_to_10packed`. -/
def conv_16be_to_10packed (src : Mem) (in1 in2 : Nat) (dst : Mem) (out : Nat) (step : Nat) :
    (nb_blk : Nat) → Mem
  | 0 => dst
  | n + 1 =>
    conv_16be_to_10packed src (in1 + 2 * step) (in2 + 2 * step)
      (store_bytes dst out (conv_16be_block src in1 in2 step) 5) (out + 5) step n

/-- The accumulator that `conv_8_to_10packed` builds for one block. -/
def conv_8_block (src : Mem) (in1 in2 step : Nat) : Nat :=
  let t := (src (in2 + step)).val
  let t := (t <<< 10) + (src (in1 + step)).val
  let t := (t <<< 10) + (src (in2 + 0)).val
  let t := (t <<< 10) + (src (in1 + 0)).val
  let t := t <<< 2
  t

/-- The function `conv_8_to_10packed`. -/
def conv_8_to_10packed (src : Mem) (in1 in2 : Nat) (dst : Mem) (out : Nat) (step : Nat) :
    (nb_blk : Nat) → Mem
  | 0 => dst
  | n + 1 =>
    conv_8_to_10packed src (in1 + 2 * step) (in2 + 2 * step)
      (store_bytes dst out (conv_8_block src in1 in2 step) 5) (out + 5) step n

/-- The read loop `for (i = 0; i < 5; i++) { t |= in[4 - i]; t <<= 8; }` of the
decoders, with `cnt` iterations left (`i = 5 - cnt`). -/
def load_bytes (src : Mem) (inp : Nat) (t : Nat) : (cnt : Nat) → Nat
  | 0 => t
  | cnt + 1 => load_bytes src inp ((t ||| (src (inp + cnt)).val) <<< 8) cnt

/-- The function `line_10packed_to_16`: each block of 5 bytes at `inp` is
unpacked into four 16-bit samples written through the low/high byte pointers. -/
def line_10packed_to_16 (src : Mem) (inp : Nat) (dst : Mem)
    (out1_low out1_high out2_low out2_high out_pixel_stride : Nat) : (blocks : Nat) → Mem
  | 0 => dst
  | n + 1 =>
    let t := load_bytes src inp 0 5
    let t := t >>> 8
    let v := t &&& 0x3FF
    let dst := dst.set (out1_low + 0) (toByte ((v >>> 0) &&& 0xFF))
    let dst := dst.set (out1_high + 0) (toByte ((v >>> 8) &&& 0xFF))
    let t := t >>> 10
    let v := t &&& 0x3FF
    let dst := dst.set (out2_low + 0) (toByte ((v >>> 0) &&& 0xFF))
    let dst := dst.set (out2_high + 0) (toByte ((v >>> 8) &&& 0xFF))
    let t := t >>> 10
    let v := t &&& 0x3FF
    let dst := dst.set (out1_low + out_pixel_stride) (toByte ((v >>> 0) &&& 0xFF))
    let dst := dst.set (out1_high + out_pixel_stride) (toByte ((v >>> 8) &&& 0xFF))
    let t := t >>> 10
    let v := t &&& 0x3FF
    let dst := dst.set (out2_low + out_pixel_stride) (toByte ((v >>> 0) &&& 0xFF))
    let dst := dst.set (out2_high + out_pixel_stride) (toByte ((v >>> 8) &&& 0xFF))
    line_10packed_to_16 src (inp + 5) dst
      (out1_low + 2 * out_pixel_stride) (out1_high + 2 * out_pixel_stride)
      (out2_low + 2 * out_pixel_stride) (out2_high + 2 * out_pixel_stride)
      out_pixel_stride n

/-- The function `line_10packed_to_8`: each block of 5 bytes at `inp` is
unpacked into four 8-bit samples, `((t & 0x3FF) + 2) >> 2` stored through
`v & 0xFF`. -/
def line_10packed_to_8 (src : Mem) (inp : Nat) (dst : Mem)
    (out1 out2 out_pixel_stride : Nat) : (blocks : Nat) → Mem
  | 0 => dst
  | n + 1 =>
    let t := load_bytes src inp 0 5
    let t := t >>> 8
    let v := ((t &&& 0x3FF) + 2) >>> 2
    let dst := dst.set (out1 + 0) (toByte (v &&& 0xFF))
    let t := t >>> 10
    let v := ((t &&& 0x3FF) + 2) >>> 2
    let dst := dst.set (out2 + 0) (toByte (v &&& 0xFF))
    let t := t >>> 10
    let v := ((t &&& 0x3FF) + 2) >>> 2
    let dst := dst.set (out1 + out_pixel_stride) (toByte (v &&& 0xFF))
    let t := t >>> 10
    let v := ((t &&& 0x3FF) + 2) >>> 2
    let dst := dst.set (out2 + out_pixel_stride) (toByte (v &&& 0xFF))
    line_10packed_to_8 src (inp + 5) dst
      (out1 + 2 * out_pixel_stride) (out2 + 2 * out_pixel_stride) out_pixel_stride n

/-- The 40-bit value held by the 5 bytes at `p`, least significant byte first. -/
def block40 (m : Mem) (p : Nat) : Nat :=
  (m p).val + 2 ^ 8 * (m (p + 1)).val + 2 ^ 16 * (m (p + 2)).val
    + 2 ^ 24 * (m (p + 3)).val + 2 ^ 32 * (m (p + 4)).val

/-- The `i`-th 10-bit component of the packed block at `p`. -/
def component (m : Mem) (p : Nat) (i : Nat) : Nat := block40 m p / 2 ^ (10 * i) % 1024

/-! ## The C library: streams, strings, `errno`

A stream is the content of the file, the position indicator and the
end-of-file indicator.  Reads at or past the end set the indicator; a
successful seek clears it. -/

/-- The `errno` values used by the library (Linux numbering). -/
def ENOENT : Int := 2
def ENOMEM : Int := 12
def EINVAL : Int := 22
def ENOSYS : Int := 38
def EPROTO : Int := 71
def EOVERFLOW : Int := 75
def ENOBUFS : Int := 105

/-- An open `FILE *`. -/
structure FILE where
  data : List Byte
  pos : Nat
  eof : Bool
  deriving DecidableEq

/-- The test `feof(f)`. -/
def feof (f : FILE) : Bool := f.eof

/-- The call `ftello(f)`. -/
def ftello (f : FILE) : Int := (f.pos : Int)

/-- The call `fseeko(f, target, SEEK_SET)` or `fseeko(f, off, SEEK_CUR)` once the
target position is computed: a negative target fails with `EINVAL` and leaves
the stream as it is, any other target is taken and clears the end-of-file
indicator.  The result is the return value, the stream and `errno`. -/
def fseeko_to (f : FILE) (target : Int) (errno : Int) : Int × FILE × Int :=
  if target < 0 then (-1, f, EINVAL)
  else (0, { f with pos := target.toNat, eof := false }, errno)

/-- Position-relative seek `fseeko(f, off, SEEK_CUR)`. -/
def fseeko_cur (f : FILE) (off : Int) (errno : Int) : Int × FILE × Int :=
  fseeko_to f ((f.pos : Int) + off) errno

/-- The bytes `cnt` bytes long that a read copies from file offset `pos` to address `ptr`. -/
def blit (buf : Mem) (ptr : Nat) (data : List Byte) (pos cnt : Nat) : Mem :=
  fun a => if ptr ≤ a ∧ a < ptr + cnt then data.getD (pos + (a - ptr)) 0 else buf a

/-- The call `fread(ptr, size, 1, f)`: one element of `size` bytes.  A complete
element returns 1; a short read copies what is left, moves to the end of the
file, sets the end-of-file indicator and returns 0; `size = 0` returns 0 and
changes nothing. -/
def fread (buf : Mem) (ptr size : Nat) (f : FILE) : Int × Mem × FILE :=
  if size = 0 then (0, buf, f)
  else if f.pos + size ≤ f.data.length then
    (1, blit buf ptr f.data f.pos size, { f with pos := f.pos + size })
  else
    (0, blit buf ptr f.data f.pos (f.data.length - f.pos),
      { f with pos := max f.pos f.data.length, eof := true })

/-- The longest prefix of a list up to and including its first newline. -/
def take_line : List Byte → List Byte
  | [] => []
  | c :: cs => if c = 10 then [c] else c :: take_line cs

/-- The call `fgets(str, n, f)`: at most `n - 1` bytes, stopping after a
newline.  `none` is the `NULL` result (end of file before any byte); the
end-of-file indicator is set whenever the end of the file stopped the read. -/
def fgets (n : Nat) (f : FILE) : Option (List Byte) × FILE :=
  let avail := f.data.drop f.pos
  let line := take_line (avail.take (n - 1))
  if avail = [] then (none, { f with eof := true })
  else if line.getLast? ≠ some 10 ∧ line.length < n - 1 then
    (some line, { f with pos := f.pos + line.length, eof := true })
  else (some line, { f with pos := f.pos + line.length })

/-- The bytes of a string literal. -/
def bytes_of (s : String) : List Byte := s.toList.map (fun c => toByte c.toNat)

/-- A buffer read as a C string: the bytes before the first NUL. -/
def cstr (l : List Byte) : List Byte := l.takeWhile (fun c => c ≠ 0)

/-- All the tokens `strtok_r(., " ", .)` yields on a C string, in order; `cur`
is the token being accumulated (reversed). -/
def strtok_all : List Byte → List Byte → List (List Byte)
  | [], cur => if cur = [] then [] else [cur.reverse]
  | c :: cs, cur =>
    if c = 32 then
      (if cur = [] then strtok_all cs [] else cur.reverse :: strtok_all cs [])
    else strtok_all cs (c :: cur)

/-- The predicate `isspace`. -/
def isspace (c : Byte) : Bool := c = 32 || (9 ≤ c.val && c.val ≤ 13)

/-- The decimal digits at the head of a string, accumulated onto `acc`. -/
def atoi_digits : List Byte → Nat → Nat
  | [], acc => acc
  | c :: cs, acc =>
    if 48 ≤ c.val ∧ c.val ≤ 57 then atoi_digits cs (acc * 10 + (c.val - 48)) else acc

/-- The value `atoi(s)` stored into an `unsigned int`: leading white space, an
optional sign, decimal digits; the conversion saturates at the bounds of `long`
and the store keeps the low 32 bits. -/
def atoi_uint (s : List Byte) : Nat :=
  let s := s.dropWhile isspace
  let v : Int :=
    match s with
    | c :: r =>
      if c = 45 then -((atoi_digits r 0 : Nat) : Int)
      else if c = 43 then ((atoi_digits r 0 : Nat) : Int)
      else ((atoi_digits s 0 : Nat) : Int)
    | [] => 0
  let v := max (-(2 ^ 63 : Int)) (min v (2 ^ 63 - 1))
  (v % 2 ^ 32).toNat

/-- The string after the first `':'` (`strchr(p, ':') + 1`), `none` when there is no colon. -/
def after_colon (p : List Byte) : Option (List Byte) :=
  match p.dropWhile (fun c => c ≠ 58) with
  | [] => none
  | _ :: r => some r

/-- The conversion of a `size_t` to `off_t` (two's complement, 64 bits). -/
def to_off_t (x : Nat) : Int :=
  if x % 2 ^ 64 < 2 ^ 63 then ((x % 2 ^ 64 : Nat) : Int) else ((x % 2 ^ 64 : Nat) : Int) - 2 ^ 64

/-- The nearest `float` (24 significant bits, ties to even) to an unsigned
integer: the conversion `(float)n`.  Its value is again an integer. -/
def round_to_float (n : Nat) : Nat :=
  if n < 2 ^ 24 then n
  else
    let e := Nat.log2 n - 23
    let q := n / 2 ^ e
    let r := n % 2 ^ e
    let half := 2 ^ (e - 1)
    (if half < r ∨ (r = half ∧ q % 2 = 1) then q + 1 else q) * 2 ^ e

/-- The `float` obtained from a `size_t`, as a rational. -/
def float_of_size_t (n : Nat) : ℚ := (round_to_float n : ℚ)

/-- The function `rint`: the nearest integer, ties to even. -/
def rint (x : ℚ) : ℚ :=
  let f : Int := ⌊x⌋
  if x - f < 1 / 2 then f
  else if 1 / 2 < x - f then f + 1
  else if f % 2 = 0 then f else f + 1

/-- The cast `(size_t)x` of a non-negative `float`: truncation. -/
def size_t_of_float (x : ℚ) : Nat := (⌊x⌋ : Int).toNat

/-! ## Types of libvideo-defs used by the reader and the writer -/

/-- The enumeration `enum vdef_raw_data_layout`. -/
inductive vdef_raw_data_layout where
  | UNKNOWN | PACKED | PLANAR | SEMI_PLANAR | INTERLEAVED | OPAQUE
  deriving DecidableEq, Repr

/-- The descriptor `struct vdef_raw_format`; the three pixel enumerations are kept as their
integer codes. -/
structure vdef_raw_format where
  pix_format : Nat
  pix_order : Nat
  pix_layout : Nat
  pix_size : Nat
  data_layout : vdef_raw_data_layout
  data_pad_low : Bool
  data_little_endian : Bool
  data_size : Nat
  deriving DecidableEq

/-- The pair `struct vdef_dim`. -/
structure vdef_dim where
  width : Nat
  height : Nat
  deriving DecidableEq

/-- The pair `struct vdef_frac`. -/
structure vdef_frac where
  num : Nat
  den : Nat
  deriving DecidableEq

/-- The part of `struct vdef_format_info` the library reads: frame rate,
resolution and sample aspect ratio (the colour fields are only copied). -/
structure vdef_format_info where
  framerate : vdef_frac
  resolution : vdef_dim
  sar : vdef_dim
  deriving DecidableEq

/-- The part of `struct vdef_frame_info` the library writes. -/
structure vdef_frame_info where
  timestamp : Nat
  timescale : Nat
  capture_timestamp : Nat
  index : Nat
  resolution : vdef_dim
  sar : vdef_dim
  deriving DecidableEq

/-- The library function `vdef_frac_is_null` of libvideo-defs. -/
def vdef_frac_is_null (f : vdef_frac) : Bool := f.num = 0 || f.den = 0

/-- The library function `vdef_dim_is_null` of libvideo-defs. -/
def vdef_dim_is_null (d : vdef_dim) : Bool := d.width = 0 || d.height = 0

/-- The library function `vdef_raw_format_cmp` of libvideo-defs: field-wise equality. -/
def vdef_raw_format_cmp (a b : vdef_raw_format) : Bool := decide (a = b)

/-- The library function `vdef_raw_format_intersect` of libvideo-defs: membership in a table. -/
def vdef_raw_format_intersect (a : vdef_raw_format) (table : List vdef_raw_format) : Bool :=
  table.any (fun b => vdef_raw_format_cmp a b)

/-- The library function `vdef_format_to_frame_info` of libvideo-defs on the
fields kept here: resolution and sample aspect ratio are copied, the
timestamps and the index are left as they are. -/
def vdef_format_to_frame_info (info : vdef_format_info) (fi : vdef_frame_info) :
    vdef_frame_info :=
  { fi with resolution := info.resolution, sar := info.sar }

/-- The constant `VDEF_RAW_MAX_PLANE_COUNT` of libvideo-defs. -/
def VDEF_RAW_MAX_PLANE_COUNT : Nat := 4

/-- The metadata `struct vdef_raw_frame`. -/
structure vdef_raw_frame where
  format : vdef_raw_format
  info : vdef_frame_info
  plane_stride : Nat → Nat

/-- The frame `struct vraw_frame`: plane pointers (`0` is `NULL`) and metadata. -/
structure vraw_frame where
  data : Nat → Nat
  frame : vdef_raw_frame

/-- What libvideo-defs provides and this repository only calls: the 32 format
constants of the registry, the plane count of a format and the plane geometry.
`vdef_calc_raw_frame_size fmt res stride stride_align scanline_align size size_align`
returns the new stride and size arrays (the two arrays are in/out in C; a
`NULL` alignment array is `none`). -/
structure VdefEnv where
  vdef_i420 : vdef_raw_format
  vdef_yv12 : vdef_raw_format
  vdef_nv12 : vdef_raw_format
  vdef_nv21 : vdef_raw_format
  vdef_i420_10_16le : vdef_raw_format
  vdef_yv12_10_16le : vdef_raw_format
  vdef_nv12_10_16le : vdef_raw_format
  vdef_nv21_10_16le : vdef_raw_format
  vdef_i420_10_16be : vdef_raw_format
  vdef_yv12_10_16be : vdef_raw_format
  vdef_nv12_10_16be : vdef_raw_format
  vdef_nv21_10_16be : vdef_raw_format
  vdef_i420_10_16le_high : vdef_raw_format
  vdef_yv12_10_16le_high : vdef_raw_format
  vdef_nv12_10_16le_high : vdef_raw_format
  vdef_nv21_10_16le_high : vdef_raw_format
  vdef_i420_10_16be_high : vdef_raw_format
  vdef_yv12_10_16be_high : vdef_raw_format
  vdef_nv12_10_16be_high : vdef_raw_format
  vdef_nv21_10_16be_high : vdef_raw_format
  vdef_nv21_10_packed : vdef_raw_format
  vdef_nv21_hisi_tile : vdef_raw_format
  vdef_nv21_hisi_tile_compressed : vdef_raw_format
  vdef_nv21_hisi_tile_10_packed : vdef_raw_format
  vdef_nv21_hisi_tile_compressed_10_packed : vdef_raw_format
  vdef_gray : vdef_raw_format
  vdef_gray16 : vdef_raw_format
  vdef_raw8 : vdef_raw_format
  vdef_raw16 : vdef_raw_format
  vdef_raw16_be : vdef_raw_format
  vdef_raw32 : vdef_raw_format
  vdef_raw32_be : vdef_raw_format
  vdef_get_raw_frame_plane_count : vdef_raw_format → Nat
  vdef_calc_raw_frame_size : vdef_raw_format → vdef_dim → (Nat → Nat) → Option (Nat → Nat) →
    Option (Nat → Nat) → (Nat → Nat) → Option (Nat → Nat) → (Nat → Nat) × (Nat → Nat)

/-- The table filled by `initialize_supported_formats` (the same in the reader and the writer). -/
def supported_formats (env : VdefEnv) : List vdef_raw_format :=
  [env.vdef_i420, env.vdef_yv12, env.vdef_nv12, env.vdef_nv21,
   env.vdef_i420_10_16le, env.vdef_yv12_10_16le, env.vdef_nv12_10_16le, env.vdef_nv21_10_16le,
   env.vdef_i420_10_16be, env.vdef_yv12_10_16be, env.vdef_nv12_10_16be, env.vdef_nv21_10_16be,
   env.vdef_i420_10_16le_high, env.vdef_yv12_10_16le_high, env.vdef_nv12_10_16le_high,
   env.vdef_nv21_10_16le_high,
   env.vdef_i420_10_16be_high, env.vdef_yv12_10_16be_high, env.vdef_nv12_10_16be_high,
   env.vdef_nv21_10_16be_high,
   env.vdef_nv21_10_packed, env.vdef_nv21_hisi_tile, env.vdef_nv21_hisi_tile_compressed,
   env.vdef_nv21_hisi_tile_10_packed, env.vdef_nv21_hisi_tile_compressed_10_packed,
   env.vdef_gray, env.vdef_gray16, env.vdef_raw8, env.vdef_raw16, env.vdef_raw16_be,
   env.vdef_raw32, env.vdef_raw32_be]

/-- What a call produced: it returned, it ran into undefined behaviour (a
division by zero), or the recursion went deeper than the fuel allows. -/
inductive Run (α : Type) where
  | done : α → Run α
  | undefined : Run α
  | out_of_fuel : Run α

/-! ## The reader (`src/vraw_reader.c`) -/

/-- The configuration `struct vraw_reader_config`. -/
structure vraw_reader_config where
  y4m : Int
  start_index : Nat
  start_reversed : Bool
  max_count : Nat
  loop : Int
  format : vdef_raw_format
  info : vdef_format_info
  plane_stride_align : Nat → Nat
  plane_scanline_align : Nat → Nat
  plane_size_align : Nat → Nat

/-- The object `struct vraw_reader` (the file name is left out). -/
structure vraw_reader where
  cfg : vraw_reader_config
  file : FILE
  reverse : Int
  header_offset : Nat
  frame_header_size : Nat
  plane_stride : Nat → Nat
  plane_size : Nat → Nat
  frame_size : Nat
  file_frame_size : Nat
  file_size : Nat
  file_frame_count : Nat
  timestamp : Nat
  index : Nat
  count : Nat

/-- What a call to the reader works on: the reader object, the caller's memory and `errno`. -/
structure State where
  self : vraw_reader
  buf : Mem
  errno : Int

/-- One token of the header line handled by the `switch` of `y4m_header_read`. -/
def y4m_header_token (env : VdefEnv) (cfg : vraw_reader_config) (p : List Byte) :
    vraw_reader_config :=
  if p.length < 2 then cfg
  else
    match p with
    | [] => cfg
    | c :: rest =>
      if c = 87 then
        { cfg with info := { cfg.info with
            resolution := { cfg.info.resolution with width := atoi_uint rest } } }
      else if c = 72 then
        { cfg with info := { cfg.info with
            resolution := { cfg.info.resolution with height := atoi_uint rest } } }
      else if c = 70 then
        match after_colon p with
        | some p2 =>
          { cfg with info := { cfg.info with
              framerate := { num := atoi_uint rest, den := atoi_uint p2 } } }
        | none => cfg
      else if c = 65 then
        match after_colon p with
        | some p2 =>
          { cfg with info := { cfg.info with
              sar := { width := atoi_uint rest, height := atoi_uint p2 } } }
        | none => cfg
      else if c = 67 then
        if rest = bytes_of "420" then { cfg with format := env.vdef_i420 }
        else if rest = bytes_of "420p10" then { cfg with format := env.vdef_i420_10_16le }
        else cfg
      else cfg

/-- The function `y4m_header_read`: return value, reader and `errno`. -/
def y4m_header_read (env : VdefEnv) (self : vraw_reader) (errno : Int) :
    Int × vraw_reader × Int :=
  match fgets 100 self.file with
  | (none, file) => (-errno, { self with file := file }, errno)
  | (some str, file) =>
    let self := { self with file := file }
    let self := { self with header_offset := (ftello self.file).toNat }
    let self := { self with frame_header_size := (bytes_of "FRAME\n").length }
    let tokens := strtok_all (cstr str) []
    match tokens with
    | [] => (-EPROTO, self, errno)
    | p :: _ =>
      if p ≠ bytes_of "YUV4MPEG2" then (-EPROTO, self, errno)
      else
        let cfg := { self.cfg with format := env.vdef_i420 }
        let cfg := tokens.foldl (y4m_header_token env) cfg
        (0, { self with cfg := cfg }, errno)

/-- The function `y4m_frame_header_read`: return value, stream (the only part
of the reader it touches).  A `NULL` from `fgets` gives `-errno`; a line other
than the marker gives `-res` with `res = -EPROTO`. -/
def y4m_frame_header_read (file : FILE) (errno : Int) : Int × FILE :=
  match fgets 10 file with
  | (none, file) => (-errno, file)
  | (some str, file) =>
    if cstr str ≠ bytes_of "FRAME\n" then (-(-EPROTO), file)
    else (0, file)

/-- The function `seek_to_previous_frame`: return value, reader and `errno`. -/
def seek_to_previous_frame (self : vraw_reader) (errno : Int) : Int × vraw_reader × Int :=
  let seek_to := to_off_t ((2 ^ 64 - 2) * self.file_frame_size)
  let cur_offset := ftello self.file
  if cur_offset + seek_to < 0 then (-EOVERFLOW, self, errno)
  else
    match fseeko_cur self.file seek_to errno with
    | (res, file, errno) =>
      let self := { self with file := file }
      if res < 0 then (-errno, self, errno)
      else if self.cfg.y4m ≠ 0 then
        let seek_to := to_off_t ((2 ^ 64 - 2) * self.frame_header_size)
        let cur_offset := ftello self.file
        if cur_offset + seek_to < 0 then (-EOVERFLOW, self, errno)
        else
          match fseeko_cur self.file seek_to errno with
          | (res, file, errno) =>
            let self := { self with file := file }
            if res < 0 then (-errno, self, errno)
            else (0, { self with index := (self.index + 2 ^ 32 - 2) % 2 ^ 32 }, errno)
      else (0, { self with index := (self.index + 2 ^ 32 - 2) % 2 ^ 32 }, errno)

/-- The sum `f 0 + ... + f (n - 1)` of the first `n` plane sizes. -/
def sum_planes (f : Nat → Nat) : Nat → Nat
  | 0 => 0
  | n + 1 => sum_planes f n + f n

/-- The test of the alignment loop of `vraw_reader_new`: some plane below
`plane_count` has a non-zero stride, scanline or size alignment. -/
def align_constrained (cfg : vraw_reader_config) : Nat → Bool
  | 0 => false
  | n + 1 =>
    align_constrained cfg n
      || (cfg.plane_stride_align n ≠ 0 || cfg.plane_scanline_align n ≠ 0
          || cfg.plane_size_align n ≠ 0)

/-- The effect of `memset(arr, 0, n * sizeof(*arr))`. -/
def memset_zero (arr : Nat → Nat) (n : Nat) : Nat → Nat :=
  fun p => if p < n then 0 else arr p

/-- The argument checks at the head of `vraw_reader_new`: `some res` when the
call returns `res` there.  (The three pointer arguments are not `NULL`.) -/
def reader_new_check (env : VdefEnv) (config : vraw_reader_config) : Option Int :=
  if config.start_reversed = true ∧ config.loop ≠ -1 then some (-EINVAL)
  else if config.y4m = 0 ∧ config.info.resolution.width = 0 then some (-EINVAL)
  else if config.y4m = 0 ∧ config.info.resolution.height = 0 then some (-EINVAL)
  else if config.y4m = 0
      ∧ vdef_raw_format_intersect config.format (supported_formats env) = false then
    some (-EINVAL)
  else none

/-- The object after `calloc`, the copy of the configuration, `fopen` and the
measurement of the file size (seek to the end, `ftello`, seek back). -/
def reader_new_open (content : List Byte) (config : vraw_reader_config) : vraw_reader :=
  { cfg := config, file := { data := content, pos := 0, eof := false }, reverse := 0,
    header_offset := 0, frame_header_size := 0, plane_stride := fun _ => 0,
    plane_size := fun _ => 0, frame_size := 0, file_frame_size := 0,
    file_size := content.length, file_frame_count := 0, timestamp := 0, index := 0, count := 0 }

/-- The block "Enforce the configuration" of `vraw_reader_new`: default frame
rate 30/1 and sample aspect ratio 1:1. -/
def reader_new_enforce (self : vraw_reader) : vraw_reader :=
  let self :=
    if vdef_frac_is_null self.cfg.info.framerate then
      { self with cfg := { self.cfg with info := { self.cfg.info with
          framerate := { num := 30, den := 1 } } } }
    else self
  if vdef_dim_is_null self.cfg.info.sar then
    { self with cfg := { self.cfg with info := { self.cfg.info with
        sar := { width := 1, height := 1 } } } }
  else self

/-- The alignment handling of `vraw_reader_new`: the stride and size arrays are
cleared, and so are the three alignment arrays when no plane is constrained. -/
def reader_new_align (env : VdefEnv) (self : vraw_reader) : vraw_reader :=
  let plane_count := env.vdef_get_raw_frame_plane_count self.cfg.format
  let constrained := align_constrained self.cfg plane_count
  let self := { self with plane_stride := memset_zero self.plane_stride plane_count,
                          plane_size := memset_zero self.plane_size plane_count }
  if constrained = false then
    { self with cfg := { self.cfg with
        plane_stride_align := memset_zero self.cfg.plane_stride_align plane_count,
        plane_scanline_align := memset_zero self.cfg.plane_scanline_align plane_count,
        plane_size_align := memset_zero self.cfg.plane_size_align plane_count } }
  else self

/-- The unaligned geometry of `vraw_reader_new`: stride and size of each plane
without alignment, and their sum `file_frame_size`. -/
def reader_new_file_geometry (env : VdefEnv) (self : vraw_reader) : vraw_reader :=
  match env.vdef_calc_raw_frame_size self.cfg.format self.cfg.info.resolution
      self.plane_stride none none self.plane_size none with
  | (stride, size) =>
    { self with plane_stride := stride, plane_size := size,
                file_frame_size :=
                  sum_planes size (env.vdef_get_raw_frame_plane_count self.cfg.format) }

/-- The frame count of `vraw_reader_new`:
`float file_frame_count = (file_size - header_offset) / (file_frame_size + frame_header_size)`,
an integer division converted to `float`.  The C division by zero is `none`. -/
def reader_new_frame_count (self : vraw_reader) : Option ℚ :=
  if self.file_frame_size + self.frame_header_size = 0 then none
  else
    some (float_of_size_t
      ((self.file_size - self.header_offset)
        / (self.file_frame_size + self.frame_header_size)))

/-- The aligned geometry of `vraw_reader_new`: stride and size of each plane
under the alignment constraints, and their sum `frame_size`. -/
def reader_new_mem_geometry (env : VdefEnv) (self : vraw_reader) : vraw_reader :=
  match env.vdef_calc_raw_frame_size self.cfg.format self.cfg.info.resolution
      self.plane_stride (some self.cfg.plane_stride_align)
      (some self.cfg.plane_scanline_align) self.plane_size
      (some self.cfg.plane_size_align) with
  | (stride, size) =>
    { self with plane_stride := stride, plane_size := size,
                frame_size :=
                  sum_planes size (env.vdef_get_raw_frame_plane_count self.cfg.format) }

/-- The start-index block of `vraw_reader_new`: return value, `*ret_obj` and `errno`. -/
def reader_new_start (self : vraw_reader) (errno : Int) : Int × Option vraw_reader × Int :=
  if self.cfg.start_index > 0 then
    let self := if self.cfg.start_reversed = true then { self with reverse := 1 } else self
    match fseeko_cur self.file
        (to_off_t (self.cfg.start_index * (self.file_frame_size + self.frame_header_size)))
        errno with
    | (res, file, errno) =>
      if res < 0 then (-errno, none, errno)
      else (0, some { self with file := file, index := self.cfg.start_index }, errno)
  else (0, some self, errno)

/-- The function `vraw_reader_new`.  `file` is the content `fopen` finds under
the file name (`none`: the file cannot be opened).  The result is the return
value, `*ret_obj` and `errno`.  The allocations are taken to succeed. -/
def vraw_reader_new (env : VdefEnv) (file : Option (List Byte)) (config : vraw_reader_config)
    (errno : Int) : Run (Int × Option vraw_reader × Int) :=
  match reader_new_check env config with
  | some res => .done (res, none, errno)
  | none =>
    match file with
    | none => .done (-ENOENT, none, ENOENT)
    | some content =>
      let self := reader_new_open content config
      match (if self.cfg.y4m ≠ 0 then y4m_header_read env self errno else (0, self, errno)) with
      | (res, self, errno) =>
        if res < 0 then .done (res, none, errno)
        else
          let self := reader_new_enforce self
          if vdef_dim_is_null self.cfg.info.resolution then .done (-EPROTO, none, errno)
          else
            let self := reader_new_file_geometry env (reader_new_align env self)
            match reader_new_frame_count self with
            | none => .undefined
            | some file_frame_count =>
              if rint file_frame_count ≠ file_frame_count then .done (-EINVAL, none, errno)
              else
                let self := { self with file_frame_count := size_t_of_float file_frame_count }
                .done (reader_new_start (reader_new_mem_geometry env self) errno)

/-- The function `vraw_reader_get_min_buf_size`. -/
def vraw_reader_get_min_buf_size (self : vraw_reader) : Int := (self.frame_size : Int)

/-- The function `vraw_reader_get_file_frame_count`. -/
def vraw_reader_get_file_frame_count (self : vraw_reader) : Int := (self.file_frame_count : Int)

/-- The function `vraw_reader_set_framerate`. -/
def vraw_reader_set_framerate (self : vraw_reader) (framerate : vdef_frac) :
    Int × vraw_reader :=
  if vdef_frac_is_null framerate then (-EINVAL, self)
  else (0, { self with cfg := { self.cfg with info := { self.cfg.info with
      framerate := framerate } } })

/-- One row loop of `vraw_reader_frame_read_planes`:
`for (h = 0; h < n; ++h) { res = fread(cur, size, 1, file); if (res == 1) { cur += stride; continue; } goto out; }`.
The result is the last value of `res`, the memory, the stream and whether the loop ran
to its end (`false`: it left through `goto out`). -/
def read_rows (size stride : Nat) : Nat → Nat → Int → Mem → FILE → Int × Mem × FILE × Bool
  | 0, _, res, buf, f => (res, buf, f, true)
  | n + 1, cur, _, buf, f =>
    match fread buf cur size f with
    | (r, buf, f) =>
      if r = 1 then read_rows size stride n (cur + stride) r buf f
      else (r, buf, f, false)

/-- The local `row_bytes = width * data_size / 8` of `vraw_reader_frame_read_planes`
(an `unsigned int` product). -/
def row_bytes (self : vraw_reader) : Nat :=
  (self.cfg.info.resolution.width * self.cfg.format.data_size) % 2 ^ 32 / 8

/-- The function `vraw_reader_frame_read_planes`: return value and state. -/
def vraw_reader_frame_read_planes (st : State) (data : Nat) : Int × State :=
  let self := st.self
  let height := self.cfg.info.resolution.height
  let row_bytes := row_bytes self
  let st := { st with errno := EINVAL }
  if data = 0 then (-EINVAL, st)
  else
    match read_rows row_bytes (self.plane_stride 0) height data 0 st.buf self.file with
    | (res, buf, file, false) => (res, { st with self := { self with file := file }, buf := buf })
    | (res, buf, file, true) =>
      let current_addr := data + self.plane_size 0
      if self.cfg.format.data_layout = .SEMI_PLANAR then
        match read_rows row_bytes (self.plane_stride 1) (height / 2) current_addr res buf file with
        | (res, buf, file, false) =>
          (res, { st with self := { self with file := file }, buf := buf })
        | (res, buf, file, true) =>
          (res, { st with self := { self with file := file,
                                              index := (self.index + 1) % 2 ^ 32 }, buf := buf })
      else if self.cfg.format.data_layout = .PLANAR then
        match read_rows (row_bytes / 2) (self.plane_stride 1) (height / 2) current_addr res
            buf file with
        | (res, buf, file, false) =>
          (res, { st with self := { self with file := file }, buf := buf })
        | (res, buf, file, true) =>
          let current_addr := data + self.plane_size 0 + self.plane_size 1
          match read_rows (row_bytes / 2) (self.plane_stride 2) (height / 2) current_addr res
              buf file with
          | (res, buf, file, false) =>
            (res, { st with self := { self with file := file }, buf := buf })
          | (res, buf, file, true) =>
            (res, { st with self := { self with file := file,
                                                index := (self.index + 1) % 2 ^ 32 }, buf := buf })
      else if self.cfg.format.data_layout = .PACKED then
        (res, { st with self := { self with file := file,
                                            index := (self.index + 1) % 2 ^ 32 }, buf := buf })
      else
        (-ENOSYS, { st with self := { self with file := file }, buf := buf, errno := ENOSYS })

/-- The loop of `vraw_reader_frame_read` that fills `frame->data[p]` for
`p < VDEF_RAW_MAX_PLANE_COUNT`; `cnt` planes are left, `p` is the current one. -/
def fill_plane_ptrs (plane_count : Nat) (plane_size : Nat → Nat) :
    Nat → Nat → Nat → (Nat → Nat) → (Nat → Nat)
  | 0, _, _, arr => arr
  | cnt + 1, p, data, arr =>
    fill_plane_ptrs plane_count plane_size cnt (p + 1)
      (if p + 1 < plane_count then data + plane_size p else 0)
      (fun q => if q = p then data else arr q)

/-- The block `if (self->cfg.y4m) { ... }` of `vraw_reader_frame_read`, entered
when `y4m` is set: `some res` when the block returns `res`, `none` when
execution goes on to the pixel data. -/
def frame_read_header (st : State) : Option Int × State :=
  match y4m_frame_header_read st.self.file st.errno with
  | (res, file) =>
    let st := { st with self := { st.self with file := file } }
    if feof st.self.file = true
        ∨ (st.self.cfg.max_count > 0 ∧ st.self.index > st.self.cfg.max_count) then
      if st.self.cfg.loop > (0 : Int) then
        let st := { st with self := { st.self with index := 0 } }
        match fseeko_to st.self.file (st.self.header_offset : Int) st.errno with
        | (res, file, errno) =>
          let st := { st with self := { st.self with file := file }, errno := errno }
          if res < 0 then (some (-st.errno), st)
          else
            match y4m_frame_header_read st.self.file st.errno with
            | (res, file) =>
              let st := { st with self := { st.self with file := file } }
              if res < 0 then (some res, st) else (none, st)
      else if st.self.cfg.loop < (0 : Int) then
        let st := { st with self := { st.self with reverse := 1 } }
        match seek_to_previous_frame st.self st.errno with
        | (res, self, errno) =>
          let st := { st with self := self, errno := errno }
          if res < 0 then (some res, st)
          else
            match y4m_frame_header_read st.self.file st.errno with
            | (res, file) =>
              let st := { st with self := { st.self with file := file } }
              if res < 0 then (some res, st) else (none, st)
      else (some (-ENOENT), st)
    else if res ≠ -1 then (some (-st.errno), st)
    else (none, st)

/-- The block "Fill the frame info" of `vraw_reader_frame_read`: plane
pointers, strides, format and frame information of the produced frame. -/
def fill_frame_info (env : VdefEnv) (self : vraw_reader) (data : Nat) (fr : vraw_frame) :
    vraw_frame :=
  let plane_count := env.vdef_get_raw_frame_plane_count self.cfg.format
  let fr : vraw_frame :=
    { fr with data := (fill_plane_ptrs plane_count self.plane_size
        VDEF_RAW_MAX_PLANE_COUNT 0 data fr.data) }
  let fr : vraw_frame :=
    { fr with frame := { fr.frame with plane_stride := self.plane_stride,
                                       format := self.cfg.format } }
  let info := vdef_format_to_frame_info self.cfg.info fr.frame.info
  let info := { info with timestamp := self.timestamp, timescale := 1000000,
                          index := self.count }
  { fr with frame := { fr.frame with info := info } }

/-- The tail of `vraw_reader_frame_read` after a frame was read: the frame
structure is filled, the timestamp and the output counter advance, and in
reverse direction the cursor is moved back. -/
def frame_read_finish (env : VdefEnv) (st : State) (data : Nat) (fr : vraw_frame) :
    Run (Int × State × Option vraw_frame) :=
  let self := st.self
  let fr := fill_frame_info env self data fr
  if self.cfg.info.framerate.num = 0 then .undefined
  else
    let self := { self with timestamp :=
      (self.timestamp + 1000000 * self.cfg.info.framerate.den / self.cfg.info.framerate.num)
        % 2 ^ 64 }
    let self := { self with count := (self.count + 1) % 2 ^ 32 }
    if self.reverse ≠ 0 then
      match seek_to_previous_frame self st.errno with
      | (res, self, errno) =>
        let st := { st with self := self, errno := errno }
        if res < 0 then
          if res ≠ -EOVERFLOW then .done (res, st, some fr)
          else .done (0, { st with self := { st.self with reverse := 0 } }, some fr)
        else .done (0, st, some fr)
    else .done (0, { st with self := self }, some fr)

/-- The function `vraw_reader_frame_read`.  `data` is the buffer address (`0` is
`NULL`), `frame` the caller's frame structure (`none` is `NULL`); `fuel` bounds
the depth of the self-call made after a wrap or a reversal.  The result is the
return value, the state and the frame structure. -/
def vraw_reader_frame_read (env : VdefEnv) :
    Nat → State → Nat → Nat → Option vraw_frame → Run (Int × State × Option vraw_frame)
  | 0, _, _, _, _ => .out_of_fuel
  | fuel + 1, st, data, len, frame =>
    if data = 0 then .done (-EINVAL, st, frame)
    else if len = 0 then .done (-ENOBUFS, st, frame)
    else
      match frame with
      | none => .done (-EINVAL, st, frame)
      | some fr =>
        if len < st.self.frame_size then .done (-ENOBUFS, st, frame)
        else
          match (if st.self.cfg.y4m ≠ 0 then frame_read_header st else (none, st)) with
          | (some res, st) => .done (res, st, frame)
          | (none, st) =>
            match vraw_reader_frame_read_planes st data with
            | (res1, st) =>
              if feof st.self.file = true
                  ∨ (st.self.cfg.max_count > 0 ∧ st.self.index > st.self.cfg.max_count) then
                if st.self.cfg.loop > (0 : Int) then
                  let st := { st with self := { st.self with index := 0 } }
                  match fseeko_to st.self.file (st.self.header_offset : Int) st.errno with
                  | (res, file, errno) =>
                    let st := { st with self := { st.self with file := file }, errno := errno }
                    if res < 0 then .done (-st.errno, st, frame)
                    else vraw_reader_frame_read env fuel st data len frame
                else if st.self.cfg.loop < (0 : Int) then
                  let st := { st with self := { st.self with reverse := 1 } }
                  match seek_to_previous_frame st.self st.errno with
                  | (res, self, errno) =>
                    let st := { st with self := self, errno := errno }
                    if res < 0 then .done (res, st, frame)
                    else vraw_reader_frame_read env fuel st data len frame
                else .done (-ENOENT, st, frame)
              else if res1 ≠ 1 then .done (-st.errno, st, frame)
              else frame_read_finish env st data fr

/-- The caller's loop: `n` calls to `vraw_reader_frame_read` with the same
buffer and frame structure; the state after them, or `none` as soon as a call
does not return 0. -/
def read_frames (env : VdefEnv) (fuel : Nat) (data len : Nat) :
    Nat → State → vraw_frame → Option (State × vraw_frame)
  | 0, st, fr => some (st, fr)
  | n + 1, st, fr =>
    match read_frames env fuel data len n st fr with
    | none => none
    | some (st, fr) =>
      match vraw_reader_frame_read env fuel st data len (some fr) with
      | .done (0, st, some fr) => some (st, fr)
      | _ => none

/-- The number of bytes `vraw_reader_frame_read_planes` takes from the file for one frame. -/
def frame_bytes (self : vraw_reader) : Nat :=
  match self.cfg.format.data_layout with
  | .SEMI_PLANAR =>
    row_bytes self * self.cfg.info.resolution.height
      + row_bytes self * (self.cfg.info.resolution.height / 2)
  | .PLANAR =>
    row_bytes self * self.cfg.info.resolution.height
      + row_bytes self / 2 * (self.cfg.info.resolution.height / 2)
      + row_bytes self / 2 * (self.cfg.info.resolution.height / 2)
  | _ => row_bytes self * self.cfg.info.resolution.height

/-- No alignment constraint: the geometry libvideo-defs computed for the reader
is the tightly packed one, in memory as on disk.  Every stride is the length
of the rows read into the plane, every plane follows the previous one without
a gap, and the on-disk frame size is the number of bytes read per frame. -/
structure Tight (r : vraw_reader) : Prop where
  layout : r.cfg.format.data_layout = .PACKED ∨ r.cfg.format.data_layout = .PLANAR
    ∨ r.cfg.format.data_layout = .SEMI_PLANAR
  row_pos : 0 < row_bytes r
  height_pos : 0 < r.cfg.info.resolution.height
  chroma_pos : r.cfg.format.data_layout = .PLANAR → 0 < row_bytes r / 2
  stride0 : r.plane_stride 0 = row_bytes r
  size0 : r.plane_size 0 = row_bytes r * r.cfg.info.resolution.height
  semi : r.cfg.format.data_layout = .SEMI_PLANAR → r.plane_stride 1 = row_bytes r
  planar : r.cfg.format.data_layout = .PLANAR →
    r.plane_stride 1 = row_bytes r / 2 ∧ r.plane_stride 2 = row_bytes r / 2
      ∧ r.plane_size 1 = row_bytes r / 2 * (r.cfg.info.resolution.height / 2)
  file_frame : r.file_frame_size = frame_bytes r
  small : r.file_frame_size < 2 ^ 62

/-- The reader `r` with its cursor on the boundary of file frame `p`, the
end-of-file indicator clear, and the given direction flag, file-position
index, output counter and timestamp. -/
def at_frame (r : vraw_reader) (p : Nat) (rev : Int) (idx c t : Nat) : vraw_reader :=
  { r with file := { r.file with pos := p * r.file_frame_size, eof := false },
           reverse := rev, index := idx, count := c, timestamp := t }

/-- A raw (headerless) session without frame limit on a file of exactly `N`
complete frames: what `vraw_reader_new` leaves in the reader for `y4m = 0`
and `max_count = 0`, with the tightly packed geometry. -/
structure RawSession (r : vraw_reader) (N : Nat) : Prop where
  y4m : r.cfg.y4m = 0
  max_count : r.cfg.max_count = 0
  num : r.cfg.info.framerate.num ≠ 0
  header : r.header_offset = 0
  tight : Tight r
  length : r.file.data.length = N * r.file_frame_size

/-! ## A concrete libvideo-defs for the examples -/

/-- Rounding `x` up to a multiple of `a`; an alignment of 0 leaves `x` as it is. -/
def align_up (x a : Nat) : Nat := if a = 0 then x else (x + a - 1) / a * a

/-- Modelled from the spec: `vdef_calc_raw_frame_size` of libvideo-defs, which
is not among the sources.  A row of `n` samples is `n * data_size / 8` bytes: `n`
times the element size for the formats of 8, 16 and 32 bits, and 5 bytes for 4
pixels in the packed 10-bit formats.  Luma rows hold `width` samples over
`height` scanlines; each planar chroma plane has rows of `width / 2` samples,
the semi-planar chroma plane rows of `width` samples, both over `height / 2`
scanlines; a packed layout has one plane.  The stride is rounded up to the stride alignment, the
scanline count to the scanline alignment and the plane size to the size
alignment. -/
def spec_calc_raw_frame_size (fmt : vdef_raw_format) (res : vdef_dim) (_stride : Nat → Nat)
    (stride_align scanline_align : Option (Nat → Nat)) (_size : Nat → Nat)
    (size_align : Option (Nat → Nat)) : (Nat → Nat) × (Nat → Nat) :=
  let bytes : Nat → Nat := fun n => n * fmt.data_size / 8
  let al : Option (Nat → Nat) → Nat → Nat := fun a p => (a.getD (fun _ => 0)) p
  let row : Nat → Nat := fun p =>
    if p = 0 then bytes res.width
    else if fmt.data_layout = .SEMI_PLANAR ∧ p = 1 then bytes res.width
    else if fmt.data_layout = .PLANAR ∧ (p = 1 ∨ p = 2) then bytes (res.width / 2)
    else 0
  let lines : Nat → Nat := fun p => if p = 0 then res.height else res.height / 2
  let stride : Nat → Nat := fun p => align_up (row p) (al stride_align p)
  let size : Nat → Nat := fun p =>
    align_up (stride p * align_up (lines p) (al scanline_align p)) (al size_align p)
  (stride, size)

/-- A format descriptor for the examples: the pixel codes are all set to `code`. -/
def sample_format (code : Nat) (layout : vdef_raw_data_layout) (data_size : Nat)
    (le : Bool) : vdef_raw_format :=
  { pix_format := code, pix_order := code, pix_layout := code, pix_size := data_size,
    data_layout := layout, data_pad_low := false, data_little_endian := le,
    data_size := data_size }

/-- A concrete libvideo-defs for the examples: 32 pairwise distinct descriptors
with the layouts and element sizes of their names, the plane count of each
layout, and the geometry modelled from the spec. -/
def sample_env : VdefEnv where
  vdef_i420 := sample_format 0 .PLANAR 8 true
  vdef_yv12 := sample_format 1 .PLANAR 8 true
  vdef_nv12 := sample_format 2 .SEMI_PLANAR 8 true
  vdef_nv21 := sample_format 3 .SEMI_PLANAR 8 true
  vdef_i420_10_16le := sample_format 4 .PLANAR 16 true
  vdef_yv12_10_16le := sample_format 5 .PLANAR 16 true
  vdef_nv12_10_16le := sample_format 6 .SEMI_PLANAR 16 true
  vdef_nv21_10_16le := sample_format 7 .SEMI_PLANAR 16 true
  vdef_i420_10_16be := sample_format 8 .PLANAR 16 false
  vdef_yv12_10_16be := sample_format 9 .PLANAR 16 false
  vdef_nv12_10_16be := sample_format 10 .SEMI_PLANAR 16 false
  vdef_nv21_10_16be := sample_format 11 .SEMI_PLANAR 16 false
  vdef_i420_10_16le_high := sample_format 12 .PLANAR 16 true
  vdef_yv12_10_16le_high := sample_format 13 .PLANAR 16 true
  vdef_nv12_10_16le_high := sample_format 14 .SEMI_PLANAR 16 true
  vdef_nv21_10_16le_high := sample_format 15 .SEMI_PLANAR 16 true
  vdef_i420_10_16be_high := sample_format 16 .PLANAR 16 false
  vdef_yv12_10_16be_high := sample_format 17 .PLANAR 16 false
  vdef_nv12_10_16be_high := sample_format 18 .SEMI_PLANAR 16 false
  vdef_nv21_10_16be_high := sample_format 19 .SEMI_PLANAR 16 false
  vdef_nv21_10_packed := sample_format 20 .SEMI_PLANAR 10 true
  vdef_nv21_hisi_tile := sample_format 21 .SEMI_PLANAR 8 true
  vdef_nv21_hisi_tile_compressed := sample_format 22 .SEMI_PLANAR 8 true
  vdef_nv21_hisi_tile_10_packed := sample_format 23 .SEMI_PLANAR 10 true
  vdef_nv21_hisi_tile_compressed_10_packed := sample_format 24 .SEMI_PLANAR 10 true
  vdef_gray := sample_format 25 .PACKED 8 true
  vdef_gray16 := sample_format 26 .PACKED 16 true
  vdef_raw8 := sample_format 27 .PACKED 8 true
  vdef_raw16 := sample_format 28 .PACKED 16 true
  vdef_raw16_be := sample_format 29 .PACKED 16 false
  vdef_raw32 := sample_format 30 .PACKED 32 true
  vdef_raw32_be := sample_format 31 .PACKED 32 false
  vdef_get_raw_frame_plane_count := fun fmt =>
    match fmt.data_layout with
    | .PACKED => 1
    | .PLANAR => 3
    | .SEMI_PLANAR => 2
    | _ => 0
  vdef_calc_raw_frame_size := spec_calc_raw_frame_size

/-- A reader configuration for the examples: raw file, the given loop mode,
2x2 pixels, the given format, no alignment constraint. -/
def sample_config (y4m loop : Int) (fmt : vdef_raw_format) : vraw_reader_config :=
  { y4m := y4m, start_index := 0, start_reversed := false, max_count := 0, loop := loop,
    format := fmt,
    info := { framerate := { num := 30, den := 1 }, resolution := { width := 2, height := 2 },
              sar := { width := 1, height := 1 } },
    plane_stride_align := fun _ => 0, plane_scanline_align := fun _ => 0,
    plane_size_align := fun _ => 0 }

/-- An empty frame structure. -/
def sample_frame : vraw_frame :=
  { data := fun _ => 0,
    frame := { format := sample_format 0 .UNKNOWN 0 false,
               info := { timestamp := 0, timescale := 0, capture_timestamp := 0, index := 0,
                         resolution := { width := 0, height := 0 },
                         sar := { width := 0, height := 0 } },
               plane_stride := fun _ => 0 } }

/-- The bytes `0, 1, ..., n - 1` (modulo 256). -/
def count_bytes (n : Nat) : List Byte := (List.range n).map toByte

/-- The reader `vraw_reader_new` builds for the example configuration (raw I420,
2x2 pixels) on a file with the given content and frame count. -/
def sample_reader (loop : Int) (content : List Byte) (count : Nat) : vraw_reader :=
  reader_new_mem_geometry sample_env
    { reader_new_file_geometry sample_env (reader_new_align sample_env
        (reader_new_enforce (reader_new_open content (sample_config 0 loop sample_env.vdef_i420))))
      with file_frame_count := count }

/-! ## The writer (`src/vraw_writer.c`)

The output stream is the list of the bytes written so far; every write of a
non-empty element is taken to succeed. -/

/-- The configuration `struct vraw_writer_config`. -/
structure vraw_writer_config where
  y4m : Int
  format : vdef_raw_format
  info : vdef_format_info
  deriving DecidableEq

/-- The object `struct vraw_writer` (the file name is left out); `file` is the
content of the output stream. -/
structure vraw_writer where
  cfg : vraw_writer_config
  file : List Byte
  primary_line_width : Nat
  deriving DecidableEq

/-- The decimal digits of a natural number, as bytes. -/
def print_nat (n : Nat) : List Byte := (Nat.toDigits 10 n).map (fun c => toByte c.toNat)

/-- The conversion `%d` applied to an `unsigned int`: the value read as a signed 32-bit integer. -/
def print_d (v : Nat) : List Byte :=
  if v % 2 ^ 32 < 2 ^ 31 then print_nat (v % 2 ^ 32)
  else 45 :: print_nat (2 ^ 32 - v % 2 ^ 32)

/-- The function `y4m_header_write`: return value and output stream. -/
def y4m_header_write (env : VdefEnv) (self : vraw_writer) : Int × vraw_writer :=
  if vdef_raw_format_cmp self.cfg.format env.vdef_i420 = false
      ∧ vdef_raw_format_cmp self.cfg.format env.vdef_i420_10_16le = false then
    (-EINVAL, self)
  else
    let fmt : List Byte :=
      if vdef_raw_format_cmp self.cfg.format env.vdef_i420 = true then bytes_of " C420"
      else if vdef_raw_format_cmp self.cfg.format env.vdef_i420_10_16le = true then
        bytes_of " C420p10"
      else []
    let line := bytes_of "YUV4MPEG2 W" ++ print_d self.cfg.info.resolution.width
      ++ bytes_of " H" ++ print_d self.cfg.info.resolution.height
      ++ bytes_of " F" ++ print_d self.cfg.info.framerate.num
      ++ bytes_of ":" ++ print_d self.cfg.info.framerate.den
      ++ bytes_of " Ip A" ++ print_d self.cfg.info.sar.width
      ++ bytes_of ":" ++ print_d self.cfg.info.sar.height ++ fmt ++ bytes_of "\n"
    (0, { self with file := self.file ++ line })

/-- The argument checks at the head of `vraw_writer_new`: `some res` when the
call returns `res` there.  (The three pointer arguments are not `NULL`.) -/
def writer_new_check (env : VdefEnv) (config : vraw_writer_config) : Option Int :=
  if vdef_raw_format_intersect config.format (supported_formats env) = false then some (-EINVAL)
  else if config.info.resolution.width = 0 then some (-EINVAL)
  else if config.info.resolution.height = 0 then some (-EINVAL)
  else if vdef_raw_format_cmp config.format env.vdef_nv21_10_packed = true
      ∧ config.info.resolution.width &&& 3 ≠ 0 then some (-EINVAL)
  else none

/-- The object of `vraw_writer_new` before `fopen`: the copy of the
configuration with the defaults enforced (frame rate 30/1, sample aspect ratio
1:1) and `primary_line_width = width * data_size / 8` (an `unsigned int` product). -/
def writer_new_init (config : vraw_writer_config) : vraw_writer :=
  let self : vraw_writer := { cfg := config, file := [], primary_line_width := 0 }
  let self :=
    if vdef_frac_is_null self.cfg.info.framerate then
      { self with cfg := { self.cfg with info := { self.cfg.info with
          framerate := { num := 30, den := 1 } } } }
    else self
  let self :=
    if vdef_dim_is_null self.cfg.info.sar then
      { self with cfg := { self.cfg with info := { self.cfg.info with
          sar := { width := 1, height := 1 } } } }
    else self
  { self with primary_line_width :=
      (self.cfg.info.resolution.width * self.cfg.format.data_size) % 2 ^ 32 / 8 }

/-- The function `vraw_writer_new`.  `open_errno` is `none` when `fopen(., "wb")`
succeeds and the `errno` it sets otherwise.  The result is the return value,
`*ret_obj`, `errno`, and the content of the named file when `fopen` created or
truncated it (`none`: the file was not touched). -/
def vraw_writer_new (env : VdefEnv) (config : vraw_writer_config) (open_errno : Option Int)
    (errno : Int) : Int × Option vraw_writer × Int × Option (List Byte) :=
  match writer_new_check env config with
  | some res => (res, none, errno, none)
  | none =>
    let self := writer_new_init config
    match open_errno with
    | some e => (-e, none, e, none)
    | none =>
      if self.cfg.y4m ≠ 0 then
        match y4m_header_write env self with
        | (res, self) =>
          if res < 0 then (res, none, errno, some self.file)
          else (0, some self, errno, some self.file)
      else (0, some self, errno, some self.file)

/-- The call `fwrite(ptr, size, 1, f)`: one element of `size` bytes taken from
memory at `ptr` is appended and 1 is returned; `size = 0` returns 0 and writes
nothing. -/
def fwrite (mem : Mem) (ptr size : Nat) (file : List Byte) : Int × List Byte :=
  if size = 0 then (0, file)
  else (1, file ++ (List.range size).map (fun j => mem (ptr + j)))

/-- One row loop of `vraw_writer_frame_write`:
`for (i = 0; i < n; i++) { res1 = fwrite(ptr, size, 1, file); if (res1 != 1) return -errno; ptr += strd; }`.
The result is whether the loop ran to its end, and the output stream. -/
def write_rows (mem : Mem) (size strd : Nat) : Nat → Nat → List Byte → Bool × List Byte
  | 0, _, file => (true, file)
  | n + 1, ptr, file =>
    match fwrite mem ptr size file with
    | (res1, file) =>
      if res1 ≠ 1 then (false, file)
      else write_rows mem size strd n (ptr + strd) file

/-- One plane of `vraw_writer_frame_write`: the row loop over `n` rows of `size`
bytes starting at `ptr`; `some res` when the loop returns `res = -errno` on a
write that did not return 1. -/
def write_plane (self : vraw_writer) (mem : Mem) (size strd n ptr : Nat) (errno : Int) :
    Option Int × vraw_writer :=
  match write_rows mem size strd n ptr self.file with
  | (false, file) => (some (-errno), { self with file := file })
  | (true, file) => (none, { self with file := file })

/-- The case `VDEF_RAW_DATA_LAYOUT_PLANAR_Y_U_V` of `vraw_writer_frame_write`. -/
def write_planar (self : vraw_writer) (mem : Mem) (frame : vraw_frame) (errno : Int) :
    Int × vraw_writer × Int :=
  let height := self.cfg.info.resolution.height
  if frame.data 0 = 0 then (-EINVAL, self, errno)
  else if frame.data 1 = 0 then (-EINVAL, self, errno)
  else if frame.data 2 = 0 then (-EINVAL, self, errno)
  else if frame.frame.plane_stride 0 = 0 then (-EINVAL, self, errno)
  else if frame.frame.plane_stride 1 = 0 then (-EINVAL, self, errno)
  else if frame.frame.plane_stride 2 = 0 then (-EINVAL, self, errno)
  else
    match write_plane self mem self.primary_line_width (frame.frame.plane_stride 0) height
        (frame.data 0) errno with
    | (some res, self) => (res, self, errno)
    | (none, self) =>
      match write_plane self mem (self.primary_line_width / 2) (frame.frame.plane_stride 1)
          (height / 2) (frame.data 1) errno with
      | (some res, self) => (res, self, errno)
      | (none, self) =>
        match write_plane self mem (self.primary_line_width / 2) (frame.frame.plane_stride 2)
            (height / 2) (frame.data 2) errno with
        | (some res, self) => (res, self, errno)
        | (none, self) => (0, self, errno)

/-- The case `VDEF_RAW_DATA_LAYOUT_SEMI_PLANAR_Y_UV` of `vraw_writer_frame_write`. -/
def write_semi_planar (self : vraw_writer) (mem : Mem) (frame : vraw_frame) (errno : Int) :
    Int × vraw_writer × Int :=
  let height := self.cfg.info.resolution.height
  if frame.data 0 = 0 then (-EINVAL, self, errno)
  else if frame.data 1 = 0 then (-EINVAL, self, errno)
  else if frame.frame.plane_stride 0 = 0 then (-EINVAL, self, errno)
  else if frame.frame.plane_stride 1 = 0 then (-EINVAL, self, errno)
  else
    match write_plane self mem self.primary_line_width (frame.frame.plane_stride 0) height
        (frame.data 0) errno with
    | (some res, self) => (res, self, errno)
    | (none, self) =>
      match write_plane self mem self.primary_line_width (frame.frame.plane_stride 1)
          (height / 2) (frame.data 1) errno with
      | (some res, self) => (res, self, errno)
      | (none, self) => (0, self, errno)

/-- The case `VDEF_RAW_DATA_LAYOUT_PACKED` of `vraw_writer_frame_write`. -/
def write_packed (self : vraw_writer) (mem : Mem) (frame : vraw_frame) (errno : Int) :
    Int × vraw_writer × Int :=
  let height := self.cfg.info.resolution.height
  if frame.data 0 = 0 then (-EINVAL, self, errno)
  else if frame.frame.plane_stride 0 = 0 then (-EINVAL, self, errno)
  else
    match write_plane self mem self.primary_line_width (frame.frame.plane_stride 0) height
        (frame.data 0) errno with
    | (some res, self) => (res, self, errno)
    | (none, self) => (0, self, errno)

/-- The checks of `vraw_writer_frame_write` on the format and the resolution of
the frame: `some res` when the call returns `res` there. -/
def writer_check_frame (self : vraw_writer) (frame : vraw_frame) : Option Int :=
  if vdef_raw_format_cmp frame.frame.format self.cfg.format = false then some (-EINVAL)
  else if frame.frame.info.resolution.width ≠ 0
      ∧ frame.frame.info.resolution.width ≠ self.cfg.info.resolution.width then
    some (-EINVAL)
  else if frame.frame.info.resolution.height ≠ 0
      ∧ frame.frame.info.resolution.height ≠ self.cfg.info.resolution.height then
    some (-EINVAL)
  else none

/-- The function `vraw_writer_frame_write`.  `mem` is the memory the plane
pointers of the frame point into, `frame` the frame structure (`none` is
`NULL`).  The result is the return value, the writer and `errno`.  The final
`fflush` succeeds. -/
def vraw_writer_frame_write (self : vraw_writer) (mem : Mem) (frame : Option vraw_frame)
    (errno : Int) : Int × vraw_writer × Int :=
  match frame with
  | none => (-EINVAL, self, errno)
  | some frame =>
    match writer_check_frame self frame with
    | some res => (res, self, errno)
    | none =>
      let self :=
        if self.cfg.y4m ≠ 0 then { self with file := self.file ++ bytes_of "FRAME\n" }
        else self
      match self.cfg.format.data_layout with
      | .PLANAR => write_planar self mem frame errno
      | .SEMI_PLANAR => write_semi_planar self mem frame errno
      | .PACKED => write_packed self mem frame errno
      | _ => (-ENOSYS, self, errno)

/-- The rows of a plane as they lie in the file: row `i` is the `len` bytes
found at `ptr + i * strd`, for `i < n`, one after the other without padding. -/
def plane_rows (mem : Mem) (len strd : Nat) : Nat → Nat → List Byte
  | 0, _ => []
  | n + 1, ptr =>
    (List.range len).map (fun j => mem (ptr + j)) ++ plane_rows mem len strd n (ptr + strd)

/-- The tightly packed image of a frame for a writer of line width `l0`: the
rows of each plane the layout requires, in plane order. -/
def frame_image (layout : vdef_raw_data_layout) (l0 height : Nat) (mem : Mem)
    (frame : vraw_frame) : List Byte :=
  match layout with
  | .PLANAR =>
    plane_rows mem l0 (frame.frame.plane_stride 0) height (frame.data 0)
      ++ plane_rows mem (l0 / 2) (frame.frame.plane_stride 1) (height / 2) (frame.data 1)
      ++ plane_rows mem (l0 / 2) (frame.frame.plane_stride 2) (height / 2) (frame.data 2)
  | .SEMI_PLANAR =>
    plane_rows mem l0 (frame.frame.plane_stride 0) height (frame.data 0)
      ++ plane_rows mem l0 (frame.frame.plane_stride 1) (height / 2) (frame.data 1)
  | _ => plane_rows mem l0 (frame.frame.plane_stride 0) height (frame.data 0)

/-- The length of the tightly packed image of a frame. -/
def frame_image_length (layout : vdef_raw_data_layout) (l0 height : Nat) : Nat :=
  match layout with
  | .PLANAR => l0 * height + l0 / 2 * (height / 2) + l0 / 2 * (height / 2)
  | .SEMI_PLANAR => l0 * height + l0 * (height / 2)
  | _ => l0 * height

/-- A writer configuration for the examples: 2x2 pixels, 30 frames per second. -/
def sample_writer_config (y4m : Int) (fmt : vdef_raw_format) : vraw_writer_config :=
  { y4m := y4m, format := fmt,
    info := { framerate := { num := 30, den := 1 }, resolution := { width := 2, height := 2 },
              sar := { width := 1, height := 1 } } }

/-- A 2x2 I420 frame in `sample_memory`: luma at address 16 with a stride of 4,
the two chroma planes at addresses 32 and 40 with a stride of 2. -/
def sample_out_frame : vraw_frame :=
  { data := fun p => if p = 0 then 16 else if p = 1 then 32 else if p = 2 then 40 else 0,
    frame := { format := sample_format 0 .PLANAR 8 true,
               info := { timestamp := 0, timescale := 0, capture_timestamp := 0, index := 0,
                         resolution := { width := 2, height := 2 },
                         sar := { width := 1, height := 1 } },
               plane_stride := fun p => if p = 0 then 4 else 2 } }

/-- A memory whose byte at address `a` is `a` (modulo 256). -/
def sample_memory : Mem := fun a => toByte a

/-- The writer `vraw_writer_new` builds for the example configuration in container mode. -/
def sample_writer : vraw_writer :=
  (y4m_header_write sample_env
    (writer_new_init (sample_writer_config 1 sample_env.vdef_i420))).2

/-- The reader `vraw_reader_new` returns when every check passes and
`start_index = 0`, from the object `s` left by the header step: defaults,
alignment arrays, unaligned geometry, frame count, aligned geometry. -/
def reader_new_built (env : VdefEnv) (s : vraw_reader) : vraw_reader :=
  let g := reader_new_file_geometry env (reader_new_align env (reader_new_enforce s))
  reader_new_mem_geometry env
    { g with file_frame_count := (round_to_float
        ((g.file_size - g.header_offset) / (g.file_frame_size + g.frame_header_size))) }

/-- A container file: the header line of a 2x2 I420 stream and two frames,
each behind its marker. -/
def sample_y4m_file : List Byte :=
  bytes_of "YUV4MPEG2 W2 H2 F30:1 Ip A1:1 C420\nFRAME\nabcdefFRAME\nghijkl"

/-- The reader `vraw_reader_new` builds on `sample_y4m_file` in container mode (`loop = 0`). -/
def sample_y4m_reader : vraw_reader :=
  reader_new_built sample_env (y4m_header_read sample_env
    (reader_new_open sample_y4m_file (sample_config 1 0 sample_env.vdef_i420)) 0).2.1

/-- The frame boundary on which the cursor of a forward-looping reader stands
before call `i`, on a file of `N` frames: it advances to `N` and restarts at 1
after the wrap (the wrapping call reads frame 0). -/
def loop_pos (N : Nat) : Nat → Nat
  | 0 => 0
  | i + 1 => if loop_pos N i < N then loop_pos N i + 1 else 1

/-- What a retreating reader does after reading frame `p`: back to frame `p - 1`,
or, at the start of the file, forward again to frame 1. -/
def pingpong_back (p : Nat) : Nat × Bool := if 1 ≤ p then (p - 1, true) else (p + 1, false)

/-- One call of a reverse-looping reader on a file of `N` frames, on the pair
(frame boundary of the cursor, retreating): an advancing reader at the end of
the file turns round and reads frame `N - 2`. -/
def pingpong_step (N : Nat) : Nat × Bool → Nat × Bool
  | (p, false) => if p < N then (p + 1, false) else pingpong_back (N - 2)
  | (p, true) => pingpong_back p

/-- The pair (frame boundary of the cursor, retreating) before call `i`. -/
def pingpong_state (N : Nat) : Nat → Nat × Bool
  | 0 => (0, false)
  | i + 1 => pingpong_step N (pingpong_state N i)

/-- The file frame a reverse-looping reader in the given state reads next. -/
def pingpong_frame (N : Nat) : Nat × Bool → Nat
  | (p, false) => if p < N then p else N - 2
  | (p, true) => p

/-- The ping-pong position of the claim: with `r = i mod 2(N-1)`, `r` when
`r < N` and `2(N-1) - r` otherwise. -/
def pingpong_pos (N i : Nat) : Nat :=
  if i % (2 * (N - 1)) < N then i % (2 * (N - 1)) else 2 * (N - 1) - i % (2 * (N - 1))

/-- The 40-bit value `c0 + (c1 << 10) + (c2 << 20) + (c3 << 30)`. -/
def packed40 (c0 c1 c2 c3 : Nat) : Nat := c0 + (c1 <<< 10) + (c2 <<< 20) + (c3 <<< 30)

/-- A memory holding the bytes of `l` from address 0 on, and zeros elsewhere. -/
def memOfList (l : List Byte) : Mem := fun a => l.getD a 0

/-- Four 16-bit little-endian samples 1023, 564, 0 and 257 at addresses 0, 2, 4, 6. -/
def sample_src16 : Mem := memOfList [0xFF, 3, 0x34, 2, 0, 0, 1, 1]

/-- Four 8-bit samples 255, 0, 128 and 7 at addresses 0, 1, 2, 3. -/
def sample_src8 : Mem := memOfList [255, 0, 128, 7]

/-- A packed block whose component 0 is 1023 and whose component 1 is 1021. -/
def sample_packed : Mem := memOfList [0xFF, 0xF7, 0x0F, 0, 0]

/-- The return value of a call that returned. -/
def Run.ret {α : Type} : Run (Int × α) → Option Int
  | .done (r, _) => some r
  | _ => none

/-- The configuration with its `start_reversed` flag set to `b`. -/
def with_start_reversed (b : Bool) (cfg : vraw_reader_config) : vraw_reader_config :=
  { cfg with start_reversed := b }

/-- The reader whose configuration has its `start_reversed` flag set to `b`. -/
def set_rev (b : Bool) (s : vraw_reader) : vraw_reader :=
  { s with cfg := with_start_reversed b s.cfg }

/-- A raw (headerless) session on a file of exactly `N` complete frames, with
any frame limit: what `vraw_reader_new` leaves in the reader for `y4m = 0`,
with the tightly packed geometry. -/
structure FileSession (r : vraw_reader) (N : Nat) : Prop where
  y4m : r.cfg.y4m = 0
  num : r.cfg.info.framerate.num ≠ 0
  header : r.header_offset = 0
  tight : Tight r
  length : r.file.data.length = N * r.file_frame_size

/-- The example configuration with a frame limit: raw I420, 2x2 pixels, the
given loop mode and `max_count`. -/
def sample_config_max (loop : Int) (M : Nat) : vraw_reader_config :=
  { sample_config 0 loop sample_env.vdef_i420 with max_count := M }

/-- The reader `vraw_reader_new` builds for a raw configuration on a file with
the given content and frame count, over the example libvideo-defs. -/
def sample_reader_of (cfg : vraw_reader_config) (content : List Byte) (count : Nat) :
    vraw_reader :=
  reader_new_mem_geometry sample_env
    { reader_new_file_geometry sample_env (reader_new_align sample_env
        (reader_new_enforce (reader_new_open content cfg)))
      with file_frame_count := count }

/-- What one call to `vraw_reader_frame_read` does to the output counter and
the timestamp: either it produces a frame (it returns 0, the frame structure is
stamped with the counter and the timestamp of before the call, and both
advance), or it produces none (the frame structure is as it was, both stay;
without container header the return value is then not 0). -/
def CallOutcome (st : State) (fr : vraw_frame) (ret : Int) (st2 : State)
    (fr2 : Option vraw_frame) : Prop :=
  st2.self.cfg = st.self.cfg
  ∧ ((ret = 0 ∧ ∃ f, fr2 = some f ∧ f.frame.info.index = st.self.count
        ∧ f.frame.info.timestamp = st.self.timestamp ∧ f.frame.info.timescale = 1000000
        ∧ st2.self.count = (st.self.count + 1) % 2 ^ 32
        ∧ st2.self.timestamp
            = (st.self.timestamp + 1000000 * st.self.cfg.info.framerate.den
                / st.self.cfg.info.framerate.num) % 2 ^ 64)
    ∨ ((st.self.cfg.y4m = 0 → ret ≠ 0) ∧ fr2 = some fr ∧ st2.self.count = st.self.count
        ∧ st2.self.timestamp = st.self.timestamp))


/-- The caller's loop with any arguments: one call to `vraw_reader_frame_read`
per entry `(data, len)` of the list, all with the same frame structure.  The
trace holds, for each call, its return value and, when the call produced a
frame (the output counter moved), the frame information found in the frame
structure (`none` for the whole when a call does not return). -/
def call_trace (env : VdefEnv) (fuel : Nat) :
    List (Nat × Nat) → State → vraw_frame → Option (List (Int × Option vdef_frame_info))
  | [], _, _ => some []
  | (data, len) :: rest, st, fr =>
    match vraw_reader_frame_read env fuel st data len (some fr) with
    | .done (ret, st2, some fr2) =>
      (call_trace env fuel rest st2 fr2).map
        (fun l => (ret, if st2.self.count ≠ st.self.count then some fr2.frame.info else none)
          :: l)
    | _ => none

/-- The frames produced along a trace, in order. -/
def produced (t : List (Int × Option vdef_frame_info)) : List vdef_frame_info :=
  t.filterMap (fun x => x.2)


/-- The bytes the caller finds in the first `size` bytes of its buffer after
`n` calls to `vraw_reader_frame_read` that all returned 0 (`none` when one of
them did not). -/
def delivered (env : VdefEnv) (fuel data len size n : Nat) (st : State) (fr : vraw_frame) :
    Option (List Byte) :=
  (read_frames env fuel data len n st fr).map
    (fun p => (List.range size).map (fun j => p.1.buf (data + j)))

/-- File frame `k` of a file of frames of `size` bytes. -/
def file_frame (file : List Byte) (size k : Nat) : List Byte :=
  (file.drop (k * size)).take size

/-- Modelled from the spec: the contract of `vdef_calc_raw_frame_size`
(libvideo-defs, not among the sources) on alignment.  Alignment values of 0
leave a plane unconstrained: on
the strides and sizes the function computed without alignment arrays, a second
run with all-zero alignment arrays yields the same plane sizes. -/
def ZeroAlignUnconstrained (env : VdefEnv) : Prop :=
  ∀ (fmt : vdef_raw_format) (res : vdef_dim) (p : Nat),
    p < env.vdef_get_raw_frame_plane_count fmt →
    (env.vdef_calc_raw_frame_size fmt res
        (env.vdef_calc_raw_frame_size fmt res (fun _ => 0) none none (fun _ => 0) none).1
        (some (fun _ => 0)) (some (fun _ => 0))
        (env.vdef_calc_raw_frame_size fmt res (fun _ => 0) none none (fun _ => 0) none).2
        (some (fun _ => 0))).2 p
      = (env.vdef_calc_raw_frame_size fmt res (fun _ => 0) none none (fun _ => 0) none).2 p

/-- The frame information the example reader (2x2 pixels, 30 frames per
second) stamps on its `k`-th produced frame. -/
def sample_info (k : Nat) : vdef_frame_info :=
  { timestamp := k * 33333, timescale := 1000000, capture_timestamp := 0, index := k,
    resolution := { width := 2, height := 2 }, sar := { width := 1, height := 1 } }

/-- Eight calls on the example buffer, the fourth with a zero length. -/
def sample_calls : List (Nat × Nat) :=
  [(100, 6), (100, 6), (100, 6), (100, 0), (100, 6), (100, 6), (100, 6), (100, 6)]

/-- The trace of `sample_calls` on the reverse-looping example reader: seven
frames, and `-ENOBUFS` for the fourth call. -/
def sample_trace : List (Int × Option vdef_frame_info) :=
  [(0, some (sample_info 0)), (0, some (sample_info 1)), (0, some (sample_info 2)),
   (-ENOBUFS, none), (0, some (sample_info 3)), (0, some (sample_info 4)),
   (0, some (sample_info 5)), (0, some (sample_info 6))]


/-- The example frame with another format and resolution in its metadata. -/
def sample_out_frame_with (fmt : vdef_raw_format) (res : vdef_dim) : vraw_frame :=
  { sample_out_frame with frame := { sample_out_frame.frame with
      format := fmt, info := { sample_out_frame.frame.info with resolution := res } } }

/-- The example frame without its chroma planes (`NULL` pointers). -/
def sample_out_frame_luma : vraw_frame :=
  { sample_out_frame with data := fun p => if p = 0 then 16 else 0 }

/-! ## Definitions for the claims on the container header, the start index and the retries -/

/-- The part of the line printed by `y4m_header_write` that stands before the
format tag: `YUV4MPEG2 W%d H%d F%d:%d Ip A%d:%d`. -/
def y4m_header_fields (info : vdef_format_info) : List Byte :=
  bytes_of "YUV4MPEG2 W" ++ print_d info.resolution.width
    ++ bytes_of " H" ++ print_d info.resolution.height
    ++ bytes_of " F" ++ print_d info.framerate.num
    ++ bytes_of ":" ++ print_d info.framerate.den
    ++ bytes_of " Ip A" ++ print_d info.sar.width
    ++ bytes_of ":" ++ print_d info.sar.height

/-- The header line `vraw_writer_new` writes for the example configuration
with the 10-bit format `vdef_i420_10_16le`. -/
def sample_header_10 : List Byte := bytes_of "YUV4MPEG2 W2 H2 F30:1 Ip A1:1 C420p10\n"

/-- A header line with the same fields, the format tag standing in the middle. -/
def sample_header_10_mid : List Byte := bytes_of "YUV4MPEG2 W2 H2 C420p10 F30:1 Ip A1:1\n"

/-- A container file whose first frame marker is damaged (`XRAME` for `FRAME`). -/
def sample_y4m_bad_file : List Byte :=
  bytes_of "YUV4MPEG2 W2 H2 F30:1 Ip A1:1 C420\nXRAME\nabcdefFRAME\nghijkl"

/-- The reader `vraw_reader_new` builds on `sample_y4m_bad_file` in container mode (`loop = 0`). -/
def sample_y4m_bad_reader : vraw_reader :=
  reader_new_built sample_env (y4m_header_read sample_env
    (reader_new_open sample_y4m_bad_file (sample_config 1 0 sample_env.vdef_i420)) 0).2.1

/-- The example configuration with a start index: raw I420, 2x2 pixels, no loop. -/
def sample_config_start (S : Nat) : vraw_reader_config :=
  { sample_config 0 0 sample_env.vdef_i420 with start_index := S }

/-- The reader `vraw_reader_new` builds for `start_index = 2` on a file of five
frames: the cursor on file frame 2, the file-position index 2, the output
counter 0. -/
def sample_reader_start : vraw_reader :=
  at_frame (sample_reader_of (sample_config_start 2) (count_bytes 30) 5) 2 0 2 0 0

/-- One action of the caller on an open reader: a call to
`vraw_reader_frame_read` with a buffer `(data, len)`, or a call to
`vraw_reader_set_framerate`. -/
inductive reader_op where
  | read (data len : Nat)
  | set_framerate (framerate : vdef_frac)

/-- A session of the caller on an open reader: the actions of the list, in
order, all reads with the same frame structure.  The trace holds, for each
frame produced (the output counter moved), the frame information found in the
frame structure and the value `1000000 * den / num` of the frame rate the
reader held when the call was made (`none` for the whole when a call does not
return). -/
def op_trace (env : VdefEnv) (fuel : Nat) :
    List reader_op → State → vraw_frame → Option (List (vdef_frame_info × Nat))
  | [], _, _ => some []
  | .read data len :: rest, st, fr =>
    match vraw_reader_frame_read env fuel st data len (some fr) with
    | .done (_, st2, some fr2) =>
      (op_trace env fuel rest st2 fr2).map
        (fun l =>
          if st2.self.count ≠ st.self.count then
            (fr2.frame.info,
              1000000 * st.self.cfg.info.framerate.den / st.self.cfg.info.framerate.num) :: l
          else l)
    | _ => none
  | .set_framerate f :: rest, st, fr =>
    op_trace env fuel rest { st with self := (vraw_reader_set_framerate st.self f).2 } fr

/-- The session of `op_trace` with the frame rate in force followed on the
side of the caller: `rate` is the frame rate of the reader when the session
starts, and after a call to `vraw_reader_set_framerate` with a frame rate that
is not null it is that frame rate (a null frame rate leaves it as it is).  The
trace holds, for each frame produced, the frame information found in the frame
structure and the value `1000000 * den / num` of the frame rate in force when
the call was made. -/
def rate_trace (env : VdefEnv) (fuel : Nat) :
    List reader_op → State → vraw_frame → vdef_frac → Option (List (vdef_frame_info × Nat))
  | [], _, _, _ => some []
  | .read data len :: rest, st, fr, rate =>
    match vraw_reader_frame_read env fuel st data len (some fr) with
    | .done (_, st2, some fr2) =>
      (rate_trace env fuel rest st2 fr2 rate).map
        (fun l =>
          if st2.self.count ≠ st.self.count then
            (fr2.frame.info, 1000000 * rate.den / rate.num) :: l
          else l)
    | _ => none
  | .set_framerate f :: rest, st, fr, rate =>
    rate_trace env fuel rest { st with self := (vraw_reader_set_framerate st.self f).2 } fr
      (if vdef_frac_is_null f = true then rate else f)

/-- Six actions on the example reader: two reads, a change of the frame rate to
60/1, a read, a rejected change to the null frame rate, and a read. -/
def sample_ops : List reader_op :=
  [.read 100 6, .read 100 6, .set_framerate { num := 60, den := 1 }, .read 100 6,
   .set_framerate { num := 0, den := 0 }, .read 100 6]

/-- The trace of `sample_ops` on the example reader (30 frames per second at
the start): steps of 33333 for the first two frames, of 16666 afterwards. -/
def sample_op_trace : List (vdef_frame_info × Nat) :=
  [(sample_info 0, 33333), (sample_info 1, 33333), (sample_info 2, 16666),
   ({ sample_info 3 with timestamp := 83332 }, 16666)]

/-! ## Frame conversion of the packed codec (`tools/vraw_conv_10bit.c`) -/

/-- The function `line_to_nv21_10packed`: the encoder selected by `mode`
(0: 16-bit little-endian, 1: 16-bit big-endian, otherwise 8 bits).  The line is
read from and written to the same memory; the blocks of a line are read from
the memory as it is when the line starts (the input and output buffers of the
tool are separate allocations). -/
def line_to_nv21_10packed (mem : Mem) (in1 in2 out nb_blk step : Nat) (mode : Int) : Mem :=
  if mode = 0 then conv_16le_to_10packed mem in1 in2 mem out step nb_blk
  else if mode = 1 then conv_16be_to_10packed mem in1 in2 mem out step nb_blk
  else conv_8_to_10packed mem in1 in2 mem out step nb_blk

/-- A row loop of `frame_to_nv21_10packed`:
`for (i = 0; i < rows; i++) { line_to_nv21_10packed(in1, in2, out, nb_blk, step, mode); in1 += in_stride; in2 += in_stride; out += out_stride; }`. -/
def to_packed_rows (in_stride out_stride nb_blk step : Nat) (mode : Int) :
    (rows : Nat) → Mem → Nat → Nat → Nat → Mem
  | 0, mem, _, _, _ => mem
  | n + 1, mem, in1, in2, out =>
    to_packed_rows in_stride out_stride nb_blk step mode n
      (line_to_nv21_10packed mem in1 in2 out nb_blk step mode)
      (in1 + in_stride) (in2 + in_stride) (out + out_stride)

/-- The function `frame_to_nv21_10packed` (return type `void`): the memory after
the call.  The format of the input frame selects the chroma pointers `u_in`,
`v_in` and the component jump; for a format outside the four groups the
function returns at once. -/
def frame_to_nv21_10packed (env : VdefEnv) (mem : Mem) (in_frame out_frame : vraw_frame) :
    Mem :=
  let w := in_frame.frame.info.resolution.width
  let h := in_frame.frame.info.resolution.height
  let elem_size := in_frame.frame.format.data_size / 8
  let y_out := out_frame.data 0
  let vu_out := out_frame.data 1
  let y_in := in_frame.data 0
  let fmt := in_frame.frame.format
  let sel : Option (Nat × Nat × Nat) :=
    if vdef_raw_format_cmp fmt env.vdef_i420 || vdef_raw_format_cmp fmt env.vdef_i420_10_16le
        || vdef_raw_format_cmp fmt env.vdef_i420_10_16be then
      some (in_frame.data 1, in_frame.data 2, elem_size)
    else if vdef_raw_format_cmp fmt env.vdef_yv12
        || vdef_raw_format_cmp fmt env.vdef_yv12_10_16le
        || vdef_raw_format_cmp fmt env.vdef_yv12_10_16be then
      some (in_frame.data 2, in_frame.data 1, elem_size)
    else if vdef_raw_format_cmp fmt env.vdef_nv12
        || vdef_raw_format_cmp fmt env.vdef_nv12_10_16le
        || vdef_raw_format_cmp fmt env.vdef_nv12_10_16be then
      some (in_frame.data 1, in_frame.data 1 + elem_size, elem_size * 2)
    else if vdef_raw_format_cmp fmt env.vdef_nv21
        || vdef_raw_format_cmp fmt env.vdef_nv21_10_16le
        || vdef_raw_format_cmp fmt env.vdef_nv21_10_16be then
      some (in_frame.data 1 + elem_size, in_frame.data 1, elem_size * 2)
    else none
  match sel with
  | none => mem
  | some (u_in, v_in, jmp_uv) =>
    let mode : Int :=
      if elem_size = 2 then (if fmt.data_little_endian = true then 0 else 1) else 2
    let mem := to_packed_rows (in_frame.frame.plane_stride 0) (out_frame.frame.plane_stride 0)
      (w / 4) (2 * elem_size) mode h mem y_in (y_in + elem_size) y_out
    to_packed_rows (in_frame.frame.plane_stride 1) (out_frame.frame.plane_stride 1)
      (w / 4) jmp_uv mode (h / 2) mem v_in u_in vu_out

/-- A row loop of the 16-bit branch of `frame_from_nv21_10packed`: one call to
`line_10packed_to_16` per row, the input advancing by `in_stride`, the pointers
of the first output by `stride1` and those of the second by `stride2`. -/
def from_packed_rows_16 (in_stride stride1 stride2 pixel_stride blocks : Nat) :
    (rows : Nat) → Mem → Nat → Nat → Nat → Nat → Nat → Mem
  | 0, mem, _, _, _, _, _ => mem
  | n + 1, mem, inp, o1l, o1h, o2l, o2h =>
    from_packed_rows_16 in_stride stride1 stride2 pixel_stride blocks n
      (line_10packed_to_16 mem inp mem o1l o1h o2l o2h pixel_stride blocks)
      (inp + in_stride) (o1l + stride1) (o1h + stride1) (o2l + stride2) (o2h + stride2)

/-- A row loop of the 8-bit branch of `frame_from_nv21_10packed`. -/
def from_packed_rows_8 (in_stride stride1 stride2 pixel_stride blocks : Nat) :
    (rows : Nat) → Mem → Nat → Nat → Nat → Mem
  | 0, mem, _, _, _ => mem
  | n + 1, mem, inp, o1, o2 =>
    from_packed_rows_8 in_stride stride1 stride2 pixel_stride blocks n
      (line_10packed_to_8 mem inp mem o1 o2 pixel_stride blocks)
      (inp + in_stride) (o1 + stride1) (o2 + stride2)

/-- The function `frame_from_nv21_10packed` (return type `void`): the memory
after the call.  The format of the output frame selects the chroma pointers,
their line strides and the pixel stride; for a format outside the four groups
the function returns at once. -/
def frame_from_nv21_10packed (env : VdefEnv) (mem : Mem) (in_frame out_frame : vraw_frame) :
    Mem :=
  let w := in_frame.frame.info.resolution.width
  let h := in_frame.frame.info.resolution.height
  let data_size := out_frame.frame.format.data_size / 8
  let little_endian := out_frame.frame.format.data_little_endian
  let y_in := in_frame.data 0
  let vu_in := in_frame.data 1
  let y_out := out_frame.data 0
  let fmt := out_frame.frame.format
  let sel : Option (Nat × Nat × Nat × Nat × Nat) :=
    if vdef_raw_format_cmp fmt env.vdef_i420 || vdef_raw_format_cmp fmt env.vdef_i420_10_16le
        || vdef_raw_format_cmp fmt env.vdef_i420_10_16be then
      some (out_frame.data 1, out_frame.data 2, out_frame.frame.plane_stride 1,
        out_frame.frame.plane_stride 2, data_size)
    else if vdef_raw_format_cmp fmt env.vdef_yv12
        || vdef_raw_format_cmp fmt env.vdef_yv12_10_16le
        || vdef_raw_format_cmp fmt env.vdef_yv12_10_16be then
      some (out_frame.data 2, out_frame.data 1, out_frame.frame.plane_stride 2,
        out_frame.frame.plane_stride 1, data_size)
    else if vdef_raw_format_cmp fmt env.vdef_nv12
        || vdef_raw_format_cmp fmt env.vdef_nv12_10_16le
        || vdef_raw_format_cmp fmt env.vdef_nv12_10_16be then
      some (out_frame.data 1, out_frame.data 1 + data_size, out_frame.frame.plane_stride 1,
        out_frame.frame.plane_stride 1, data_size * 2)
    else if vdef_raw_format_cmp fmt env.vdef_nv21
        || vdef_raw_format_cmp fmt env.vdef_nv21_10_16le
        || vdef_raw_format_cmp fmt env.vdef_nv21_10_16be then
      some (out_frame.data 1 + data_size, out_frame.data 1, out_frame.frame.plane_stride 1,
        out_frame.frame.plane_stride 1, data_size * 2)
    else none
  match sel with
  | none => mem
  | some (u_out, v_out, u_line_stride, v_line_stride, uv_pixel_stride) =>
    if data_size = 2 then
      let lo := if little_endian = true then 0 else 1
      let hi := if little_endian = true then 1 else 0
      let mem := from_packed_rows_16 (in_frame.frame.plane_stride 0)
        (out_frame.frame.plane_stride 0) (out_frame.frame.plane_stride 0) (data_size * 2)
        (w / 4) h mem y_in (y_out + lo) (y_out + hi) (y_out + lo + 2) (y_out + hi + 2)
      from_packed_rows_16 (in_frame.frame.plane_stride 1) v_line_stride u_line_stride
        uv_pixel_stride (w / 4) (h / 2) mem vu_in (v_out + lo) (v_out + hi) (u_out + lo)
        (u_out + hi)
    else if data_size = 1 then
      let mem := from_packed_rows_8 (in_frame.frame.plane_stride 0)
        (out_frame.frame.plane_stride 0) (out_frame.frame.plane_stride 0) (data_size * 2)
        (w / 4) h mem y_in y_out (y_out + 1)
      from_packed_rows_8 (in_frame.frame.plane_stride 1) v_line_stride u_line_stride
        uv_pixel_stride (w / 4) (h / 2) mem vu_in v_out u_out
    else mem

/-- The output frame of `main` once the metadata of the frame just read are
copied into it: timestamp, timescale, capture timestamp and index. -/
def conv_out_frame (in_frame out_frame : vraw_frame) : vraw_frame :=
  { out_frame with frame := { out_frame.frame with info := { out_frame.frame.info with
      timestamp := in_frame.frame.info.timestamp,
      timescale := in_frame.frame.info.timescale,
      capture_timestamp := in_frame.frame.info.capture_timestamp,
      index := in_frame.frame.info.index } } }

/-- The body of the loop of `main` after `vraw_reader_frame_read` returned a
frame: the metadata are copied, the frame is converted (to the packed format
when the writer is configured for it, from it when the reader is), and
`vraw_writer_frame_write` is called on the output frame.  `reader_format` is
`reader_config.format`; `writer_config.format` is the format of the writer.
The result is the memory after the conversion and what
`vraw_writer_frame_write` returns. -/
def conv_frame_step (env : VdefEnv) (reader_format : vdef_raw_format) (writer : vraw_writer)
    (mem : Mem) (in_frame out_frame : vraw_frame) (errno : Int) :
    Mem × Int × vraw_writer × Int :=
  let out_frame := conv_out_frame in_frame out_frame
  let mem :=
    if vdef_raw_format_cmp writer.cfg.format env.vdef_nv21_10_packed then
      frame_to_nv21_10packed env mem in_frame out_frame
    else if vdef_raw_format_cmp reader_format env.vdef_nv21_10_packed then
      frame_from_nv21_10packed env mem in_frame out_frame
    else mem
  (mem, vraw_writer_frame_write writer mem (some out_frame) errno)

/-- The twelve formats the packed codec recognises on the non-packed side:
i420, yv12, nv12 and nv21 in 8-bit, 10-bit 16LE and 10-bit 16BE. -/
def codec_formats (env : VdefEnv) : List vdef_raw_format :=
  [env.vdef_i420, env.vdef_i420_10_16le, env.vdef_i420_10_16be,
   env.vdef_yv12, env.vdef_yv12_10_16le, env.vdef_yv12_10_16be,
   env.vdef_nv12, env.vdef_nv12_10_16le, env.vdef_nv12_10_16be,
   env.vdef_nv21, env.vdef_nv21_10_16le, env.vdef_nv21_10_16be]

/-- A writer configuration for the packed format: 4x2 pixels. -/
def sample_packed_config : vraw_writer_config :=
  { y4m := 0, format := sample_env.vdef_nv21_10_packed,
    info := { framerate := { num := 30, den := 1 }, resolution := { width := 4, height := 2 },
              sar := { width := 1, height := 1 } } }

/-- A 4x2 frame in the planar 10-bit format `vdef_i420_10_16le_high`, as the
reader leaves it for a buffer of 24 bytes at address 100. -/
def sample_high_frame : vraw_frame :=
  { data := fun p => if p = 0 then 100 else if p = 1 then 116 else if p = 2 then 120 else 0,
    frame := { format := sample_env.vdef_i420_10_16le_high,
               info := { timestamp := 33333, timescale := 1000000, capture_timestamp := 0,
                         index := 1, resolution := { width := 4, height := 2 },
                         sar := { width := 1, height := 1 } },
               plane_stride := fun p => if p = 0 then 8 else if p = 1 then 4
                 else if p = 2 then 4 else 0 } }

/-- The output frame `main` prepares for `sample_packed_config` with its buffer
at address 200: a line stride of `4 * 10 / 8 = 5` bytes for both planes, the
second plane 10 bytes after the first. -/
def sample_packed_frame : vraw_frame :=
  { data := fun p => if p = 0 then 200 else if p = 1 then 210 else 0,
    frame := { format := sample_env.vdef_nv21_10_packed,
               info := { timestamp := 0, timescale := 0, capture_timestamp := 0, index := 0,
                         resolution := { width := 4, height := 2 },
                         sar := { width := 1, height := 1 } },
               plane_stride := fun p => if p = 0 then 5 else if p = 1 then 5 else 0 } }

/-- The memory of the tool in the example: the 15 bytes of the output buffer
(`len_out = 24 * 10 / 16`) hold the `0x80` of `memset(data_out, 0x80, len_out)`,
every other byte its address. -/
def sample_conv_memory : Mem :=
  fun a => if 200 ≤ a ∧ a < 215 then 0x80 else toByte a

/-- A byte that is a decimal digit. -/
def is_digit (c : Byte) : Prop := 48 ≤ c.val ∧ c.val ≤ 57

/-- A byte of a numeric field as `%d` prints it: a minus sign or a digit. -/
def is_num_byte (c : Byte) : Prop := c = 45 ∨ is_digit c

/-- A byte that can stand inside a token of the header line: no blank, no
newline, no NUL. -/
def is_tok_byte (c : Byte) : Prop := c ≠ 32 ∧ c ≠ 10 ∧ c ≠ 0

/-- Tokens joined by single blanks. -/
def join_tokens : List (List Byte) → List Byte
  | [] => []
  | [t] => t
  | t :: ts => t ++ 32 :: join_tokens ts

/-- The tokens of the header line before the format tag, for the six numeric
fields as printed: `YUV4MPEG2`, `W..`, `H..`, `F..:..`, `Ip`, `A..:..`. -/
def header_tokens (W H Fn Fd Aw Ah : List Byte) : List (List Byte) :=
  [bytes_of "YUV4MPEG2", 87 :: W, 72 :: H, 70 :: (Fn ++ 58 :: Fd), bytes_of "Ip",
   65 :: (Aw ++ 58 :: Ah)]

/-- The writer of the example configuration in container mode (8-bit I420,
2x2 pixels, 30 frames per second) before its header is written. -/
def sample_header_writer : vraw_writer :=
  writer_new_init (sample_writer_config 1 sample_env.vdef_i420)

/-- The reader object after `fopen` on `sample_y4m_file`, before its header is read. -/
def sample_header_reader : vraw_reader :=
  reader_new_open sample_y4m_file (sample_config 1 0 sample_env.vdef_i420)

/-! ## Definitions for the claims on reverse start, the codec layouts, the invariants and the rewrite -/

/-- The example configuration with a start index and a frame limit: raw I420,
2x2 pixels, no loop. -/
def sample_config_start_max (S M : Nat) : vraw_reader_config :=
  { sample_config 0 0 sample_env.vdef_i420 with start_index := S, max_count := M }

/-- The reader `vraw_reader_new` builds for `start_index = 2`, `max_count = 3`
on a file of six frames: the cursor on file frame 2, the file-position index 2. -/
def sample_reader_start_max : vraw_reader :=
  at_frame (sample_reader_of (sample_config_start_max 2 3) (count_bytes 36) 6) 2 0 2 0 0

/-- The caller's loop, observed on the file side: one call to
`vraw_reader_frame_read` per entry `(data, len)` of the list, all with the same
frame structure.  The trace holds, for each call, its return value and the file
cursor, the file-position index and the direction flag the call leaves in the
reader (`none` for the whole when a call does not return). -/
def cursor_trace (env : VdefEnv) (fuel : Nat) :
    List (Nat × Nat) → State → vraw_frame → Option (List (Int × Nat × Nat × Int))
  | [], _, _ => some []
  | (data, len) :: rest, st, fr =>
    match vraw_reader_frame_read env fuel st data len (some fr) with
    | .done (ret, st2, some fr2) =>
      (cursor_trace env fuel rest st2 fr2).map
        (fun l => (ret, st2.self.file.pos, st2.self.index, st2.self.reverse) :: l)
    | _ => none

/-- A container file with one frame of 6x4 pixels: a header line of 35 bytes,
the marker and 36 bytes of pixel data (77 bytes). -/
def sample_y4m_wide_file : List Byte :=
  bytes_of "YUV4MPEG2 W6 H4 F30:1 Ip A1:1 C420\nFRAME\n" ++ count_bytes 36

/-- The reader `vraw_reader_new` builds on `sample_y4m_wide_file` in container
mode with `loop = -1`. -/
def sample_y4m_wide_reader : vraw_reader :=
  reader_new_built sample_env (y4m_header_read sample_env
    (reader_new_open sample_y4m_wide_file (sample_config 1 (-1) sample_env.vdef_i420)) 0).2.1

/-- The raw writer of the example configuration (8-bit I420, 2x2 pixels). -/
def sample_raw_writer : vraw_writer :=
  writer_new_init (sample_writer_config 0 sample_env.vdef_i420)

/-- The reader `b` is the reader `a` at another moment of the same session: the
configuration, the geometry and the content of the file are the same (the
cursor, the direction flag and the counters may differ). -/
def SameSetup (a b : vraw_reader) : Prop :=
  b.cfg = a.cfg ∧ b.plane_stride = a.plane_stride ∧ b.plane_size = a.plane_size
  ∧ b.frame_size = a.frame_size ∧ b.file_frame_size = a.file_frame_size
  ∧ b.header_offset = a.header_offset ∧ b.frame_header_size = a.frame_header_size
  ∧ b.file.data = a.file.data

/-- The 16-bit big-endian sample whose high byte is at address `p`. -/
def sample16be (m : Mem) (p : Nat) : Nat := 256 * (m p).val + (m (p + 1)).val

/-- The memory `swp` holds at `a` and `a + 1` the two bytes that `src` holds
there, swapped. -/
def ByteSwapped (src swp : Mem) (a : Nat) : Prop :=
  swp a = src (a + 1) ∧ swp (a + 1) = src a

/-- Four 16-bit big-endian samples 1023, 564, 0 and 257 at addresses 0, 2, 4, 6:
the bytes of `sample_src16` swapped in each sample. -/
def sample_src16be : Mem := memOfList [3, 0xFF, 2, 0x34, 0, 0, 1, 1]

/-- Four 16-bit little-endian samples 1020, 0, 512 and 28 at addresses 0, 2, 4, 6:
the bytes of `sample_src8` shifted left by 2. -/
def sample_src8_shifted : Mem := memOfList [0xFC, 3, 0, 0, 0, 2, 28, 0]

/-- The memory after a row loop of `vraw_reader_frame_read_planes` that ran to
its end: `n` rows of `size` bytes taken from offset `pos` of the file content
`d`, row `k` copied to address `cur + k * stride`. -/
def blit_rows (d : List Byte) (size stride : Nat) : Nat → Nat → Nat → Mem → Mem
  | 0, _, _, buf => buf
  | n + 1, cur, pos, buf =>
    blit_rows d size stride n (cur + stride) (pos + size) (blit buf cur d pos size)

/-- The memory after `vraw_reader_frame_read_planes` read one complete frame
from offset `pos` of the file into the buffer at `data`: the row loops of the
planes of the layout, one after the other. -/
def read_image (self : vraw_reader) (buf : Mem) (data pos : Nat) : Mem :=
  let h := self.cfg.info.resolution.height
  let rb := row_bytes self
  let luma := blit_rows self.file.data rb (self.plane_stride 0) h data pos buf
  match self.cfg.format.data_layout with
  | .SEMI_PLANAR =>
    blit_rows self.file.data rb (self.plane_stride 1) (h / 2) (data + self.plane_size 0)
      (pos + h * rb) luma
  | .PLANAR =>
    blit_rows self.file.data (rb / 2) (self.plane_stride 2) (h / 2)
      (data + self.plane_size 0 + self.plane_size 1) (pos + h * rb + h / 2 * (rb / 2))
      (blit_rows self.file.data (rb / 2) (self.plane_stride 1) (h / 2)
        (data + self.plane_size 0) (pos + h * rb) luma)
  | _ => luma

/-- The geometry of the reader on the file side: a layout the reader knows,
rows that are not empty, and an on-disk frame size that is the number of bytes
`vraw_reader_frame_read_planes` takes from the file for one frame.  Nothing is
said of the strides and plane sizes in memory. -/
structure OnDisk (r : vraw_reader) : Prop where
  layout : r.cfg.format.data_layout = .PACKED ∨ r.cfg.format.data_layout = .PLANAR
    ∨ r.cfg.format.data_layout = .SEMI_PLANAR
  row_pos : 0 < row_bytes r
  height_pos : 0 < r.cfg.info.resolution.height
  chroma_pos : r.cfg.format.data_layout = .PLANAR → 0 < row_bytes r / 2
  file_frame : r.file_frame_size = frame_bytes r
  small : r.file_frame_size < 2 ^ 62

/-- The cursor of the reader `s`, a later state of the session of `r` on a file
of `N` frames, is on the frame boundary named by its file-position index. -/
def CursorInv (r : vraw_reader) (N : Nat) (s : vraw_reader) : Prop :=
  SameSetup r s ∧ s.file.pos = s.index * r.file_frame_size ∧ s.index ≤ N

/-- Any sequence of calls to `vraw_reader_frame_read`, each with its own fuel,
buffer address, buffer length and frame structure: the state after the last
one (`none` when a call does not return). -/
def reader_calls (env : VdefEnv) :
    List (Nat × Nat × Nat × Option vraw_frame) → State → Option State
  | [], st => some st
  | (fuel, data, len, frame) :: rest, st =>
    match vraw_reader_frame_read env fuel st data len frame with
    | .done (_, st2, _) => reader_calls env rest st2
    | _ => none

/-- Eight calls on the example reader: fuel 2, the buffer at address 100 with
6 bytes; the second call passes a `NULL` frame structure and the fifth a
buffer that is too short. -/
def sample_call_list : List (Nat × Nat × Nat × Option vraw_frame) :=
  [(2, 100, 6, some sample_frame), (2, 100, 6, none), (2, 100, 6, some sample_frame),
   (2, 100, 6, some sample_frame), (2, 100, 5, some sample_frame),
   (2, 100, 6, some sample_frame), (2, 100, 6, some sample_frame),
   (2, 100, 6, some sample_frame)]

/-- The pair (frame boundary of the cursor, retreating) before call `i` of a
reverse-looping reader that starts in the state `s0`. -/
def pingpong_from (N : Nat) (s0 : Nat × Bool) : Nat → Nat × Bool
  | 0 => s0
  | i + 1 => pingpong_step N (pingpong_from N s0 i)

/-- The positions of the claim on a reversed start at frame `S`: `S, S-1, ..., 0`,
then the ping-pong positions `1, 2, ...` of a file of `N` frames. -/
def reverse_start_pos (N S i : Nat) : Nat :=
  if i ≤ S then S - i else pingpong_pos N (i - S)

/-- The example configuration with a reversed start: raw I420, 2x2 pixels,
`loop = -1`, `start_reversed` set and the given start index. -/
def sample_config_reversed (S : Nat) : vraw_reader_config :=
  { sample_config 0 (-1) sample_env.vdef_i420 with start_index := S, start_reversed := true }

/-- The reader `vraw_reader_new` builds for a reversed start at frame 2 on a
file of five frames: the cursor on file frame 2, the direction flag set, the
file-position index 2. -/
def sample_reader_reversed : vraw_reader :=
  at_frame (sample_reader_of (sample_config_reversed 2) (count_bytes 30) 5) 2 1 2 0 0

/-- The geometry of the reader in memory, as far as reading and writing a frame
need it: the format has the planes of its layout, the rows of a plane do not
overlap (each stride is at least the length of the rows read into the plane)
and the rows of a plane end before the next plane begins. -/
structure InMemory (env : VdefEnv) (r : vraw_reader) : Prop where
  count0 : 1 ≤ env.vdef_get_raw_frame_plane_count r.cfg.format
  stride0 : row_bytes r ≤ r.plane_stride 0
  semi : r.cfg.format.data_layout = .SEMI_PLANAR →
    2 ≤ env.vdef_get_raw_frame_plane_count r.cfg.format
    ∧ r.cfg.info.resolution.height * r.plane_stride 0 ≤ r.plane_size 0
    ∧ row_bytes r ≤ r.plane_stride 1
  planar : r.cfg.format.data_layout = .PLANAR →
    3 ≤ env.vdef_get_raw_frame_plane_count r.cfg.format
    ∧ r.cfg.info.resolution.height * r.plane_stride 0 ≤ r.plane_size 0
    ∧ row_bytes r / 2 ≤ r.plane_stride 1
    ∧ r.cfg.info.resolution.height / 2 * r.plane_stride 1 ≤ r.plane_size 1
    ∧ row_bytes r / 2 ≤ r.plane_stride 2

/-- The loop of `main` in `tools/vraw_rewrite.c`, with at most `k` iterations:
each frame read by `vraw_reader_frame_read` is passed unchanged to
`vraw_writer_frame_write`, until the reader returns `-ENOENT`.  The result is
whether the loop ended without failure, the state and the writer (`none`: the
iterations ran out, or a call did not return). -/
def rewrite_loop (env : VdefEnv) (fuel data len : Nat) :
    Nat → State → vraw_frame → vraw_writer → Option (Bool × State × vraw_writer)
  | 0, _, _, _ => none
  | k + 1, st, in_frame, writer =>
    match vraw_reader_frame_read env fuel st data len (some in_frame) with
    | .done (res, st, some in_frame) =>
      if res < 0 ∧ res ≠ -ENOENT then some (false, st, writer)
      else if res = -ENOENT then some (true, st, writer)
      else
        match vraw_writer_frame_write writer st.buf (some in_frame) st.errno with
        | (res, writer, errno) =>
          if res < 0 then some (false, { st with errno := errno }, writer)
          else rewrite_loop env fuel data len k { st with errno := errno } in_frame writer
    | _ => none

/-- The example configuration with alignment constraints: raw I420, 2x2 pixels,
no loop, every plane stride a multiple of 8 and every plane size a multiple
of 32. -/
def sample_config_aligned : vraw_reader_config :=
  { sample_config 0 0 sample_env.vdef_i420 with
    plane_stride_align := fun _ => 8, plane_size_align := fun _ => 32 }

/-- The reader `vraw_reader_new` builds for `sample_config_aligned` on a file of
three frames: strides of 8 bytes and planes of 32 bytes in memory, frames of 6
bytes in the file. -/
def sample_reader_aligned : vraw_reader :=
  sample_reader_of sample_config_aligned (count_bytes 18) 3

/-- The writer `vraw_writer_new` builds in raw mode with the format and the
frame information of `sample_reader_aligned`. -/
def sample_rewrite_writer : vraw_writer :=
  writer_new_init
    { y4m := 0, format := sample_reader_aligned.cfg.format, info := sample_reader_aligned.cfg.info }

/-- The 10-bit value the encoder of the given mode makes of the sample at
address `a`: the low 10 bits of the 16-bit sample (mode 0 little-endian, mode 1
big-endian), or the byte shifted left by 2 (mode 2). -/
def sample_value (mode : Int) (m : Mem) (a : Nat) : Nat :=
  if mode = 0 then sample16le m a % 1024
  else if mode = 1 then sample16be m a % 1024
  else 4 * (m a).val

/-- The accumulator the encoder of the given mode builds for one block. -/
def conv_block (mode : Int) (src : Mem) (in1 in2 step : Nat) : Nat :=
  if mode = 0 then conv_16le_block src in1 in2 step
  else if mode = 1 then conv_16be_block src in1 in2 step
  else conv_8_block src in1 in2 step

/-- The block loop the three encoders share, for the accumulator of the mode. -/
def conv_mode_to_10packed (mode : Int) (src : Mem) (in1 in2 : Nat) (dst : Mem) (out : Nat)
    (step : Nat) : (nb_blk : Nat) → Mem
  | 0 => dst
  | n + 1 =>
    conv_mode_to_10packed mode src (in1 + 2 * step) (in2 + 2 * step)
      (store_bytes dst out (conv_block mode src in1 in2 step) 5) (out + 5) step n

/-- The mode `frame_to_nv21_10packed` selects for the format of the input frame. -/
def pack_mode (fmt : vdef_raw_format) : Int :=
  if fmt.data_size / 8 = 2 then (if fmt.data_little_endian = true then 0 else 1) else 2

/-- The tests of `frame_to_nv21_10packed` on the format of the input frame, one
per group of formats. -/
def is_i420 (env : VdefEnv) (fmt : vdef_raw_format) : Bool :=
  vdef_raw_format_cmp fmt env.vdef_i420 || vdef_raw_format_cmp fmt env.vdef_i420_10_16le
    || vdef_raw_format_cmp fmt env.vdef_i420_10_16be

def is_yv12 (env : VdefEnv) (fmt : vdef_raw_format) : Bool :=
  vdef_raw_format_cmp fmt env.vdef_yv12 || vdef_raw_format_cmp fmt env.vdef_yv12_10_16le
    || vdef_raw_format_cmp fmt env.vdef_yv12_10_16be

def is_nv12 (env : VdefEnv) (fmt : vdef_raw_format) : Bool :=
  vdef_raw_format_cmp fmt env.vdef_nv12 || vdef_raw_format_cmp fmt env.vdef_nv12_10_16le
    || vdef_raw_format_cmp fmt env.vdef_nv12_10_16be

def is_nv21 (env : VdefEnv) (fmt : vdef_raw_format) : Bool :=
  vdef_raw_format_cmp fmt env.vdef_nv21 || vdef_raw_format_cmp fmt env.vdef_nv21_10_16le
    || vdef_raw_format_cmp fmt env.vdef_nv21_10_16be

/-- The address of the luma sample `Y[i][x]` of a frame: row `i` of plane 0,
walked with the stride of plane 0. -/
def y_sample_addr (fr : vraw_frame) (i x : Nat) : Nat :=
  fr.data 0 + i * fr.frame.plane_stride 0 + x * (fr.frame.format.data_size / 8)

/-- The address of the chroma sample `U[j][x]` of a frame, each plane walked
with its own stride: plane 1 of I420, plane 2 of YV12, the first component of
the interleaved plane 1 of NV12 and the second of NV21. -/
def u_sample_addr (env : VdefEnv) (fr : vraw_frame) (j x : Nat) : Nat :=
  let elem := fr.frame.format.data_size / 8
  if is_i420 env fr.frame.format = true then
    fr.data 1 + j * fr.frame.plane_stride 1 + x * elem
  else if is_yv12 env fr.frame.format = true then
    fr.data 2 + j * fr.frame.plane_stride 2 + x * elem
  else if is_nv12 env fr.frame.format = true then
    fr.data 1 + j * fr.frame.plane_stride 1 + x * (elem * 2)
  else
    fr.data 1 + elem + j * fr.frame.plane_stride 1 + x * (elem * 2)

/-- The address of the chroma sample `V[j][x]` of a frame, each plane walked
with its own stride. -/
def v_sample_addr (env : VdefEnv) (fr : vraw_frame) (j x : Nat) : Nat :=
  let elem := fr.frame.format.data_size / 8
  if is_i420 env fr.frame.format = true then
    fr.data 2 + j * fr.frame.plane_stride 2 + x * elem
  else if is_yv12 env fr.frame.format = true then
    fr.data 1 + j * fr.frame.plane_stride 1 + x * elem
  else if is_nv12 env fr.frame.format = true then
    fr.data 1 + elem + j * fr.frame.plane_stride 1 + x * (elem * 2)
  else
    fr.data 1 + j * fr.frame.plane_stride 1 + x * (elem * 2)

/-- The address `a` is outside the two planes of the packed output frame, for
an input of `h` rows. -/
def OutsidePacked (out_frame : vraw_frame) (h : Nat) (a : Nat) : Prop :=
  (a < out_frame.data 0 ∨ out_frame.data 0 + h * out_frame.frame.plane_stride 0 ≤ a)
  ∧ (a < out_frame.data 1 ∨ out_frame.data 1 + h / 2 * out_frame.frame.plane_stride 1 ≤ a)

/-- A 4x4 I420 frame whose chroma planes have different strides: luma at
address 0 with a stride of 4, U at address 16 with a stride of 2, V at address
32 with a stride of 4. -/
def sample_uneven_frame : vraw_frame :=
  { data := fun p => if p = 0 then 0 else if p = 1 then 16 else if p = 2 then 32 else 0,
    frame := { format := sample_env.vdef_i420,
               info := { timestamp := 0, timescale := 1000000, capture_timestamp := 0,
                         index := 0, resolution := { width := 4, height := 4 },
                         sar := { width := 1, height := 1 } },
               plane_stride := fun p => if p = 0 then 4 else if p = 1 then 2
                 else if p = 2 then 4 else 0 } }

/-- The same frame with an even V plane: a stride of 2 as for the U plane. -/
def sample_even_frame : vraw_frame :=
  { sample_uneven_frame with frame := { sample_uneven_frame.frame with
      plane_stride := fun p => if p = 0 then 4 else if p = 1 then 2
        else if p = 2 then 2 else 0 } }

/-- The packed output frame for 4x4 pixels: luma rows at address 100, chroma
rows at address 120, a line stride of 5 bytes. -/
def sample_packed_out : vraw_frame :=
  { data := fun p => if p = 0 then 100 else if p = 1 then 120 else 0,
    frame := { format := sample_env.vdef_nv21_10_packed,
               info := { timestamp := 0, timescale := 0, capture_timestamp := 0, index := 0,
                         resolution := { width := 4, height := 4 },
                         sar := { width := 1, height := 1 } },
               plane_stride := fun p => if p = 0 then 5 else if p = 1 then 5 else 0 } }

/-- The number of bytes of a sample the encoder of the given mode reads. -/
def sample_bytes (mode : Int) : Nat := if mode = 0 ∨ mode = 1 then 2 else 1

/-- The address of the sample that makes component `c` of block `k` of a line:
`in1[0]`, `in2[0]`, `in1[step]`, `in2[step]` of the block. -/
def block_sample_addr (in1 in2 step k c : Nat) : Nat :=
  (if c % 2 = 0 then in1 else in2) + 2 * step * k + (if c < 2 then 0 else step)

/-! ## Codec lemmas -/

theorem and_255 (x : Nat) : x &&& 0xFF = x % 256 := Nat.and_pow_two_sub_one_eq_mod x 8

theorem and_3 (x : Nat) : x &&& 3 = x % 4 := Nat.and_pow_two_sub_one_eq_mod x 2

theorem and_1023 (x : Nat) : x &&& 0x3FF = x % 1024 := Nat.and_pow_two_sub_one_eq_mod x 10

theorem shl_or_byte (x b : Nat) (h : b < 256) : (x <<< 8) ||| b = x * 256 + b := by
  have h2 : b < 2 ^ 8 := by simpa using h
  rw [Nat.shiftLeft_eq, Nat.mul_comm, ← Nat.mul_add_lt_is_or h2]

theorem Mem.set_same (m : Mem) (p : Nat) (v : Byte) : (m.set p v) p = v := by
  simp [Mem.set]

theorem Mem.set_other (m : Mem) (p a : Nat) (v : Byte) (h : a ≠ p) : (m.set p v) a = m a := by
  simp [Mem.set, h]

theorem store_bytes_5 (dst : Mem) (out t : Nat) :
    (store_bytes dst out t 5) out = toByte t
    ∧ (store_bytes dst out t 5) (out + 1) = toByte (t / 2 ^ 8)
    ∧ (store_bytes dst out t 5) (out + 2) = toByte (t / 2 ^ 16)
    ∧ (store_bytes dst out t 5) (out + 3) = toByte (t / 2 ^ 24)
    ∧ (store_bytes dst out t 5) (out + 4) = toByte (t / 2 ^ 32) := by
  simp only [store_bytes, Mem.set, and_255, Nat.shiftRight_eq_div_pow, toByte]
  refine ⟨?_, ?_, ?_, ?_, ?_⟩ <;> split_ifs <;>
    first
      | omega
      | (apply Fin.ext; simp [Nat.div_div_eq_div_mul])

theorem load_bytes_5 (src : Mem) (inp : Nat) :
    load_bytes src inp 0 5 >>> 8 = block40 src inp := by
  have h0 := (src inp).isLt
  have h1 := (src (inp + 1)).isLt
  have h2 := (src (inp + 2)).isLt
  have h3 := (src (inp + 3)).isLt
  have h4 := (src (inp + 4)).isLt
  simp only [load_bytes, block40, Nat.zero_or, Nat.add_zero]
  rw [shl_or_byte _ _ h3, shl_or_byte _ _ h2, shl_or_byte _ _ h1, shl_or_byte _ _ h0]
  simp only [Nat.shiftLeft_eq, Nat.shiftRight_eq_div_pow]
  omega

theorem block40_store_bytes (dst : Mem) (out t : Nat) (ht : t < 2 ^ 40) :
    block40 (store_bytes dst out t 5) out = t := by
  obtain ⟨h0, h1, h2, h3, h4⟩ := store_bytes_5 dst out t
  simp only [block40, h0, h1, h2, h3, h4, toByte]
  omega

theorem conv_16le_block_eq (src : Mem) (in1 in2 step : Nat) :
    conv_16le_block src in1 in2 step
      = sample16le src in1 % 1024 + 2 ^ 10 * (sample16le src in2 % 1024)
        + 2 ^ 20 * (sample16le src (in1 + step) % 1024)
        + 2 ^ 30 * (sample16le src (in2 + step) % 1024) := by
  have a0 := (src in1).isLt
  have a1 := (src in2).isLt
  have a2 := (src (in1 + step)).isLt
  have a3 := (src (in2 + step)).isLt
  simp only [conv_16le_block, sample16le, and_3, Nat.shiftLeft_eq, Nat.add_zero]
  omega

theorem conv_8_block_eq (src : Mem) (in1 in2 step : Nat) :
    conv_8_block src in1 in2 step
      = 4 * (src in1).val + 2 ^ 10 * (4 * (src in2).val)
        + 2 ^ 20 * (4 * (src (in1 + step)).val)
        + 2 ^ 30 * (4 * (src (in2 + step)).val) := by
  simp only [conv_8_block, Nat.shiftLeft_eq, Nat.add_zero]
  omega

theorem line_10packed_to_16_one (src : Mem) (inp : Nat) (dst : Mem)
    (o1l o1h o2l o2h s : Nat) :
    line_10packed_to_16 src inp dst o1l o1h o2l o2h s 1
      = ((((((((dst.set o1l (toByte (component src inp 0))).set o1h
          (toByte (component src inp 0 / 256))).set o2l
          (toByte (component src inp 1))).set o2h
          (toByte (component src inp 1 / 256))).set (o1l + s)
          (toByte (component src inp 2))).set (o1h + s)
          (toByte (component src inp 2 / 256))).set (o2l + s)
          (toByte (component src inp 3))).set (o2h + s)
          (toByte (component src inp 3 / 256))) := by
  have e0 : ∀ x : Nat, toByte (x % 1024 % 256) = toByte (x % 1024) := by
    intro x; apply Fin.ext; simp only [toByte]; omega
  have e1 : ∀ x : Nat, toByte (x % 1024 / 256 % 256) = toByte (x % 1024 / 256) := by
    intro x; apply Fin.ext; simp only [toByte]; omega
  have hb := load_bytes_5 src inp
  rw [Nat.shiftRight_eq_div_pow] at hb
  have h1 : load_bytes src inp 0 5 / 262144 = block40 src inp / 1024 := by omega
  have h2 : load_bytes src inp 0 5 / 268435456 = block40 src inp / 1048576 := by omega
  have h3 : load_bytes src inp 0 5 / 274877906944 = block40 src inp / 1073741824 := by omega
  have h0 : load_bytes src inp 0 5 / 256 = block40 src inp := by omega
  simp only [line_10packed_to_16, component, and_1023, and_255,
    Nat.shiftRight_eq_div_pow, Nat.add_zero, Nat.pow_zero, Nat.div_one, Nat.mul_zero,
    Nat.div_div_eq_div_mul, e0, e1]
  norm_num [h0, h1, h2, h3]

theorem line_10packed_to_8_one (src : Mem) (inp : Nat) (dst : Mem) (o1 o2 s : Nat) :
    line_10packed_to_8 src inp dst o1 o2 s 1
      = ((((dst.set o1 (toByte ((component src inp 0 + 2) / 4))).set o2
          (toByte ((component src inp 1 + 2) / 4))).set (o1 + s)
          (toByte ((component src inp 2 + 2) / 4))).set (o2 + s)
          (toByte ((component src inp 3 + 2) / 4))) := by
  have e0 : ∀ x : Nat, toByte ((x % 1024 + 2) / 4 % 256) = toByte ((x % 1024 + 2) / 4) := by
    intro x; apply Fin.ext; simp only [toByte]; omega
  have hb := load_bytes_5 src inp
  rw [Nat.shiftRight_eq_div_pow] at hb
  have h1 : load_bytes src inp 0 5 / 262144 = block40 src inp / 1024 := by omega
  have h2 : load_bytes src inp 0 5 / 268435456 = block40 src inp / 1048576 := by omega
  have h3 : load_bytes src inp 0 5 / 274877906944 = block40 src inp / 1073741824 := by omega
  have h0 : load_bytes src inp 0 5 / 256 = block40 src inp := by omega
  simp only [line_10packed_to_8, component, and_1023, and_255,
    Nat.shiftRight_eq_div_pow, Nat.add_zero, Nat.pow_zero, Nat.div_one, Nat.mul_zero,
    Nat.div_div_eq_div_mul, e0]
  norm_num [h0, h1, h2, h3]

theorem conv_16le_components (src dst : Mem) (in1 in2 out step : Nat) :
    component (conv_16le_to_10packed src in1 in2 dst out step 1) out 0
        = sample16le src in1 % 1024
    ∧ component (conv_16le_to_10packed src in1 in2 dst out step 1) out 1
        = sample16le src in2 % 1024
    ∧ component (conv_16le_to_10packed src in1 in2 dst out step 1) out 2
        = sample16le src (in1 + step) % 1024
    ∧ component (conv_16le_to_10packed src in1 in2 dst out step 1) out 3
        = sample16le src (in2 + step) % 1024 := by
  have hT := conv_16le_block_eq src in1 in2 step
  have hlt : conv_16le_block src in1 in2 step < 2 ^ 40 := by omega
  simp only [conv_16le_to_10packed, component, block40_store_bytes _ _ _ hlt]
  rw [hT]
  refine ⟨?_, ?_, ?_, ?_⟩ <;> omega

theorem conv_8_components (src dst : Mem) (in1 in2 out step : Nat) :
    component (conv_8_to_10packed src in1 in2 dst out step 1) out 0 = 4 * (src in1).val
    ∧ component (conv_8_to_10packed src in1 in2 dst out step 1) out 1 = 4 * (src in2).val
    ∧ component (conv_8_to_10packed src in1 in2 dst out step 1) out 2
        = 4 * (src (in1 + step)).val
    ∧ component (conv_8_to_10packed src in1 in2 dst out step 1) out 3
        = 4 * (src (in2 + step)).val := by
  have a0 := (src in1).isLt
  have a1 := (src in2).isLt
  have a2 := (src (in1 + step)).isLt
  have a3 := (src (in2 + step)).isLt
  have hT := conv_8_block_eq src in1 in2 step
  have hlt : conv_8_block src in1 in2 step < 2 ^ 40 := by omega
  simp only [conv_8_to_10packed, component, block40_store_bytes _ _ _ hlt]
  rw [hT]
  refine ⟨?_, ?_, ?_, ?_⟩ <;> omega

theorem toByte_sample (x : Nat) (hx : x < 1024) :
    (toByte x).val + 256 * (toByte (x / 256)).val = x := by
  simp only [toByte]
  omega

theorem store_bytes_frame (dst : Mem) (out t cnt a : Nat) (h : a < out ∨ out + cnt ≤ a) :
    (store_bytes dst out t cnt) a = dst a := by
  induction cnt generalizing dst out t with
  | zero => rfl
  | succ c ih =>
    rw [store_bytes, ih _ _ _ (by omega), Mem.set_other _ _ _ _ (by omega)]

theorem conv_16le_frame (src dst : Mem) (in1 in2 out step n a : Nat) (h : a < out) :
    (conv_16le_to_10packed src in1 in2 dst out step n) a = dst a := by
  induction n generalizing dst in1 in2 out with
  | zero => rfl
  | succ m ih =>
    rw [conv_16le_to_10packed, ih _ _ _ _ (by omega), store_bytes_frame _ _ _ _ _ (Or.inl h)]

theorem store_bytes_get (dst : Mem) (out t i : Nat) (hi : i < 5) :
    (store_bytes dst out t 5) (out + i) = toByte (t / 2 ^ (8 * i)) := by
  obtain ⟨h0, h1, h2, h3, h4⟩ := store_bytes_5 dst out t
  interval_cases i
  · simpa using h0
  · simpa using h1
  · simpa using h2
  · simpa using h3
  · simpa using h4

theorem conv_16le_nth (src dst : Mem) (in1 in2 out step n k i : Nat) (hk : k < n)
    (hi : i < 5) :
    (conv_16le_to_10packed src in1 in2 dst out step n) (out + 5 * k + i)
      = toByte (conv_16le_block src (in1 + 2 * step * k) (in2 + 2 * step * k) step
          / 2 ^ (8 * i)) := by
  induction n generalizing dst in1 in2 out k with
  | zero => omega
  | succ m ih =>
    rw [conv_16le_to_10packed]
    cases k with
    | zero =>
      rw [conv_16le_frame _ _ _ _ _ _ _ _ (by omega)]
      simpa using store_bytes_get dst out _ i hi
    | succ j =>
      have e : out + 5 * (j + 1) + i = out + 5 + 5 * j + i := by ring
      have e1 : in1 + 2 * step * (j + 1) = in1 + 2 * step + 2 * step * j := by ring
      have e2 : in2 + 2 * step * (j + 1) = in2 + 2 * step + 2 * step * j := by ring
      rw [e, e1, e2]
      exact ih _ _ _ _ j (by omega)

/-! ## Claims on the packed codec -/

/-- C4: packing one block of four 16-bit little-endian samples holding values
below 1024 with `conv_16le_to_10packed`, then unpacking the 5 bytes with
`line_10packed_to_16` (low byte at offset 0, high byte at offset 1 of each
sample), gives back the four values at the corresponding sample positions,
provided the four output samples do not overlap. -/
theorem roundtrip_16le (src dst dst2 : Mem) (in1 in2 step out o1 o2 os : Nat)
    (h0 : sample16le src in1 < 1024) (h1 : sample16le src in2 < 1024)
    (h2 : sample16le src (in1 + step) < 1024) (h3 : sample16le src (in2 + step) < 1024)
    (hd : [o1, o1 + 1, o2, o2 + 1, o1 + os, o1 + os + 1, o2 + os, o2 + os + 1].Nodup) :
    sample16le (line_10packed_to_16 (conv_16le_to_10packed src in1 in2 dst out step 1)
        out dst2 o1 (o1 + 1) o2 (o2 + 1) os 1) o1 = sample16le src in1
    ∧ sample16le (line_10packed_to_16 (conv_16le_to_10packed src in1 in2 dst out step 1)
        out dst2 o1 (o1 + 1) o2 (o2 + 1) os 1) o2 = sample16le src in2
    ∧ sample16le (line_10packed_to_16 (conv_16le_to_10packed src in1 in2 dst out step 1)
        out dst2 o1 (o1 + 1) o2 (o2 + 1) os 1) (o1 + os) = sample16le src (in1 + step)
    ∧ sample16le (line_10packed_to_16 (conv_16le_to_10packed src in1 in2 dst out step 1)
        out dst2 o1 (o1 + 1) o2 (o2 + 1) os 1) (o2 + os) = sample16le src (in2 + step) := by
  obtain ⟨c0, c1, c2, c3⟩ := conv_16le_components src dst in1 in2 out step
  simp only [List.nodup_cons, List.mem_cons, List.mem_singleton, List.not_mem_nil,
    not_or, List.nodup_nil] at hd
  rw [line_10packed_to_16_one, c0, c1, c2, c3, Nat.mod_eq_of_lt h0, Nat.mod_eq_of_lt h1,
    Nat.mod_eq_of_lt h2, Nat.mod_eq_of_lt h3]
  have e1 : o1 + 1 + os = o1 + os + 1 := by omega
  have e2 : o2 + 1 + os = o2 + os + 1 := by omega
  rw [e1, e2]
  refine ⟨?_, ?_, ?_, ?_⟩
  · simp (disch := omega) only [sample16le, Mem.set_other, Mem.set_same]
    exact toByte_sample _ h0
  · simp (disch := omega) only [sample16le, Mem.set_other, Mem.set_same]
    exact toByte_sample _ h1
  · simp (disch := omega) only [sample16le, Mem.set_other, Mem.set_same]
    exact toByte_sample _ h2
  · simp (disch := omega) only [sample16le, Mem.set_other, Mem.set_same]
    exact toByte_sample _ h3

/-- Witness for C4: the samples 1023, 564, 0, 257 laid out as a luma line
(`in2 = in1 + 2`, `step = 4`) survive the round trip. -/
theorem roundtrip_16le_witness :
    sample16le (line_10packed_to_16 (conv_16le_to_10packed sample_src16 0 2 (memOfList []) 0 4 1)
        0 (memOfList []) 0 (0 + 1) 2 (2 + 1) 4 1) 0 = sample16le sample_src16 0
    ∧ sample16le (line_10packed_to_16 (conv_16le_to_10packed sample_src16 0 2 (memOfList []) 0 4 1)
        0 (memOfList []) 0 (0 + 1) 2 (2 + 1) 4 1) 2 = sample16le sample_src16 2
    ∧ sample16le (line_10packed_to_16 (conv_16le_to_10packed sample_src16 0 2 (memOfList []) 0 4 1)
        0 (memOfList []) 0 (0 + 1) 2 (2 + 1) 4 1) (0 + 4) = sample16le sample_src16 (0 + 4)
    ∧ sample16le (line_10packed_to_16 (conv_16le_to_10packed sample_src16 0 2 (memOfList []) 0 4 1)
        0 (memOfList []) 0 (0 + 1) 2 (2 + 1) 4 1) (2 + 4) = sample16le sample_src16 (2 + 4) :=
  roundtrip_16le sample_src16 (memOfList []) (memOfList []) 0 2 4 0 0 2 4
    (by decide) (by decide) (by decide) (by decide) (by decide)

/-- C5: packing one block of four 8-bit values with `conv_8_to_10packed`, then
unpacking the 5 bytes with `line_10packed_to_8`, gives back the four bytes at
the corresponding sample positions, provided the four output bytes are at
distinct addresses. -/
theorem roundtrip_8 (src dst dst2 : Mem) (in1 in2 step out o1 o2 os : Nat)
    (hd : [o1, o2, o1 + os, o2 + os].Nodup) :
    (line_10packed_to_8 (conv_8_to_10packed src in1 in2 dst out step 1)
        out dst2 o1 o2 os 1) o1 = src in1
    ∧ (line_10packed_to_8 (conv_8_to_10packed src in1 in2 dst out step 1)
        out dst2 o1 o2 os 1) o2 = src in2
    ∧ (line_10packed_to_8 (conv_8_to_10packed src in1 in2 dst out step 1)
        out dst2 o1 o2 os 1) (o1 + os) = src (in1 + step)
    ∧ (line_10packed_to_8 (conv_8_to_10packed src in1 in2 dst out step 1)
        out dst2 o1 o2 os 1) (o2 + os) = src (in2 + step) := by
  obtain ⟨c0, c1, c2, c3⟩ := conv_8_components src dst in1 in2 out step
  simp only [List.nodup_cons, List.mem_cons, List.mem_singleton, List.not_mem_nil,
    not_or, List.nodup_nil] at hd
  have key : ∀ b : Byte, toByte ((4 * b.val + 2) / 4) = b := by
    intro b
    have := b.isLt
    apply Fin.ext
    simp only [toByte]
    omega
  rw [line_10packed_to_8_one, c0, c1, c2, c3]
  refine ⟨?_, ?_, ?_, ?_⟩ <;>
    simp (disch := omega) only [Mem.set_other, Mem.set_same, key]

/-- Witness for C5: the bytes 255, 0, 128, 7 laid out as a luma line
(`in2 = in1 + 1`, `step = 2`) survive the round trip. -/
theorem roundtrip_8_witness :
    (line_10packed_to_8 (conv_8_to_10packed sample_src8 0 1 (memOfList []) 0 2 1)
        0 (memOfList []) 0 1 2 1) 0 = sample_src8 0
    ∧ (line_10packed_to_8 (conv_8_to_10packed sample_src8 0 1 (memOfList []) 0 2 1)
        0 (memOfList []) 0 1 2 1) 1 = sample_src8 1
    ∧ (line_10packed_to_8 (conv_8_to_10packed sample_src8 0 1 (memOfList []) 0 2 1)
        0 (memOfList []) 0 1 2 1) (0 + 2) = sample_src8 (0 + 2)
    ∧ (line_10packed_to_8 (conv_8_to_10packed sample_src8 0 1 (memOfList []) 0 2 1)
        0 (memOfList []) 0 1 2 1) (1 + 2) = sample_src8 (1 + 2) :=
  roundtrip_8 sample_src8 (memOfList []) (memOfList []) 0 1 2 0 0 1 2 (by decide)

/-- C6: in a line of `nb_blk` blocks packed by `conv_16le_to_10packed`, the 5
output bytes of block `k` are the little-endian serialisation of
`c0 + (c1 << 10) + (c2 << 20) + (c3 << 30)`, where `c0..c3` are the low 10 bits
of the 16-bit little-endian samples `in1[0]`, `in2[0]`, `in1[step]`, `in2[step]`
of that block; output byte 0 is the low 8 bits of `c0` and the low 2 bits of
output byte 1 are the top 2 bits of `c0`. -/
theorem conv_16le_layout (src dst : Mem) (in1 in2 out step nb_blk k : Nat)
    (hk : k < nb_blk) :
    (∀ i, i < 5 →
      ((conv_16le_to_10packed src in1 in2 dst out step nb_blk) (out + 5 * k + i)).val
        = (packed40 (sample16le src (in1 + 2 * step * k) % 1024)
            (sample16le src (in2 + 2 * step * k) % 1024)
            (sample16le src (in1 + 2 * step * k + step) % 1024)
            (sample16le src (in2 + 2 * step * k + step) % 1024) >>> (8 * i)) % 256)
    ∧ ((conv_16le_to_10packed src in1 in2 dst out step nb_blk) (out + 5 * k)).val
        = sample16le src (in1 + 2 * step * k) % 1024 % 256
    ∧ ((conv_16le_to_10packed src in1 in2 dst out step nb_blk) (out + 5 * k + 1)).val % 4
        = sample16le src (in1 + 2 * step * k) % 1024 / 256 := by
  have hT := conv_16le_block_eq src (in1 + 2 * step * k) (in2 + 2 * step * k) step
  have hP : packed40 (sample16le src (in1 + 2 * step * k) % 1024)
            (sample16le src (in2 + 2 * step * k) % 1024)
            (sample16le src (in1 + 2 * step * k + step) % 1024)
            (sample16le src (in2 + 2 * step * k + step) % 1024)
        = conv_16le_block src (in1 + 2 * step * k) (in2 + 2 * step * k) step := by
    rw [hT]
    simp only [packed40, Nat.shiftLeft_eq]
    omega
  refine ⟨?_, ?_, ?_⟩
  · intro i hi
    rw [conv_16le_nth _ _ _ _ _ _ _ _ _ hk hi, hP, Nat.shiftRight_eq_div_pow]
    rfl
  · have h := conv_16le_nth src dst in1 in2 out step nb_blk k 0 hk (by omega)
    rw [Nat.add_zero] at h
    rw [h, hT]
    simp only [toByte]
    omega
  · rw [conv_16le_nth _ _ _ _ _ _ _ _ _ hk (by omega), hT]
    simp only [toByte]
    omega

/-- Witness for C6: the single block made of the samples 1023, 564, 0, 257. -/
theorem conv_16le_layout_witness :
    (∀ i, i < 5 →
      ((conv_16le_to_10packed sample_src16 0 2 (memOfList []) 0 4 1) (0 + 5 * 0 + i)).val
        = (packed40 (sample16le sample_src16 (0 + 2 * 4 * 0) % 1024)
            (sample16le sample_src16 (2 + 2 * 4 * 0) % 1024)
            (sample16le sample_src16 (0 + 2 * 4 * 0 + 4) % 1024)
            (sample16le sample_src16 (2 + 2 * 4 * 0 + 4) % 1024) >>> (8 * i)) % 256)
    ∧ ((conv_16le_to_10packed sample_src16 0 2 (memOfList []) 0 4 1) (0 + 5 * 0)).val
        = sample16le sample_src16 (0 + 2 * 4 * 0) % 1024 % 256
    ∧ ((conv_16le_to_10packed sample_src16 0 2 (memOfList []) 0 4 1) (0 + 5 * 0 + 1)).val % 4
        = sample16le sample_src16 (0 + 2 * 4 * 0) % 1024 / 256 :=
  conv_16le_layout sample_src16 (memOfList []) 0 2 0 4 1 0 (by decide)

/-- The byte `line_10packed_to_8` stores for each component `v` of a block is
`((v + 2) >> 2) mod 256`. -/
theorem line_10packed_to_8_bytes (src dst : Mem) (inp o1 o2 s : Nat)
    (hd : [o1, o2, o1 + s, o2 + s].Nodup) :
    ((line_10packed_to_8 src inp dst o1 o2 s 1) o1).val
        = ((component src inp 0 + 2) >>> 2) % 256
    ∧ ((line_10packed_to_8 src inp dst o1 o2 s 1) o2).val
        = ((component src inp 1 + 2) >>> 2) % 256
    ∧ ((line_10packed_to_8 src inp dst o1 o2 s 1) (o1 + s)).val
        = ((component src inp 2 + 2) >>> 2) % 256
    ∧ ((line_10packed_to_8 src inp dst o1 o2 s 1) (o2 + s)).val
        = ((component src inp 3 + 2) >>> 2) % 256 := by
  simp only [List.nodup_cons, List.mem_cons, List.mem_singleton, List.not_mem_nil,
    not_or, List.nodup_nil] at hd
  rw [line_10packed_to_8_one]
  refine ⟨?_, ?_, ?_, ?_⟩ <;>
    simp (disch := omega) only [Mem.set_other, Mem.set_same, toByte,
      Nat.shiftRight_eq_div_pow]

/-- C7 (the code departs from the claim): for the packed block `FF F7 0F 00 00`,
whose components 0 and 1 are 1023 and 1021, `line_10packed_to_8` stores 0 for
the component 1023 (where `(1023 + 2) >> 2 = 256`) and 255 for the component
1021, so the stored byte is neither `(v + 2) >> 2` nor non-decreasing in `v`. -/
theorem line_10packed_to_8_wraps :
    component sample_packed 0 0 = 1023
    ∧ component sample_packed 0 1 = 1021
    ∧ (1023 + 2) >>> 2 = 256
    ∧ ((line_10packed_to_8 sample_packed 0 (memOfList []) 0 1 2 1) 0).val = 0
    ∧ ((line_10packed_to_8 sample_packed 0 (memOfList []) 0 1 2 1) 1).val = 255 := by
  decide

/-! ## Reader lemmas -/


theorem blit_zero (buf : Mem) (ptr : Nat) (d : List Byte) (pos : Nat) :
    blit buf ptr d pos 0 = buf := by
  funext a
  simp only [blit]
  rw [if_neg (by omega)]

theorem blit_blit (buf : Mem) (ptr : Nat) (d : List Byte) (pos a b : Nat) :
    blit (blit buf ptr d pos a) (ptr + a) d (pos + a) b = blit buf ptr d pos (a + b) := by
  funext x
  simp only [blit]
  by_cases h1 : ptr + a ≤ x ∧ x < ptr + a + b
  · rw [if_pos h1, if_pos (by omega)]
    congr 1
    omega
  · rw [if_neg h1]
    by_cases h2 : ptr ≤ x ∧ x < ptr + a
    · rw [if_pos h2, if_pos (by omega)]
    · rw [if_neg h2, if_neg (by omega)]

theorem blit_get (buf : Mem) (ptr : Nat) (d : List Byte) (pos cnt j : Nat) (hj : j < cnt) :
    blit buf ptr d pos cnt (ptr + j) = d.getD (pos + j) 0 := by
  simp only [blit]
  rw [if_pos (by omega)]
  congr 1
  omega

theorem fread_full (buf : Mem) (ptr size : Nat) (f : FILE) (hs : 0 < size)
    (h : f.pos + size ≤ f.data.length) :
    fread buf ptr size f = (1, blit buf ptr f.data f.pos size, { f with pos := f.pos + size }) := by
  simp only [fread]
  rw [if_neg (by omega), if_pos h]

theorem fread_at_end (buf : Mem) (ptr size : Nat) (f : FILE) (hs : 0 < size)
    (h : f.pos = f.data.length) :
    fread buf ptr size f = (0, buf, { f with eof := true }) := by
  simp only [fread]
  rw [if_neg (by omega), if_neg (by omega)]
  have e : f.data.length - f.pos = 0 := by omega
  rw [e, blit_zero, h]
  simp

theorem read_rows_full (size : Nat) (hs : 0 < size) (n cur : Nat) (res : Int) (buf : Mem)
    (f : FILE) (h : f.pos + n * size ≤ f.data.length) :
    read_rows size size n cur res buf f
      = (if n = 0 then res else 1, blit buf cur f.data f.pos (n * size),
          { f with pos := f.pos + n * size }, true) := by
  induction n generalizing cur res buf f with
  | zero => simp [read_rows, blit_zero]
  | succ m ih =>
    have h1 : f.pos + size ≤ f.data.length := by
      have : (m + 1) * size = m * size + size := by ring
      omega
    rw [read_rows, fread_full buf cur size f hs h1]
    simp only [if_true]
    rw [ih]
    · simp only [blit_blit]
      have e1 : size + m * size = (m + 1) * size := by ring
      have e2 : f.pos + size + m * size = f.pos + (m + 1) * size := by ring
      rw [e1, e2]
      by_cases hm : m = 0
      · subst hm; simp
      · simp [hm]
    · simp only
      have : (m + 1) * size = m * size + size := by ring
      omega

theorem read_rows_at_end (size stride : Nat) (hs : 0 < size) (n cur : Nat) (res : Int)
    (buf : Mem) (f : FILE) (h : f.pos = f.data.length) :
    read_rows size stride (n + 1) cur res buf f = (0, buf, { f with eof := true }, false) := by
  rw [read_rows, fread_at_end buf cur size f hs h]
  simp



theorem to_off_t_neg2 (F : Nat) (h0 : 0 < F) (h : F < 2 ^ 62) :
    to_off_t ((2 ^ 64 - 2) * F) = -((2 * F : Nat) : Int) := by
  have e : (2 ^ 64 - 2) * F % 2 ^ 64 = 2 ^ 64 - 2 * F := by
    have h1 : (2 ^ 64 - 2) * F = (2 ^ 64 - 2 * F) + 2 ^ 64 * (F - 1) := by
      have : (2 ^ 64 - 2) * F + 2 * F = 2 ^ 64 * F := by
        rw [← Nat.add_mul]; norm_num
      have h2 : 2 ^ 64 * (F - 1) + 2 ^ 64 = 2 ^ 64 * F := by
        rw [← Nat.mul_succ]; congr 1; omega
      omega
    rw [h1, Nat.add_mul_mod_self_left, Nat.mod_eq_of_lt (by omega)]
  simp only [to_off_t, e]
  rw [if_neg (by omega)]
  omega

theorem fseeko_cur_ok (f : FILE) (off : Int) (e : Int) (n : Nat)
    (h : (f.pos : Int) + off = (n : Int)) :
    fseeko_cur f off e = (0, { f with pos := n, eof := false }, e) := by
  simp only [fseeko_cur, fseeko_to, h]
  rw [if_neg (by omega)]
  simp

theorem seek_prev_raw_ok (self : vraw_reader) (e : Int) (q : Nat)
    (hy : self.cfg.y4m = 0) (h0 : 0 < self.file_frame_size)
    (h : self.file_frame_size < 2 ^ 62) (hp : self.file.pos = q * self.file_frame_size)
    (hq : 2 ≤ q) :
    seek_to_previous_frame self e
      = (0, { self with file := { self.file with pos := (q - 2) * self.file_frame_size,
                                                 eof := false },
                        index := (self.index + 2 ^ 32 - 2) % 2 ^ 32 }, e) := by
  obtain ⟨k, rfl⟩ : ∃ k, q = k + 2 := ⟨q - 2, by omega⟩
  have hk : ((k + 2) * self.file_frame_size : Nat) = k * self.file_frame_size
      + 2 * self.file_frame_size := by ring
  have hs : ((self.file.pos : Nat) : Int) + -((2 * self.file_frame_size : Nat) : Int)
      = ((k * self.file_frame_size : Nat) : Int) := by
    rw [hp, hk]; omega
  simp only [seek_to_previous_frame, to_off_t_neg2 _ h0 h, ftello]
  rw [if_neg (by rw [hs]; omega), fseeko_cur_ok _ _ _ _ hs]
  simp [hy]

theorem seek_prev_raw_overflow (self : vraw_reader) (e : Int) (q : Nat)
    (h0 : 0 < self.file_frame_size)
    (h : self.file_frame_size < 2 ^ 62) (hp : self.file.pos = q * self.file_frame_size)
    (hq : q < 2) :
    seek_to_previous_frame self e = (-EOVERFLOW, self, e) := by
  simp only [seek_to_previous_frame, to_off_t_neg2 _ h0 h, ftello, hp]
  rw [if_pos]
  have : q * self.file_frame_size ≤ 1 * self.file_frame_size :=
    Nat.mul_le_mul_right _ (by omega)
  omega


theorem read_planes_full (self : vraw_reader) (buf : Mem) (e : Int) (data : Nat)
    (ht : Tight self) (hd : data ≠ 0)
    (hpos : self.file.pos + self.file_frame_size ≤ self.file.data.length) :
    vraw_reader_frame_read_planes ⟨self, buf, e⟩ data
      = (1, ⟨{ self with file := { self.file with pos := self.file.pos + self.file_frame_size },
                         index := (self.index + 1) % 2 ^ 32 },
              blit buf data self.file.data self.file.pos self.file_frame_size, EINVAL⟩) := by
  have hF := ht.file_frame
  have hh := ht.height_pos
  have hh0 : self.cfg.info.resolution.height ≠ 0 := by omega
  simp only [vraw_reader_frame_read_planes, if_neg hd, ht.stride0, ht.size0]
  rcases ht.layout with hl | hl | hl
  · simp only [frame_bytes, hl] at hF
    rw [read_rows_full _ ht.row_pos _ _ _ _ _ (by rw [Nat.mul_comm]; omega)]
    simp [hl, hh0, hF, Nat.mul_comm]
  · obtain ⟨s1, s2, z1⟩ := ht.planar hl
    have hc := ht.chroma_pos hl
    simp only [frame_bytes, hl] at hF
    rw [read_rows_full _ ht.row_pos _ _ _ _ _ (by rw [Nat.mul_comm]; omega)]
    simp only [hl, s1, s2, z1, hh0, if_false]
    rw [read_rows_full _ hc _ _ _ _ _ (by
      simp only; rw [Nat.mul_comm (_ / 2), Nat.mul_comm _ (row_bytes self)]; omega)]
    simp only
    rw [read_rows_full _ hc _ _ _ _ _ (by
      simp only; rw [Nat.mul_comm (_ / 2), Nat.mul_comm _ (row_bytes self)]; omega)]
    simp only [Nat.mul_comm _ (row_bytes self), Nat.mul_comm _ (row_bytes self / 2), blit_blit,
      Nat.add_assoc, ← hF]
    simp
  · have s1 := ht.semi hl
    simp only [frame_bytes, hl] at hF
    rw [read_rows_full _ ht.row_pos _ _ _ _ _ (by rw [Nat.mul_comm]; omega)]
    simp only [hl, s1, hh0, if_false]
    rw [read_rows_full _ ht.row_pos _ _ _ _ _ (by
      simp only; rw [Nat.mul_comm _ (row_bytes self), Nat.mul_comm _ (row_bytes self)]; omega)]
    simp only [Nat.mul_comm _ (row_bytes self), blit_blit, Nat.add_assoc, ← hF]
    simp

theorem read_planes_at_end (self : vraw_reader) (buf : Mem) (e : Int) (data : Nat)
    (ht : Tight self) (hd : data ≠ 0) (hpos : self.file.pos = self.file.data.length) :
    vraw_reader_frame_read_planes ⟨self, buf, e⟩ data
      = (0, ⟨{ self with file := { self.file with eof := true } }, buf, EINVAL⟩) := by
  obtain ⟨h, hh⟩ : ∃ h, self.cfg.info.resolution.height = h + 1 :=
    ⟨self.cfg.info.resolution.height - 1, by have := ht.height_pos; omega⟩
  simp only [vraw_reader_frame_read_planes, if_neg hd, hh]
  rw [read_rows_at_end _ _ ht.row_pos _ _ _ _ _ hpos]

theorem frame_bytes_pos (r : vraw_reader) (ht : Tight r) : 0 < r.file_frame_size := by
  rw [ht.file_frame]
  have h1 := ht.row_pos
  have h2 := ht.height_pos
  have : 0 < row_bytes r * r.cfg.info.resolution.height := Nat.mul_pos h1 h2
  unfold frame_bytes
  split <;> omega


theorem at_frame_tight (r : vraw_reader) (p : Nat) (rev : Int) (idx c t : Nat) (ht : Tight r) :
    Tight (at_frame r p rev idx c t) := by
  constructor
  · exact ht.layout
  · exact ht.row_pos
  · exact ht.height_pos
  · exact ht.chroma_pos
  · exact ht.stride0
  · exact ht.size0
  · exact ht.semi
  · exact ht.planar
  · exact ht.file_frame
  · exact ht.small

theorem frame_read_forward (env : VdefEnv) (r : vraw_reader) (N : Nat) (hr : RawSession r N)
    (data len : Nat) (hd : data ≠ 0) (hlen : len ≠ 0) (hsz : r.frame_size ≤ len)
    (p : Nat) (hp : p < N) (fuel idx c t : Nat) (buf : Mem) (e : Int) (fr : vraw_frame) :
    vraw_reader_frame_read env (fuel + 1) ⟨at_frame r p 0 idx c t, buf, e⟩ data len (some fr)
      = .done (0,
          ⟨at_frame r (p + 1) 0 ((idx + 1) % 2 ^ 32) ((c + 1) % 2 ^ 32)
              ((t + 1000000 * r.cfg.info.framerate.den / r.cfg.info.framerate.num) % 2 ^ 64),
            blit buf data r.file.data (p * r.file_frame_size) r.file_frame_size, EINVAL⟩,
          some (fill_frame_info env (at_frame r (p + 1) 0 ((idx + 1) % 2 ^ 32) c t) data fr)) := by
  have hpl := read_planes_full (at_frame r p 0 idx c t) buf e data
    (at_frame_tight r p 0 idx c t hr.tight) hd (by
      have : (p + 1) * r.file_frame_size ≤ N * r.file_frame_size :=
        Nat.mul_le_mul_right _ (by omega)
      have e1 : (p + 1) * r.file_frame_size = p * r.file_frame_size + r.file_frame_size := by
        ring
      simp only [at_frame, hr.length]
      omega)
  have hy := hr.y4m
  have hm := hr.max_count
  have hn := hr.num
  have e1 : p * r.file_frame_size + r.file_frame_size = (p + 1) * r.file_frame_size := by ring
  rw [vraw_reader_frame_read]
  simp only [if_neg hd, if_neg hlen]
  rw [if_neg (by simp only [at_frame]; omega)]
  simp only [at_frame] at hpl ⊢
  simp only [hy, ne_eq, not_true_eq_false, if_false, hpl, feof, hm, e1]
  simp [frame_read_finish, hn, fill_frame_info]


theorem frame_read_finish_rev (env : VdefEnv) (st : State) (data : Nat) (fr : vraw_frame)
    (q : Nat) (hy : st.self.cfg.y4m = 0) (hn : st.self.cfg.info.framerate.num ≠ 0)
    (hrev : st.self.reverse = 1) (h0 : 0 < st.self.file_frame_size)
    (h : st.self.file_frame_size < 2 ^ 62) (hp : st.self.file.pos = q * st.self.file_frame_size) :
    frame_read_finish env st data fr
      = .done (0,
          { st with self :=
              if 2 ≤ q then
                { st.self with
                    file := { st.self.file with pos := (q - 2) * st.self.file_frame_size,
                                                eof := false },
                    index := (st.self.index + 2 ^ 32 - 2) % 2 ^ 32,
                    count := (st.self.count + 1) % 2 ^ 32,
                    timestamp := (st.self.timestamp + 1000000 * st.self.cfg.info.framerate.den
                      / st.self.cfg.info.framerate.num) % 2 ^ 64 }
              else
                { st.self with
                    reverse := 0,
                    count := (st.self.count + 1) % 2 ^ 32,
                    timestamp := (st.self.timestamp + 1000000 * st.self.cfg.info.framerate.den
                      / st.self.cfg.info.framerate.num) % 2 ^ 64 } },
          some (fill_frame_info env st.self data fr)) := by
  simp only [frame_read_finish, hn, if_false, hrev]
  by_cases h1 : 2 ≤ q
  · rw [seek_prev_raw_ok _ _ q ?_ ?_ ?_ ?_ h1]
    · simp [h1]
    · exact hy
    · exact h0
    · exact h
    · exact hp
  · rw [seek_prev_raw_overflow _ _ q ?_ ?_ ?_ (by omega)]
    · simp [h1, EOVERFLOW]
    · exact h0
    · exact h
    · exact hp

theorem frame_read_backward (env : VdefEnv) (r : vraw_reader) (N : Nat) (hr : RawSession r N)
    (data len : Nat) (hd : data ≠ 0) (hlen : len ≠ 0) (hsz : r.frame_size ≤ len)
    (p : Nat) (hp : p < N) (fuel idx c t : Nat) (buf : Mem) (e : Int) (fr : vraw_frame) :
    vraw_reader_frame_read env (fuel + 1) ⟨at_frame r p 1 idx c t, buf, e⟩ data len (some fr)
      = .done (0,
          ⟨(if 1 ≤ p then
              at_frame r (p - 1) 1 (((idx + 1) % 2 ^ 32 + 2 ^ 32 - 2) % 2 ^ 32)
                ((c + 1) % 2 ^ 32)
                ((t + 1000000 * r.cfg.info.framerate.den / r.cfg.info.framerate.num) % 2 ^ 64)
            else
              at_frame r (p + 1) 0 ((idx + 1) % 2 ^ 32) ((c + 1) % 2 ^ 32)
                ((t + 1000000 * r.cfg.info.framerate.den / r.cfg.info.framerate.num) % 2 ^ 64)),
            blit buf data r.file.data (p * r.file_frame_size) r.file_frame_size, EINVAL⟩,
          some (fill_frame_info env (at_frame r (p + 1) 1 ((idx + 1) % 2 ^ 32) c t) data fr)) := by
  have hpl := read_planes_full (at_frame r p 1 idx c t) buf e data
    (at_frame_tight r p 1 idx c t hr.tight) hd (by
      have : (p + 1) * r.file_frame_size ≤ N * r.file_frame_size :=
        Nat.mul_le_mul_right _ (by omega)
      have e1 : (p + 1) * r.file_frame_size = p * r.file_frame_size + r.file_frame_size := by
        ring
      simp only [at_frame, hr.length]
      omega)
  have hy := hr.y4m
  have hm := hr.max_count
  have hn := hr.num
  have hF0 := frame_bytes_pos r hr.tight
  have hF := hr.tight.small
  have e1 : p * r.file_frame_size + r.file_frame_size = (p + 1) * r.file_frame_size := by ring
  rw [vraw_reader_frame_read]
  simp only [if_neg hd, if_neg hlen]
  rw [if_neg (by simp only [at_frame]; omega)]
  simp only [at_frame] at hpl ⊢
  simp only [hy, ne_eq, not_true_eq_false, if_false, hpl, feof, hm, e1, Bool.false_eq_true,
    false_or, gt_iff_lt, lt_self_iff_false, false_and]
  rw [frame_read_finish_rev env _ data fr (p + 1) hy hn rfl hF0 hF rfl]
  by_cases h1 : 1 ≤ p
  · have h2 : 2 ≤ p + 1 := by omega
    simp [h1, h2]
  · have h2 : ¬ 2 ≤ p + 1 := by omega
    simp [h1, h2]

theorem frame_read_eof_noloop (env : VdefEnv) (r : vraw_reader) (N : Nat) (hr : RawSession r N)
    (hl : r.cfg.loop = 0)
    (data len : Nat) (hd : data ≠ 0) (hlen : len ≠ 0) (hsz : r.frame_size ≤ len)
    (fuel idx c t : Nat) (rev : Int) (buf : Mem) (e : Int) (fr : vraw_frame) :
    vraw_reader_frame_read env (fuel + 1) ⟨at_frame r N rev idx c t, buf, e⟩ data len (some fr)
      = .done (-ENOENT,
          ⟨{ at_frame r N rev idx c t with
              file := { (at_frame r N rev idx c t).file with eof := true } }, buf, EINVAL⟩,
          some fr) := by
  have hpl := read_planes_at_end (at_frame r N rev idx c t) buf e data
    (at_frame_tight r N rev idx c t hr.tight) hd (by simp only [at_frame, hr.length])
  have hy := hr.y4m
  rw [vraw_reader_frame_read]
  simp only [if_neg hd, if_neg hlen]
  rw [if_neg (by simp only [at_frame]; omega)]
  simp only [at_frame] at hpl ⊢
  simp only [hy, ne_eq, not_true_eq_false, if_false, hpl, feof, hl]
  simp

theorem frame_read_eof_loop (env : VdefEnv) (r : vraw_reader) (N : Nat) (hr : RawSession r N)
    (hl : r.cfg.loop > 0) (hN : 1 ≤ N)
    (data len : Nat) (hd : data ≠ 0) (hlen : len ≠ 0) (hsz : r.frame_size ≤ len)
    (fuel idx c t : Nat) (buf : Mem) (e : Int) (fr : vraw_frame) :
    vraw_reader_frame_read env (fuel + 2) ⟨at_frame r N 0 idx c t, buf, e⟩ data len (some fr)
      = .done (0,
          ⟨at_frame r 1 0 1 ((c + 1) % 2 ^ 32)
              ((t + 1000000 * r.cfg.info.framerate.den / r.cfg.info.framerate.num) % 2 ^ 64),
            blit buf data r.file.data 0 r.file_frame_size, EINVAL⟩,
          some (fill_frame_info env (at_frame r 1 0 1 c t) data fr)) := by
  have hpl := read_planes_at_end (at_frame r N 0 idx c t) buf e data
    (at_frame_tight r N 0 idx c t hr.tight) hd (by simp only [at_frame, hr.length])
  have hy := hr.y4m
  have hnext := frame_read_forward env r N hr data len hd hlen hsz 0 (by omega) fuel 0 c t buf
    EINVAL fr
  rw [vraw_reader_frame_read]
  simp only [if_neg hd, if_neg hlen]
  rw [if_neg (by simp only [at_frame]; omega)]
  simp only [at_frame] at hpl hnext ⊢
  have hh : ((r.header_offset : Nat) : Int) = 0 := by simp [hr.header]
  simp only [hy, ne_eq, not_true_eq_false, if_false, hpl, feof, hl, hh, fseeko_to]
  simp only [Nat.zero_mul, Nat.zero_add] at hnext
  simpa using hnext

theorem frame_read_eof_reverse (env : VdefEnv) (r : vraw_reader) (N : Nat)
    (hr : RawSession r N) (hl : r.cfg.loop < 0) (hN : 2 ≤ N)
    (data len : Nat) (hd : data ≠ 0) (hlen : len ≠ 0) (hsz : r.frame_size ≤ len)
    (fuel idx c t : Nat) (buf : Mem) (e : Int) (fr : vraw_frame) :
    vraw_reader_frame_read env (fuel + 2) ⟨at_frame r N 0 idx c t, buf, e⟩ data len (some fr)
      = vraw_reader_frame_read env (fuel + 1)
          ⟨at_frame r (N - 2) 1 ((idx + 2 ^ 32 - 2) % 2 ^ 32) c t, buf, EINVAL⟩ data len
          (some fr) := by
  have hpl := read_planes_at_end (at_frame r N 0 idx c t) buf e data
    (at_frame_tight r N 0 idx c t hr.tight) hd (by simp only [at_frame, hr.length])
  have hy := hr.y4m
  have hF0 := frame_bytes_pos r hr.tight
  have hF := hr.tight.small
  have hl' : ¬ r.cfg.loop > 0 := by omega
  rw [vraw_reader_frame_read]
  simp only [if_neg hd, if_neg hlen]
  rw [if_neg (by simp only [at_frame]; omega)]
  simp only [at_frame] at hpl ⊢
  simp only [hy, ne_eq, not_true_eq_false, if_false, hpl, feof, hl, hl']
  simp only [true_or, if_true]
  rw [seek_prev_raw_ok _ _ N ?_ ?_ ?_ ?_ hN]
  · simp
  · exact hy
  · exact hF0
  · exact hF
  · rfl


theorem rint_natCast (n : Nat) : rint (n : ℚ) = (n : ℚ) := by
  simp [rint]

theorem rint_float_of_size_t (n : Nat) : rint (float_of_size_t n) = float_of_size_t n :=
  rint_natCast _

theorem size_t_of_float_of_size_t (n : Nat) :
    size_t_of_float (float_of_size_t n) = round_to_float n := by
  simp [size_t_of_float, float_of_size_t]

theorem reader_new_enforce_num (self : vraw_reader) :
    (reader_new_enforce self).cfg.info.framerate.num ≠ 0 := by
  by_cases h : vdef_frac_is_null self.cfg.info.framerate = true <;>
    by_cases h2 : vdef_dim_is_null self.cfg.info.sar = true
  · simp [reader_new_enforce, h, h2]
  · simp [reader_new_enforce, h, h2]
  · have : self.cfg.info.framerate.num ≠ 0 := by
      simp [vdef_frac_is_null] at h
      exact h.1
    simpa [reader_new_enforce, h, h2] using this
  · have : self.cfg.info.framerate.num ≠ 0 := by
      simp [vdef_frac_is_null] at h
      exact h.1
    simpa [reader_new_enforce, h, h2] using this

theorem reader_new_enforce_fields (self : vraw_reader) :
    (reader_new_enforce self).cfg.y4m = self.cfg.y4m
    ∧ (reader_new_enforce self).cfg.loop = self.cfg.loop
    ∧ (reader_new_enforce self).cfg.max_count = self.cfg.max_count
    ∧ (reader_new_enforce self).cfg.start_index = self.cfg.start_index
    ∧ (reader_new_enforce self).cfg.start_reversed = self.cfg.start_reversed
    ∧ (reader_new_enforce self).cfg.format = self.cfg.format
    ∧ (reader_new_enforce self).cfg.info.resolution = self.cfg.info.resolution
    ∧ (reader_new_enforce self).header_offset = self.header_offset
    ∧ (reader_new_enforce self).frame_header_size = self.frame_header_size
    ∧ (reader_new_enforce self).file = self.file
    ∧ (reader_new_enforce self).file_size = self.file_size
    ∧ (reader_new_enforce self).reverse = self.reverse
    ∧ (reader_new_enforce self).index = self.index
    ∧ (reader_new_enforce self).count = self.count
    ∧ (reader_new_enforce self).timestamp = self.timestamp := by
  by_cases h : vdef_frac_is_null self.cfg.info.framerate = true <;>
    by_cases h2 : vdef_dim_is_null self.cfg.info.sar = true <;>
    simp [reader_new_enforce, h, h2]

theorem reader_new_align_fields (env : VdefEnv) (self : vraw_reader) :
    (reader_new_align env self).cfg.y4m = self.cfg.y4m
    ∧ (reader_new_align env self).cfg.loop = self.cfg.loop
    ∧ (reader_new_align env self).cfg.max_count = self.cfg.max_count
    ∧ (reader_new_align env self).cfg.start_index = self.cfg.start_index
    ∧ (reader_new_align env self).cfg.start_reversed = self.cfg.start_reversed
    ∧ (reader_new_align env self).cfg.format = self.cfg.format
    ∧ (reader_new_align env self).cfg.info = self.cfg.info
    ∧ (reader_new_align env self).header_offset = self.header_offset
    ∧ (reader_new_align env self).frame_header_size = self.frame_header_size
    ∧ (reader_new_align env self).file = self.file
    ∧ (reader_new_align env self).file_size = self.file_size
    ∧ (reader_new_align env self).reverse = self.reverse
    ∧ (reader_new_align env self).index = self.index
    ∧ (reader_new_align env self).count = self.count
    ∧ (reader_new_align env self).timestamp = self.timestamp := by
  by_cases h : align_constrained self.cfg
      (env.vdef_get_raw_frame_plane_count self.cfg.format) = false <;>
    simp [reader_new_align, h]

theorem reader_new_geometry_fields (env : VdefEnv) (s : vraw_reader) (k : Nat) :
    (reader_new_mem_geometry env
        { reader_new_file_geometry env s with file_frame_count := k }).cfg = s.cfg
    ∧ (reader_new_mem_geometry env
        { reader_new_file_geometry env s with file_frame_count := k }).file = s.file
    ∧ (reader_new_mem_geometry env
        { reader_new_file_geometry env s with file_frame_count := k }).reverse = s.reverse
    ∧ (reader_new_mem_geometry env
        { reader_new_file_geometry env s with file_frame_count := k }).header_offset
          = s.header_offset
    ∧ (reader_new_mem_geometry env
        { reader_new_file_geometry env s with file_frame_count := k }).frame_header_size
          = s.frame_header_size
    ∧ (reader_new_mem_geometry env
        { reader_new_file_geometry env s with file_frame_count := k }).file_size = s.file_size
    ∧ (reader_new_mem_geometry env
        { reader_new_file_geometry env s with file_frame_count := k }).index = s.index
    ∧ (reader_new_mem_geometry env
        { reader_new_file_geometry env s with file_frame_count := k }).count = s.count
    ∧ (reader_new_mem_geometry env
        { reader_new_file_geometry env s with file_frame_count := k }).timestamp = s.timestamp
    ∧ (reader_new_mem_geometry env
        { reader_new_file_geometry env s with file_frame_count := k }).file_frame_count = k
    ∧ (reader_new_mem_geometry env
        { reader_new_file_geometry env s with file_frame_count := k }).file_frame_size
          = (reader_new_file_geometry env s).file_frame_size := by
  simp [reader_new_mem_geometry, reader_new_file_geometry]

theorem reader_new_raw (env : VdefEnv) (file : List Byte) (cfg : vraw_reader_config)
    (e0 e1 : Int) (r : vraw_reader) (hy : cfg.y4m = 0) (hs : cfg.start_index = 0)
    (hnew : vraw_reader_new env (some file) cfg e0 = .done (0, some r, e1)) :
    r.cfg.y4m = 0 ∧ r.cfg.loop = cfg.loop ∧ r.cfg.max_count = cfg.max_count
    ∧ r.cfg.info.framerate.num ≠ 0 ∧ r.header_offset = 0 ∧ r.frame_header_size = 0
    ∧ r.file = ⟨file, 0, false⟩ ∧ r.reverse = 0 ∧ r.index = 0 ∧ r.count = 0
    ∧ r.timestamp = 0 ∧ r.file_size = file.length := by
  unfold vraw_reader_new at hnew
  split at hnew
  · simp at hnew
  · have ho : (reader_new_open file cfg).cfg.y4m = 0 := hy
    simp only [ho, ne_eq, not_true_eq_false, if_false, lt_self_iff_false] at hnew
    split_ifs at hnew with h1
    · simp at hnew
    · split at hnew
      · simp at hnew
      · rename_i ffc hffc
        split_ifs at hnew with h2
        swap
        · simp at hnew
        · obtain ⟨a1, a2, a3, a4, a5, a6, a7, a8, a9, a10, a11, a12, a13, a14, a15⟩ :=
            reader_new_enforce_fields (reader_new_open file cfg)
          obtain ⟨b1, b2, b3, b4, b5, b6, b7, b8, b9, b10, b11, b12, b13, b14, b15⟩ :=
            reader_new_align_fields env (reader_new_enforce (reader_new_open file cfg))
          obtain ⟨c1, c2, c3, c4, c5, c6, c7, c8, c9, c10, c11⟩ :=
            reader_new_geometry_fields env
              (reader_new_align env (reader_new_enforce (reader_new_open file cfg)))
              (size_t_of_float ffc)
          have hnum := reader_new_enforce_num (reader_new_open file cfg)
          simp only [Run.done.injEq] at hnew
          rw [reader_new_start, if_neg (by rw [c1, b4, a4]; show ¬ cfg.start_index > 0; omega)]
            at hnew
          simp only [Prod.mk.injEq, Option.some.injEq, true_and] at hnew
          obtain ⟨rfl, -⟩ := hnew
          rw [c1, c2, c3, c4, c5, c6, c7, c8, c9, b1, b2, b3, b7, b8, b9, b10, b11, b12, b13,
            b14, b15, a1, a2, a3, a8, a9, a10, a11, a12, a13, a14, a15]
          exact ⟨hy, rfl, rfl, hnum, rfl, rfl, rfl, rfl, rfl, rfl, rfl, rfl⟩


theorem reader_new_raw_session (env : VdefEnv) (file : List Byte) (cfg : vraw_reader_config)
    (e0 e1 : Int) (r : vraw_reader) (N : Nat) (hy : cfg.y4m = 0) (hm : cfg.max_count = 0)
    (hs : cfg.start_index = 0)
    (hnew : vraw_reader_new env (some file) cfg e0 = .done (0, some r, e1))
    (ht : Tight r) (hN : file.length = N * r.file_frame_size) :
    RawSession r N ∧ r = at_frame r 0 0 0 0 0 ∧ r.file.data = file ∧ r.cfg.loop = cfg.loop := by
  obtain ⟨h1, h2, h3, h4, h5, h6, h7, h8, h9, h10, h11, h12⟩ :=
    reader_new_raw env file cfg e0 e1 r hy hs hnew
  refine ⟨⟨h1, by rw [h3, hm], h4, h5, ht, by rw [h7]; exact hN⟩, ?_, by rw [h7], h2⟩
  cases r
  simp only [at_frame] at *
  simp [h7, h8, h9, h10, h11]

theorem read_frames_forward (env : VdefEnv) (r : vraw_reader) (N : Nat) (hr : RawSession r N)
    (data len : Nat) (hd : data ≠ 0) (hlen : len ≠ 0) (hsz : r.frame_size ≤ len)
    (fuel : Nat) (buf : Mem) (e : Int) (fr : vraw_frame) (k : Nat) (hk : k ≤ N) :
    ∃ idx c t buf1 e1 fr1,
      read_frames env (fuel + 1) data len k ⟨at_frame r 0 0 0 0 0, buf, e⟩ fr
        = some (⟨at_frame r k 0 idx c t, buf1, e1⟩, fr1) := by
  induction k with
  | zero => exact ⟨0, 0, 0, buf, e, fr, rfl⟩
  | succ n ih =>
    obtain ⟨idx, c, t, buf1, e1, fr1, h⟩ := ih (by omega)
    rw [read_frames, h]
    simp only
    rw [frame_read_forward env r N hr data len hd hlen hsz n (by omega)]
    exact ⟨_, _, _, _, _, _, rfl⟩


theorem reader_new_raw_eval (env : VdefEnv) (file : List Byte) (cfg : vraw_reader_config)
    (e : Int) (hc : reader_new_check env cfg = none) (hy : cfg.y4m = 0)
    (hs : cfg.start_index = 0)
    (hres : vdef_dim_is_null cfg.info.resolution = false)
    (hF : (reader_new_file_geometry env (reader_new_align env
      (reader_new_enforce (reader_new_open file cfg)))).file_frame_size ≠ 0) :
    vraw_reader_new env (some file) cfg e
      = .done (0, some (reader_new_mem_geometry env
          { reader_new_file_geometry env (reader_new_align env
              (reader_new_enforce (reader_new_open file cfg)))
            with file_frame_count := round_to_float (file.length
              / (reader_new_file_geometry env (reader_new_align env
                  (reader_new_enforce (reader_new_open file cfg)))).file_frame_size) }), e) := by
  obtain ⟨a1, a2, a3, a4, a5, a6, a7, a8, a9, a10, a11, a12, a13, a14, a15⟩ :=
    reader_new_enforce_fields (reader_new_open file cfg)
  obtain ⟨b1, b2, b3, b4, b5, b6, b7, b8, b9, b10, b11, b12, b13, b14, b15⟩ :=
    reader_new_align_fields env (reader_new_enforce (reader_new_open file cfg))
  have g : ∀ s : vraw_reader, (reader_new_file_geometry env s).header_offset = s.header_offset
      ∧ (reader_new_file_geometry env s).frame_header_size = s.frame_header_size
      ∧ (reader_new_file_geometry env s).file_size = s.file_size := by
    intro s; simp [reader_new_file_geometry]
  obtain ⟨g1, g2, g3⟩ := g (reader_new_align env (reader_new_enforce (reader_new_open file cfg)))
  have ho : (reader_new_open file cfg).cfg.y4m = 0 := hy
  have hres' : vdef_dim_is_null
      (reader_new_enforce (reader_new_open file cfg)).cfg.info.resolution = false := by
    rw [a7]; exact hres
  have hcount : reader_new_frame_count (reader_new_file_geometry env (reader_new_align env
      (reader_new_enforce (reader_new_open file cfg))))
        = some (float_of_size_t (file.length
            / (reader_new_file_geometry env (reader_new_align env
                (reader_new_enforce (reader_new_open file cfg)))).file_frame_size)) := by
    have o1 : (reader_new_open file cfg).header_offset = 0 := rfl
    have o2 : (reader_new_open file cfg).frame_header_size = 0 := rfl
    have o3 : (reader_new_open file cfg).file_size = file.length := rfl
    rw [reader_new_frame_count, g1, g2, g3, b8, b9, b11, a8, a9, a11, o1, o2, o3,
      Nat.add_zero, Nat.sub_zero, if_neg hF]
  unfold vraw_reader_new
  rw [hc]
  simp only [ho, ne_eq, not_true_eq_false, if_false, lt_self_iff_false, hres',
    Bool.false_eq_true, hcount, rint_float_of_size_t, size_t_of_float_of_size_t]
  obtain ⟨c1, -⟩ := reader_new_geometry_fields env
      (reader_new_align env (reader_new_enforce (reader_new_open file cfg)))
      (round_to_float (file.length
              / (reader_new_file_geometry env (reader_new_align env
                  (reader_new_enforce (reader_new_open file cfg)))).file_frame_size))
  rw [reader_new_start, if_neg (by rw [c1, b4, a4]; show ¬ cfg.start_index > 0; omega)]

theorem sample_reader_new :
    vraw_reader_new sample_env (some (count_bytes 18)) (sample_config 0 0 sample_env.vdef_i420) 0
      = .done (0, some (sample_reader 0 (count_bytes 18) 3), 0) :=
  reader_new_raw_eval sample_env (count_bytes 18) (sample_config 0 0 sample_env.vdef_i420) 0
    (by decide) (by decide) (by decide) (by decide) (by decide)

theorem sample_reader_tight  :
    Tight (sample_reader 0 (count_bytes 18) 3) := by
  constructor
  · exact Or.inr (Or.inl rfl)
  · decide
  · decide
  · intro _; decide
  · decide
  · decide
  · intro h; exact absurd h (by decide)
  · intro _; exact ⟨by decide, by decide, by decide⟩
  · decide
  · decide


theorem sample_reader_new_loop :
    vraw_reader_new sample_env (some (count_bytes 18)) (sample_config 0 1 sample_env.vdef_i420) 0
      = .done (0, some (sample_reader 1 (count_bytes 18) 3), 0) :=
  reader_new_raw_eval sample_env (count_bytes 18) (sample_config 0 1 sample_env.vdef_i420) 0
    (by decide) (by decide) (by decide) (by decide) (by decide)

theorem sample_reader_tight_loop : Tight (sample_reader 1 (count_bytes 18) 3) := by
  constructor
  · exact Or.inr (Or.inl rfl)
  · decide
  · decide
  · intro _; decide
  · decide
  · decide
  · intro h; exact absurd h (by decide)
  · intro _; exact ⟨by decide, by decide, by decide⟩
  · decide
  · decide

theorem sample_reader_new_reverse :
    vraw_reader_new sample_env (some (count_bytes 30))
        (sample_config 0 (-1) sample_env.vdef_i420) 0
      = .done (0, some (sample_reader (-1) (count_bytes 30) 5), 0) :=
  reader_new_raw_eval sample_env (count_bytes 30) (sample_config 0 (-1) sample_env.vdef_i420) 0
    (by decide) (by decide) (by decide) (by decide) (by decide)

theorem sample_reader_tight_reverse : Tight (sample_reader (-1) (count_bytes 30) 5) := by
  constructor
  · exact Or.inr (Or.inl rfl)
  · decide
  · decide
  · intro _; decide
  · decide
  · decide
  · intro h; exact absurd h (by decide)
  · intro _; exact ⟨by decide, by decide, by decide⟩
  · decide
  · decide
theorem loop_pos_spec (N : Nat) (hN : 1 ≤ N) (i : Nat) :
    loop_pos N i ≤ N ∧ loop_pos N i % N = i % N := by
  induction i with
  | zero => simp [loop_pos]
  | succ n ih =>
    obtain ⟨h1, h2⟩ := ih
    rw [loop_pos]
    by_cases h : loop_pos N n < N
    · rw [if_pos h]
      refine ⟨by omega, ?_⟩
      rw [Nat.add_mod, h2, ← Nat.add_mod]
    · rw [if_neg h]
      have hN' : loop_pos N n = N := by omega
      rw [hN', Nat.mod_self] at h2
      refine ⟨hN, ?_⟩
      rw [Nat.add_mod n 1, ← h2, Nat.zero_add, Nat.mod_mod]

theorem read_frames_loop (env : VdefEnv) (r : vraw_reader) (N : Nat) (hr : RawSession r N)
    (hl : r.cfg.loop > 0) (hN : 1 ≤ N)
    (data len : Nat) (hd : data ≠ 0) (hlen : len ≠ 0) (hsz : r.frame_size ≤ len)
    (fuel : Nat) (buf : Mem) (e : Int) (fr : vraw_frame) (i : Nat) :
    ∃ idx c t buf1 e1 fr1,
      read_frames env (fuel + 2) data len i ⟨at_frame r 0 0 0 0 0, buf, e⟩ fr
        = some (⟨at_frame r (loop_pos N i) 0 idx c t, buf1, e1⟩, fr1) := by
  induction i with
  | zero => exact ⟨0, 0, 0, buf, e, fr, rfl⟩
  | succ n ih =>
    obtain ⟨idx, c, t, buf1, e1, fr1, h⟩ := ih
    have hle := (loop_pos_spec N hN n).1
    rw [read_frames, h, loop_pos]
    simp only
    by_cases hp : loop_pos N n < N
    · rw [frame_read_forward env r N hr data len hd hlen hsz _ hp, if_pos hp]
      exact ⟨_, _, _, _, _, _, rfl⟩
    · have hN' : loop_pos N n = N := by omega
      rw [hN', frame_read_eof_loop env r N hr hl hN data len hd hlen hsz, if_neg (by omega)]
      exact ⟨_, _, _, _, _, _, rfl⟩

theorem succ_mod_cases (i M : Nat) (hM : 2 ≤ M) :
    (i % M + 1 < M ∧ (i + 1) % M = i % M + 1) ∨ (i % M + 1 = M ∧ (i + 1) % M = 0) := by
  have h1 : i % M < M := Nat.mod_lt i (by omega)
  have h2 : (i + 1) % M = (i % M + 1) % M := by
    rw [Nat.add_mod, Nat.mod_eq_of_lt (show 1 < M by omega)]
  by_cases h : i % M + 1 < M
  · left
    exact ⟨h, by rw [h2, Nat.mod_eq_of_lt h]⟩
  · right
    have h3 : i % M + 1 = M := by omega
    exact ⟨h3, by rw [h2, h3, Nat.mod_self]⟩

theorem pingpong_state_succ (N : Nat) (hN : 2 ≤ N) (i : Nat) :
    pingpong_state N (i + 1)
      = if i % (2 * (N - 1)) + 1 ≤ N then (i % (2 * (N - 1)) + 1, false)
        else (2 * (N - 1) - (i % (2 * (N - 1)) + 1), true) := by
  induction i with
  | zero =>
    simp only [pingpong_state, pingpong_step, Nat.zero_mod]
    rw [if_pos (by omega), if_pos (by omega)]
  | succ n ih =>
    rw [pingpong_state, ih]
    rcases succ_mod_cases n (2 * (N - 1)) (by omega) with ⟨h1, h2⟩ | ⟨h1, h2⟩
    · rw [h2]
      by_cases ha : n % (2 * (N - 1)) + 1 ≤ N
      · rw [if_pos ha]
        simp only [pingpong_step]
        by_cases hb : n % (2 * (N - 1)) + 1 < N
        · rw [if_pos hb, if_pos (by omega)]
        · rw [if_neg hb, if_neg (by omega)]
          simp only [pingpong_back]
          rw [if_pos (by omega)]
          simp only [Prod.mk.injEq, and_true]
          omega
      · rw [if_neg ha, if_neg (by omega)]
        simp only [pingpong_step, pingpong_back]
        rw [if_pos (by omega)]
        simp only [Prod.mk.injEq, and_true]
        omega
    · rw [h2]
      by_cases ha : n % (2 * (N - 1)) + 1 ≤ N
      · rw [if_pos ha, if_pos (by omega)]
        simp only [pingpong_step]
        rw [if_neg (by omega)]
        simp only [pingpong_back]
        rw [if_neg (by omega)]
        simp only [Prod.mk.injEq, and_true]
        omega
      · rw [if_neg ha, if_pos (by omega)]
        simp only [pingpong_step, pingpong_back]
        rw [if_neg (by omega)]
        simp only [Prod.mk.injEq, and_true]
        omega

theorem pingpong_frame_eq (N : Nat) (hN : 2 ≤ N) (i : Nat) :
    pingpong_frame N (pingpong_state N i) = pingpong_pos N i := by
  cases i with
  | zero =>
    simp only [pingpong_state, pingpong_frame, pingpong_pos, Nat.zero_mod]
    rw [if_pos (by omega), if_pos (by omega)]
  | succ n =>
    rw [pingpong_state_succ N hN n, pingpong_pos]
    rcases succ_mod_cases n (2 * (N - 1)) (by omega) with ⟨h1, h2⟩ | ⟨h1, h2⟩
    · rw [h2]
      by_cases ha : n % (2 * (N - 1)) + 1 ≤ N
      · rw [if_pos ha]
        simp only [pingpong_frame]
        by_cases hb : n % (2 * (N - 1)) + 1 < N
        · rw [if_pos hb, if_pos hb]
        · rw [if_neg hb, if_neg hb]
          omega
      · rw [if_neg ha, if_neg (by omega)]
        simp only [pingpong_frame]
    · rw [h2]
      by_cases ha : n % (2 * (N - 1)) + 1 ≤ N
      · rw [if_pos ha, if_pos (by omega)]
        simp only [pingpong_frame]
        rw [if_neg (by omega)]
        omega
      · rw [if_neg ha, if_pos (by omega)]
        simp only [pingpong_frame]
        omega

theorem pingpong_state_bound (N : Nat) (hN : 2 ≤ N) (i : Nat) :
    ((pingpong_state N i).2 = false → (pingpong_state N i).1 ≤ N)
    ∧ ((pingpong_state N i).2 = true → (pingpong_state N i).1 < N) := by
  cases i with
  | zero => simp [pingpong_state]
  | succ n =>
    rw [pingpong_state_succ N hN n]
    have h1 : n % (2 * (N - 1)) < 2 * (N - 1) := Nat.mod_lt n (by omega)
    by_cases ha : n % (2 * (N - 1)) + 1 ≤ N
    · rw [if_pos ha]
      simp only [Bool.false_eq_true, false_implies, and_true, true_implies]
      exact ha
    · rw [if_neg ha]
      simp only [Bool.true_eq_false, false_implies, true_and, true_implies]
      omega

theorem read_frames_pingpong (env : VdefEnv) (r : vraw_reader) (N : Nat) (hr : RawSession r N)
    (hl : r.cfg.loop < 0) (hN : 2 ≤ N)
    (data len : Nat) (hd : data ≠ 0) (hlen : len ≠ 0) (hsz : r.frame_size ≤ len)
    (fuel : Nat) (buf : Mem) (e : Int) (fr : vraw_frame) (i : Nat) :
    ∃ idx c t buf1 e1 fr1,
      read_frames env (fuel + 2) data len i ⟨at_frame r 0 0 0 0 0, buf, e⟩ fr
        = some (⟨at_frame r (pingpong_state N i).1
            (if (pingpong_state N i).2 = true then 1 else 0) idx c t, buf1, e1⟩, fr1) := by
  induction i with
  | zero => exact ⟨0, 0, 0, buf, e, fr, rfl⟩
  | succ n ih =>
    obtain ⟨idx, c, t, buf1, e1, fr1, h⟩ := ih
    obtain ⟨hb1, hb2⟩ := pingpong_state_bound N hN n
    rw [read_frames, h, pingpong_state]
    simp only
    rcases hs : pingpong_state N n with ⟨p, rev⟩
    rw [hs] at hb1 hb2
    simp only at hb1 hb2
    cases rev with
    | false =>
      have hp := hb1 rfl
      simp only [Bool.false_eq_true, if_false, pingpong_step]
      by_cases hlt : p < N
      · rw [frame_read_forward env r N hr data len hd hlen hsz _ hlt]
        simp only [hlt, if_true, Bool.false_eq_true, if_false]
        exact ⟨_, _, _, _, _, _, rfl⟩
      · have hN' : p = N := by omega
        subst hN'
        rw [frame_read_eof_reverse env r p hr hl hN data len hd hlen hsz,
          frame_read_backward env r p hr data len hd hlen hsz (p - 2) (by omega)]
        simp only [hlt, if_false, pingpong_back]
        by_cases h1 : 1 ≤ p - 2
        · simp only [h1, if_true]
          exact ⟨_, _, _, _, _, _, rfl⟩
        · simp only [h1, if_false, Bool.false_eq_true]
          exact ⟨_, _, _, _, _, _, rfl⟩
    | true =>
      have hp := hb2 rfl
      simp only [if_true, pingpong_step, pingpong_back]
      rw [frame_read_backward env r N hr data len hd hlen hsz p hp]
      by_cases h1 : 1 ≤ p
      · simp only [h1, if_true]
        exact ⟨_, _, _, _, _, _, rfl⟩
      · simp only [h1, if_false, Bool.false_eq_true]
        exact ⟨_, _, _, _, _, _, rfl⟩


theorem reader_new_y4m_eval (env : VdefEnv) (file : List Byte) (cfg : vraw_reader_config)
    (e : Int) (hc : reader_new_check env cfg = none) (hy : cfg.y4m ≠ 0)
    (hh : ¬ (y4m_header_read env (reader_new_open file cfg) e).1 < 0)
    (hres : vdef_dim_is_null (reader_new_enforce
      (y4m_header_read env (reader_new_open file cfg) e).2.1).cfg.info.resolution = false)
    (hs : (y4m_header_read env (reader_new_open file cfg) e).2.1.cfg.start_index = 0)
    (hF : (reader_new_file_geometry env (reader_new_align env (reader_new_enforce
        (y4m_header_read env (reader_new_open file cfg) e).2.1))).file_frame_size
      + (reader_new_file_geometry env (reader_new_align env (reader_new_enforce
        (y4m_header_read env (reader_new_open file cfg) e).2.1))).frame_header_size ≠ 0) :
    vraw_reader_new env (some file) cfg e
      = .done (0, some (reader_new_built env
            (y4m_header_read env (reader_new_open file cfg) e).2.1),
          (y4m_header_read env (reader_new_open file cfg) e).2.2) := by
  obtain ⟨a1, a2, a3, a4, a5, a6, a7, a8, a9, a10, a11, a12, a13, a14, a15⟩ :=
    reader_new_enforce_fields (y4m_header_read env (reader_new_open file cfg) e).2.1
  obtain ⟨b1, b2, b3, b4, b5, b6, b7, b8, b9, b10, b11, b12, b13, b14, b15⟩ :=
    reader_new_align_fields env (reader_new_enforce
      (y4m_header_read env (reader_new_open file cfg) e).2.1)
  have ho : (reader_new_open file cfg).cfg.y4m ≠ 0 := hy
  unfold vraw_reader_new
  rw [hc]
  simp only [ho, ne_eq, not_false_eq_true, if_true, hh, if_false, hres, Bool.false_eq_true,
    reader_new_frame_count, hF, rint_float_of_size_t, size_t_of_float_of_size_t,
    not_true_eq_false]
  obtain ⟨c1, -⟩ := reader_new_geometry_fields env
      (reader_new_align env (reader_new_enforce
        (y4m_header_read env (reader_new_open file cfg) e).2.1))
      (round_to_float
              (((reader_new_file_geometry env (reader_new_align env (reader_new_enforce
                  (y4m_header_read env (reader_new_open file cfg) e).2.1))).file_size
                - (reader_new_file_geometry env (reader_new_align env (reader_new_enforce
                  (y4m_header_read env (reader_new_open file cfg) e).2.1))).header_offset)
              / ((reader_new_file_geometry env (reader_new_align env (reader_new_enforce
                  (y4m_header_read env (reader_new_open file cfg) e).2.1))).file_frame_size
                + (reader_new_file_geometry env (reader_new_align env (reader_new_enforce
                  (y4m_header_read env (reader_new_open file cfg) e).2.1))).frame_header_size)))
  rw [reader_new_start, if_neg (by rw [c1, b4, a4, hs]; decide)]
  rfl

set_option maxRecDepth 100000 in
theorem sample_y4m_reader_new :
    vraw_reader_new sample_env (some sample_y4m_file) (sample_config 1 0 sample_env.vdef_i420) 0
      = .done (0, some sample_y4m_reader, 0) :=
  reader_new_y4m_eval sample_env sample_y4m_file (sample_config 1 0 sample_env.vdef_i420) 0
    (by decide) (by decide) (by decide) (by decide) (by decide) (by decide)

theorem fgets_frame_marker (f : FILE) (rest : List Byte)
    (h : f.data.drop f.pos = bytes_of "FRAME\n" ++ rest) :
    fgets 10 f = (some (bytes_of "FRAME\n"), { f with pos := f.pos + 6 }) := by
  have hb : bytes_of "FRAME\n" = [70, 82, 65, 77, 69, 10] := by decide
  rw [hb] at h ⊢
  simp only [fgets, h]
  simp [take_line]

theorem y4m_frame_header_read_marker (f : FILE) (rest : List Byte) (e : Int)
    (h : f.data.drop f.pos = bytes_of "FRAME\n" ++ rest) :
    y4m_frame_header_read f e = (0, { f with pos := f.pos + 6 }) := by
  have hb : cstr (bytes_of "FRAME\n") = bytes_of "FRAME\n" := by decide
  simp [y4m_frame_header_read, fgets_frame_marker f rest h, hb]

theorem frame_read_y4m_marker (env : VdefEnv) (fuel : Nat) (st : State) (data len : Nat)
    (fr : vraw_frame) (rest : List Byte)
    (hy : st.self.cfg.y4m ≠ 0) (hd : data ≠ 0) (hlen : len ≠ 0)
    (hsz : st.self.frame_size ≤ len) (hm : st.self.cfg.max_count = 0)
    (heof : st.self.file.eof = false)
    (h : st.self.file.data.drop st.self.file.pos = bytes_of "FRAME\n" ++ rest) :
    vraw_reader_frame_read env (fuel + 1) st data len (some fr)
      = .done (-st.errno,
          { st with self := { st.self with
              file := { st.self.file with pos := st.self.file.pos + 6 } } },
          some fr) := by
  rw [vraw_reader_frame_read]
  simp only [if_neg hd, if_neg hlen]
  rw [if_neg (by omega)]
  simp only [hy, ne_eq, not_false_eq_true, if_true, frame_read_header,
    y4m_frame_header_read_marker _ rest _ h, feof, heof, hm]
  simp


theorem y4m_header_token_rev (env : VdefEnv) (b : Bool) (cfg : vraw_reader_config)
    (p : List Byte) :
    y4m_header_token env (with_start_reversed b cfg) p
      = with_start_reversed b (y4m_header_token env cfg p) := by
  unfold y4m_header_token
  split_ifs
  · rfl
  · cases p with
    | nil => rfl
    | cons c rest =>
      simp only
      split_ifs
      · rfl
      · rfl
      · cases after_colon (c :: rest) <;> rfl
      · cases after_colon (c :: rest) <;> rfl
      · rfl
      · rfl
      · rfl
      · rfl

theorem y4m_header_fold_rev (env : VdefEnv) (b : Bool) (l : List (List Byte))
    (cfg : vraw_reader_config) :
    l.foldl (y4m_header_token env) (with_start_reversed b cfg)
      = with_start_reversed b (l.foldl (y4m_header_token env) cfg) := by
  induction l generalizing cfg with
  | nil => rfl
  | cons p l ih => simp only [List.foldl_cons, y4m_header_token_rev, ih]

theorem y4m_header_read_rev (env : VdefEnv) (b : Bool) (s : vraw_reader) (e : Int) :
    y4m_header_read env (set_rev b s) e
      = ((y4m_header_read env s e).1, set_rev b (y4m_header_read env s e).2.1,
          (y4m_header_read env s e).2.2) := by
  unfold y4m_header_read
  have hf : (set_rev b s).file = s.file := rfl
  rw [hf]
  rcases fgets 100 s.file with ⟨_ | str, f⟩
  · rfl
  · simp only
    cases strtok_all (cstr str) [] with
    | nil => rfl
    | cons p t =>
      simp only
      split_ifs
      · rfl
      · simp only [set_rev]
        have := y4m_header_fold_rev env b (p :: t) { s.cfg with format := env.vdef_i420 }
        simp only [with_start_reversed] at this ⊢
        rw [this]

theorem reader_new_enforce_rev (b : Bool) (s : vraw_reader) :
    reader_new_enforce (set_rev b s) = set_rev b (reader_new_enforce s) := by
  simp only [reader_new_enforce, set_rev, with_start_reversed]
  split_ifs <;> rfl

theorem align_constrained_rev (b : Bool) (cfg : vraw_reader_config) (n : Nat) :
    align_constrained (with_start_reversed b cfg) n = align_constrained cfg n := by
  induction n with
  | zero => rfl
  | succ n ih => simp only [align_constrained, ih]; rfl

theorem reader_new_align_rev (env : VdefEnv) (b : Bool) (s : vraw_reader) :
    reader_new_align env (set_rev b s) = set_rev b (reader_new_align env s) := by
  simp only [reader_new_align, set_rev]
  have h := align_constrained_rev b s.cfg (env.vdef_get_raw_frame_plane_count s.cfg.format)
  simp only [with_start_reversed] at h ⊢
  rw [h]
  split_ifs <;> rfl

theorem reader_new_file_geometry_rev (env : VdefEnv) (b : Bool) (s : vraw_reader) :
    reader_new_file_geometry env (set_rev b s) = set_rev b (reader_new_file_geometry env s) :=
  rfl

theorem reader_new_mem_geometry_rev (env : VdefEnv) (b : Bool) (s : vraw_reader) :
    reader_new_mem_geometry env (set_rev b s) = set_rev b (reader_new_mem_geometry env s) :=
  rfl

theorem reader_new_start_ret (s : vraw_reader) (e : Int) :
    (reader_new_start s e).1
      = if s.cfg.start_index > 0 then
          (if (fseeko_cur s.file (to_off_t (s.cfg.start_index
                * (s.file_frame_size + s.frame_header_size))) e).1 < 0
            then -(fseeko_cur s.file (to_off_t (s.cfg.start_index
                * (s.file_frame_size + s.frame_header_size))) e).2.2
            else 0)
        else 0 := by
  simp only [reader_new_start]
  split_ifs <;> rfl

theorem reader_new_start_rev (b : Bool) (s : vraw_reader) (e : Int) :
    (reader_new_start (set_rev b s) e).1 = (reader_new_start s e).1 := by
  rw [reader_new_start_ret, reader_new_start_ret]
  rfl

theorem reader_new_check_rev (env : VdefEnv) (b : Bool) (cfg : vraw_reader_config)
    (hl : cfg.loop = -1) :
    reader_new_check env (with_start_reversed b cfg) = reader_new_check env cfg := by
  simp [reader_new_check, with_start_reversed, hl]

/-- The part of `vraw_reader_new` that follows the header step. -/
theorem reader_new_tail_rev (env : VdefEnv) (b : Bool) (res : Int) (s : vraw_reader) (e : Int) :
    (if res < 0 then (Run.done (res, none, e) : Run (Int × Option vraw_reader × Int))
      else
        if vdef_dim_is_null (reader_new_enforce (set_rev b s)).cfg.info.resolution then
          .done (-EPROTO, none, e)
        else
          match reader_new_frame_count (reader_new_file_geometry env
              (reader_new_align env (reader_new_enforce (set_rev b s)))) with
          | none => .undefined
          | some file_frame_count =>
            if rint file_frame_count ≠ file_frame_count then .done (-EINVAL, none, e)
            else
              .done (reader_new_start (reader_new_mem_geometry env
                { reader_new_file_geometry env
                    (reader_new_align env (reader_new_enforce (set_rev b s)))
                  with file_frame_count := size_t_of_float file_frame_count }) e)).ret
    = (if res < 0 then (Run.done (res, none, e) : Run (Int × Option vraw_reader × Int))
      else
        if vdef_dim_is_null (reader_new_enforce s).cfg.info.resolution then
          .done (-EPROTO, none, e)
        else
          match reader_new_frame_count (reader_new_file_geometry env
              (reader_new_align env (reader_new_enforce s))) with
          | none => .undefined
          | some file_frame_count =>
            if rint file_frame_count ≠ file_frame_count then .done (-EINVAL, none, e)
            else
              .done (reader_new_start (reader_new_mem_geometry env
                { reader_new_file_geometry env (reader_new_align env (reader_new_enforce s))
                  with file_frame_count := size_t_of_float file_frame_count }) e)).ret := by
  rw [reader_new_enforce_rev, reader_new_align_rev, reader_new_file_geometry_rev]
  have h1 : (set_rev b (reader_new_enforce s)).cfg.info.resolution
      = (reader_new_enforce s).cfg.info.resolution := rfl
  have h2 : reader_new_frame_count (set_rev b (reader_new_file_geometry env
      (reader_new_align env (reader_new_enforce s))))
      = reader_new_frame_count (reader_new_file_geometry env
      (reader_new_align env (reader_new_enforce s))) := rfl
  rw [h1, h2]
  split_ifs
  · rfl
  · rfl
  · cases reader_new_frame_count (reader_new_file_geometry env
      (reader_new_align env (reader_new_enforce s))) with
    | none => rfl
    | some k =>
      simp only
      split_ifs
      · rfl
      · have h3 : ({ set_rev b (reader_new_file_geometry env
            (reader_new_align env (reader_new_enforce s)))
            with file_frame_count := size_t_of_float k } : vraw_reader)
          = set_rev b { reader_new_file_geometry env
            (reader_new_align env (reader_new_enforce s))
            with file_frame_count := size_t_of_float k } := rfl
        rw [h3, reader_new_mem_geometry_rev]
        simp only [Run.ret]
        rw [reader_new_start_rev]

theorem vraw_reader_new_rev (env : VdefEnv) (file : Option (List Byte))
    (cfg : vraw_reader_config) (e : Int) (b : Bool) (hl : cfg.loop = -1) :
    (vraw_reader_new env file (with_start_reversed b cfg) e).ret
      = (vraw_reader_new env file cfg e).ret := by
  unfold vraw_reader_new
  rw [reader_new_check_rev env b cfg hl]
  cases reader_new_check env cfg with
  | some res => rfl
  | none =>
    cases file with
    | none => rfl
    | some content =>
      simp only
      have ho : reader_new_open content (with_start_reversed b cfg)
          = set_rev b (reader_new_open content cfg) := rfl
      rw [ho]
      have hy : (set_rev b (reader_new_open content cfg)).cfg.y4m
          = (reader_new_open content cfg).cfg.y4m := rfl
      rw [hy]
      by_cases h1 : (reader_new_open content cfg).cfg.y4m ≠ 0
      · simp only [if_pos h1, y4m_header_read_rev]
        exact reader_new_tail_rev env b _ _ _
      · simp only [if_neg h1]
        exact reader_new_tail_rev env b _ _ _

theorem frame_read_forward_max (env : VdefEnv) (r : vraw_reader) (N : Nat)
    (hr : FileSession r N)
    (data len : Nat) (hd : data ≠ 0) (hlen : len ≠ 0) (hsz : r.frame_size ≤ len)
    (p : Nat) (hp : p < N) (fuel idx c t : Nat) (buf : Mem) (e : Int) (fr : vraw_frame)
    (hidx : r.cfg.max_count = 0 ∨ (idx + 1) % 2 ^ 32 ≤ r.cfg.max_count) :
    vraw_reader_frame_read env (fuel + 1) ⟨at_frame r p 0 idx c t, buf, e⟩ data len (some fr)
      = .done (0,
          ⟨at_frame r (p + 1) 0 ((idx + 1) % 2 ^ 32) ((c + 1) % 2 ^ 32)
              ((t + 1000000 * r.cfg.info.framerate.den / r.cfg.info.framerate.num) % 2 ^ 64),
            blit buf data r.file.data (p * r.file_frame_size) r.file_frame_size, EINVAL⟩,
          some (fill_frame_info env (at_frame r (p + 1) 0 ((idx + 1) % 2 ^ 32) c t) data fr)) := by
  have hpl := read_planes_full (at_frame r p 0 idx c t) buf e data
    (at_frame_tight r p 0 idx c t hr.tight) hd (by
      have : (p + 1) * r.file_frame_size ≤ N * r.file_frame_size :=
        Nat.mul_le_mul_right _ (by omega)
      have e1 : (p + 1) * r.file_frame_size = p * r.file_frame_size + r.file_frame_size := by
        ring
      simp only [at_frame, hr.length]
      omega)
  have hy := hr.y4m
  have hn := hr.num
  have e1 : p * r.file_frame_size + r.file_frame_size = (p + 1) * r.file_frame_size := by ring
  have hmax : ¬ (r.cfg.max_count > 0 ∧ (idx + 1) % 2 ^ 32 > r.cfg.max_count) := by omega
  rw [vraw_reader_frame_read]
  simp only [if_neg hd, if_neg hlen]
  rw [if_neg (by simp only [at_frame]; omega)]
  simp only [at_frame] at hpl ⊢
  simp only [hy, ne_eq, not_true_eq_false, if_false, hpl, feof, e1, Bool.false_eq_true,
    false_or, if_neg hmax]
  simp [frame_read_finish, hn, fill_frame_info]

theorem frame_read_max_noloop (env : VdefEnv) (r : vraw_reader) (N : Nat)
    (hr : FileSession r N) (hl : r.cfg.loop = 0)
    (data len : Nat) (hd : data ≠ 0) (hlen : len ≠ 0) (hsz : r.frame_size ≤ len)
    (p : Nat) (hp : p < N) (fuel idx c t : Nat) (rev : Int) (buf : Mem) (e : Int)
    (fr : vraw_frame)
    (hidx : r.cfg.max_count > 0 ∧ (idx + 1) % 2 ^ 32 > r.cfg.max_count) :
    vraw_reader_frame_read env (fuel + 1) ⟨at_frame r p rev idx c t, buf, e⟩ data len (some fr)
      = .done (-ENOENT,
          ⟨at_frame r (p + 1) rev ((idx + 1) % 2 ^ 32) c t,
            blit buf data r.file.data (p * r.file_frame_size) r.file_frame_size, EINVAL⟩,
          some fr) := by
  have hpl := read_planes_full (at_frame r p rev idx c t) buf e data
    (at_frame_tight r p rev idx c t hr.tight) hd (by
      have : (p + 1) * r.file_frame_size ≤ N * r.file_frame_size :=
        Nat.mul_le_mul_right _ (by omega)
      have e1 : (p + 1) * r.file_frame_size = p * r.file_frame_size + r.file_frame_size := by
        ring
      simp only [at_frame, hr.length]
      omega)
  have hy := hr.y4m
  have e1 : p * r.file_frame_size + r.file_frame_size = (p + 1) * r.file_frame_size := by ring
  rw [vraw_reader_frame_read]
  simp only [if_neg hd, if_neg hlen]
  rw [if_neg (by simp only [at_frame]; omega)]
  simp only [at_frame] at hpl ⊢
  simp only [hy, ne_eq, not_true_eq_false, if_false, hpl, feof, e1, Bool.false_eq_true,
    false_or, if_pos hidx, hl]
  simp

theorem frame_read_eof_noloop_max (env : VdefEnv) (r : vraw_reader) (N : Nat)
    (hr : FileSession r N) (hl : r.cfg.loop = 0)
    (data len : Nat) (hd : data ≠ 0) (hlen : len ≠ 0) (hsz : r.frame_size ≤ len)
    (fuel idx c t : Nat) (rev : Int) (buf : Mem) (e : Int) (fr : vraw_frame) :
    vraw_reader_frame_read env (fuel + 1) ⟨at_frame r N rev idx c t, buf, e⟩ data len (some fr)
      = .done (-ENOENT,
          ⟨{ at_frame r N rev idx c t with
              file := { (at_frame r N rev idx c t).file with eof := true } }, buf, EINVAL⟩,
          some fr) := by
  have hpl := read_planes_at_end (at_frame r N rev idx c t) buf e data
    (at_frame_tight r N rev idx c t hr.tight) hd (by simp only [at_frame, hr.length])
  have hy := hr.y4m
  rw [vraw_reader_frame_read]
  simp only [if_neg hd, if_neg hlen]
  rw [if_neg (by simp only [at_frame]; omega)]
  simp only [at_frame] at hpl ⊢
  simp only [hy, ne_eq, not_true_eq_false, if_false, hpl, feof, hl]
  simp

theorem reader_new_file_session (env : VdefEnv) (file : List Byte) (cfg : vraw_reader_config)
    (e0 e1 : Int) (r : vraw_reader) (N : Nat) (hy : cfg.y4m = 0)
    (hs : cfg.start_index = 0)
    (hnew : vraw_reader_new env (some file) cfg e0 = .done (0, some r, e1))
    (ht : Tight r) (hN : file.length = N * r.file_frame_size) :
    FileSession r N ∧ r = at_frame r 0 0 0 0 0 ∧ r.file.data = file ∧ r.cfg.loop = cfg.loop
      ∧ r.cfg.max_count = cfg.max_count := by
  obtain ⟨h1, h2, h3, h4, h5, h6, h7, h8, h9, h10, h11, h12⟩ :=
    reader_new_raw env file cfg e0 e1 r hy hs hnew
  refine ⟨⟨h1, h4, h5, ht, by rw [h7]; exact hN⟩, ?_, by rw [h7], h2, h3⟩
  cases r
  simp only [at_frame] at *
  simp [h7, h8, h9, h10, h11]

theorem read_frames_forward_max (env : VdefEnv) (r : vraw_reader) (N : Nat)
    (hr : FileSession r N)
    (data len : Nat) (hd : data ≠ 0) (hlen : len ≠ 0) (hsz : r.frame_size ≤ len)
    (fuel : Nat) (buf : Mem) (e : Int) (fr : vraw_frame) (k : Nat) (hk : k ≤ N)
    (hkM : r.cfg.max_count = 0 ∨ k ≤ r.cfg.max_count) (hk32 : k < 2 ^ 32) :
    ∃ c t buf1 e1 fr1,
      read_frames env (fuel + 1) data len k ⟨at_frame r 0 0 0 0 0, buf, e⟩ fr
        = some (⟨at_frame r k 0 k c t, buf1, e1⟩, fr1) := by
  induction k with
  | zero => exact ⟨0, 0, buf, e, fr, rfl⟩
  | succ n ih =>
    obtain ⟨c, t, buf1, e1, fr1, h⟩ := ih (by omega) (by omega) (by omega)
    rw [read_frames, h]
    simp only
    rw [frame_read_forward_max env r N hr data len hd hlen hsz n (by omega) _ _ _ _ _ _ _
      (by rw [Nat.mod_eq_of_lt hk32]; omega)]
    rw [Nat.mod_eq_of_lt hk32]
    exact ⟨_, _, _, _, _, rfl⟩

theorem seek_prev_keeps (self : vraw_reader) (e : Int) :
    ((seek_to_previous_frame self e).1 = 0 ∨ (seek_to_previous_frame self e).1 = -EOVERFLOW)
    ∧ (seek_to_previous_frame self e).2.1.cfg = self.cfg
    ∧ (seek_to_previous_frame self e).2.1.count = self.count
    ∧ (seek_to_previous_frame self e).2.1.timestamp = self.timestamp := by
  simp only [seek_to_previous_frame, fseeko_cur, fseeko_to, ftello]
  split_ifs <;> simp_all

theorem read_planes_keeps (st : State) (data : Nat) :
    (vraw_reader_frame_read_planes st data).2.self.cfg = st.self.cfg
    ∧ (vraw_reader_frame_read_planes st data).2.self.count = st.self.count
    ∧ (vraw_reader_frame_read_planes st data).2.self.timestamp = st.self.timestamp
    ∧ ((vraw_reader_frame_read_planes st data).2.errno = EINVAL
        ∨ (vraw_reader_frame_read_planes st data).2.errno = ENOSYS) := by
  unfold vraw_reader_frame_read_planes
  simp only
  by_cases hd : data = 0
  · simp [hd]
  simp only [if_neg hd]
  rcases read_rows (row_bytes st.self) (st.self.plane_stride 0) st.self.cfg.info.resolution.height
    data 0 st.buf st.self.file with ⟨res, buf, f, b⟩
  cases b
  · simp
  simp only
  by_cases h1 : st.self.cfg.format.data_layout = .SEMI_PLANAR
  · simp only [if_pos h1]
    rcases read_rows (row_bytes st.self) (st.self.plane_stride 1)
      (st.self.cfg.info.resolution.height / 2) (data + st.self.plane_size 0) res buf f
      with ⟨res, buf, f, b⟩
    cases b <;> simp
  simp only [if_neg h1]
  by_cases h2 : st.self.cfg.format.data_layout = .PLANAR
  · simp only [if_pos h2]
    rcases read_rows (row_bytes st.self / 2) (st.self.plane_stride 1)
      (st.self.cfg.info.resolution.height / 2) (data + st.self.plane_size 0) res buf f
      with ⟨res, buf, f, b⟩
    cases b
    · simp
    simp only
    rcases read_rows (row_bytes st.self / 2) (st.self.plane_stride 2)
      (st.self.cfg.info.resolution.height / 2)
      (data + st.self.plane_size 0 + st.self.plane_size 1) res buf f
      with ⟨res, buf, f, b⟩
    cases b <;> simp
  simp only [if_neg h2]
  by_cases h3 : st.self.cfg.format.data_layout = .PACKED
  · simp [h3]
  · simp [h3]

theorem fill_frame_info_stamp (env : VdefEnv) (self : vraw_reader) (data : Nat)
    (fr : vraw_frame) :
    (fill_frame_info env self data fr).frame.info.index = self.count
    ∧ (fill_frame_info env self data fr).frame.info.timestamp = self.timestamp
    ∧ (fill_frame_info env self data fr).frame.info.timescale = 1000000 :=
  ⟨rfl, rfl, rfl⟩

theorem frame_read_finish_outcome (env : VdefEnv) (st : State) (data : Nat) (fr : vraw_frame)
    (ret : Int) (st2 : State) (fr2 : Option vraw_frame)
    (h : frame_read_finish env st data fr = .done (ret, st2, fr2)) :
    ret = 0 ∧ fr2 = some (fill_frame_info env st.self data fr)
    ∧ st2.self.cfg = st.self.cfg
    ∧ st2.self.count = (st.self.count + 1) % 2 ^ 32
    ∧ st2.self.timestamp
        = (st.self.timestamp + 1000000 * st.self.cfg.info.framerate.den
            / st.self.cfg.info.framerate.num) % 2 ^ 64 := by
  unfold frame_read_finish at h
  simp only at h
  by_cases hn : st.self.cfg.info.framerate.num = 0
  · simp [hn] at h
  simp only [if_neg hn] at h
  by_cases hrev : st.self.reverse ≠ 0
  · simp only [if_pos hrev] at h
    have hk := seek_prev_keeps
      { st.self with
        timestamp := (st.self.timestamp + 1000000 * st.self.cfg.info.framerate.den
          / st.self.cfg.info.framerate.num) % 2 ^ 64,
        count := (st.self.count + 1) % 2 ^ 32 } st.errno
    rcases hs : seek_to_previous_frame
      { st.self with
        timestamp := (st.self.timestamp + 1000000 * st.self.cfg.info.framerate.den
          / st.self.cfg.info.framerate.num) % 2 ^ 64,
        count := (st.self.count + 1) % 2 ^ 32 } st.errno with ⟨res, s', e'⟩
    rw [hs] at h hk
    simp only at h hk
    obtain ⟨hres, hcfg, hcnt, hts⟩ := hk
    rcases hres with hres | hres
    · simp only [hres, lt_self_iff_false, if_false, Run.done.injEq, Prod.mk.injEq] at h
      obtain ⟨h1, h2, h3⟩ := h
      subst h2
      exact ⟨h1.symm, h3.symm, hcfg, hcnt, hts⟩
    · have hneg : (-EOVERFLOW : Int) < 0 := by decide
      simp only [hres, hneg, if_true, ne_eq, not_true_eq_false, if_false, Run.done.injEq,
        Prod.mk.injEq] at h
      obtain ⟨h1, h2, h3⟩ := h
      subst h2
      exact ⟨h1.symm, h3.symm, hcfg, hcnt, hts⟩
  · simp only [if_neg hrev, Run.done.injEq, Prod.mk.injEq] at h
    obtain ⟨h1, h2, h3⟩ := h
    subst h2
    exact ⟨h1.symm, h3.symm, rfl, rfl, rfl⟩

theorem frame_read_header_keeps (st : State) :
    (frame_read_header st).2.self.cfg = st.self.cfg
    ∧ (frame_read_header st).2.self.count = st.self.count
    ∧ (frame_read_header st).2.self.timestamp = st.self.timestamp := by
  unfold frame_read_header
  rcases y4m_frame_header_read st.self.file st.errno with ⟨res, file⟩
  simp only
  by_cases h1 : feof file = true
      ∨ (st.self.cfg.max_count > 0 ∧ st.self.index > st.self.cfg.max_count)
  · simp only [if_pos h1]
    by_cases h2 : st.self.cfg.loop > (0 : Int)
    · simp only [if_pos h2]
      rcases fseeko_to file (st.self.header_offset : Int) st.errno with ⟨r2, f2, e2⟩
      simp only
      by_cases h3 : r2 < 0
      · simp only [if_pos h3, and_self]
      · simp only [if_neg h3]
        rcases y4m_frame_header_read f2 e2 with ⟨r3, f3⟩
        simp only
        by_cases h4 : r3 < 0
        · simp only [if_pos h4, and_self]
        · simp only [if_neg h4, and_self]
    · simp only [if_neg h2]
      by_cases h2' : st.self.cfg.loop < (0 : Int)
      · simp only [if_pos h2']
        have hk := seek_prev_keeps { st.self with file := file, reverse := 1 } st.errno
        generalize seek_to_previous_frame { st.self with file := file, reverse := 1 } st.errno
          = x at hk ⊢
        obtain ⟨r2, s2, e2⟩ := x
        obtain ⟨-, k1, k2, k3⟩ := hk
        simp only at k1 k2 k3 ⊢
        by_cases h3 : r2 < 0
        · simp only [if_pos h3]
          exact ⟨k1, k2, k3⟩
        · simp only [if_neg h3]
          rcases y4m_frame_header_read s2.file e2 with ⟨r3, f3⟩
          simp only
          by_cases h4 : r3 < 0
          · simp only [if_pos h4]
            exact ⟨k1, k2, k3⟩
          · simp only [if_neg h4]
            exact ⟨k1, k2, k3⟩
      · simp only [if_neg h2', and_self]
  · simp only [if_neg h1]
    by_cases h2 : res ≠ -1
    · simp only [if_pos h2, and_self]
    · simp only [if_neg h2, and_self]

theorem CallOutcome.of_same (st st' : State) (fr : vraw_frame) (ret : Int) (st2 : State)
    (fr2 : Option vraw_frame) (hc : st'.self.cfg = st.self.cfg)
    (hn : st'.self.count = st.self.count) (ht : st'.self.timestamp = st.self.timestamp)
    (h : CallOutcome st' fr ret st2 fr2) : CallOutcome st fr ret st2 fr2 := by
  unfold CallOutcome at h ⊢
  rw [hc, hn, ht] at h
  exact h

theorem CallOutcome.error (st st2 : State) (fr : vraw_frame) (ret : Int)
    (hr : ret ≠ 0) (hc : st2.self.cfg = st.self.cfg)
    (hn : st2.self.count = st.self.count) (ht : st2.self.timestamp = st.self.timestamp) :
    CallOutcome st fr ret st2 (some fr) :=
  ⟨hc, Or.inr ⟨fun _ => hr, rfl, hn, ht⟩⟩

theorem frame_read_outcome (env : VdefEnv) (data len : Nat) (fr : vraw_frame) :
    ∀ (fuel : Nat) (st : State) (ret : Int) (st2 : State) (fr2 : Option vraw_frame),
      vraw_reader_frame_read env fuel st data len (some fr) = .done (ret, st2, fr2) →
      CallOutcome st fr ret st2 fr2 := by
  intro fuel
  induction fuel with
  | zero =>
    intro st ret st2 fr2 h
    simp [vraw_reader_frame_read] at h
  | succ fuel ih =>
    intro st ret st2 fr2 h
    rw [vraw_reader_frame_read] at h
    by_cases hd : data = 0
    · simp only [if_pos hd, Run.done.injEq, Prod.mk.injEq] at h
      obtain ⟨h1, h2, h3⟩ := h
      subst h1 h2 h3
      exact CallOutcome.error _ _ _ _ (by decide) rfl rfl rfl
    simp only [if_neg hd] at h
    by_cases hlen : len = 0
    · simp only [if_pos hlen, Run.done.injEq, Prod.mk.injEq] at h
      obtain ⟨h1, h2, h3⟩ := h
      subst h1 h2 h3
      exact CallOutcome.error _ _ _ _ (by decide) rfl rfl rfl
    simp only [if_neg hlen] at h
    by_cases hsz : len < st.self.frame_size
    · simp only [if_pos hsz, Run.done.injEq, Prod.mk.injEq] at h
      obtain ⟨h1, h2, h3⟩ := h
      subst h1 h2 h3
      exact CallOutcome.error _ _ _ _ (by decide) rfl rfl rfl
    simp only [if_neg hsz] at h
    have hH : (if st.self.cfg.y4m ≠ 0 then frame_read_header st else (none, st)).2.self.cfg
          = st.self.cfg
        ∧ (if st.self.cfg.y4m ≠ 0 then frame_read_header st else (none, st)).2.self.count
          = st.self.count
        ∧ (if st.self.cfg.y4m ≠ 0 then frame_read_header st else (none, st)).2.self.timestamp
          = st.self.timestamp
        ∧ (st.self.cfg.y4m = 0 →
            (if st.self.cfg.y4m ≠ 0 then frame_read_header st else (none, st)).1 = none) := by
      by_cases hy : st.self.cfg.y4m ≠ 0
      · simp only [if_pos hy]
        obtain ⟨a, b, c⟩ := frame_read_header_keeps st
        exact ⟨a, b, c, fun h0 => absurd h0 hy⟩
      · simp only [if_neg hy]
        exact ⟨trivial, trivial, trivial, fun _ => trivial⟩
    generalize (if st.self.cfg.y4m ≠ 0 then frame_read_header st else (none, st)) = H at h hH
    obtain ⟨o, st0⟩ := H
    obtain ⟨hc0, hn0, ht0, hy0⟩ := hH
    simp only at hc0 hn0 ht0 hy0
    cases o with
    | some res =>
      simp only [Run.done.injEq, Prod.mk.injEq] at h
      obtain ⟨h1, h2, h3⟩ := h
      subst h1 h2 h3
      exact ⟨hc0, Or.inr ⟨fun h0 => by simpa using hy0 h0, rfl, hn0, ht0⟩⟩
    | none =>
      simp only at h
      refine CallOutcome.of_same st st0 fr ret st2 fr2 hc0 hn0 ht0 ?_
      obtain ⟨kc, kn, kt, ke⟩ := read_planes_keeps st0 data
      rcases hP : vraw_reader_frame_read_planes st0 data with ⟨res1, st1⟩
      rw [hP] at h kc kn kt ke
      simp only at h kc kn kt ke
      have ke0 : -st1.errno ≠ 0 := by
        rcases ke with ke | ke <;> rw [ke] <;> decide
      by_cases heof : feof st1.self.file = true
          ∨ (st1.self.cfg.max_count > 0 ∧ st1.self.index > st1.self.cfg.max_count)
      · simp only [if_pos heof] at h
        by_cases hl1 : st1.self.cfg.loop > (0 : Int)
        · have hoff : ¬ ((st1.self.header_offset : Nat) : Int) < 0 := by omega
          simp only [if_pos hl1, fseeko_to, if_neg hoff, lt_self_iff_false, if_false] at h
          have := ih _ ret st2 fr2 h
          exact CallOutcome.of_same st0 _ fr ret st2 fr2 kc kn kt this
        · simp only [if_neg hl1] at h
          by_cases hl2 : st1.self.cfg.loop < (0 : Int)
          · simp only [if_pos hl2] at h
            have hk := seek_prev_keeps { st1.self with reverse := 1 } st1.errno
            rcases hs : seek_to_previous_frame { st1.self with reverse := 1 } st1.errno
              with ⟨res, s', e'⟩
            rw [hs] at h hk
            simp only at h hk
            obtain ⟨hres, hcfg, hcnt, hts⟩ := hk
            by_cases hneg : res < 0
            · simp only [if_pos hneg, Run.done.injEq, Prod.mk.injEq] at h
              obtain ⟨h1, h2, h3⟩ := h
              subst h1 h2 h3
              exact CallOutcome.error _ _ _ _ (by omega) (by simp only; rw [hcfg, kc])
                (by simp only; rw [hcnt, kn]) (by simp only; rw [hts, kt])
            · simp only [if_neg hneg] at h
              have := ih _ ret st2 fr2 h
              exact CallOutcome.of_same st0 _ fr ret st2 fr2 (by simp only; rw [hcfg, kc])
                (by simp only; rw [hcnt, kn]) (by simp only; rw [hts, kt]) this
          · simp only [if_neg hl2, Run.done.injEq, Prod.mk.injEq] at h
            obtain ⟨h1, h2, h3⟩ := h
            subst h1 h2 h3
            exact CallOutcome.error _ _ _ _ (by decide) kc kn kt
      · simp only [if_neg heof] at h
        by_cases hr1 : res1 ≠ 1
        · simp only [if_pos hr1, Run.done.injEq, Prod.mk.injEq] at h
          obtain ⟨h1, h2, h3⟩ := h
          subst h1 h2 h3
          exact CallOutcome.error _ _ _ _ ke0 kc kn kt
        · simp only [if_neg hr1] at h
          obtain ⟨f1, f2, f3, f4, f5⟩ := frame_read_finish_outcome env st1 data fr ret st2 fr2 h
          obtain ⟨s1, s2, s3⟩ := fill_frame_info_stamp env st1.self data fr
          refine ⟨by rw [f3, kc], Or.inl ⟨f1, _, f2, ?_, ?_, s3, ?_, ?_⟩⟩
          · rw [s1, kn]
          · rw [s2, kt]
          · rw [f4, kn]
          · rw [f5, kt, kc]


theorem reader_new_inv (env : VdefEnv) (file : List Byte) (cfg : vraw_reader_config)
    (e0 e1 : Int) (r : vraw_reader)
    (hnew : vraw_reader_new env (some file) cfg e0 = .done (0, some r, e1)) :
    ∃ s k eh,
      ((cfg.y4m = 0 ∧ s = reader_new_open file cfg)
        ∨ (cfg.y4m ≠ 0 ∧ s = (y4m_header_read env (reader_new_open file cfg) e0).2.1))
      ∧ reader_new_start (reader_new_mem_geometry env
          { reader_new_file_geometry env (reader_new_align env (reader_new_enforce s))
            with file_frame_count := k }) eh = (0, some r, e1) := by
  unfold vraw_reader_new at hnew
  split at hnew
  · simp at hnew
  · have ho : (reader_new_open file cfg).cfg.y4m = cfg.y4m := rfl
    simp only [ho] at hnew
    have tail : ∀ (res : Int) (s : vraw_reader) (e : Int),
        (if res < 0 then (Run.done (res, none, e) : Run (Int × Option vraw_reader × Int))
          else
            if vdef_dim_is_null (reader_new_enforce s).cfg.info.resolution then
              .done (-EPROTO, none, e)
            else
              match reader_new_frame_count (reader_new_file_geometry env
                  (reader_new_align env (reader_new_enforce s))) with
              | none => .undefined
              | some file_frame_count =>
                if rint file_frame_count ≠ file_frame_count then .done (-EINVAL, none, e)
                else
                  .done (reader_new_start (reader_new_mem_geometry env
                    { reader_new_file_geometry env (reader_new_align env (reader_new_enforce s))
                      with file_frame_count := size_t_of_float file_frame_count }) e))
          = .done (0, some r, e1) →
        ∃ k eh, reader_new_start (reader_new_mem_geometry env
          { reader_new_file_geometry env (reader_new_align env (reader_new_enforce s))
            with file_frame_count := k }) eh = (0, some r, e1) := by
      intro res s e h
      split_ifs at h with h1 h2
      · simp at h
      · simp at h
      · split at h
        · simp at h
        · split_ifs at h with h3
          · simp at h
          · simp only [Run.done.injEq] at h
            exact ⟨_, _, h⟩
    by_cases hy : cfg.y4m = 0
    · simp only [hy, ne_eq, not_true_eq_false, if_false] at hnew
      obtain ⟨k, eh, h⟩ := tail _ _ _ hnew
      exact ⟨_, k, eh, Or.inl ⟨hy, rfl⟩, h⟩
    · simp only [ne_eq, hy, not_false_eq_true, if_true] at hnew
      obtain ⟨k, eh, h⟩ := tail _ _ _ hnew
      exact ⟨_, k, eh, Or.inr ⟨hy, rfl⟩, h⟩

theorem reader_new_start_fields (m : vraw_reader) (e e1 : Int) (r : vraw_reader)
    (h : reader_new_start m e = (0, some r, e1)) :
    r.cfg = m.cfg ∧ r.frame_size = m.frame_size ∧ r.file_frame_size = m.file_frame_size
    ∧ r.count = m.count ∧ r.timestamp = m.timestamp := by
  unfold reader_new_start at h
  by_cases h1 : m.cfg.start_index > 0
  · simp only [if_pos h1] at h
    by_cases hb : m.cfg.start_reversed = true
    · simp only [if_pos hb] at h
      rcases hf : fseeko_cur m.file (to_off_t (m.cfg.start_index
          * (m.file_frame_size + m.frame_header_size))) e with ⟨res, f, e2⟩
      rw [hf] at h
      by_cases h2 : res < 0
      · simp [h2] at h
      · simp only [if_neg h2, Prod.mk.injEq, Option.some.injEq, true_and] at h
        obtain ⟨rfl, -⟩ := h
        exact ⟨rfl, rfl, rfl, rfl, rfl⟩
    · simp only [if_neg hb] at h
      rcases hf : fseeko_cur m.file (to_off_t (m.cfg.start_index
          * (m.file_frame_size + m.frame_header_size))) e with ⟨res, f, e2⟩
      rw [hf] at h
      by_cases h2 : res < 0
      · simp [h2] at h
      · simp only [if_neg h2, Prod.mk.injEq, Option.some.injEq, true_and] at h
        obtain ⟨rfl, -⟩ := h
        exact ⟨rfl, rfl, rfl, rfl, rfl⟩
  · simp only [if_neg h1, Prod.mk.injEq, Option.some.injEq, true_and] at h
    obtain ⟨rfl, -⟩ := h
    exact ⟨rfl, rfl, rfl, rfl, rfl⟩

theorem y4m_header_token_keeps (env : VdefEnv) (cfg : vraw_reader_config) (p : List Byte) :
    (y4m_header_token env cfg p).y4m = cfg.y4m
    ∧ (y4m_header_token env cfg p).plane_stride_align = cfg.plane_stride_align
    ∧ (y4m_header_token env cfg p).plane_scanline_align = cfg.plane_scanline_align
    ∧ (y4m_header_token env cfg p).plane_size_align = cfg.plane_size_align := by
  unfold y4m_header_token
  split_ifs
  · exact ⟨rfl, rfl, rfl, rfl⟩
  · cases p with
    | nil => exact ⟨rfl, rfl, rfl, rfl⟩
    | cons c rest =>
      simp only
      split_ifs
      · exact ⟨rfl, rfl, rfl, rfl⟩
      · exact ⟨rfl, rfl, rfl, rfl⟩
      · cases after_colon (c :: rest) <;> exact ⟨rfl, rfl, rfl, rfl⟩
      · cases after_colon (c :: rest) <;> exact ⟨rfl, rfl, rfl, rfl⟩
      · exact ⟨rfl, rfl, rfl, rfl⟩
      · exact ⟨rfl, rfl, rfl, rfl⟩
      · exact ⟨rfl, rfl, rfl, rfl⟩
      · exact ⟨rfl, rfl, rfl, rfl⟩

theorem y4m_header_fold_keeps (env : VdefEnv) (l : List (List Byte))
    (cfg : vraw_reader_config) :
    (l.foldl (y4m_header_token env) cfg).y4m = cfg.y4m
    ∧ (l.foldl (y4m_header_token env) cfg).plane_stride_align = cfg.plane_stride_align
    ∧ (l.foldl (y4m_header_token env) cfg).plane_scanline_align = cfg.plane_scanline_align
    ∧ (l.foldl (y4m_header_token env) cfg).plane_size_align = cfg.plane_size_align := by
  induction l generalizing cfg with
  | nil => exact ⟨rfl, rfl, rfl, rfl⟩
  | cons p l ih =>
    obtain ⟨a1, a2, a3, a4⟩ := y4m_header_token_keeps env cfg p
    obtain ⟨b1, b2, b3, b4⟩ := ih (y4m_header_token env cfg p)
    simp only [List.foldl_cons]
    exact ⟨b1.trans a1, b2.trans a2, b3.trans a3, b4.trans a4⟩

theorem y4m_header_read_keeps (env : VdefEnv) (s : vraw_reader) (e : Int) :
    (y4m_header_read env s e).2.1.cfg.y4m = s.cfg.y4m
    ∧ (y4m_header_read env s e).2.1.cfg.plane_stride_align = s.cfg.plane_stride_align
    ∧ (y4m_header_read env s e).2.1.cfg.plane_scanline_align = s.cfg.plane_scanline_align
    ∧ (y4m_header_read env s e).2.1.cfg.plane_size_align = s.cfg.plane_size_align
    ∧ (y4m_header_read env s e).2.1.plane_stride = s.plane_stride
    ∧ (y4m_header_read env s e).2.1.plane_size = s.plane_size
    ∧ (y4m_header_read env s e).2.1.count = s.count
    ∧ (y4m_header_read env s e).2.1.timestamp = s.timestamp := by
  unfold y4m_header_read
  rcases fgets 100 s.file with ⟨_ | str, f⟩
  · exact ⟨rfl, rfl, rfl, rfl, rfl, rfl, rfl, rfl⟩
  · simp only
    cases strtok_all (cstr str) [] with
    | nil => exact ⟨rfl, rfl, rfl, rfl, rfl, rfl, rfl, rfl⟩
    | cons p t =>
      simp only
      split_ifs
      · exact ⟨rfl, rfl, rfl, rfl, rfl, rfl, rfl, rfl⟩
      · obtain ⟨a1, a2, a3, a4⟩ :=
          y4m_header_fold_keeps env (p :: t) { s.cfg with format := env.vdef_i420 }
        exact ⟨a1, a2, a3, a4, rfl, rfl, rfl, rfl⟩

theorem reader_new_counters (env : VdefEnv) (file : List Byte) (cfg : vraw_reader_config)
    (e0 e1 : Int) (r : vraw_reader)
    (hnew : vraw_reader_new env (some file) cfg e0 = .done (0, some r, e1)) :
    r.count = 0 ∧ r.timestamp = 0 ∧ r.cfg.y4m = cfg.y4m := by
  obtain ⟨s, k, eh, hs, h⟩ := reader_new_inv env file cfg e0 e1 r hnew
  obtain ⟨f1, f2, f3, f4, f5⟩ := reader_new_start_fields _ _ _ _ h
  obtain ⟨c1, c2, c3, c4, c5, c6, c7, c8, c9, c10, c11⟩ :=
    reader_new_geometry_fields env (reader_new_align env (reader_new_enforce s)) k
  obtain ⟨b1, b2, b3, b4, b5, b6, b7, b8, b9, b10, b11, b12, b13, b14, b15⟩ :=
    reader_new_align_fields env (reader_new_enforce s)
  obtain ⟨a1, a2, a3, a4, a5, a6, a7, a8, a9, a10, a11, a12, a13, a14, a15⟩ :=
    reader_new_enforce_fields s
  rw [f4, f5, f1, c8, c9, c1, b14, b15, b1, a14, a15, a1]
  rcases hs with ⟨-, rfl⟩ | ⟨-, rfl⟩
  · exact ⟨rfl, rfl, rfl⟩
  · obtain ⟨k1, -, -, -, -, -, k7, k8⟩ := y4m_header_read_keeps env (reader_new_open file cfg) e0
    exact ⟨k7, k8, k1⟩

theorem call_trace_stamps (env : VdefEnv) (fuel : Nat) :
    ∀ (calls : List (Nat × Nat)) (st : State) (fr : vraw_frame)
      (t : List (Int × Option vdef_frame_info)),
      st.self.count < 2 ^ 32 → st.self.timestamp < 2 ^ 64 →
      call_trace env fuel calls st fr = some t →
      (∀ x, x ∈ t → (x.2.isSome = true → x.1 = 0)
          ∧ (st.self.cfg.y4m = 0 → x.1 = 0 → x.2.isSome = true))
      ∧ ∀ (k : Nat) (info : vdef_frame_info), (produced t)[k]? = some info →
        info.index = (st.self.count + k) % 2 ^ 32
        ∧ info.timestamp
            = (st.self.timestamp + k * (1000000 * st.self.cfg.info.framerate.den
                / st.self.cfg.info.framerate.num)) % 2 ^ 64
        ∧ info.timescale = 1000000 := by
  intro calls
  induction calls with
  | nil =>
    intro st fr t _ _ h
    simp only [call_trace, Option.some.injEq] at h
    subst h
    simp [produced]
  | cons a rest ih =>
    intro st fr t hc ht h
    obtain ⟨data, len⟩ := a
    rw [call_trace] at h
    rcases hr : vraw_reader_frame_read env fuel st data len (some fr) with ⟨ret, st2, ofr⟩ | _ | _
    · rw [hr] at h
      cases ofr with
      | none => simp at h
      | some fr2 =>
        simp only [Option.map_eq_some'] at h
        obtain ⟨t', ht', hl⟩ := h
        subst hl
        obtain ⟨hcfg, hout⟩ := frame_read_outcome env data len fr fuel st ret st2 (some fr2) hr
        rcases hout with ⟨hret, f, hf, hi, hts, hsc, hcnt, htime⟩ | ⟨hret, -, hcnt, htime⟩
        · simp only [Option.some.injEq] at hf
          subst hf
          have hc2 : st2.self.count < 2 ^ 32 := by rw [hcnt]; exact Nat.mod_lt _ (by decide)
          have ht2 : st2.self.timestamp < 2 ^ 64 := by rw [htime]; exact Nat.mod_lt _ (by decide)
          have hne : st2.self.count ≠ st.self.count := by rw [hcnt]; omega
          obtain ⟨ihA, ihB⟩ := ih st2 fr2 t' hc2 ht2 ht'
          simp only [hne, ne_eq, not_false_eq_true, if_true]
          constructor
          · intro x hx
            rcases List.mem_cons.mp hx with rfl | hx
            · exact ⟨fun _ => hret, fun _ _ => rfl⟩
            · have := ihA x hx
              rw [hcfg] at this
              exact this
          · intro k info hk
            have hp : produced ((ret, some fr2.frame.info) :: t')
                = fr2.frame.info :: produced t' := rfl
            rw [hp] at hk
            cases k with
            | zero =>
              simp only [List.getElem?_cons_zero, Option.some.injEq] at hk
              subst hk
              refine ⟨?_, ?_, hsc⟩
              · rw [hi, Nat.add_zero, Nat.mod_eq_of_lt hc]
              · rw [hts, Nat.zero_mul, Nat.add_zero, Nat.mod_eq_of_lt ht]
            | succ k =>
              simp only [List.getElem?_cons_succ] at hk
              obtain ⟨i1, i2, i3⟩ := ihB k info hk
              refine ⟨?_, ?_, i3⟩
              · rw [i1, hcnt]; omega
              · rw [i2, htime, hcfg]
                generalize 1000000 * st.self.cfg.info.framerate.den
                  / st.self.cfg.info.framerate.num = s
                rw [Nat.succ_mul k s]
                generalize k * s = ks
                omega
        · obtain ⟨ihA, ihB⟩ := ih st2 fr2 t' (by rw [hcnt]; exact hc) (by rw [htime]; exact ht) ht'
          simp only [hcnt, ne_eq, not_true_eq_false, if_false]
          constructor
          · intro x hx
            rcases List.mem_cons.mp hx with rfl | hx
            · exact ⟨fun h0 => by simp at h0, fun hy h0 => absurd h0 (hret hy)⟩
            · have := ihA x hx
              rw [hcfg] at this
              exact this
          · intro k info hk
            have hp : produced ((ret, none) :: t') = produced t' := rfl
            rw [hp] at hk
            have := ihB k info hk
            rw [hcnt, htime, hcfg] at this
            exact this
    · rw [hr] at h
      simp at h
    · rw [hr] at h
      simp at h

theorem sample_call_trace :
    call_trace sample_env 2 sample_calls
        ⟨sample_reader (-1) (count_bytes 30) 5, fun _ => 0, 0⟩ sample_frame
      = some sample_trace := by
  decide


theorem sum_planes_congr (f g : Nat → Nat) (n : Nat) (h : ∀ p, p < n → f p = g p) :
    sum_planes f n = sum_planes g n := by
  induction n with
  | zero => rfl
  | succ n ih =>
    simp only [sum_planes]
    rw [ih (fun p hp => h p (by omega)), h n (by omega)]

theorem memset_zero_zero (n : Nat) : memset_zero (fun _ => 0) n = fun _ => 0 := by
  funext p
  simp [memset_zero]

theorem align_constrained_zero (cfg : vraw_reader_config) (n : Nat)
    (hz : ∀ p, cfg.plane_stride_align p = 0 ∧ cfg.plane_scanline_align p = 0
      ∧ cfg.plane_size_align p = 0) :
    align_constrained cfg n = false := by
  induction n with
  | zero => rfl
  | succ n ih =>
    obtain ⟨h1, h2, h3⟩ := hz n
    simp [align_constrained, ih, h1, h2, h3]

/-- The geometry `vraw_reader_new` computes from the object `s` left by the
header step, when no alignment is configured. -/
theorem reader_new_geometry_unaligned (env : VdefEnv) (s : vraw_reader) (k : Nat)
    (hz : ∀ p, s.cfg.plane_stride_align p = 0 ∧ s.cfg.plane_scanline_align p = 0
      ∧ s.cfg.plane_size_align p = 0)
    (hs : s.plane_stride = fun _ => 0) (hp : s.plane_size = fun _ => 0)
    (hlib : ZeroAlignUnconstrained env) :
    (reader_new_mem_geometry env
        { reader_new_file_geometry env (reader_new_align env (reader_new_enforce s))
          with file_frame_count := k }).frame_size
      = sum_planes (env.vdef_calc_raw_frame_size s.cfg.format s.cfg.info.resolution
          (fun _ => 0) none none (fun _ => 0) none).2
          (env.vdef_get_raw_frame_plane_count s.cfg.format)
    ∧ (reader_new_mem_geometry env
        { reader_new_file_geometry env (reader_new_align env (reader_new_enforce s))
          with file_frame_count := k }).file_frame_size
      = sum_planes (env.vdef_calc_raw_frame_size s.cfg.format s.cfg.info.resolution
          (fun _ => 0) none none (fun _ => 0) none).2
          (env.vdef_get_raw_frame_plane_count s.cfg.format)
    ∧ (reader_new_mem_geometry env
        { reader_new_file_geometry env (reader_new_align env (reader_new_enforce s))
          with file_frame_count := k }).cfg.format = s.cfg.format
    ∧ (reader_new_mem_geometry env
        { reader_new_file_geometry env (reader_new_align env (reader_new_enforce s))
          with file_frame_count := k }).cfg.info.resolution = s.cfg.info.resolution := by
  obtain ⟨a1, a2, a3, a4, a5, a6, a7, a8, a9, a10, a11, a12, a13, a14, a15⟩ :=
    reader_new_enforce_fields s
  have e1 : (reader_new_enforce s).cfg.plane_stride_align = s.cfg.plane_stride_align := by
    simp only [reader_new_enforce]; split_ifs <;> rfl
  have e2 : (reader_new_enforce s).cfg.plane_scanline_align = s.cfg.plane_scanline_align := by
    simp only [reader_new_enforce]; split_ifs <;> rfl
  have e3 : (reader_new_enforce s).cfg.plane_size_align = s.cfg.plane_size_align := by
    simp only [reader_new_enforce]; split_ifs <;> rfl
  have hz' : ∀ p, (reader_new_enforce s).cfg.plane_stride_align p = 0
      ∧ (reader_new_enforce s).cfg.plane_scanline_align p = 0
      ∧ (reader_new_enforce s).cfg.plane_size_align p = 0 := by
    rw [e1, e2, e3]; exact hz
  have z1 : s.cfg.plane_stride_align = fun _ => 0 := funext (fun p => (hz p).1)
  have z2 : s.cfg.plane_scanline_align = fun _ => 0 := funext (fun p => (hz p).2.1)
  have z3 : s.cfg.plane_size_align = fun _ => 0 := funext (fun p => (hz p).2.2)
  have hc := fun n => align_constrained_zero (reader_new_enforce s).cfg n hz'
  have hstr : (reader_new_enforce s).plane_stride = fun _ => 0 := by
    simp only [reader_new_enforce]; split_ifs <;> exact hs
  have hsiz : (reader_new_enforce s).plane_size = fun _ => 0 := by
    simp only [reader_new_enforce]; split_ifs <;> exact hp
  simp only [reader_new_mem_geometry, reader_new_file_geometry, reader_new_align, hc, if_true,
    e1, e2, e3, z1, z2, z3, hstr, hsiz, memset_zero_zero, a6, a7]
  refine ⟨?_, trivial, trivial, trivial⟩
  exact sum_planes_congr _ _ _ (fun p hp => hlib s.cfg.format s.cfg.info.resolution p hp)

theorem sample_env_zero_align : ZeroAlignUnconstrained sample_env := by
  intro fmt res p _
  simp [sample_env, spec_calc_raw_frame_size, align_up]

theorem sample_max_new :
    vraw_reader_new sample_env (some (count_bytes 24)) (sample_config_max 0 2) 0
      = .done (0, some (sample_reader_of (sample_config_max 0 2) (count_bytes 24) 4), 0) :=
  reader_new_raw_eval sample_env (count_bytes 24) (sample_config_max 0 2) 0
    (by decide) (by decide) (by decide) (by decide) (by decide)

theorem sample_max_tight : Tight (sample_reader_of (sample_config_max 0 2) (count_bytes 24) 4) := by
  constructor
  · exact Or.inr (Or.inl rfl)
  · decide
  · decide
  · intro _; decide
  · decide
  · decide
  · intro h; exact absurd h (by decide)
  · intro _; exact ⟨by decide, by decide, by decide⟩
  · decide
  · decide

theorem tight_of_same (r r2 : vraw_reader) (ht : Tight r) (hc : r2.cfg = r.cfg)
    (hs : r2.plane_stride = r.plane_stride) (hp : r2.plane_size = r.plane_size)
    (hf : r2.file_frame_size = r.file_frame_size) : Tight r2 := by
  have hrb : row_bytes r2 = row_bytes r := by simp only [row_bytes, hc]
  have hfb : frame_bytes r2 = frame_bytes r := by simp only [frame_bytes, hrb, hc]
  constructor
  · rw [hc]; exact ht.layout
  · rw [hrb]; exact ht.row_pos
  · rw [hc]; exact ht.height_pos
  · rw [hc, hrb]; exact ht.chroma_pos
  · rw [hs, hrb]; exact ht.stride0
  · rw [hp, hrb, hc]; exact ht.size0
  · rw [hc, hs, hrb]; exact ht.semi
  · rw [hc, hs, hp, hrb]; exact ht.planar
  · rw [hf, hfb]; exact ht.file_frame
  · rw [hf]; exact ht.small

theorem frame_read_empty_loop (env : VdefEnv) (data len : Nat) (hd : data ≠ 0)
    (hlen : len ≠ 0) (fr : vraw_frame) :
    ∀ (fuel : Nat) (st : State), st.self.cfg.y4m = 0 → st.self.cfg.loop > 0 →
      Tight st.self → st.self.file.data = [] → st.self.file.pos = 0 →
      st.self.header_offset = 0 → st.self.frame_size ≤ len →
      vraw_reader_frame_read env fuel st data len (some fr) = .out_of_fuel := by
  intro fuel
  induction fuel with
  | zero => intro st _ _ _ _ _ _ _; rfl
  | succ fuel ih =>
    intro st hy hl ht hdata hpos hoff hsz
    obtain ⟨self, buf, e⟩ := st
    simp only at hy hl ht hdata hpos hoff hsz
    have hpl := read_planes_at_end self buf e data ht hd (by rw [hpos, hdata]; rfl)
    rw [vraw_reader_frame_read]
    simp only [if_neg hd, if_neg hlen]
    rw [if_neg (by omega)]
    have hh : ((self.header_offset : Nat) : Int) = 0 := by simp [hoff]
    simp only [hy, ne_eq, not_true_eq_false, if_false, hpl, feof, hl, hh, fseeko_to, true_or,
      if_true, lt_self_iff_false, Int.toNat_zero]
    apply ih
    · exact hy
    · exact hl
    · exact tight_of_same self _ ht rfl rfl rfl rfl
    · exact hdata
    · rfl
    · exact hoff
    · exact hsz

set_option maxRecDepth 100000 in
theorem sample_y4m_bad_reader_new :
    vraw_reader_new sample_env (some sample_y4m_bad_file) (sample_config 1 0 sample_env.vdef_i420) 0
      = .done (0, some sample_y4m_bad_reader, 0) :=
  reader_new_y4m_eval sample_env sample_y4m_bad_file (sample_config 1 0 sample_env.vdef_i420) 0
    (by decide) (by decide) (by decide) (by decide) (by decide) (by decide)

theorem sample_reader_new_empty :
    vraw_reader_new sample_env (some []) (sample_config 0 1 sample_env.vdef_i420) 0
      = .done (0, some (sample_reader 1 [] 0), 0) :=
  reader_new_raw_eval sample_env [] (sample_config 0 1 sample_env.vdef_i420) 0
    (by decide) (by decide) (by decide) (by decide) (by decide)

theorem sample_reader_tight_empty : Tight (sample_reader 1 [] 0) := by
  constructor
  · exact Or.inr (Or.inl rfl)
  · decide
  · decide
  · intro _; decide
  · decide
  · decide
  · intro h; exact absurd h (by decide)
  · intro _; exact ⟨by decide, by decide, by decide⟩
  · decide
  · decide

theorem sample_reader_new_single :
    vraw_reader_new sample_env (some (count_bytes 6)) (sample_config 0 (-1) sample_env.vdef_i420) 0
      = .done (0, some (sample_reader (-1) (count_bytes 6) 1), 0) :=
  reader_new_raw_eval sample_env (count_bytes 6) (sample_config 0 (-1) sample_env.vdef_i420) 0
    (by decide) (by decide) (by decide) (by decide) (by decide)

theorem to_off_t_small (x : Nat) (h : x < 2 ^ 63) : to_off_t x = (x : Int) := by
  have h1 : x % 2 ^ 64 = x := Nat.mod_eq_of_lt (by omega)
  simp only [to_off_t, h1, if_pos h]

theorem reader_new_raw_from (env : VdefEnv) (file : List Byte) (cfg : vraw_reader_config)
    (e0 e1 : Int) (r : vraw_reader) (hy : cfg.y4m = 0) (hl : cfg.loop ≠ -1)
    (hnew : vraw_reader_new env (some file) cfg e0 = .done (0, some r, e1)) :
    r.cfg.y4m = 0 ∧ r.cfg.loop = cfg.loop ∧ r.cfg.max_count = cfg.max_count
    ∧ r.cfg.info.framerate.num ≠ 0 ∧ r.header_offset = 0 ∧ r.frame_header_size = 0
    ∧ r.file.data = file ∧ r.file.eof = false
    ∧ (cfg.start_index * r.file_frame_size < 2 ^ 63 →
        r.file.pos = cfg.start_index * r.file_frame_size)
    ∧ r.reverse = 0 ∧ r.index = cfg.start_index ∧ r.count = 0 ∧ r.timestamp = 0 := by
  unfold vraw_reader_new at hnew
  split at hnew
  · simp at hnew
  · rename_i hchk
    have hrev : cfg.start_reversed = false := by
      simp only [reader_new_check] at hchk
      by_cases hb : cfg.start_reversed = true
      · simp [hb, hl] at hchk
      · simpa using hb
    have ho : (reader_new_open file cfg).cfg.y4m = 0 := hy
    simp only [ho, ne_eq, not_true_eq_false, if_false, lt_self_iff_false] at hnew
    split_ifs at hnew with h1
    · simp at hnew
    · split at hnew
      · simp at hnew
      · rename_i ffc hffc
        split_ifs at hnew with h2
        swap
        · simp at hnew
        · obtain ⟨a1, a2, a3, a4, a5, a6, a7, a8, a9, a10, a11, a12, a13, a14, a15⟩ :=
            reader_new_enforce_fields (reader_new_open file cfg)
          obtain ⟨b1, b2, b3, b4, b5, b6, b7, b8, b9, b10, b11, b12, b13, b14, b15⟩ :=
            reader_new_align_fields env (reader_new_enforce (reader_new_open file cfg))
          obtain ⟨c1, c2, c3, c4, c5, c6, c7, c8, c9, c10, c11⟩ :=
            reader_new_geometry_fields env
              (reader_new_align env (reader_new_enforce (reader_new_open file cfg)))
              (size_t_of_float ffc)
          have hnum := reader_new_enforce_num (reader_new_open file cfg)
          simp only [Run.done.injEq] at hnew
          generalize reader_new_mem_geometry env
            { reader_new_file_geometry env
                (reader_new_align env (reader_new_enforce (reader_new_open file cfg))) with
              file_frame_count := size_t_of_float ffc } = m at hnew c1 c2 c3 c4 c5 c6 c7 c8 c9 c10 c11
          have m_rev : m.cfg.start_reversed = false := by rw [c1, b5, a5]; exact hrev
          have m_si : m.cfg.start_index = cfg.start_index := by rw [c1, b4, a4]; rfl
          have m_file : m.file = ⟨file, 0, false⟩ := by rw [c2, b10, a10]; rfl
          have m_fh : m.frame_header_size = 0 := by rw [c5, b9, a9]; rfl
          have m_ho : m.header_offset = 0 := by rw [c4, b8, a8]; rfl
          have m_y : m.cfg.y4m = 0 := by rw [c1, b1, a1]; exact hy
          have m_l : m.cfg.loop = cfg.loop := by rw [c1, b2, a2]; rfl
          have m_m : m.cfg.max_count = cfg.max_count := by rw [c1, b3, a3]; rfl
          have m_n : m.cfg.info.framerate.num ≠ 0 := by rw [c1, b7]; exact hnum
          have m_r : m.reverse = 0 := by rw [c3, b12, a12]; rfl
          have m_i : m.index = 0 := by rw [c7, b13, a13]; rfl
          have m_c : m.count = 0 := by rw [c8, b14, a14]; rfl
          have m_t : m.timestamp = 0 := by rw [c9, b15, a15]; rfl
          unfold reader_new_start at hnew
          by_cases hS : m.cfg.start_index > 0
          · simp only [if_pos hS, m_rev, Bool.false_eq_true, if_false, fseeko_cur, fseeko_to,
              m_file, m_fh, Nat.add_zero, Nat.cast_zero, zero_add] at hnew
            by_cases h3 : to_off_t (m.cfg.start_index * m.file_frame_size) < 0
            · simp [if_pos h3] at hnew
            · simp only [if_neg h3, lt_self_iff_false, if_false, Prod.mk.injEq,
                Option.some.injEq, true_and] at hnew
              obtain ⟨rfl, -⟩ := hnew
              refine ⟨m_y, m_l, m_m, m_n, m_ho, rfl, rfl, rfl, ?_, m_r, m_si, m_c, m_t⟩
              intro hlt
              simp only at hlt ⊢
              rw [m_si, to_off_t_small _ hlt]
              exact Int.toNat_ofNat _
          · simp only [if_neg hS, Prod.mk.injEq, Option.some.injEq, true_and] at hnew
            obtain ⟨rfl, -⟩ := hnew
            have hz : cfg.start_index = 0 := by omega
            refine ⟨m_y, m_l, m_m, m_n, m_ho, m_fh, by rw [m_file], by rw [m_file], ?_, m_r,
              by rw [m_i, hz], m_c, m_t⟩
            intro _
            rw [m_file, hz]
            simp

theorem reader_new_raw_eval_start (env : VdefEnv) (file : List Byte) (cfg : vraw_reader_config)
    (e : Int) (hc : reader_new_check env cfg = none) (hy : cfg.y4m = 0)
    (hres : vdef_dim_is_null cfg.info.resolution = false)
    (hF : (reader_new_file_geometry env (reader_new_align env
      (reader_new_enforce (reader_new_open file cfg)))).file_frame_size ≠ 0) :
    vraw_reader_new env (some file) cfg e
      = .done (reader_new_start (reader_new_mem_geometry env
          { reader_new_file_geometry env (reader_new_align env
              (reader_new_enforce (reader_new_open file cfg)))
            with file_frame_count := round_to_float (file.length
              / (reader_new_file_geometry env (reader_new_align env
                  (reader_new_enforce (reader_new_open file cfg)))).file_frame_size) }) e) := by
  obtain ⟨a1, a2, a3, a4, a5, a6, a7, a8, a9, a10, a11, a12, a13, a14, a15⟩ :=
    reader_new_enforce_fields (reader_new_open file cfg)
  obtain ⟨b1, b2, b3, b4, b5, b6, b7, b8, b9, b10, b11, b12, b13, b14, b15⟩ :=
    reader_new_align_fields env (reader_new_enforce (reader_new_open file cfg))
  have g : ∀ s : vraw_reader, (reader_new_file_geometry env s).header_offset = s.header_offset
      ∧ (reader_new_file_geometry env s).frame_header_size = s.frame_header_size
      ∧ (reader_new_file_geometry env s).file_size = s.file_size := by
    intro s; simp [reader_new_file_geometry]
  obtain ⟨g1, g2, g3⟩ := g (reader_new_align env (reader_new_enforce (reader_new_open file cfg)))
  have ho : (reader_new_open file cfg).cfg.y4m = 0 := hy
  have hres' : vdef_dim_is_null
      (reader_new_enforce (reader_new_open file cfg)).cfg.info.resolution = false := by
    rw [a7]; exact hres
  have hcount : reader_new_frame_count (reader_new_file_geometry env (reader_new_align env
      (reader_new_enforce (reader_new_open file cfg))))
        = some (float_of_size_t (file.length
            / (reader_new_file_geometry env (reader_new_align env
                (reader_new_enforce (reader_new_open file cfg)))).file_frame_size)) := by
    have o1 : (reader_new_open file cfg).header_offset = 0 := rfl
    have o2 : (reader_new_open file cfg).frame_header_size = 0 := rfl
    have o3 : (reader_new_open file cfg).file_size = file.length := rfl
    rw [reader_new_frame_count, g1, g2, g3, b8, b9, b11, a8, a9, a11, o1, o2, o3,
      Nat.add_zero, Nat.sub_zero, if_neg hF]
  unfold vraw_reader_new
  rw [hc]
  simp only [ho, ne_eq, not_true_eq_false, if_false, lt_self_iff_false, hres',
    Bool.false_eq_true, hcount, rint_float_of_size_t, size_t_of_float_of_size_t]

theorem sample_start_new :
    vraw_reader_new sample_env (some (count_bytes 30)) (sample_config_start 2) 0
      = .done (0, some sample_reader_start, 0) :=
  (reader_new_raw_eval_start sample_env (count_bytes 30) (sample_config_start 2) 0
    (by decide) (by decide) (by decide) (by decide)).trans rfl

theorem sample_start_tight :
    Tight (sample_reader_of (sample_config_start 2) (count_bytes 30) 5) := by
  constructor
  · exact Or.inr (Or.inl rfl)
  · decide
  · decide
  · intro _; decide
  · decide
  · decide
  · intro h; exact absurd h (by decide)
  · intro _; exact ⟨by decide, by decide, by decide⟩
  · decide
  · decide

theorem read_frames_forward_from (env : VdefEnv) (r : vraw_reader) (N : Nat)
    (hr : FileSession r N)
    (data len : Nat) (hd : data ≠ 0) (hlen : len ≠ 0) (hsz : r.frame_size ≤ len)
    (fuel : Nat) (buf : Mem) (e : Int) (fr : vraw_frame) (S k : Nat) (hk : S + k ≤ N)
    (hkM : r.cfg.max_count = 0 ∨ S + k ≤ r.cfg.max_count) (hk32 : S + k < 2 ^ 32) :
    ∃ t buf1 e1 fr1,
      read_frames env (fuel + 1) data len k ⟨at_frame r S 0 S 0 0, buf, e⟩ fr
        = some (⟨at_frame r (S + k) 0 (S + k) k t, buf1, e1⟩, fr1) := by
  induction k with
  | zero => exact ⟨0, buf, e, fr, rfl⟩
  | succ n ih =>
    obtain ⟨t, buf1, e1, fr1, h⟩ := ih (by omega) (by omega) (by omega)
    rw [read_frames, h]
    simp only
    rw [frame_read_forward_max env r N hr data len hd hlen hsz (S + n) (by omega) _ _ _ _ _ _ _
      (by rw [Nat.mod_eq_of_lt (by omega)]; omega)]
    rw [Nat.mod_eq_of_lt (show S + n + 1 < 2 ^ 32 by omega),
      Nat.mod_eq_of_lt (show n + 1 < 2 ^ 32 by omega)]
    exact ⟨_, _, _, _, rfl⟩

theorem at_frame_self (r : vraw_reader) (p : Nat) (rev : Int) (idx c t : Nat)
    (h1 : r.file.pos = p * r.file_frame_size) (h2 : r.file.eof = false) (h3 : r.reverse = rev)
    (h4 : r.index = idx) (h5 : r.count = c) (h6 : r.timestamp = t) :
    r = at_frame r p rev idx c t := by
  obtain ⟨cfg, ⟨fd, fp, fe⟩, rv, ho, fh, ps, pz, fs, ffs, fsz, ffc, ts, ix, ct⟩ := r
  simp only at h1 h2 h3 h4 h5 h6
  subst h1 h2 h3 h4 h5 h6
  rfl

theorem set_framerate_keeps (self : vraw_reader) (f : vdef_frac) :
    (vraw_reader_set_framerate self f).2.timestamp = self.timestamp
    ∧ (vraw_reader_set_framerate self f).2.count = self.count := by
  simp only [vraw_reader_set_framerate]
  split_ifs <;> exact ⟨rfl, rfl⟩

theorem op_trace_stamps (env : VdefEnv) (fuel : Nat) :
    ∀ (ops : List reader_op) (st : State) (fr : vraw_frame)
      (t : List (vdef_frame_info × Nat)),
      st.self.timestamp < 2 ^ 64 →
      op_trace env fuel ops st fr = some t →
      ∀ (k : Nat) (info : vdef_frame_info) (step : Nat), t[k]? = some (info, step) →
        info.timestamp = (st.self.timestamp + ((t.take k).map Prod.snd).sum) % 2 ^ 64 := by
  intro ops
  induction ops with
  | nil =>
    intro st fr t _ h
    simp only [op_trace, Option.some.injEq] at h
    subst h
    simp
  | cons a rest ih =>
    intro st fr t ht h
    cases a with
    | set_framerate f =>
      rw [op_trace] at h
      have := ih _ fr t (by simp only; rw [(set_framerate_keeps st.self f).1]; exact ht) h
      simp only [(set_framerate_keeps st.self f).1] at this
      exact this
    | read data len =>
      rw [op_trace] at h
      rcases hr : vraw_reader_frame_read env fuel st data len (some fr) with
        ⟨ret, st2, ofr⟩ | _ | _
      · rw [hr] at h
        cases ofr with
        | none => simp at h
        | some fr2 =>
          simp only [Option.map_eq_some'] at h
          obtain ⟨t2, ht2, hl⟩ := h
          subst hl
          obtain ⟨hcfg, hout⟩ := frame_read_outcome env data len fr fuel st ret st2 (some fr2) hr
          rcases hout with ⟨hret, f, hf, hi, hts, hsc, hcnt, htime⟩ | ⟨hret, -, hcnt, htime⟩
          · simp only [Option.some.injEq] at hf
            subst hf
            have hne : st2.self.count ≠ st.self.count := by rw [hcnt]; omega
            have ih2 := ih st2 fr2 t2 (by rw [htime]; exact Nat.mod_lt _ (by decide)) ht2
            simp only [hne, ne_eq, not_false_eq_true, if_true]
            intro k info step hk
            cases k with
            | zero =>
              simp only [List.getElem?_cons_zero, Option.some.injEq, Prod.mk.injEq] at hk
              obtain ⟨rfl, -⟩ := hk
              simp only [List.take_zero, List.map_nil, List.sum_nil, Nat.add_zero]
              rw [hts, Nat.mod_eq_of_lt ht]
            | succ k =>
              simp only [List.getElem?_cons_succ] at hk
              have := ih2 k info step hk
              rw [this, htime]
              simp only [List.take_succ_cons, List.map_cons, List.sum_cons]
              generalize 1000000 * st.self.cfg.info.framerate.den
                / st.self.cfg.info.framerate.num = s
              generalize ((t2.take k).map Prod.snd).sum = ks
              omega
          · have ih2 := ih st2 fr2 t2 (by rw [htime]; exact ht) ht2
            simp only [hcnt, ne_eq, not_true_eq_false, if_false]
            intro k info step hk
            have := ih2 k info step hk
            rw [htime] at this
            exact this
      · rw [hr] at h
        simp at h
      · rw [hr] at h
        simp at h

set_option maxRecDepth 100000 in
theorem sample_op_trace_eq :
    op_trace sample_env 1 sample_ops ⟨sample_reader 0 (count_bytes 30) 5, fun _ => 0, 0⟩
        sample_frame
      = some sample_op_trace := by
  decide

theorem set_framerate_stores (self : vraw_reader) (f : vdef_frac)
    (hf : vdef_frac_is_null f = false) :
    vraw_reader_set_framerate self f
      = (0, { self with cfg := { self.cfg with info := { self.cfg.info with
          framerate := f } } }) := by
  simp [vraw_reader_set_framerate, hf]

theorem rate_trace_op_trace (env : VdefEnv) (fuel : Nat) :
    ∀ (ops : List reader_op) (st : State) (fr : vraw_frame),
      rate_trace env fuel ops st fr st.self.cfg.info.framerate = op_trace env fuel ops st fr := by
  intro ops
  induction ops with
  | nil => intro st fr; rfl
  | cons a rest ih =>
    intro st fr
    cases a with
    | set_framerate f =>
      rw [rate_trace, op_trace, ← ih]
      congr 1
      by_cases hf : vdef_frac_is_null f = true
      · simp [vraw_reader_set_framerate, hf]
      · simp [vraw_reader_set_framerate, hf]
    | read data len =>
      rw [rate_trace, op_trace]
      rcases hr : vraw_reader_frame_read env fuel st data len (some fr) with
        ⟨ret, st2, ofr⟩ | _ | _
      · cases ofr with
        | none => rfl
        | some fr2 =>
          obtain ⟨hcfg, -⟩ := frame_read_outcome env data len fr fuel st ret st2 (some fr2) hr
          simp only
          rw [← ih st2 fr2, hcfg]
      · rfl
      · rfl

theorem sample_rate_trace_eq :
    rate_trace sample_env 1 sample_ops ⟨sample_reader 0 (count_bytes 30) 5, fun _ => 0, 0⟩
        sample_frame (sample_reader 0 (count_bytes 30) 5).cfg.info.framerate
      = some sample_op_trace :=
  (rate_trace_op_trace sample_env 1 sample_ops
    ⟨sample_reader 0 (count_bytes 30) 5, fun _ => 0, 0⟩ sample_frame).trans sample_op_trace_eq

theorem sample_reader_new_five :
    vraw_reader_new sample_env (some (count_bytes 30)) (sample_config 0 0 sample_env.vdef_i420) 0
      = .done (0, some (sample_reader 0 (count_bytes 30) 5), 0) :=
  reader_new_raw_eval sample_env (count_bytes 30) (sample_config 0 0 sample_env.vdef_i420) 0
    (by decide) (by decide) (by decide) (by decide) (by decide)

theorem digit_byte (k : Nat) (hk : k < 10) :
    (toByte (Nat.digitChar k).toNat).val = 48 + k := by
  have : k = 0 ∨ k = 1 ∨ k = 2 ∨ k = 3 ∨ k = 4 ∨ k = 5 ∨ k = 6 ∨ k = 7 ∨ k = 8 ∨ k = 9 := by
    omega
  rcases this with h | h | h | h | h | h | h | h | h | h <;> subst h <;> rfl

theorem atoi_digits_digit (c : Byte) (cs : List Byte) (acc k : Nat) (hk : k < 10)
    (hc : c.val = 48 + k) : atoi_digits (c :: cs) acc = atoi_digits cs (acc * 10 + k) := by
  simp only [atoi_digits]
  rw [if_pos (by omega)]
  congr 1
  omega

theorem atoi_digits_core (tail : List Byte) :
    ∀ (fuel n : Nat) (ds : List Char), n < fuel →
      atoi_digits ((Nat.toDigitsCore 10 fuel n ds).map (fun c => toByte c.toNat) ++ tail) 0
        = atoi_digits (ds.map (fun c => toByte c.toNat) ++ tail) n := by
  intro fuel
  induction fuel with
  | zero => intro n ds h; omega
  | succ fuel ih =>
    intro n ds hn
    rw [Nat.toDigitsCore]
    by_cases h0 : n / 10 = 0
    · rw [if_pos h0]
      simp only [List.map_cons, List.cons_append]
      rw [atoi_digits_digit _ _ 0 (n % 10) (Nat.mod_lt _ (by decide))
        (digit_byte _ (Nat.mod_lt _ (by decide)))]
      congr 1
      omega
    · rw [if_neg h0, ih (n / 10) _ (by omega)]
      simp only [List.map_cons, List.cons_append]
      rw [atoi_digits_digit _ _ (n / 10) (n % 10) (Nat.mod_lt _ (by decide))
        (digit_byte _ (Nat.mod_lt _ (by decide)))]
      congr 1
      omega

theorem digits_core_all (fuel : Nat) :
    ∀ (n : Nat) (ds : List Char),
      (∀ c ∈ ds.map (fun c => toByte c.toNat), is_digit c) →
      ∀ c ∈ (Nat.toDigitsCore 10 fuel n ds).map (fun c => toByte c.toNat), is_digit c := by
  induction fuel with
  | zero => intro n ds h; simpa [Nat.toDigitsCore] using h
  | succ fuel ih =>
    intro n ds h
    rw [Nat.toDigitsCore]
    have hd : ∀ c ∈ (Nat.digitChar (n % 10) :: ds).map (fun c => toByte c.toNat),
        is_digit c := by
      intro c hc
      simp only [List.map_cons, List.mem_cons] at hc
      rcases hc with rfl | hc
      · have := digit_byte (n % 10) (Nat.mod_lt _ (by decide))
        have h2 : n % 10 < 10 := Nat.mod_lt _ (by decide)
        constructor <;> omega
      · exact h c hc
    by_cases h0 : n / 10 = 0
    · rw [if_pos h0]; exact hd
    · rw [if_neg h0]; exact ih _ _ hd

theorem digits_core_ne_nil (fuel n : Nat) (ds : List Char) (h : n < fuel) :
    Nat.toDigitsCore 10 fuel n ds ≠ [] := by
  induction fuel generalizing n ds with
  | zero => omega
  | succ fuel ih =>
    rw [Nat.toDigitsCore]
    by_cases h0 : n / 10 = 0
    · rw [if_pos h0]; simp
    · rw [if_neg h0]; exact ih _ _ (by omega)

theorem print_nat_digits (n : Nat) : ∀ c ∈ print_nat n, is_digit c :=
  digits_core_all (n + 1) n [] (by simp)

theorem print_nat_ne_nil (n : Nat) : print_nat n ≠ [] := by
  simp only [print_nat, Nat.toDigits, ne_eq, List.map_eq_nil_iff]
  exact digits_core_ne_nil _ _ _ (by omega)

theorem print_nat_length (n : Nat) (h : n < 2 ^ 32) : (print_nat n).length ≤ 10 := by
  simp only [print_nat, Nat.toDigits, List.length_map]
  exact Nat.toDigitsCore_length 10 (by decide) (n + 1) n 10 (by omega) (by decide)

theorem atoi_digits_stop (tail : List Byte) (acc : Nat)
    (h : tail = [] ∨ ∃ c r, tail = c :: r ∧ ¬ is_digit c) : atoi_digits tail acc = acc := by
  rcases h with rfl | ⟨c, r, rfl, hc⟩
  · rfl
  · simp only [atoi_digits]
    exact if_neg hc

theorem atoi_digits_print_nat (n : Nat) (tail : List Byte)
    (h : tail = [] ∨ ∃ c r, tail = c :: r ∧ ¬ is_digit c) :
    atoi_digits (print_nat n ++ tail) 0 = n := by
  simp only [print_nat, Nat.toDigits]
  rw [atoi_digits_core tail (n + 1) n [] (by omega)]
  simp only [List.map_nil, List.nil_append]
  exact atoi_digits_stop tail n h

theorem print_d_bytes (v : Nat) : ∀ c ∈ print_d v, is_num_byte c := by
  intro c hc
  simp only [print_d] at hc
  split_ifs at hc
  · exact Or.inr (print_nat_digits _ c hc)
  · rcases List.mem_cons.mp hc with rfl | hc
    · exact Or.inl rfl
    · exact Or.inr (print_nat_digits _ c hc)

theorem print_d_ne_nil (v : Nat) : print_d v ≠ [] := by
  simp only [print_d]
  split_ifs
  · exact print_nat_ne_nil _
  · simp

theorem print_d_length (v : Nat) : (print_d v).length ≤ 11 := by
  simp only [print_d]
  split_ifs
  · have := print_nat_length (v % 2 ^ 32) (Nat.mod_lt _ (by decide)); omega
  · have := print_nat_length (2 ^ 32 - v % 2 ^ 32) (by omega)
    simp only [List.length_cons]
    omega

theorem byte_ne_of_val (c : Byte) (k : Nat) (hk : k < 256) (h : c.val ≠ k) :
    c ≠ (⟨k, hk⟩ : Byte) := by
  intro hc
  apply h
  rw [hc]

theorem isspace_digit (c : Byte) (h : is_digit c) : isspace c = false := by
  obtain ⟨h1, h2⟩ := h
  have hne : c ≠ 32 := byte_ne_of_val c 32 (by decide) (by omega)
  simp only [isspace, hne, decide_False, Bool.false_or, Bool.and_eq_false_iff,
    decide_eq_false_iff_not]
  omega

theorem atoi_uint_digits (s : List Byte) (c : Byte) (r : List Byte) (hs : s = c :: r)
    (hc : is_digit c) :
    atoi_uint s = ((max (-(2 ^ 63 : Int)) (min ((atoi_digits s 0 : Nat) : Int) (2 ^ 63 - 1)))
      % 2 ^ 32).toNat := by
  subst hs
  obtain ⟨h1, h2⟩ := hc
  have hsp := isspace_digit c ⟨h1, h2⟩
  have h45 : c ≠ 45 := byte_ne_of_val c 45 (by decide) (by omega)
  have h43 : c ≠ 43 := byte_ne_of_val c 43 (by decide) (by omega)
  simp only [atoi_uint, List.dropWhile_cons, hsp, Bool.false_eq_true, if_false, h45, h43]

theorem atoi_uint_minus (r : List Byte) :
    atoi_uint (45 :: r)
      = ((max (-(2 ^ 63 : Int)) (min (-((atoi_digits r 0 : Nat) : Int)) (2 ^ 63 - 1)))
        % 2 ^ 32).toNat := by
  have hsp : isspace (45 : Byte) = false := by decide
  simp only [atoi_uint, List.dropWhile_cons, hsp, Bool.false_eq_true, if_false, if_true]

theorem atoi_uint_print_d (v : Nat) (tail : List Byte)
    (h : tail = [] ∨ ∃ c r, tail = c :: r ∧ ¬ is_digit c) :
    atoi_uint (print_d v ++ tail) = v % 2 ^ 32 := by
  have hv : v % 2 ^ 32 < 2 ^ 32 := Nat.mod_lt _ (by decide)
  simp only [print_d]
  generalize v % 2 ^ 32 = x at hv
  by_cases hx : x < 2 ^ 31
  · rw [if_pos hx]
    have hne := print_nat_ne_nil x
    have hd := print_nat_digits x
    have hval := atoi_digits_print_nat x tail h
    generalize print_nat x = p at hne hd hval
    cases p with
    | nil => exact absurd rfl hne
    | cons c r =>
      rw [atoi_uint_digits ((c :: r) ++ tail) c (r ++ tail) rfl (hd c (List.mem_cons_self _ _)),
        hval]
      omega
  · rw [if_neg hx]
    have hval := atoi_digits_print_nat (2 ^ 32 - x) tail h
    rw [List.cons_append, atoi_uint_minus, hval]
    omega

theorem strtok_all_tok (tok : List Byte) (h : ∀ c ∈ tok, c ≠ 32) :
    ∀ (rest cur : List Byte),
      strtok_all (tok ++ rest) cur = strtok_all rest (tok.reverse ++ cur) := by
  induction tok with
  | nil => intro rest cur; rfl
  | cons c tok ih =>
    intro rest cur
    have hc : c ≠ 32 := h c (List.mem_cons_self _ _)
    rw [List.cons_append, strtok_all, if_neg hc]
    rw [ih (fun d hd => h d (List.mem_cons_of_mem _ hd))]
    simp

theorem strtok_all_join (toks : List (List Byte))
    (h : ∀ t ∈ toks, t ≠ [] ∧ ∀ c ∈ t, c ≠ 32) :
    strtok_all (join_tokens toks) [] = toks := by
  induction toks with
  | nil => rfl
  | cons t ts ih =>
    obtain ⟨hne, hsp⟩ := h t (List.mem_cons_self _ _)
    have hrev : t.reverse ≠ [] := by simpa using hne
    cases ts with
    | nil =>
      simp only [join_tokens]
      have := strtok_all_tok t hsp [] []
      simp only [List.append_nil] at this
      rw [this]
      simp [strtok_all, hne]
    | cons t2 ts2 =>
      simp only [join_tokens]
      rw [strtok_all_tok t hsp]
      simp only [List.append_nil, strtok_all, if_true, if_neg hrev, List.reverse_reverse]
      congr 1
      exact ih (fun x hx => h x (List.mem_cons_of_mem _ hx))

theorem take_line_body (body rest : List Byte) (h : ∀ c ∈ body, c ≠ 10) :
    take_line (body ++ 10 :: rest) = body ++ [10] := by
  induction body with
  | nil => simp [take_line]
  | cons c body ih =>
    have hc : c ≠ 10 := h c (List.mem_cons_self _ _)
    rw [List.cons_append, take_line, if_neg hc]
    rw [ih (fun d hd => h d (List.mem_cons_of_mem _ hd))]
    rfl

theorem cstr_all (l : List Byte) (h : ∀ c ∈ l, c ≠ 0) : cstr l = l := by
  simp only [cstr]
  rw [List.takeWhile_eq_self_iff]
  intro c hc
  simpa using h c hc

theorem after_colon_split (a b : List Byte) (h : ∀ c ∈ a, c ≠ 58) :
    after_colon (a ++ 58 :: b) = some b := by
  induction a with
  | nil => simp [after_colon]
  | cons c a ih =>
    have hc : c ≠ 58 := h c (List.mem_cons_self _ _)
    have ih2 := ih (fun d hd => h d (List.mem_cons_of_mem _ hd))
    simp only [after_colon, List.cons_append, List.dropWhile_cons, hc, ne_eq,
      not_false_eq_true, decide_True, if_true] at ih2 ⊢
    exact ih2

theorem fgets_line (n : Nat) (body rest : List Byte) (h : ∀ c ∈ body, c ≠ 10)
    (hlen : body.length + 1 ≤ n - 1) :
    fgets n ⟨(body ++ [10]) ++ rest, 0, false⟩
      = (some (body ++ [10]), ⟨(body ++ [10]) ++ rest, body.length + 1, false⟩) := by
  have htake : ((body ++ [10]) ++ rest).take (n - 1)
      = body ++ 10 :: rest.take (n - 1 - (body.length + 1)) := by
    rw [List.take_append_eq_append_take]
    rw [List.take_of_length_le (by simp; omega)]
    simp
  have hne : (body ++ [10]) ++ rest ≠ [] := by simp
  simp only [fgets, List.drop_zero, htake, take_line_body body _ h, if_neg hne]
  rw [if_neg (by simp)]
  simp

theorem join_tokens_cons (t : List Byte) (ts : List (List Byte)) (h : ts ≠ []) :
    join_tokens (t :: ts) = t ++ 32 :: join_tokens ts := by
  cases ts with
  | nil => exact absurd rfl h
  | cons a b => rfl

theorem join_tokens_snoc (init : List (List Byte)) (t : List Byte) :
    join_tokens (init ++ [t ++ [10]]) = join_tokens (init ++ [t]) ++ [10] := by
  induction init with
  | nil => rfl
  | cons a init ih =>
    rw [List.cons_append, List.cons_append, join_tokens_cons _ _ (by simp),
      join_tokens_cons _ _ (by simp), ih]
    simp

theorem join_tokens_bytes (toks : List (List Byte))
    (h : ∀ t ∈ toks, ∀ c ∈ t, is_tok_byte c) :
    ∀ c ∈ join_tokens toks, c ≠ 10 ∧ c ≠ 0 := by
  induction toks with
  | nil => intro c hc; simp [join_tokens] at hc
  | cons t ts ih =>
    intro c hc
    cases ts with
    | nil =>
      simp only [join_tokens] at hc
      exact (h t (List.mem_cons_self _ _) c hc).2
    | cons a b =>
      rw [join_tokens_cons _ _ (by simp)] at hc
      rcases List.mem_append.mp hc with hc | hc
      · exact (h t (List.mem_cons_self _ _) c hc).2
      · rcases List.mem_cons.mp hc with rfl | hc
        · exact ⟨by decide, by decide⟩
        · exact ih (fun x hx => h x (List.mem_cons_of_mem _ hx)) c hc

theorem y4m_header_read_line (env : VdefEnv) (s : vraw_reader) (e : Int)
    (init : List (List Byte)) (last rest : List Byte)
    (hinit : ∀ t ∈ init, t ≠ [] ∧ ∀ c ∈ t, is_tok_byte c)
    (hlast : last ≠ [] ∧ ∀ c ∈ last, is_tok_byte c)
    (hfirst : (init ++ [last ++ [10]]).head? = some (bytes_of "YUV4MPEG2"))
    (hlen : (join_tokens (init ++ [last])).length ≤ 98)
    (hs : s.file = ⟨join_tokens (init ++ [last ++ [10]]) ++ rest, 0, false⟩) :
    (y4m_header_read env s e).1 = 0
    ∧ (y4m_header_read env s e).2.1.cfg
        = (init ++ [last ++ [10]]).foldl (y4m_header_token env)
            { s.cfg with format := env.vdef_i420 }
    ∧ (y4m_header_read env s e).2.1.header_offset
        = (join_tokens (init ++ [last ++ [10]])).length := by
  have hall : ∀ t ∈ init ++ [last], ∀ c ∈ t, is_tok_byte c := by
    intro t ht
    rcases List.mem_append.mp ht with ht | ht
    · exact (hinit t ht).2
    · rw [List.mem_singleton.mp ht]; exact hlast.2
  have hbody := join_tokens_bytes _ hall
  have hfg := fgets_line 100 (join_tokens (init ++ [last])) rest
    (fun c hc => (hbody c hc).1) (by omega)
  have hline : ∀ c ∈ join_tokens (init ++ [last]) ++ [10], c ≠ 0 := by
    intro c hc
    rcases List.mem_append.mp hc with hc | hc
    · exact (hbody c hc).2
    · rw [List.mem_singleton.mp hc]; decide
  have htoks : strtok_all (join_tokens (init ++ [last ++ [10]])) []
      = init ++ [last ++ [10]] := by
    apply strtok_all_join
    intro t ht
    rcases List.mem_append.mp ht with ht | ht
    · exact ⟨(hinit t ht).1, fun c hc => ((hinit t ht).2 c hc).1⟩
    · rw [List.mem_singleton.mp ht]
      refine ⟨by simp, ?_⟩
      intro c hc
      rcases List.mem_append.mp hc with hc | hc
      · exact (hlast.2 c hc).1
      · rw [List.mem_singleton.mp hc]; decide
  have hL : (join_tokens (init ++ [last ++ [10]])).length
      = (join_tokens (init ++ [last])).length + 1 := by
    rw [join_tokens_snoc]; simp
  simp only [y4m_header_read, hs, join_tokens_snoc, hfg, cstr_all _ hline]
  rw [← join_tokens_snoc, htoks]
  cases htk : init ++ [last ++ [10]] with
  | nil => simp at htk
  | cons p t =>
    rw [htk] at hfirst
    simp only [List.head?_cons, Option.some.injEq] at hfirst
    simp only [hfirst, ne_eq, not_true_eq_false, if_false, ftello, Int.toNat_ofNat,
      List.length_append, List.length_singleton, true_and]
    rw [← hfirst, ← htk, hL]

theorem is_num_byte_tok (c : Byte) (h : is_num_byte c) : is_tok_byte c ∧ c ≠ 58 := by
  rcases h with rfl | ⟨h1, h2⟩
  · exact ⟨⟨by decide, by decide, by decide⟩, by decide⟩
  · exact ⟨⟨byte_ne_of_val c 32 (by decide) (by omega),
      byte_ne_of_val c 10 (by decide) (by omega), byte_ne_of_val c 0 (by decide) (by omega)⟩,
      byte_ne_of_val c 58 (by decide) (by omega)⟩

theorem token_width (env : VdefEnv) (cfg : vraw_reader_config) (W : List Byte) (h : W ≠ []) :
    y4m_header_token env cfg (87 :: W)
      = { cfg with info := { cfg.info with
            resolution := { cfg.info.resolution with width := atoi_uint W } } } := by
  have hl : ¬ (87 :: W).length < 2 := by
    cases W with
    | nil => exact absurd rfl h
    | cons a b => simp
  simp only [y4m_header_token, if_neg hl, if_true]

theorem token_height (env : VdefEnv) (cfg : vraw_reader_config) (H : List Byte) (h : H ≠ []) :
    y4m_header_token env cfg (72 :: H)
      = { cfg with info := { cfg.info with
            resolution := { cfg.info.resolution with height := atoi_uint H } } } := by
  have hl : ¬ (72 :: H).length < 2 := by
    cases H with
    | nil => exact absurd rfl h
    | cons a b => simp
  have h1 : ¬ ((72 : Byte) = 87) := by decide
  simp only [y4m_header_token, if_neg hl, if_neg h1, if_true]

theorem token_framerate (env : VdefEnv) (cfg : vraw_reader_config) (a b : List Byte)
    (h : ∀ c ∈ a, c ≠ 58) :
    y4m_header_token env cfg (70 :: (a ++ 58 :: b))
      = { cfg with info := { cfg.info with
            framerate := { num := atoi_uint (a ++ 58 :: b), den := atoi_uint b } } } := by
  have hl : ¬ (70 :: (a ++ 58 :: b)).length < 2 := by simp; omega
  have h1 : ¬ ((70 : Byte) = 87) := by decide
  have h2 : ¬ ((70 : Byte) = 72) := by decide
  have hc : after_colon (70 :: (a ++ 58 :: b)) = some b := by
    have := after_colon_split (70 :: a) b (by
      intro c hc
      rcases List.mem_cons.mp hc with rfl | hc
      · decide
      · exact h c hc)
    simpa using this
  simp only [y4m_header_token, if_neg hl, if_neg h1, if_neg h2, if_true, hc]

theorem token_sar (env : VdefEnv) (cfg : vraw_reader_config) (a b : List Byte)
    (h : ∀ c ∈ a, c ≠ 58) :
    y4m_header_token env cfg (65 :: (a ++ 58 :: b))
      = { cfg with info := { cfg.info with
            sar := { width := atoi_uint (a ++ 58 :: b), height := atoi_uint b } } } := by
  have hl : ¬ (65 :: (a ++ 58 :: b)).length < 2 := by simp; omega
  have h1 : ¬ ((65 : Byte) = 87) := by decide
  have h2 : ¬ ((65 : Byte) = 72) := by decide
  have h3 : ¬ ((65 : Byte) = 70) := by decide
  have hc : after_colon (65 :: (a ++ 58 :: b)) = some b := by
    have := after_colon_split (65 :: a) b (by
      intro c hc
      rcases List.mem_cons.mp hc with rfl | hc
      · decide
      · exact h c hc)
    simpa using this
  simp only [y4m_header_token, if_neg hl, if_neg h1, if_neg h2, if_neg h3, if_true, hc]

theorem token_ignored (env : VdefEnv) (cfg : vraw_reader_config) :
    y4m_header_token env cfg (bytes_of "YUV4MPEG2") = cfg
    ∧ y4m_header_token env cfg (bytes_of "Ip") = cfg
    ∧ y4m_header_token env cfg (bytes_of "C420" ++ [10]) = cfg
    ∧ y4m_header_token env cfg (bytes_of "C420p10" ++ [10]) = cfg :=
  ⟨rfl, rfl, rfl, rfl⟩

theorem header_fields_join (info : vdef_format_info) (tag : List Byte) :
    y4m_header_fields info ++ (32 :: tag ++ [10])
      = join_tokens (header_tokens (print_d info.resolution.width)
          (print_d info.resolution.height) (print_d info.framerate.num)
          (print_d info.framerate.den) (print_d info.sar.width) (print_d info.sar.height)
          ++ [tag ++ [10]]) := by
  have e1 : bytes_of "YUV4MPEG2 W" = bytes_of "YUV4MPEG2" ++ [32, 87] := by decide
  have e2 : bytes_of " H" = [32, 72] := by decide
  have e3 : bytes_of " F" = [32, 70] := by decide
  have e4 : bytes_of ":" = [58] := by decide
  have e5 : bytes_of " Ip A" = 32 :: (bytes_of "Ip" ++ [32, 65]) := by decide
  simp only [y4m_header_fields, header_tokens, e1, e2, e3, e4, e5, join_tokens,
    List.cons_append, List.append_assoc, List.nil_append, List.singleton_append]

theorem header_tokens_fold (env : VdefEnv) (cfg : vraw_reader_config)
    (W H Fn Fd Aw Ah last : List Byte) (hW : W ≠ []) (hH : H ≠ [])
    (hFn : ∀ c ∈ Fn, c ≠ 58) (hAw : ∀ c ∈ Aw, c ≠ 58)
    (hlast : y4m_header_token env
        { cfg with info := { framerate := { num := atoi_uint (Fn ++ 58 :: Fd),
                                            den := atoi_uint Fd },
                             resolution := { width := atoi_uint W, height := atoi_uint H },
                             sar := { width := atoi_uint (Aw ++ 58 :: Ah),
                                      height := atoi_uint Ah } } } last
      = { cfg with info := { framerate := { num := atoi_uint (Fn ++ 58 :: Fd),
                                            den := atoi_uint Fd },
                             resolution := { width := atoi_uint W, height := atoi_uint H },
                             sar := { width := atoi_uint (Aw ++ 58 :: Ah),
                                      height := atoi_uint Ah } } }) :
    (header_tokens W H Fn Fd Aw Ah ++ [last]).foldl (y4m_header_token env) cfg
      = { cfg with info := { framerate := { num := atoi_uint (Fn ++ 58 :: Fd),
                                            den := atoi_uint Fd },
                             resolution := { width := atoi_uint W, height := atoi_uint H },
                             sar := { width := atoi_uint (Aw ++ 58 :: Ah),
                                      height := atoi_uint Ah } } } := by
  simp only [header_tokens, List.cons_append, List.nil_append, List.foldl_cons, List.foldl_nil,
    (token_ignored env _).1, (token_ignored env _).2.1, token_width env _ W hW,
    token_height env _ H hH, token_framerate env _ Fn Fd hFn, token_sar env _ Aw Ah hAw]
  exact hlast

set_option maxRecDepth 100000 in
theorem literal_tokens_valid :
    (∀ c ∈ bytes_of "YUV4MPEG2", c ≠ 32 ∧ c ≠ 10 ∧ c ≠ 0)
    ∧ (∀ c ∈ bytes_of "Ip", c ≠ 32 ∧ c ≠ 10 ∧ c ≠ 0)
    ∧ (∀ c ∈ bytes_of "C420", c ≠ 32 ∧ c ≠ 10 ∧ c ≠ 0)
    ∧ (∀ c ∈ bytes_of "C420p10", c ≠ 32 ∧ c ≠ 10 ∧ c ≠ 0) := by
  decide

theorem header_tokens_valid (W H Fn Fd Aw Ah : List Byte)
    (hW : ∀ c ∈ W, is_num_byte c) (hH : ∀ c ∈ H, is_num_byte c)
    (hFn : ∀ c ∈ Fn, is_num_byte c) (hFd : ∀ c ∈ Fd, is_num_byte c)
    (hAw : ∀ c ∈ Aw, is_num_byte c) (hAh : ∀ c ∈ Ah, is_num_byte c) :
    ∀ t ∈ header_tokens W H Fn Fd Aw Ah, t ≠ [] ∧ ∀ c ∈ t, is_tok_byte c := by
  have num : ∀ (l : List Byte), (∀ c ∈ l, is_num_byte c) → ∀ c ∈ l, is_tok_byte c :=
    fun l hl c hc => (is_num_byte_tok c (hl c hc)).1
  have pair : ∀ (a b : List Byte), (∀ c ∈ a, is_num_byte c) → (∀ c ∈ b, is_num_byte c) →
      ∀ c ∈ a ++ 58 :: b, is_tok_byte c := by
    intro a b ha hb c hc
    rcases List.mem_append.mp hc with hc | hc
    · exact num a ha c hc
    · rcases List.mem_cons.mp hc with rfl | hc
      · exact ⟨by decide, by decide, by decide⟩
      · exact num b hb c hc
  have head : ∀ (k : Byte) (l : List Byte), is_tok_byte k → (∀ c ∈ l, is_tok_byte c) →
      (k :: l) ≠ [] ∧ ∀ c ∈ k :: l, is_tok_byte c := by
    intro k l hk hl
    refine ⟨by simp, ?_⟩
    intro c hc
    rcases List.mem_cons.mp hc with rfl | hc
    · exact hk
    · exact hl c hc
  intro t ht
  simp only [header_tokens, List.mem_cons, List.mem_singleton, List.not_mem_nil, or_false]
    at ht
  rcases ht with rfl | rfl | rfl | rfl | rfl | rfl
  · exact ⟨by decide, literal_tokens_valid.1⟩
  · exact head 87 W ⟨by decide, by decide, by decide⟩ (num W hW)
  · exact head 72 H ⟨by decide, by decide, by decide⟩ (num H hH)
  · exact head 70 _ ⟨by decide, by decide, by decide⟩ (pair Fn Fd hFn hFd)
  · exact ⟨by decide, literal_tokens_valid.2.1⟩
  · exact head 65 _ ⟨by decide, by decide, by decide⟩ (pair Aw Ah hAw hAh)

theorem header_tokens_length (W H Fn Fd Aw Ah last : List Byte) :
    (join_tokens (header_tokens W H Fn Fd Aw Ah ++ [last])).length
      = 23 + W.length + H.length + Fn.length + Fd.length + Aw.length + Ah.length
        + last.length := by
  have e1 : (bytes_of "YUV4MPEG2").length = 9 := by decide
  have e2 : (bytes_of "Ip").length = 2 := by decide
  simp only [header_tokens, List.cons_append, List.nil_append, join_tokens, List.length_append,
    List.length_cons, e1, e2]
  omega

/-! ## Writer lemmas -/

theorem write_planar_info (w : vraw_writer) (mem : Mem) (fr : vraw_frame) (e : Int)
    (i : vdef_frame_info) :
    write_planar w mem { fr with frame := { fr.frame with info := i } } e
      = write_planar w mem fr e := rfl

theorem write_semi_planar_info (w : vraw_writer) (mem : Mem) (fr : vraw_frame) (e : Int)
    (i : vdef_frame_info) :
    write_semi_planar w mem { fr with frame := { fr.frame with info := i } } e
      = write_semi_planar w mem fr e := rfl

theorem write_packed_info (w : vraw_writer) (mem : Mem) (fr : vraw_frame) (e : Int)
    (i : vdef_frame_info) :
    write_packed w mem { fr with frame := { fr.frame with info := i } } e
      = write_packed w mem fr e := rfl


theorem plane_rows_zero (mem : Mem) (strd n ptr : Nat) : plane_rows mem 0 strd n ptr = [] := by
  induction n generalizing ptr with
  | zero => rfl
  | succ k ih => simp [plane_rows, ih]

theorem plane_rows_length (mem : Mem) (len strd n ptr : Nat) :
    (plane_rows mem len strd n ptr).length = len * n := by
  induction n generalizing ptr with
  | zero => simp [plane_rows]
  | succ k ih =>
    simp only [plane_rows, List.length_append, List.length_map, List.length_range, ih]
    ring

theorem write_rows_file (mem : Mem) (size strd n ptr : Nat) (file : List Byte) :
    (write_rows mem size strd n ptr file).2 = file ++ plane_rows mem size strd n ptr := by
  induction n generalizing ptr file with
  | zero => simp [write_rows, plane_rows]
  | succ k ih =>
    by_cases hs : size = 0
    · subst hs
      simp [write_rows, fwrite, plane_rows_zero]
    · simp only [write_rows, fwrite, if_neg hs, ne_eq, not_true_eq_false, if_false, plane_rows]
      rw [ih]
      simp

theorem write_rows_fail (mem : Mem) (size strd n ptr : Nat) (file : List Byte)
    (h : (write_rows mem size strd n ptr file).1 = false) : size = 0 := by
  induction n generalizing ptr file with
  | zero => simp [write_rows] at h
  | succ k ih =>
    by_cases hs : size = 0
    · exact hs
    · simp only [write_rows, fwrite, if_neg hs, ne_eq, not_true_eq_false, if_false] at h
      exact ih _ _ h

theorem writer_new_init_fields (cfg : vraw_writer_config) :
    (writer_new_init cfg).cfg.y4m = cfg.y4m ∧ (writer_new_init cfg).cfg.format = cfg.format
    ∧ (writer_new_init cfg).cfg.info.resolution = cfg.info.resolution
    ∧ (writer_new_init cfg).primary_line_width
        = (cfg.info.resolution.width * cfg.format.data_size) % 2 ^ 32 / 8 := by
  by_cases h1 : vdef_frac_is_null cfg.info.framerate = true <;>
    by_cases h2 : vdef_dim_is_null cfg.info.sar = true <;>
    simp [writer_new_init, h1, h2]

theorem y4m_header_write_fields (env : VdefEnv) (s : vraw_writer) :
    (y4m_header_write env s).2.cfg = s.cfg
    ∧ (y4m_header_write env s).2.primary_line_width = s.primary_line_width := by
  unfold y4m_header_write
  split <;> simp

theorem writer_new_fields (env : VdefEnv) (cfg : vraw_writer_config) (e0 e1 : Int)
    (w : vraw_writer) (disk : Option (List Byte))
    (hnew : vraw_writer_new env cfg none e0 = (0, some w, e1, disk)) :
    w.cfg.y4m = cfg.y4m ∧ w.cfg.format = cfg.format
    ∧ w.cfg.info.resolution = cfg.info.resolution
    ∧ w.primary_line_width
        = (cfg.info.resolution.width * cfg.format.data_size) % 2 ^ 32 / 8 := by
  obtain ⟨i1, i2, i3, i4⟩ := writer_new_init_fields cfg
  obtain ⟨y1, y2⟩ := y4m_header_write_fields env (writer_new_init cfg)
  unfold vraw_writer_new at hnew
  split at hnew
  · simp at hnew
  · simp only at hnew
    split_ifs at hnew with h1 h2
    · simp at hnew
    · simp only [Prod.mk.injEq, Option.some.injEq, true_and] at hnew
      obtain ⟨rfl, -⟩ := hnew
      rw [y1, y2]
      exact ⟨i1, i2, i3, i4⟩
    · simp only [Prod.mk.injEq, Option.some.injEq, true_and] at hnew
      obtain ⟨rfl, -⟩ := hnew
      exact ⟨i1, i2, i3, i4⟩

theorem write_plane_spec (self : vraw_writer) (mem : Mem) (size strd n ptr : Nat) (e : Int) :
    (write_plane self mem size strd n ptr e).2.file
        = self.file ++ plane_rows mem size strd n ptr
    ∧ (write_plane self mem size strd n ptr e).2.primary_line_width = self.primary_line_width
    ∧ (write_plane self mem size strd n ptr e).2.cfg = self.cfg
    ∧ ((write_plane self mem size strd n ptr e).1 = none
        ∨ ((write_plane self mem size strd n ptr e).1 = some (-e) ∧ size = 0)) := by
  have h1 := write_rows_file mem size strd n ptr self.file
  have h2 := write_rows_fail mem size strd n ptr self.file
  unfold write_plane
  rcases hw : write_rows mem size strd n ptr self.file with ⟨b, f⟩
  rw [hw] at h1 h2
  simp only at h1 h2
  subst h1
  cases b with
  | false => exact ⟨rfl, rfl, rfl, Or.inr ⟨rfl, h2 rfl⟩⟩
  | true => exact ⟨rfl, rfl, rfl, Or.inl rfl⟩

theorem write_planar_file (w : vraw_writer) (mem : Mem) (fr : vraw_frame) (e : Int)
    (hret : (write_planar w mem fr e).1 = 0) :
    (write_planar w mem fr e).2.1.file
      = w.file ++ (plane_rows mem w.primary_line_width (fr.frame.plane_stride 0)
            w.cfg.info.resolution.height (fr.data 0)
          ++ plane_rows mem (w.primary_line_width / 2) (fr.frame.plane_stride 1)
            (w.cfg.info.resolution.height / 2) (fr.data 1)
          ++ plane_rows mem (w.primary_line_width / 2) (fr.frame.plane_stride 2)
            (w.cfg.info.resolution.height / 2) (fr.data 2)) := by
  have hE : -EINVAL ≠ (0 : Int) := by decide
  unfold write_planar at hret ⊢
  simp only at hret ⊢
  split_ifs at hret ⊢
  iterate 6 exact absurd hret hE
  obtain ⟨a1, a2, a3, a4⟩ := write_plane_spec w mem w.primary_line_width
    (fr.frame.plane_stride 0) w.cfg.info.resolution.height (fr.data 0) e
  rcases h0 : write_plane w mem w.primary_line_width (fr.frame.plane_stride 0)
    w.cfg.info.resolution.height (fr.data 0) e with ⟨r0, w0⟩
  rw [h0] at a1 a2 a3 a4 hret
  dsimp only at a1 a2 a3 a4
  rcases a4 with rfl | ⟨rfl, hz⟩
  · dsimp only at hret ⊢
    obtain ⟨b1, b2, b3, b4⟩ := write_plane_spec w0 mem (w0.primary_line_width / 2)
      (fr.frame.plane_stride 1) (w.cfg.info.resolution.height / 2) (fr.data 1) e
    rcases h1 : write_plane w0 mem (w0.primary_line_width / 2)
      (fr.frame.plane_stride 1) (w.cfg.info.resolution.height / 2) (fr.data 1) e with ⟨r1, w1⟩
    rw [h1] at b1 b2 b3 b4 hret
    dsimp only at b1 b2 b3 b4
    rcases b4 with rfl | ⟨rfl, hz⟩
    · dsimp only at hret ⊢
      obtain ⟨c1, c2, c3, c4⟩ := write_plane_spec w1 mem (w1.primary_line_width / 2)
        (fr.frame.plane_stride 2) (w.cfg.info.resolution.height / 2) (fr.data 2) e
      rcases h2 : write_plane w1 mem (w1.primary_line_width / 2)
        (fr.frame.plane_stride 2) (w.cfg.info.resolution.height / 2) (fr.data 2) e with ⟨r2, w2⟩
      rw [h2] at c1 c2 c3 c4 hret
      dsimp only at c1 c2 c3 c4
      rcases c4 with rfl | ⟨rfl, hz⟩
      · dsimp only
        rw [c1, b1, a1, b2, a2]
        simp
      · dsimp only
        rw [b2, a2] at hz
        rw [c1, b1, a1, b2, a2, hz]
        simp [plane_rows_zero]
    · dsimp only
      rw [a2] at hz
      rw [b1, a1, a2, hz]
      simp [plane_rows_zero]
  · dsimp only
    rw [a1, hz]
    simp [plane_rows_zero]

theorem write_semi_planar_file (w : vraw_writer) (mem : Mem) (fr : vraw_frame) (e : Int)
    (hret : (write_semi_planar w mem fr e).1 = 0) :
    (write_semi_planar w mem fr e).2.1.file
      = w.file ++ (plane_rows mem w.primary_line_width (fr.frame.plane_stride 0)
            w.cfg.info.resolution.height (fr.data 0)
          ++ plane_rows mem w.primary_line_width (fr.frame.plane_stride 1)
            (w.cfg.info.resolution.height / 2) (fr.data 1)) := by
  have hE : -EINVAL ≠ (0 : Int) := by decide
  unfold write_semi_planar at hret ⊢
  simp only at hret ⊢
  split_ifs at hret ⊢
  iterate 4 exact absurd hret hE
  obtain ⟨a1, a2, a3, a4⟩ := write_plane_spec w mem w.primary_line_width
    (fr.frame.plane_stride 0) w.cfg.info.resolution.height (fr.data 0) e
  rcases h0 : write_plane w mem w.primary_line_width (fr.frame.plane_stride 0)
    w.cfg.info.resolution.height (fr.data 0) e with ⟨r0, w0⟩
  rw [h0] at a1 a2 a3 a4 hret
  dsimp only at a1 a2 a3 a4
  rcases a4 with rfl | ⟨rfl, hz⟩
  · dsimp only at hret ⊢
    obtain ⟨b1, b2, b3, b4⟩ := write_plane_spec w0 mem w0.primary_line_width
      (fr.frame.plane_stride 1) (w.cfg.info.resolution.height / 2) (fr.data 1) e
    rcases h1 : write_plane w0 mem w0.primary_line_width
      (fr.frame.plane_stride 1) (w.cfg.info.resolution.height / 2) (fr.data 1) e with ⟨r1, w1⟩
    rw [h1] at b1 b2 b3 b4 hret
    dsimp only at b1 b2 b3 b4
    rcases b4 with rfl | ⟨rfl, hz⟩
    · dsimp only
      rw [b1, a1, a2]
      simp
    · dsimp only
      rw [a2] at hz
      rw [b1, a1, a2, hz]
      simp [plane_rows_zero]
  · dsimp only
    rw [a1, hz]
    simp [plane_rows_zero]

theorem write_packed_file (w : vraw_writer) (mem : Mem) (fr : vraw_frame) (e : Int)
    (hret : (write_packed w mem fr e).1 = 0) :
    (write_packed w mem fr e).2.1.file
      = w.file ++ plane_rows mem w.primary_line_width (fr.frame.plane_stride 0)
            w.cfg.info.resolution.height (fr.data 0) := by
  have hE : -EINVAL ≠ (0 : Int) := by decide
  unfold write_packed at hret ⊢
  simp only at hret ⊢
  split_ifs at hret ⊢
  iterate 2 exact absurd hret hE
  obtain ⟨a1, a2, a3, a4⟩ := write_plane_spec w mem w.primary_line_width
    (fr.frame.plane_stride 0) w.cfg.info.resolution.height (fr.data 0) e
  rcases h0 : write_plane w mem w.primary_line_width (fr.frame.plane_stride 0)
    w.cfg.info.resolution.height (fr.data 0) e with ⟨r0, w0⟩
  rw [h0] at a1 a2 a3 a4 hret
  dsimp only at a1 a2 a3 a4
  rcases a4 with rfl | ⟨rfl, hz⟩
  · dsimp only
    rw [a1]
  · dsimp only
    rw [a1]

theorem frame_image_length_eq (layout : vdef_raw_data_layout) (l0 height : Nat) (mem : Mem)
    (fr : vraw_frame) :
    (frame_image layout l0 height mem fr).length = frame_image_length layout l0 height := by
  cases layout <;>
    simp [frame_image, frame_image_length, plane_rows_length, Nat.add_assoc]

theorem frame_write_file (w : vraw_writer) (mem : Mem) (fr : vraw_frame) (e : Int)
    (hret : (vraw_writer_frame_write w mem (some fr) e).1 = 0) :
    (vraw_writer_frame_write w mem (some fr) e).2.1.file
      = w.file ++ (if w.cfg.y4m ≠ 0 then bytes_of "FRAME\n" else [])
          ++ frame_image w.cfg.format.data_layout w.primary_line_width
              w.cfg.info.resolution.height mem fr := by
  have hE : -EINVAL ≠ (0 : Int) := by decide
  have hS : -ENOSYS ≠ (0 : Int) := by decide
  unfold vraw_writer_frame_write at hret ⊢
  dsimp only at hret ⊢
  cases hc : writer_check_frame w fr with
  | some res =>
    rw [hc] at hret
    dsimp only at hret
    have : res = -EINVAL := by
      unfold writer_check_frame at hc
      split_ifs at hc <;> simp at hc <;> exact hc.symm
    rw [this] at hret
    exact absurd hret hE
  | none =>
    rw [hc] at hret
    dsimp only at hret ⊢
    have key : ∀ w1 : vraw_writer, w1.cfg = w.cfg → w1.primary_line_width = w.primary_line_width →
        (match w1.cfg.format.data_layout with
          | .PLANAR => write_planar w1 mem fr e
          | .SEMI_PLANAR => write_semi_planar w1 mem fr e
          | .PACKED => write_packed w1 mem fr e
          | _ => (-ENOSYS, w1, e)).1 = 0 →
        (match w1.cfg.format.data_layout with
          | .PLANAR => write_planar w1 mem fr e
          | .SEMI_PLANAR => write_semi_planar w1 mem fr e
          | .PACKED => write_packed w1 mem fr e
          | _ => (-ENOSYS, w1, e)).2.1.file
          = w1.file ++ frame_image w.cfg.format.data_layout w.primary_line_width
              w.cfg.info.resolution.height mem fr := by
      intro w1 h1 h2 h3
      rw [← h1, ← h2]
      cases hl : w1.cfg.format.data_layout <;> rw [hl] at h3 <;> dsimp only at h3 ⊢
      · exact absurd h3 hS
      · simpa [frame_image] using write_packed_file w1 mem fr e h3
      · simpa [frame_image] using write_planar_file w1 mem fr e h3
      · simpa [frame_image] using write_semi_planar_file w1 mem fr e h3
      · exact absurd h3 hS
      · exact absurd h3 hS
    by_cases hy : w.cfg.y4m ≠ 0
    · simp only [if_pos hy] at hret ⊢
      have := key { w with file := w.file ++ bytes_of "FRAME\n" } rfl rfl hret
      dsimp only at this
      exact this
    · simp only [if_neg hy, List.append_nil] at hret ⊢
      exact key w rfl rfl hret


theorem y4m_header_write_i420 (env : VdefEnv) (w : vraw_writer)
    (h : w.cfg.format = env.vdef_i420) :
    y4m_header_write env w
      = (0, { w with file := w.file ++ (y4m_header_fields w.cfg.info ++ bytes_of " C420\n") }) := by
  have hcmp : vdef_raw_format_cmp w.cfg.format env.vdef_i420 = true := by
    simp [vdef_raw_format_cmp, h]
  simp only [y4m_header_write, hcmp, Bool.true_eq_false, false_and, if_false, if_true,
    y4m_header_fields, List.append_assoc]
  rfl

theorem y4m_header_write_i420_10 (env : VdefEnv) (w : vraw_writer)
    (h : w.cfg.format = env.vdef_i420_10_16le) (hne : env.vdef_i420_10_16le ≠ env.vdef_i420) :
    y4m_header_write env w
      = (0, { w with file := w.file
          ++ (y4m_header_fields w.cfg.info ++ bytes_of " C420p10\n") }) := by
  have hcmp : vdef_raw_format_cmp w.cfg.format env.vdef_i420 = false := by
    simp [vdef_raw_format_cmp, h, hne]
  have hcmp2 : vdef_raw_format_cmp w.cfg.format env.vdef_i420_10_16le = true := by
    simp [vdef_raw_format_cmp, h]
  simp only [y4m_header_write, hcmp, hcmp2, Bool.true_eq_false, and_false, if_false, if_true,
    Bool.false_eq_true, y4m_header_fields, List.append_assoc]
  rfl

theorem y4m_header_write_rejects (env : VdefEnv) (w : vraw_writer)
    (h1 : w.cfg.format ≠ env.vdef_i420) (h2 : w.cfg.format ≠ env.vdef_i420_10_16le) :
    y4m_header_write env w = (-EINVAL, w) := by
  simp [y4m_header_write, vdef_raw_format_cmp, h1, h2]

theorem writer_new_init_format (cfg : vraw_writer_config) :
    (writer_new_init cfg).cfg.format = cfg.format
    ∧ (writer_new_init cfg).cfg.y4m = cfg.y4m ∧ (writer_new_init cfg).file = [] := by
  simp only [writer_new_init]
  split_ifs <;> exact ⟨rfl, rfl, rfl⟩

theorem codec_formats_cmp (env : VdefEnv) (fmt : vdef_raw_format)
    (h : fmt ∉ codec_formats env) :
    vdef_raw_format_cmp fmt env.vdef_i420 = false
    ∧ vdef_raw_format_cmp fmt env.vdef_i420_10_16le = false
    ∧ vdef_raw_format_cmp fmt env.vdef_i420_10_16be = false
    ∧ vdef_raw_format_cmp fmt env.vdef_yv12 = false
    ∧ vdef_raw_format_cmp fmt env.vdef_yv12_10_16le = false
    ∧ vdef_raw_format_cmp fmt env.vdef_yv12_10_16be = false
    ∧ vdef_raw_format_cmp fmt env.vdef_nv12 = false
    ∧ vdef_raw_format_cmp fmt env.vdef_nv12_10_16le = false
    ∧ vdef_raw_format_cmp fmt env.vdef_nv12_10_16be = false
    ∧ vdef_raw_format_cmp fmt env.vdef_nv21 = false
    ∧ vdef_raw_format_cmp fmt env.vdef_nv21_10_16le = false
    ∧ vdef_raw_format_cmp fmt env.vdef_nv21_10_16be = false := by
  simp only [codec_formats, List.mem_cons, List.mem_singleton, not_or, List.not_mem_nil,
    or_false] at h
  obtain ⟨h1, h2, h3, h4, h5, h6, h7, h8, h9, h10, h11, h12⟩ := h
  simp only [vdef_raw_format_cmp, decide_eq_false_iff_not]
  exact ⟨h1, h2, h3, h4, h5, h6, h7, h8, h9, h10, h11, h12⟩

theorem frame_to_unrecognised (env : VdefEnv) (mem : Mem) (in_frame out_frame : vraw_frame)
    (h : in_frame.frame.format ∉ codec_formats env) :
    frame_to_nv21_10packed env mem in_frame out_frame = mem := by
  obtain ⟨h1, h2, h3, h4, h5, h6, h7, h8, h9, h10, h11, h12⟩ :=
    codec_formats_cmp env _ h
  simp only [frame_to_nv21_10packed, h1, h2, h3, h4, h5, h6, h7, h8, h9, h10, h11, h12,
    Bool.or_self, Bool.false_eq_true, if_false]

theorem frame_from_unrecognised (env : VdefEnv) (mem : Mem) (in_frame out_frame : vraw_frame)
    (h : out_frame.frame.format ∉ codec_formats env) :
    frame_from_nv21_10packed env mem in_frame out_frame = mem := by
  obtain ⟨h1, h2, h3, h4, h5, h6, h7, h8, h9, h10, h11, h12⟩ :=
    codec_formats_cmp env _ h
  simp only [frame_from_nv21_10packed, h1, h2, h3, h4, h5, h6, h7, h8, h9, h10, h11, h12,
    Bool.or_self, Bool.false_eq_true, if_false]

/-! ## Lemmas on reverse start, the codec layouts, the invariants and the rewrite -/

theorem sample_start_max_new :
    vraw_reader_new sample_env (some (count_bytes 36)) (sample_config_start_max 2 3) 0
      = .done (0, some sample_reader_start_max, 0) :=
  (reader_new_raw_eval_start sample_env (count_bytes 36) (sample_config_start_max 2 3) 0
    (by decide) (by decide) (by decide) (by decide)).trans rfl

set_option maxRecDepth 100000 in
theorem sample_y4m_wide_reader_new :
    vraw_reader_new sample_env (some sample_y4m_wide_file)
        (sample_config 1 (-1) sample_env.vdef_i420) 0
      = .done (0, some sample_y4m_wide_reader, 0) :=
  reader_new_y4m_eval sample_env sample_y4m_wide_file (sample_config 1 (-1) sample_env.vdef_i420)
    0 (by decide) (by decide) (by decide) (by decide) (by decide) (by decide)

theorem fill_plane_ptrs_get (pc : Nat) (ps : Nat → Nat) (data : Nat) :
    ∀ (cnt p D : Nat) (arr : Nat → Nat),
      D = (if p < pc then data + sum_planes ps p else 0) →
      ∀ q, fill_plane_ptrs pc ps cnt p D arr q
        = if p ≤ q ∧ q < p + cnt then (if q < pc then data + sum_planes ps q else 0)
          else arr q := by
  intro cnt
  induction cnt with
  | zero =>
    intro p D arr _ q
    have : ¬ (p ≤ q ∧ q < p + 0) := by omega
    rw [fill_plane_ptrs, if_neg this]
  | succ cnt ih =>
    intro p D arr hD q
    rw [fill_plane_ptrs]
    rw [ih (p + 1) _ _ ?_ q]
    · by_cases hq : q = p
      · subst hq
        have h1 : ¬ (q + 1 ≤ q ∧ q < q + 1 + cnt) := by omega
        have h2 : q ≤ q ∧ q < q + (cnt + 1) := by omega
        rw [if_neg h1, if_pos h2, hD]
        simp
      · by_cases hr : p + 1 ≤ q ∧ q < p + 1 + cnt
        · have h2 : p ≤ q ∧ q < p + (cnt + 1) := by omega
          rw [if_pos hr, if_pos h2]
        · have h2 : ¬ (p ≤ q ∧ q < p + (cnt + 1)) := by omega
          rw [if_neg hr, if_neg h2]
          simp [hq]
    · by_cases hp : p + 1 < pc
      · have hp0 : p < pc := by omega
        rw [if_pos hp, if_pos hp, hD, if_pos hp0, sum_planes]
        omega
      · rw [if_neg hp, if_neg hp]

/-- Every way through `vraw_reader_frame_read`: either the call returns before
the frame tail, having gone through header reads, plane reads, wraps and turns
only, or it ends in the frame tail entered from a state reached by such steps. -/
theorem frame_read_steps (env : VdefEnv) (data len : Nat) (fr : vraw_frame)
    (P : vraw_reader → Prop)
    (hH : ∀ st : State, st.self.cfg.y4m ≠ 0 → P st.self → P (frame_read_header st).2.self)
    (hR : ∀ st : State, P st.self → P (vraw_reader_frame_read_planes st data).2.self)
    (hW : ∀ s : vraw_reader, P s →
      P { s with index := 0, file := { s.file with pos := s.header_offset, eof := false } })
    (hT : ∀ (s : vraw_reader) (e : Int), P s →
      P (seek_to_previous_frame { s with reverse := 1 } e).2.1) :
    ∀ (fuel : Nat) (st : State) (ret : Int) (st2 : State) (fr2 : Option vraw_frame),
      P st.self →
      vraw_reader_frame_read env fuel st data len (some fr) = .done (ret, st2, fr2) →
      (P st2.self ∧ fr2 = some fr)
      ∨ ∃ st1, P st1.self ∧ frame_read_finish env st1 data fr = .done (ret, st2, fr2) := by
  intro fuel
  induction fuel with
  | zero =>
    intro st ret st2 fr2 _ h
    simp [vraw_reader_frame_read] at h
  | succ fuel ih =>
    intro st ret st2 fr2 hP h
    rw [vraw_reader_frame_read] at h
    by_cases hd : data = 0
    · simp only [if_pos hd, Run.done.injEq, Prod.mk.injEq] at h
      obtain ⟨h1, h2, h3⟩ := h
      subst h1 h2 h3
      exact Or.inl ⟨hP, rfl⟩
    simp only [if_neg hd] at h
    by_cases hlen : len = 0
    · simp only [if_pos hlen, Run.done.injEq, Prod.mk.injEq] at h
      obtain ⟨h1, h2, h3⟩ := h
      subst h1 h2 h3
      exact Or.inl ⟨hP, rfl⟩
    simp only [if_neg hlen] at h
    by_cases hsz : len < st.self.frame_size
    · simp only [if_pos hsz, Run.done.injEq, Prod.mk.injEq] at h
      obtain ⟨h1, h2, h3⟩ := h
      subst h1 h2 h3
      exact Or.inl ⟨hP, rfl⟩
    simp only [if_neg hsz] at h
    have hH0 : P (if st.self.cfg.y4m ≠ 0 then frame_read_header st else (none, st)).2.self := by
      by_cases hy : st.self.cfg.y4m ≠ 0
      · simp only [if_pos hy]
        exact hH st hy hP
      · simp only [if_neg hy]
        exact hP
    generalize (if st.self.cfg.y4m ≠ 0 then frame_read_header st else (none, st)) = H at h hH0
    obtain ⟨o, st0⟩ := H
    simp only at hH0
    cases o with
    | some res =>
      simp only [Run.done.injEq, Prod.mk.injEq] at h
      obtain ⟨h1, h2, h3⟩ := h
      subst h1 h2 h3
      exact Or.inl ⟨hH0, rfl⟩
    | none =>
      simp only at h
      have hP1 := hR st0 hH0
      rcases hPl : vraw_reader_frame_read_planes st0 data with ⟨res1, st1⟩
      rw [hPl] at h hP1
      simp only at h hP1
      by_cases heof : feof st1.self.file = true
          ∨ (st1.self.cfg.max_count > 0 ∧ st1.self.index > st1.self.cfg.max_count)
      · simp only [if_pos heof] at h
        by_cases hl1 : st1.self.cfg.loop > (0 : Int)
        · have hoff : ¬ ((st1.self.header_offset : Nat) : Int) < 0 := by omega
          simp only [if_pos hl1, fseeko_to, if_neg hoff, lt_self_iff_false, if_false] at h
          refine ih _ ret st2 fr2 ?_ h
          simpa using hW st1.self hP1
        · simp only [if_neg hl1] at h
          by_cases hl2 : st1.self.cfg.loop < (0 : Int)
          · simp only [if_pos hl2] at h
            have hk := hT st1.self st1.errno hP1
            rcases hs : seek_to_previous_frame { st1.self with reverse := 1 } st1.errno
              with ⟨res, s', e'⟩
            rw [hs] at h hk
            simp only at h hk
            by_cases hneg : res < 0
            · simp only [if_pos hneg, Run.done.injEq, Prod.mk.injEq] at h
              obtain ⟨h1, h2, h3⟩ := h
              subst h1 h2 h3
              exact Or.inl ⟨hk, rfl⟩
            · simp only [if_neg hneg] at h
              exact ih _ ret st2 fr2 hk h
          · simp only [if_neg hl2, Run.done.injEq, Prod.mk.injEq] at h
            obtain ⟨h1, h2, h3⟩ := h
            subst h1 h2 h3
            exact Or.inl ⟨hP1, rfl⟩
      · simp only [if_neg heof] at h
        by_cases hr1 : res1 ≠ 1
        · simp only [if_pos hr1, Run.done.injEq, Prod.mk.injEq] at h
          obtain ⟨h1, h2, h3⟩ := h
          subst h1 h2 h3
          exact Or.inl ⟨hP1, rfl⟩
        · simp only [if_neg hr1] at h
          exact Or.inr ⟨st1, hP1, h⟩

theorem SameSetup.refl (a : vraw_reader) : SameSetup a a :=
  ⟨rfl, rfl, rfl, rfl, rfl, rfl, rfl, rfl⟩

theorem SameSetup.trans (a b c : vraw_reader) (h1 : SameSetup a b) (h2 : SameSetup b c) :
    SameSetup a c := by
  obtain ⟨a1, a2, a3, a4, a5, a6, a7, a8⟩ := h1
  obtain ⟨b1, b2, b3, b4, b5, b6, b7, b8⟩ := h2
  exact ⟨b1.trans a1, b2.trans a2, b3.trans a3, b4.trans a4, b5.trans a5, b6.trans a6,
    b7.trans a7, b8.trans a8⟩

theorem seek_prev_setup (self : vraw_reader) (e : Int) :
    SameSetup self (seek_to_previous_frame self e).2.1 := by
  simp only [SameSetup, seek_to_previous_frame, fseeko_cur, fseeko_to, ftello]
  split_ifs <;> simp_all

theorem fread_data (buf : Mem) (ptr size : Nat) (f : FILE) :
    (fread buf ptr size f).2.2.data = f.data := by
  unfold fread
  split_ifs <;> rfl

theorem read_rows_data (size stride : Nat) :
    ∀ (n cur : Nat) (res : Int) (buf : Mem) (f : FILE),
      (read_rows size stride n cur res buf f).2.2.1.data = f.data := by
  intro n
  induction n with
  | zero => intro cur res buf f; rfl
  | succ n ih =>
    intro cur res buf f
    rw [read_rows]
    have hd := fread_data buf cur size f
    generalize fread buf cur size f = x at *
    obtain ⟨r, b, g⟩ := x
    simp only at hd ⊢
    by_cases hr : r = 1
    · rw [if_pos hr, ih, hd]
    · rw [if_neg hr]
      exact hd

theorem read_planes_setup (st : State) (data : Nat) :
    SameSetup st.self (vraw_reader_frame_read_planes st data).2.self := by
  unfold vraw_reader_frame_read_planes
  simp only
  by_cases hd : data = 0
  · simp only [if_pos hd]
    exact SameSetup.refl _
  simp only [if_neg hd]
  have d0 := read_rows_data (row_bytes st.self) (st.self.plane_stride 0)
    st.self.cfg.info.resolution.height data 0 st.buf st.self.file
  generalize read_rows (row_bytes st.self) (st.self.plane_stride 0) st.self.cfg.info.resolution.height
    data 0 st.buf st.self.file = x at *
  obtain ⟨res, buf, f, b⟩ := x
  simp only at d0
  cases b
  · exact ⟨rfl, rfl, rfl, rfl, rfl, rfl, rfl, d0⟩
  simp only
  by_cases h1 : st.self.cfg.format.data_layout = .SEMI_PLANAR
  · simp only [if_pos h1]
    have d1 := read_rows_data (row_bytes st.self) (st.self.plane_stride 1)
      (st.self.cfg.info.resolution.height / 2) (data + st.self.plane_size 0) res buf f
    generalize read_rows (row_bytes st.self) (st.self.plane_stride 1)
      (st.self.cfg.info.resolution.height / 2) (data + st.self.plane_size 0) res buf f = x at *
    obtain ⟨res, buf, f, b⟩ := x
    simp only at d1
    cases b <;> exact ⟨rfl, rfl, rfl, rfl, rfl, rfl, rfl, d1.trans d0⟩
  simp only [if_neg h1]
  by_cases h2 : st.self.cfg.format.data_layout = .PLANAR
  · simp only [if_pos h2]
    have d1 := read_rows_data (row_bytes st.self / 2) (st.self.plane_stride 1)
      (st.self.cfg.info.resolution.height / 2) (data + st.self.plane_size 0) res buf f
    generalize read_rows (row_bytes st.self / 2) (st.self.plane_stride 1)
      (st.self.cfg.info.resolution.height / 2) (data + st.self.plane_size 0) res buf f = x at *
    obtain ⟨res, buf, f1, b⟩ := x
    simp only at d1
    cases b
    · exact ⟨rfl, rfl, rfl, rfl, rfl, rfl, rfl, d1.trans d0⟩
    simp only
    have d2 := read_rows_data (row_bytes st.self / 2) (st.self.plane_stride 2)
      (st.self.cfg.info.resolution.height / 2)
      (data + st.self.plane_size 0 + st.self.plane_size 1) res buf f1
    generalize read_rows (row_bytes st.self / 2) (st.self.plane_stride 2)
      (st.self.cfg.info.resolution.height / 2)
      (data + st.self.plane_size 0 + st.self.plane_size 1) res buf f1 = x at *
    obtain ⟨res, buf, f2, b⟩ := x
    simp only at d2
    cases b <;> exact ⟨rfl, rfl, rfl, rfl, rfl, rfl, rfl, d2.trans (d1.trans d0)⟩
  simp only [if_neg h2]
  by_cases h3 : st.self.cfg.format.data_layout = .PACKED
  · simp only [if_pos h3]
    exact ⟨rfl, rfl, rfl, rfl, rfl, rfl, rfl, d0⟩
  · simp only [if_neg h3]
    exact ⟨rfl, rfl, rfl, rfl, rfl, rfl, rfl, d0⟩

theorem fgets_data (n : Nat) (f : FILE) : (fgets n f).2.data = f.data := by
  unfold fgets
  simp only
  split_ifs <;> rfl

theorem y4m_frame_header_read_data (f : FILE) (e : Int) :
    (y4m_frame_header_read f e).2.data = f.data := by
  unfold y4m_frame_header_read
  have h := fgets_data 10 f
  generalize fgets 10 f = x at *
  obtain ⟨o, g⟩ := x
  simp only at h
  cases o with
  | none => exact h
  | some str =>
    simp only
    split_ifs <;> exact h

theorem frame_read_header_setup (st : State) :
    SameSetup st.self (frame_read_header st).2.self := by
  unfold frame_read_header
  have d0 := y4m_frame_header_read_data st.self.file st.errno
  generalize y4m_frame_header_read st.self.file st.errno = x at *
  obtain ⟨res, file⟩ := x
  simp only at d0 ⊢
  have base : SameSetup st.self { st.self with file := file } :=
    ⟨rfl, rfl, rfl, rfl, rfl, rfl, rfl, d0⟩
  by_cases h1 : feof file = true
      ∨ (st.self.cfg.max_count > 0 ∧ st.self.index > st.self.cfg.max_count)
  · simp only [if_pos h1]
    by_cases h2 : st.self.cfg.loop > (0 : Int)
    · have hoff : ¬ ((st.self.header_offset : Nat) : Int) < 0 := by omega
      simp only [if_pos h2, fseeko_to, if_neg hoff, lt_self_iff_false, if_false]
      have d1 := y4m_frame_header_read_data
        { file with pos := ((st.self.header_offset : Nat) : Int).toNat, eof := false } st.errno
      generalize y4m_frame_header_read
        { file with pos := ((st.self.header_offset : Nat) : Int).toNat, eof := false } st.errno = x at *
      obtain ⟨r3, f3⟩ := x
      simp only at d1 ⊢
      by_cases h4 : r3 < 0
      · simp only [if_pos h4]
        exact ⟨rfl, rfl, rfl, rfl, rfl, rfl, rfl, d1.trans d0⟩
      · simp only [if_neg h4]
        exact ⟨rfl, rfl, rfl, rfl, rfl, rfl, rfl, d1.trans d0⟩
    · simp only [if_neg h2]
      by_cases h2' : st.self.cfg.loop < (0 : Int)
      · simp only [if_pos h2']
        have hk := seek_prev_setup { st.self with file := file, reverse := 1 } st.errno
        generalize seek_to_previous_frame { st.self with file := file, reverse := 1 } st.errno
          = x at hk ⊢
        obtain ⟨r2, s2, e2⟩ := x
        simp only at hk ⊢
        have hk2 : SameSetup st.self s2 :=
          SameSetup.trans st.self { st.self with file := file, reverse := 1 } s2
            ⟨rfl, rfl, rfl, rfl, rfl, rfl, rfl, d0⟩ hk
        by_cases h3 : r2 < 0
        · simp only [if_pos h3]
          exact hk2
        · simp only [if_neg h3]
          have d1 := y4m_frame_header_read_data s2.file e2
          generalize y4m_frame_header_read s2.file e2 = x at *
          obtain ⟨r3, f3⟩ := x
          simp only at d1 ⊢
          have hk3 : SameSetup st.self { s2 with file := f3 } :=
            SameSetup.trans st.self s2 { s2 with file := f3 } hk2
              ⟨rfl, rfl, rfl, rfl, rfl, rfl, rfl, d1⟩
          by_cases h4 : r3 < 0
          · simp only [if_pos h4]
            exact hk3
          · simp only [if_neg h4]
            exact hk3
      · simp only [if_neg h2']
        exact base
  · simp only [if_neg h1]
    by_cases h2 : res ≠ -1
    · simp only [if_pos h2]
      exact base
    · simp only [if_neg h2]
      exact base

theorem succ_mod_ne (c : Nat) : (c + 1) % 2 ^ 32 ≠ c := by
  omega

/-- A call that produced a frame filled it from a reader with the setup of the
caller's reader. -/
theorem frame_read_produced (env : VdefEnv) (data len : Nat) (fr : vraw_frame) (fuel : Nat)
    (st : State) (ret : Int) (st2 : State) (fr2 : Option vraw_frame)
    (h : vraw_reader_frame_read env fuel st data len (some fr) = .done (ret, st2, fr2))
    (hprod : (st.self.cfg.y4m = 0 ∧ ret = 0) ∨ st2.self.count ≠ st.self.count) :
    ∃ s, SameSetup st.self s ∧ fr2 = some (fill_frame_info env s data fr) ∧ ret = 0 := by
  have hcount : st2.self.count ≠ st.self.count := by
    rcases hprod with ⟨hy, hr⟩ | hc
    · obtain ⟨-, hA | hB⟩ := frame_read_outcome env data len fr fuel st ret st2 fr2 h
      · obtain ⟨-, f, -, -, -, -, hc, -⟩ := hA
        rw [hc]
        exact succ_mod_ne _
      · exact absurd hr (hB.1 hy)
    · exact hc
  have hsteps := frame_read_steps env data len fr
    (fun s => SameSetup st.self s ∧ s.count = st.self.count)
    (fun st0 _ hp => ⟨SameSetup.trans _ _ _ hp.1 (frame_read_header_setup st0),
      (frame_read_header_keeps st0).2.1.trans hp.2⟩)
    (fun st0 hp => ⟨SameSetup.trans _ _ _ hp.1 (read_planes_setup st0 data),
      (read_planes_keeps st0 data).2.1.trans hp.2⟩)
    (fun s hp => ⟨hp.1, hp.2⟩)
    (fun s e hp => ⟨SameSetup.trans st.self { s with reverse := 1 } _ hp.1
        (seek_prev_setup { s with reverse := 1 } e),
      (seek_prev_keeps { s with reverse := 1 } e).2.2.1.trans hp.2⟩)
    fuel st ret st2 fr2 ⟨SameSetup.refl _, rfl⟩ h
  rcases hsteps with ⟨⟨-, hc⟩, -⟩ | ⟨st1, ⟨hs, -⟩, hfin⟩
  · exact absurd hc hcount
  · obtain ⟨f1, f2, -⟩ := frame_read_finish_outcome env st1 data fr ret st2 fr2 hfin
    exact ⟨st1.self, hs, f2, f1⟩

theorem conv_16be_block_eq (src : Mem) (in1 in2 step : Nat) :
    conv_16be_block src in1 in2 step
      = sample16be src in1 % 1024 + 2 ^ 10 * (sample16be src in2 % 1024)
        + 2 ^ 20 * (sample16be src (in1 + step) % 1024)
        + 2 ^ 30 * (sample16be src (in2 + step) % 1024) := by
  have a0 := (src (in1 + 1)).isLt
  have a1 := (src (in2 + 1)).isLt
  have a2 := (src (in1 + step + 1)).isLt
  have a3 := (src (in2 + step + 1)).isLt
  simp only [conv_16be_block, sample16be, and_3, Nat.shiftLeft_eq, Nat.add_zero]
  omega

theorem conv_16be_components (src dst : Mem) (in1 in2 out step : Nat) :
    component (conv_16be_to_10packed src in1 in2 dst out step 1) out 0
        = sample16be src in1 % 1024
    ∧ component (conv_16be_to_10packed src in1 in2 dst out step 1) out 1
        = sample16be src in2 % 1024
    ∧ component (conv_16be_to_10packed src in1 in2 dst out step 1) out 2
        = sample16be src (in1 + step) % 1024
    ∧ component (conv_16be_to_10packed src in1 in2 dst out step 1) out 3
        = sample16be src (in2 + step) % 1024 := by
  have hT := conv_16be_block_eq src in1 in2 step
  have hlt : conv_16be_block src in1 in2 step < 2 ^ 40 := by omega
  simp only [conv_16be_to_10packed, component, block40_store_bytes _ _ _ hlt]
  rw [hT]
  refine ⟨?_, ?_, ?_, ?_⟩ <;> omega

theorem conv_16be_block_swapped (src swp : Mem) (in1 in2 step : Nat)
    (h1 : ByteSwapped src swp in1) (h2 : ByteSwapped src swp in2)
    (h3 : ByteSwapped src swp (in1 + step)) (h4 : ByteSwapped src swp (in2 + step)) :
    conv_16be_block src in1 in2 step = conv_16le_block swp in1 in2 step := by
  simp only [conv_16be_block, conv_16le_block, Nat.add_zero, h1.1, h1.2, h2.1, h2.2, h3.1,
    h3.2, h4.1, h4.2]

theorem toByte_sample_be (x : Nat) (hx : x < 1024) :
    256 * (toByte (x / 256)).val + (toByte x).val = x := by
  simp only [toByte]
  omega

theorem reader_new_raw_any (env : VdefEnv) (file : List Byte) (cfg : vraw_reader_config)
    (e0 e1 : Int) (r : vraw_reader) (hy : cfg.y4m = 0)
    (hnew : vraw_reader_new env (some file) cfg e0 = .done (0, some r, e1)) :
    r.cfg.y4m = 0 ∧ r.cfg.loop = cfg.loop ∧ r.cfg.max_count = cfg.max_count
    ∧ r.cfg.info.framerate.num ≠ 0 ∧ r.header_offset = 0 ∧ r.frame_header_size = 0
    ∧ r.file.data = file ∧ r.file.eof = false
    ∧ (cfg.start_index * r.file_frame_size < 2 ^ 63 →
        r.file.pos = cfg.start_index * r.file_frame_size)
    ∧ r.reverse = (if cfg.start_reversed = true ∧ 0 < cfg.start_index then 1 else 0)
    ∧ r.index = cfg.start_index ∧ r.count = 0 ∧ r.timestamp = 0
    ∧ (cfg.start_reversed = true → cfg.loop = -1) := by
  unfold vraw_reader_new at hnew
  split at hnew
  · simp at hnew
  · rename_i hchk
    have hrev : cfg.start_reversed = true → cfg.loop = -1 := by
      intro hb
      simp only [reader_new_check] at hchk
      by_contra hl
      simp [hb, hl] at hchk
    have ho : (reader_new_open file cfg).cfg.y4m = 0 := hy
    simp only [ho, ne_eq, not_true_eq_false, if_false, lt_self_iff_false] at hnew
    split_ifs at hnew with h1
    · simp at hnew
    · split at hnew
      · simp at hnew
      · rename_i ffc hffc
        split_ifs at hnew with h2
        swap
        · simp at hnew
        · obtain ⟨a1, a2, a3, a4, a5, a6, a7, a8, a9, a10, a11, a12, a13, a14, a15⟩ :=
            reader_new_enforce_fields (reader_new_open file cfg)
          obtain ⟨b1, b2, b3, b4, b5, b6, b7, b8, b9, b10, b11, b12, b13, b14, b15⟩ :=
            reader_new_align_fields env (reader_new_enforce (reader_new_open file cfg))
          obtain ⟨c1, c2, c3, c4, c5, c6, c7, c8, c9, c10, c11⟩ :=
            reader_new_geometry_fields env
              (reader_new_align env (reader_new_enforce (reader_new_open file cfg)))
              (size_t_of_float ffc)
          have hnum := reader_new_enforce_num (reader_new_open file cfg)
          simp only [Run.done.injEq] at hnew
          generalize reader_new_mem_geometry env
            { reader_new_file_geometry env
                (reader_new_align env (reader_new_enforce (reader_new_open file cfg))) with
              file_frame_count := size_t_of_float ffc } = m at hnew c1 c2 c3 c4 c5 c6 c7 c8 c9 c10 c11
          have m_rev : m.cfg.start_reversed = cfg.start_reversed := by rw [c1, b5, a5]; rfl
          have m_si : m.cfg.start_index = cfg.start_index := by rw [c1, b4, a4]; rfl
          have m_file : m.file = ⟨file, 0, false⟩ := by rw [c2, b10, a10]; rfl
          have m_fh : m.frame_header_size = 0 := by rw [c5, b9, a9]; rfl
          have m_ho : m.header_offset = 0 := by rw [c4, b8, a8]; rfl
          have m_y : m.cfg.y4m = 0 := by rw [c1, b1, a1]; exact hy
          have m_l : m.cfg.loop = cfg.loop := by rw [c1, b2, a2]; rfl
          have m_m : m.cfg.max_count = cfg.max_count := by rw [c1, b3, a3]; rfl
          have m_n : m.cfg.info.framerate.num ≠ 0 := by rw [c1, b7]; exact hnum
          have m_r : m.reverse = 0 := by rw [c3, b12, a12]; rfl
          have m_i : m.index = 0 := by rw [c7, b13, a13]; rfl
          have m_c : m.count = 0 := by rw [c8, b14, a14]; rfl
          have m_t : m.timestamp = 0 := by rw [c9, b15, a15]; rfl
          unfold reader_new_start at hnew
          by_cases hS : m.cfg.start_index > 0
          · have hS0 : 0 < cfg.start_index := by rw [← m_si]; exact hS
            by_cases hb : cfg.start_reversed = true
            · simp only [if_pos hS, m_rev, hb, if_true, fseeko_cur, fseeko_to,
                m_file, m_fh, Nat.add_zero, Nat.cast_zero, zero_add] at hnew
              by_cases h3 : to_off_t (m.cfg.start_index * m.file_frame_size) < 0
              · simp [if_pos h3] at hnew
              · simp only [if_neg h3, lt_self_iff_false, if_false, Prod.mk.injEq,
                  Option.some.injEq, true_and] at hnew
                obtain ⟨rfl, -⟩ := hnew
                refine ⟨m_y, m_l, m_m, m_n, m_ho, rfl, rfl, rfl, ?_, ?_, m_si, m_c, m_t, hrev⟩
                · intro hlt
                  simp only at hlt ⊢
                  rw [m_si, to_off_t_small _ hlt]
                  exact Int.toNat_ofNat _
                · rw [if_pos ⟨hb, hS0⟩]
            · have hbf : cfg.start_reversed = false := by simpa using hb
              simp only [if_pos hS, m_rev, hbf, Bool.false_eq_true, if_false, fseeko_cur,
                fseeko_to, m_file, m_fh, Nat.add_zero, Nat.cast_zero, zero_add] at hnew
              by_cases h3 : to_off_t (m.cfg.start_index * m.file_frame_size) < 0
              · simp [if_pos h3] at hnew
              · simp only [if_neg h3, lt_self_iff_false, if_false, Prod.mk.injEq,
                  Option.some.injEq, true_and] at hnew
                obtain ⟨rfl, -⟩ := hnew
                refine ⟨m_y, m_l, m_m, m_n, m_ho, rfl, rfl, rfl, ?_, ?_, m_si, m_c, m_t, hrev⟩
                · intro hlt
                  simp only at hlt ⊢
                  rw [m_si, to_off_t_small _ hlt]
                  exact Int.toNat_ofNat _
                · rw [if_neg (fun h => hb h.1)]
                  exact m_r
          · simp only [if_neg hS, Prod.mk.injEq, Option.some.injEq, true_and] at hnew
            obtain ⟨rfl, -⟩ := hnew
            have hz : cfg.start_index = 0 := by omega
            refine ⟨m_y, m_l, m_m, m_n, m_ho, m_fh, by rw [m_file], by rw [m_file], ?_, ?_,
              by rw [m_i, hz], m_c, m_t, hrev⟩
            · intro _
              rw [m_file, hz]
              simp
            · rw [if_neg (fun h => absurd h.2 (by omega))]
              exact m_r

theorem read_rows_gen (size stride : Nat) (hs : 0 < size) (n cur : Nat) (res : Int) (buf : Mem)
    (f : FILE) (h : f.pos + n * size ≤ f.data.length) :
    read_rows size stride n cur res buf f
      = (if n = 0 then res else 1, blit_rows f.data size stride n cur f.pos buf,
          { f with pos := f.pos + n * size }, true) := by
  induction n generalizing cur res buf f with
  | zero => simp [read_rows, blit_rows]
  | succ m ih =>
    have hm : (m + 1) * size = m * size + size := by ring
    have h1 : f.pos + size ≤ f.data.length := by omega
    rw [read_rows, fread_full buf cur size f hs h1]
    simp only [if_true]
    rw [ih _ _ _ _ (by simp only; omega)]
    have e2 : f.pos + size + m * size = f.pos + (m + 1) * size := by omega
    simp only [blit_rows, e2]
    by_cases hm0 : m = 0
    · subst hm0; simp
    · simp [hm0]

theorem ondisk_of_same (r s : vraw_reader) (hr : OnDisk r) (hs : SameSetup r s) : OnDisk s := by
  obtain ⟨hc, -, -, -, hf, -⟩ := hs
  have hrb : row_bytes s = row_bytes r := by simp only [row_bytes, hc]
  have hfb : frame_bytes s = frame_bytes r := by simp only [frame_bytes, hrb, hc]
  constructor
  · rw [hc]; exact hr.layout
  · rw [hrb]; exact hr.row_pos
  · rw [hc]; exact hr.height_pos
  · rw [hc, hrb]; exact hr.chroma_pos
  · rw [hf, hfb]; exact hr.file_frame
  · rw [hf]; exact hr.small

theorem ondisk_of_tight (r : vraw_reader) (ht : Tight r) : OnDisk r :=
  ⟨ht.layout, ht.row_pos, ht.height_pos, ht.chroma_pos, ht.file_frame, ht.small⟩

theorem ondisk_frame_pos (r : vraw_reader) (hr : OnDisk r) : 0 < r.file_frame_size := by
  rw [hr.file_frame]
  have h1 := hr.row_pos
  have h2 := hr.height_pos
  have : 0 < row_bytes r * r.cfg.info.resolution.height := Nat.mul_pos h1 h2
  unfold frame_bytes
  split <;> omega

theorem read_planes_gen (self : vraw_reader) (buf : Mem) (e : Int) (data : Nat)
    (hg : OnDisk self) (hd : data ≠ 0)
    (hpos : self.file.pos + self.file_frame_size ≤ self.file.data.length) :
    vraw_reader_frame_read_planes ⟨self, buf, e⟩ data
      = (1, ⟨{ self with file := { self.file with pos := self.file.pos + self.file_frame_size },
                         index := (self.index + 1) % 2 ^ 32 },
              read_image self buf data self.file.pos, EINVAL⟩) := by
  have hF := hg.file_frame
  have hh := hg.height_pos
  have hh0 : self.cfg.info.resolution.height ≠ 0 := by omega
  simp only [vraw_reader_frame_read_planes, if_neg hd]
  rcases hg.layout with hl | hl | hl
  · simp only [frame_bytes, hl] at hF
    rw [read_rows_gen _ _ hg.row_pos _ _ _ _ _ (by rw [Nat.mul_comm]; omega)]
    simp [hl, hh0, hF, Nat.mul_comm, read_image]
  · have hc := hg.chroma_pos hl
    simp only [frame_bytes, hl] at hF
    rw [read_rows_gen _ _ hg.row_pos _ _ _ _ _ (by rw [Nat.mul_comm]; omega)]
    simp only [hl, hh0, if_false]
    rw [read_rows_gen _ _ hc _ _ _ _ _ (by
      simp only; rw [Nat.mul_comm (_ / 2), Nat.mul_comm _ (row_bytes self)]; omega)]
    simp only
    rw [read_rows_gen _ _ hc _ _ _ _ _ (by
      simp only; rw [Nat.mul_comm (_ / 2), Nat.mul_comm _ (row_bytes self)]; omega)]
    simp only [read_image, hl, Nat.mul_comm _ (row_bytes self),
      Nat.mul_comm _ (row_bytes self / 2), Nat.add_assoc, ← hF]
    simp
  · simp only [frame_bytes, hl] at hF
    rw [read_rows_gen _ _ hg.row_pos _ _ _ _ _ (by rw [Nat.mul_comm]; omega)]
    simp only [hl, hh0, if_false]
    rw [read_rows_gen _ _ hg.row_pos _ _ _ _ _ (by
      simp only; rw [Nat.mul_comm _ (row_bytes self), Nat.mul_comm _ (row_bytes self)]; omega)]
    simp only [read_image, hl, Nat.mul_comm _ (row_bytes self), Nat.add_assoc, ← hF]
    simp

theorem read_planes_end (self : vraw_reader) (buf : Mem) (e : Int) (data : Nat)
    (hg : OnDisk self) (hd : data ≠ 0) (hpos : self.file.pos = self.file.data.length) :
    vraw_reader_frame_read_planes ⟨self, buf, e⟩ data
      = (0, ⟨{ self with file := { self.file with eof := true } }, buf, EINVAL⟩) := by
  obtain ⟨h, hh⟩ : ∃ h, self.cfg.info.resolution.height = h + 1 :=
    ⟨self.cfg.info.resolution.height - 1, by have := hg.height_pos; omega⟩
  simp only [vraw_reader_frame_read_planes, if_neg hd, hh]
  rw [read_rows_at_end _ _ hg.row_pos _ _ _ _ _ hpos]

theorem cursor_inv_same (r : vraw_reader) (N : Nat) (s s2 : vraw_reader)
    (h : CursorInv r N s) (hs : SameSetup s s2) (hp : s2.file.pos = s.file.pos)
    (hi : s2.index = s.index) : CursorInv r N s2 :=
  ⟨SameSetup.trans r s s2 h.1 hs, by rw [hp, hi]; exact h.2.1, by rw [hi]; exact h.2.2⟩

theorem cursor_inv_planes (r : vraw_reader) (N : Nat) (hg : OnDisk r)
    (hN : r.file.data.length = N * r.file_frame_size) (hN32 : N < 2 ^ 32)
    (st : State) (data : Nat) (h : CursorInv r N st.self) :
    CursorInv r N (vraw_reader_frame_read_planes st data).2.self := by
  obtain ⟨self, buf, e⟩ := st
  by_cases hd : data = 0
  · simp only [vraw_reader_frame_read_planes, if_pos hd]
    exact h
  have hg2 := ondisk_of_same r self hg h.1
  obtain ⟨hs, hp, hi⟩ := h
  simp only at hs hp hi
  have hF : self.file_frame_size = r.file_frame_size := hs.2.2.2.2.1
  have hdat : self.file.data = r.file.data := hs.2.2.2.2.2.2.2
  by_cases hlt : self.index < N
  · have hle : (self.index + 1) * r.file_frame_size ≤ N * r.file_frame_size :=
      Nat.mul_le_mul_right _ (by omega)
    have e1 : (self.index + 1) * r.file_frame_size
        = self.index * r.file_frame_size + r.file_frame_size := by ring
    rw [read_planes_gen self buf e data hg2 hd (by rw [hdat, hN, hp, hF]; omega)]
    refine ⟨SameSetup.trans r self _ hs ⟨rfl, rfl, rfl, rfl, rfl, rfl, rfl, rfl⟩, ?_, ?_⟩
    · simp only
      rw [Nat.mod_eq_of_lt (by omega), hp, hF, e1]
    · simp only
      rw [Nat.mod_eq_of_lt (by omega)]
      omega
  · have hiN : self.index = N := by omega
    rw [read_planes_end self buf e data hg2 hd (by rw [hdat, hN, hp, hiN])]
    exact ⟨SameSetup.trans r self _ hs ⟨rfl, rfl, rfl, rfl, rfl, rfl, rfl, rfl⟩, hp, hi⟩

theorem cursor_inv_seek (r : vraw_reader) (N : Nat) (hg : OnDisk r) (hy : r.cfg.y4m = 0)
    (hN32 : N < 2 ^ 32) (s : vraw_reader) (e : Int) (h : CursorInv r N s) :
    CursorInv r N (seek_to_previous_frame s e).2.1 := by
  obtain ⟨hs, hp, hi⟩ := h
  have hF : s.file_frame_size = r.file_frame_size := hs.2.2.2.2.1
  have hF0 : 0 < s.file_frame_size := by rw [hF]; exact ondisk_frame_pos r hg
  have hsm : s.file_frame_size < 2 ^ 62 := by rw [hF]; exact hg.small
  have hy2 : s.cfg.y4m = 0 := by rw [hs.1]; exact hy
  by_cases hq : 2 ≤ s.index
  · rw [seek_prev_raw_ok s e s.index hy2 hF0 hsm (by rw [hp, hF]) hq]
    refine ⟨SameSetup.trans r s _ hs ⟨rfl, rfl, rfl, rfl, rfl, rfl, rfl, rfl⟩, ?_, ?_⟩
    · simp only
      have : (s.index + 2 ^ 32 - 2) % 2 ^ 32 = s.index - 2 := by omega
      rw [this, hF]
    · simp only
      omega
  · rw [seek_prev_raw_overflow s e s.index hF0 hsm (by rw [hp, hF]) (by omega)]
    exact ⟨hs, hp, hi⟩

theorem cursor_inv_finish (env : VdefEnv) (r : vraw_reader) (N : Nat) (hg : OnDisk r)
    (hy : r.cfg.y4m = 0) (hN32 : N < 2 ^ 32) (st : State) (data : Nat) (fr : vraw_frame)
    (ret : Int) (st2 : State) (fr2 : Option vraw_frame)
    (h : frame_read_finish env st data fr = .done (ret, st2, fr2))
    (hi : CursorInv r N st.self) : CursorInv r N st2.self := by
  unfold frame_read_finish at h
  simp only at h
  by_cases hn : st.self.cfg.info.framerate.num = 0
  · simp [hn] at h
  simp only [if_neg hn] at h
  by_cases hrev : st.self.reverse ≠ 0
  · simp only [if_pos hrev] at h
    have hk := cursor_inv_seek r N hg hy hN32
      { st.self with
        timestamp := (st.self.timestamp + 1000000 * st.self.cfg.info.framerate.den
          / st.self.cfg.info.framerate.num) % 2 ^ 64,
        count := (st.self.count + 1) % 2 ^ 32 } st.errno
      (cursor_inv_same r N st.self _ hi ⟨rfl, rfl, rfl, rfl, rfl, rfl, rfl, rfl⟩ rfl rfl)
    have hr := (seek_prev_keeps
      { st.self with
        timestamp := (st.self.timestamp + 1000000 * st.self.cfg.info.framerate.den
          / st.self.cfg.info.framerate.num) % 2 ^ 64,
        count := (st.self.count + 1) % 2 ^ 32 } st.errno).1
    rcases hs : seek_to_previous_frame
      { st.self with
        timestamp := (st.self.timestamp + 1000000 * st.self.cfg.info.framerate.den
          / st.self.cfg.info.framerate.num) % 2 ^ 64,
        count := (st.self.count + 1) % 2 ^ 32 } st.errno with ⟨res, s2, e2⟩
    rw [hs] at h hk hr
    simp only at h hk hr
    rcases hr with hres | hres
    · simp only [hres, lt_self_iff_false, if_false, Run.done.injEq, Prod.mk.injEq] at h
      obtain ⟨-, h2, -⟩ := h
      subst h2
      exact hk
    · have hneg : (-EOVERFLOW : Int) < 0 := by decide
      simp only [hres, hneg, if_true, ne_eq, not_true_eq_false, if_false, Run.done.injEq,
        Prod.mk.injEq] at h
      obtain ⟨-, h2, -⟩ := h
      subst h2
      exact cursor_inv_same r N s2 _ hk ⟨rfl, rfl, rfl, rfl, rfl, rfl, rfl, rfl⟩ rfl rfl
  · simp only [if_neg hrev, Run.done.injEq, Prod.mk.injEq] at h
    obtain ⟨-, h2, -⟩ := h
    subst h2
    exact cursor_inv_same r N st.self _ hi ⟨rfl, rfl, rfl, rfl, rfl, rfl, rfl, rfl⟩ rfl rfl

theorem cursor_inv_read (env : VdefEnv) (r : vraw_reader) (N : Nat) (hg : OnDisk r)
    (hy : r.cfg.y4m = 0) (hh : r.header_offset = 0)
    (hN : r.file.data.length = N * r.file_frame_size) (hN32 : N < 2 ^ 32)
    (fuel : Nat) (st : State) (data len : Nat) (frame : Option vraw_frame) (ret : Int)
    (st2 : State) (fr2 : Option vraw_frame)
    (h : vraw_reader_frame_read env fuel st data len frame = .done (ret, st2, fr2))
    (hi : CursorInv r N st.self) : CursorInv r N st2.self := by
  cases frame with
  | none =>
    cases fuel with
    | zero => simp [vraw_reader_frame_read] at h
    | succ fuel =>
      rw [vraw_reader_frame_read] at h
      split_ifs at h <;>
        (simp only [Run.done.injEq, Prod.mk.injEq] at h
         obtain ⟨-, h2, -⟩ := h
         subst h2
         exact hi)
  | some fr =>
    have hsteps := frame_read_steps env data len fr (fun s => CursorInv r N s)
      (fun st0 hy0 hp => absurd (by rw [hp.1.1]; exact hy) hy0)
      (fun st0 hp => cursor_inv_planes r N hg hN hN32 st0 data hp)
      (fun s hp => ⟨SameSetup.trans r s _ hp.1 ⟨rfl, rfl, rfl, rfl, rfl, rfl, rfl, rfl⟩,
        by simp only; rw [hp.1.2.2.2.2.2.1, hh]; simp, by simp only; omega⟩)
      (fun s e hp => cursor_inv_seek r N hg hy hN32 _ e
        (cursor_inv_same r N s _ hp ⟨rfl, rfl, rfl, rfl, rfl, rfl, rfl, rfl⟩ rfl rfl))
      fuel st ret st2 fr2 hi h
    rcases hsteps with ⟨hp, -⟩ | ⟨st1, hp, hfin⟩
    · exact hp
    · exact cursor_inv_finish env r N hg hy hN32 st1 data fr ret st2 fr2 hfin hp

theorem cursor_inv_calls (env : VdefEnv) (r : vraw_reader) (N : Nat) (hg : OnDisk r)
    (hy : r.cfg.y4m = 0) (hh : r.header_offset = 0)
    (hN : r.file.data.length = N * r.file_frame_size) (hN32 : N < 2 ^ 32)
    (calls : List (Nat × Nat × Nat × Option vraw_frame)) :
    ∀ (st st2 : State), CursorInv r N st.self → reader_calls env calls st = some st2 →
      CursorInv r N st2.self := by
  induction calls with
  | nil =>
    intro st st2 hi h
    simp only [reader_calls, Option.some.injEq] at h
    subst h
    exact hi
  | cons c rest ih =>
    intro st st2 hi h
    obtain ⟨fuel, data, len, frame⟩ := c
    rw [reader_calls] at h
    rcases hc : vraw_reader_frame_read env fuel st data len frame with ⟨ret, st1, fr1⟩ | _ | _
    · rw [hc] at h
      simp only at h
      exact ih st1 st2 (cursor_inv_read env r N hg hy hh hN hN32 fuel st data len frame ret
        st1 fr1 hc hi) h
    · rw [hc] at h
      simp at h
    · rw [hc] at h
      simp at h

theorem option_some_getD {α : Type} (o : Option α) (d : α) (h : o.isSome = true) :
    o = some (o.getD d) := by
  cases o with
  | none => simp at h
  | some x => rfl

theorem pingpong_from_bound (N : Nat) (hN : 2 ≤ N) (s0 : Nat × Bool)
    (h0 : (s0.2 = false → s0.1 ≤ N) ∧ (s0.2 = true → s0.1 < N)) (i : Nat) :
    ((pingpong_from N s0 i).2 = false → (pingpong_from N s0 i).1 ≤ N)
    ∧ ((pingpong_from N s0 i).2 = true → (pingpong_from N s0 i).1 < N) := by
  induction i with
  | zero => exact h0
  | succ n ih =>
    rw [pingpong_from]
    rcases hs : pingpong_from N s0 n with ⟨p, rev⟩
    rw [hs] at ih
    obtain ⟨i1, i2⟩ := ih
    simp only at i1 i2
    cases rev with
    | false =>
      have hp := i1 rfl
      simp only [pingpong_step, pingpong_back]
      split_ifs <;> simp <;> omega
    | true =>
      have hp := i2 rfl
      simp only [pingpong_step, pingpong_back]
      split_ifs <;> simp <;> omega

theorem read_frames_pingpong_from (env : VdefEnv) (r : vraw_reader) (N : Nat)
    (hr : RawSession r N) (hl : r.cfg.loop < 0) (hN : 2 ≤ N)
    (data len : Nat) (hd : data ≠ 0) (hlen : len ≠ 0) (hsz : r.frame_size ≤ len)
    (s0 : Nat × Bool) (h0 : (s0.2 = false → s0.1 ≤ N) ∧ (s0.2 = true → s0.1 < N))
    (idx0 c0 t0 : Nat)
    (fuel : Nat) (buf : Mem) (e : Int) (fr : vraw_frame) (i : Nat) :
    ∃ idx c t buf1 e1 fr1,
      read_frames env (fuel + 2) data len i
          ⟨at_frame r s0.1 (if s0.2 = true then 1 else 0) idx0 c0 t0, buf, e⟩ fr
        = some (⟨at_frame r (pingpong_from N s0 i).1
            (if (pingpong_from N s0 i).2 = true then 1 else 0) idx c t, buf1, e1⟩, fr1) := by
  induction i with
  | zero => exact ⟨idx0, c0, t0, buf, e, fr, rfl⟩
  | succ n ih =>
    obtain ⟨idx, c, t, buf1, e1, fr1, h⟩ := ih
    obtain ⟨hb1, hb2⟩ := pingpong_from_bound N hN s0 h0 n
    rw [read_frames, h, pingpong_from]
    simp only
    rcases hs : pingpong_from N s0 n with ⟨p, rev⟩
    rw [hs] at hb1 hb2
    simp only at hb1 hb2
    cases rev with
    | false =>
      have hp := hb1 rfl
      simp only [Bool.false_eq_true, if_false, pingpong_step]
      by_cases hlt : p < N
      · rw [frame_read_forward env r N hr data len hd hlen hsz _ hlt]
        simp only [hlt, if_true, Bool.false_eq_true, if_false]
        exact ⟨_, _, _, _, _, _, rfl⟩
      · have hN' : p = N := by omega
        subst hN'
        rw [frame_read_eof_reverse env r p hr hl hN data len hd hlen hsz,
          frame_read_backward env r p hr data len hd hlen hsz (p - 2) (by omega)]
        simp only [hlt, if_false, pingpong_back]
        by_cases h1 : 1 ≤ p - 2
        · simp only [h1, if_true]
          exact ⟨_, _, _, _, _, _, rfl⟩
        · simp only [h1, if_false, Bool.false_eq_true]
          exact ⟨_, _, _, _, _, _, rfl⟩
    | true =>
      have hp := hb2 rfl
      simp only [if_true, pingpong_step, pingpong_back]
      rw [frame_read_backward env r N hr data len hd hlen hsz p hp]
      by_cases h1 : 1 ≤ p
      · simp only [h1, if_true]
        exact ⟨_, _, _, _, _, _, rfl⟩
      · simp only [h1, if_false, Bool.false_eq_true]
        exact ⟨_, _, _, _, _, _, rfl⟩

theorem pingpong_from_retreat (N S : Nat) (i : Nat) (hi : i ≤ S) :
    pingpong_from N (S, true) i = (S - i, true) := by
  induction i with
  | zero => rfl
  | succ n ih =>
    rw [pingpong_from, ih (by omega)]
    simp only [pingpong_step, pingpong_back]
    rw [if_pos (by omega)]
    congr 1

theorem pingpong_from_reflect (N S : Nat) (hN : 1 ≤ N) (k : Nat) :
    pingpong_from N (S, true) (S + (k + 1)) = pingpong_state N (k + 1) := by
  induction k with
  | zero =>
    have e : S + (0 + 1) = S + 1 := rfl
    rw [e, pingpong_from, pingpong_from_retreat N S S (Nat.le_refl _)]
    simp only [Nat.sub_self, pingpong_step, pingpong_back, pingpong_state]
    rw [if_neg (by omega), if_pos (by omega)]
  | succ n ih =>
    have e : S + (n + 1 + 1) = S + (n + 1) + 1 := rfl
    rw [e, pingpong_from, ih]
    rfl

theorem pingpong_from_frame (N S : Nat) (hN : 2 ≤ N) (i : Nat) :
    pingpong_frame N (pingpong_from N (S, true) i) = reverse_start_pos N S i := by
  unfold reverse_start_pos
  by_cases hi : i ≤ S
  · rw [if_pos hi, pingpong_from_retreat N S i hi]
    rfl
  · rw [if_neg hi]
    obtain ⟨k, rfl⟩ : ∃ k, i = S + (k + 1) := ⟨i - S - 1, by omega⟩
    rw [pingpong_from_reflect N S (by omega) k, pingpong_frame_eq N hN]
    congr 1
    omega

theorem reader_new_raw_reversed (env : VdefEnv) (file : List Byte) (cfg : vraw_reader_config)
    (e0 e1 : Int) (r : vraw_reader) (N : Nat) (hy : cfg.y4m = 0) (hm : cfg.max_count = 0)
    (hrev : cfg.start_reversed = true) (hS : 0 < cfg.start_index)
    (hnew : vraw_reader_new env (some file) cfg e0 = .done (0, some r, e1))
    (ht : Tight r) (hN : file.length = N * r.file_frame_size)
    (hoff : cfg.start_index * r.file_frame_size < 2 ^ 63) :
    RawSession r N ∧ r = at_frame r cfg.start_index 1 cfg.start_index 0 0 ∧ r.file.data = file
      ∧ r.cfg.loop = cfg.loop ∧ cfg.loop = -1 := by
  obtain ⟨h1, h2, h3, h4, h5, h6, h7, h8, h9, h10, h11, h12, h13, h14⟩ :=
    reader_new_raw_any env file cfg e0 e1 r hy hnew
  rw [if_pos ⟨hrev, hS⟩] at h10
  have h9' := h9 hoff
  refine ⟨⟨h1, by rw [h3, hm], h4, h5, ht, by rw [h7]; exact hN⟩, ?_, h7, h2, h14 hrev⟩
  obtain ⟨cfg', f, rev, ho, fh, pst, psz, fs, ffs, fsz, ffc, ts, idx, cnt⟩ := r
  obtain ⟨d, p, eof⟩ := f
  simp only at h8 h9' h10 h11 h12 h13
  subst h8 h9' h10 h11 h12 h13
  rfl

theorem sample_reversed_new :
    vraw_reader_new sample_env (some (count_bytes 30)) (sample_config_reversed 2) 0
      = .done (0, some sample_reader_reversed, 0) :=
  (reader_new_raw_eval_start sample_env (count_bytes 30) (sample_config_reversed 2) 0
    (by decide) (by decide) (by decide) (by decide)).trans rfl

theorem sample_reversed_tight : Tight sample_reader_reversed := by
  apply at_frame_tight
  constructor
  · exact Or.inr (Or.inl rfl)
  · decide
  · decide
  · intro _; decide
  · decide
  · decide
  · intro h; exact absurd h (by decide)
  · intro _; exact ⟨by decide, by decide, by decide⟩
  · decide
  · decide

theorem blit_outside (buf : Mem) (ptr : Nat) (d : List Byte) (pos cnt a : Nat)
    (h : a < ptr ∨ ptr + cnt ≤ a) : blit buf ptr d pos cnt a = buf a := by
  unfold blit
  rw [if_neg (by omega)]

theorem blit_rows_outside (d : List Byte) (size stride : Nat) (hs : size ≤ stride) :
    ∀ (n cur pos : Nat) (buf : Mem) (a : Nat), (a < cur ∨ cur + n * stride ≤ a) →
      blit_rows d size stride n cur pos buf a = buf a := by
  intro n
  induction n with
  | zero => intro cur pos buf a _; rfl
  | succ n ih =>
    intro cur pos buf a h
    have e : (n + 1) * stride = n * stride + stride := by ring
    rw [blit_rows, ih _ _ _ _ (by omega), blit_outside _ _ _ _ _ _ (by omega)]

theorem range_map_getD (d : List Byte) (pos size : Nat) (h : pos + size ≤ d.length) :
    (List.range size).map (fun j => d.getD (pos + j) 0) = (d.drop pos).take size := by
  apply List.ext_getElem
  · simp only [List.length_map, List.length_range, List.length_take, List.length_drop]
    omega
  · intro i h1 h2
    simp only [List.length_map, List.length_range] at h1
    have h3 : pos + i < d.length := by omega
    simp [List.getD_eq_getElem?_getD, List.getElem?_eq_getElem h3]

theorem take_drop_add (d : List Byte) (pos a b : Nat) :
    (d.drop pos).take a ++ (d.drop (pos + a)).take b = (d.drop pos).take (a + b) := by
  rw [List.take_add, List.drop_drop]

theorem plane_rows_blit_rows (d : List Byte) (size stride : Nat) (hs : size ≤ stride) :
    ∀ (n cur pos : Nat) (buf : Mem), pos + n * size ≤ d.length →
      plane_rows (blit_rows d size stride n cur pos buf) size stride n cur
        = (d.drop pos).take (n * size) := by
  intro n
  induction n with
  | zero => intro cur pos buf _; simp [plane_rows]
  | succ n ih =>
    intro cur pos buf h
    have e : (n + 1) * size = size + n * size := by ring
    rw [blit_rows, plane_rows, ih _ _ _ (by omega), e, ← take_drop_add,
      ← range_map_getD d pos size (by omega)]
    congr 1
    apply List.map_congr_left
    intro j hj
    have hj2 : j < size := List.mem_range.mp hj
    rw [blit_rows_outside d size stride hs _ _ _ _ _ (Or.inl (by omega)),
      blit_get _ _ _ _ _ _ hj2]

theorem plane_rows_congr (m1 m2 : Mem) (size strd : Nat) (hs : size ≤ strd) :
    ∀ (n ptr : Nat), (∀ a, ptr ≤ a → a < ptr + n * strd → m1 a = m2 a) →
      plane_rows m1 size strd n ptr = plane_rows m2 size strd n ptr := by
  intro n
  induction n with
  | zero => intro ptr _; rfl
  | succ n ih =>
    intro ptr h
    have e : (n + 1) * strd = n * strd + strd := by ring
    rw [plane_rows, plane_rows, ih (ptr + strd) (fun a h1 h2 => h a (by omega) (by omega))]
    congr 1
    apply List.map_congr_left
    intro j hj
    have hj2 : j < size := List.mem_range.mp hj
    exact h _ (by omega) (by omega)

theorem write_plane_ok (self : vraw_writer) (mem : Mem) (size strd n ptr : Nat) (e : Int)
    (hs : 0 < size) :
    write_plane self mem size strd n ptr e
      = (none, { self with file := self.file ++ plane_rows mem size strd n ptr }) := by
  obtain ⟨a1, a2, a3, a4⟩ := write_plane_spec self mem size strd n ptr e
  rcases hw : write_plane self mem size strd n ptr e with ⟨o, w2⟩
  rw [hw] at a1 a2 a3 a4
  simp only at a1 a2 a3 a4
  rcases a4 with rfl | ⟨-, hz⟩
  · obtain ⟨c, f, l⟩ := w2
    simp only at a1 a2 a3
    subst a1 a2 a3
    rfl
  · omega

theorem frame_write_ok (w : vraw_writer) (mem : Mem) (fr : vraw_frame) (e : Int)
    (hy : w.cfg.y4m = 0) (hchk : writer_check_frame w fr = none)
    (hl : w.cfg.format.data_layout = .PACKED ∨ w.cfg.format.data_layout = .PLANAR
      ∨ w.cfg.format.data_layout = .SEMI_PLANAR)
    (h0 : fr.data 0 ≠ 0) (s0 : fr.frame.plane_stride 0 ≠ 0) (hw0 : 0 < w.primary_line_width)
    (hsemi : w.cfg.format.data_layout = .SEMI_PLANAR →
      fr.data 1 ≠ 0 ∧ fr.frame.plane_stride 1 ≠ 0)
    (hplanar : w.cfg.format.data_layout = .PLANAR →
      fr.data 1 ≠ 0 ∧ fr.data 2 ≠ 0 ∧ fr.frame.plane_stride 1 ≠ 0
      ∧ fr.frame.plane_stride 2 ≠ 0 ∧ 0 < w.primary_line_width / 2) :
    vraw_writer_frame_write w mem (some fr) e
      = (0, { w with file := (w.file ++ frame_image w.cfg.format.data_layout
            w.primary_line_width w.cfg.info.resolution.height mem fr) }, e) := by
  simp only [vraw_writer_frame_write, hchk, hy, ne_eq, not_true_eq_false, if_false]
  rcases hl with hl | hl | hl
  · simp only [hl, write_packed, if_neg h0, if_neg s0, write_plane_ok _ _ _ _ _ _ _ hw0,
      frame_image]
  · obtain ⟨h1, h2, s1, s2, hc⟩ := hplanar hl
    simp only [hl, write_planar, if_neg h0, if_neg h1, if_neg h2, if_neg s0, if_neg s1,
      if_neg s2, write_plane_ok _ _ _ _ _ _ _ hw0, write_plane_ok _ _ _ _ _ _ _ hc,
      frame_image, List.append_assoc]
  · obtain ⟨h1, s1⟩ := hsemi hl
    simp only [hl, write_semi_planar, if_neg h0, if_neg h1, if_neg s0, if_neg s1,
      write_plane_ok _ _ _ _ _ _ _ hw0, frame_image, List.append_assoc]

theorem fill_frame_info_fields (env : VdefEnv) (s : vraw_reader) (data : Nat) (fr : vraw_frame) :
    (fill_frame_info env s data fr).frame.plane_stride = s.plane_stride
    ∧ (fill_frame_info env s data fr).frame.format = s.cfg.format
    ∧ (fill_frame_info env s data fr).frame.info.resolution = s.cfg.info.resolution
    ∧ (0 < env.vdef_get_raw_frame_plane_count s.cfg.format →
        ∀ p, p < VDEF_RAW_MAX_PLANE_COUNT →
          (fill_frame_info env s data fr).data p
            = if p < env.vdef_get_raw_frame_plane_count s.cfg.format
              then data + sum_planes s.plane_size p else 0) := by
  refine ⟨rfl, rfl, rfl, ?_⟩
  intro hpc p hp
  simp only [fill_frame_info]
  rw [fill_plane_ptrs_get _ _ data _ _ _ _ (by rw [if_pos hpc]; rfl) p]
  rw [if_pos ⟨Nat.zero_le _, by omega⟩]

theorem read_image_frame (env : VdefEnv) (r s : vraw_reader) (buf : Mem) (data pos : Nat)
    (fr : vraw_frame) (hg : OnDisk r) (hm : InMemory env r) (hs : SameSetup r s)
    (hpos : pos + r.file_frame_size ≤ r.file.data.length) :
    frame_image r.cfg.format.data_layout (row_bytes r) r.cfg.info.resolution.height
        (read_image r buf data pos) (fill_frame_info env s data fr)
      = (r.file.data.drop pos).take r.file_frame_size := by
  obtain ⟨hc, hstr, hsz, -⟩ := hs
  obtain ⟨fst, -, -, fptr⟩ := fill_frame_info_fields env s data fr
  rw [hc, hsz] at fptr
  rw [hstr] at fst
  have hpc := hm.count0
  have fptr := fptr (by omega)
  have p0 : (fill_frame_info env s data fr).data 0 = data := by
    rw [fptr 0 (by decide), if_pos (by omega)]
    rfl
  have hF := hg.file_frame
  have hs0 := hm.stride0
  rcases hg.layout with hl | hl | hl
  · simp only [frame_bytes, hl] at hF
    simp only [frame_image, read_image, hl, p0, fst]
    rw [plane_rows_blit_rows _ _ _ hs0 _ _ _ _ (by rw [Nat.mul_comm]; omega), hF,
      Nat.mul_comm]
  · obtain ⟨c3, z0, s1, z1, s2⟩ := hm.planar hl
    have p1 : (fill_frame_info env s data fr).data 1 = data + r.plane_size 0 := by
      rw [fptr 1 (by decide), if_pos (by omega)]
      simp [sum_planes]
    have p2 : (fill_frame_info env s data fr).data 2
        = data + r.plane_size 0 + r.plane_size 1 := by
      rw [fptr 2 (by decide), if_pos (by omega)]
      simp [sum_planes, Nat.add_assoc]
    simp only [frame_bytes, hl] at hF
    simp only [frame_image, read_image, hl, p0, p1, p2, fst]
    have e1 : r.cfg.info.resolution.height * row_bytes r
        = row_bytes r * r.cfg.info.resolution.height := Nat.mul_comm _ _
    have e2 : r.cfg.info.resolution.height / 2 * (row_bytes r / 2)
        = row_bytes r / 2 * (r.cfg.info.resolution.height / 2) := Nat.mul_comm _ _
    rw [plane_rows_blit_rows _ _ _ s2 _ _ _ _ (by rw [e1, e2]; omega)]
    rw [plane_rows_congr _
      (blit_rows r.file.data (row_bytes r / 2) (r.plane_stride 1)
        (r.cfg.info.resolution.height / 2) (data + r.plane_size 0)
        (pos + r.cfg.info.resolution.height * row_bytes r)
        (blit_rows r.file.data (row_bytes r) (r.plane_stride 0) r.cfg.info.resolution.height
          data pos buf)) _ _ s1 _ _ (fun a h1 h2 =>
        blit_rows_outside _ _ _ s2 _ _ _ _ _ (Or.inl (by omega)))]
    rw [plane_rows_blit_rows _ _ _ s1 _ _ _ _ (by rw [e1, e2]; omega)]
    rw [plane_rows_congr _
      (blit_rows r.file.data (row_bytes r) (r.plane_stride 0) r.cfg.info.resolution.height
          data pos buf) _ _ hs0 _ _ (fun a h1 h2 => by
        rw [blit_rows_outside _ _ _ s2 _ _ _ _ _ (Or.inl (by omega)),
          blit_rows_outside _ _ _ s1 _ _ _ _ _ (Or.inl (by omega))])]
    rw [plane_rows_blit_rows _ _ _ hs0 _ _ _ _ (by rw [e1]; omega)]
    rw [take_drop_add, Nat.add_assoc pos, take_drop_add, hF, e1, e2]
  · obtain ⟨c2, z0, s1⟩ := hm.semi hl
    have p1 : (fill_frame_info env s data fr).data 1 = data + r.plane_size 0 := by
      rw [fptr 1 (by decide), if_pos (by omega)]
      simp [sum_planes]
    simp only [frame_bytes, hl] at hF
    simp only [frame_image, read_image, hl, p0, p1, fst]
    have e1 : r.cfg.info.resolution.height * row_bytes r
        = row_bytes r * r.cfg.info.resolution.height := Nat.mul_comm _ _
    have e2 : r.cfg.info.resolution.height / 2 * row_bytes r
        = row_bytes r * (r.cfg.info.resolution.height / 2) := Nat.mul_comm _ _
    rw [plane_rows_blit_rows _ _ _ s1 _ _ _ _ (by rw [e1, e2]; omega)]
    rw [plane_rows_congr _
      (blit_rows r.file.data (row_bytes r) (r.plane_stride 0) r.cfg.info.resolution.height
          data pos buf) _ _ hs0 _ _ (fun a h1 h2 =>
        blit_rows_outside _ _ _ s1 _ _ _ _ _ (Or.inl (by omega)))]
    rw [plane_rows_blit_rows _ _ _ hs0 _ _ _ _ (by rw [e1]; omega)]
    rw [take_drop_add, hF, e1, e2]

theorem frame_read_forward_gen (env : VdefEnv) (r : vraw_reader) (N : Nat)
    (hy : r.cfg.y4m = 0) (hm : r.cfg.max_count = 0) (hn : r.cfg.info.framerate.num ≠ 0)
    (hg : OnDisk r) (hN : r.file.data.length = N * r.file_frame_size)
    (data len : Nat) (hd : data ≠ 0) (hlen : len ≠ 0) (hsz : r.frame_size ≤ len)
    (p : Nat) (hp : p < N) (fuel idx c t : Nat) (buf : Mem) (e : Int) (fr : vraw_frame) :
    vraw_reader_frame_read env (fuel + 1) ⟨at_frame r p 0 idx c t, buf, e⟩ data len (some fr)
      = .done (0,
          ⟨at_frame r (p + 1) 0 ((idx + 1) % 2 ^ 32) ((c + 1) % 2 ^ 32)
              ((t + 1000000 * r.cfg.info.framerate.den / r.cfg.info.framerate.num) % 2 ^ 64),
            read_image r buf data (p * r.file_frame_size), EINVAL⟩,
          some (fill_frame_info env (at_frame r (p + 1) 0 ((idx + 1) % 2 ^ 32) c t) data fr)) := by
  have hpl := read_planes_gen (at_frame r p 0 idx c t) buf e data
    (ondisk_of_same r _ hg ⟨rfl, rfl, rfl, rfl, rfl, rfl, rfl, rfl⟩) hd (by
      have : (p + 1) * r.file_frame_size ≤ N * r.file_frame_size :=
        Nat.mul_le_mul_right _ (by omega)
      have e1 : (p + 1) * r.file_frame_size = p * r.file_frame_size + r.file_frame_size := by
        ring
      simp only [at_frame, hN]
      omega)
  have hri : read_image (at_frame r p 0 idx c t) buf data (at_frame r p 0 idx c t).file.pos
      = read_image r buf data (p * r.file_frame_size) := rfl
  rw [hri] at hpl
  have e1 : p * r.file_frame_size + r.file_frame_size = (p + 1) * r.file_frame_size := by ring
  rw [vraw_reader_frame_read]
  simp only [if_neg hd, if_neg hlen]
  rw [if_neg (by simp only [at_frame]; omega)]
  simp only [at_frame] at hpl ⊢
  simp only [hy, ne_eq, not_true_eq_false, if_false, hpl, feof, hm, e1]
  simp [frame_read_finish, hn, fill_frame_info]

theorem frame_read_eof_gen (env : VdefEnv) (r : vraw_reader) (N : Nat)
    (hy : r.cfg.y4m = 0) (hl : r.cfg.loop = 0)
    (hg : OnDisk r) (hN : r.file.data.length = N * r.file_frame_size)
    (data len : Nat) (hd : data ≠ 0) (hlen : len ≠ 0) (hsz : r.frame_size ≤ len)
    (fuel idx c t : Nat) (rev : Int) (buf : Mem) (e : Int) (fr : vraw_frame) :
    vraw_reader_frame_read env (fuel + 1) ⟨at_frame r N rev idx c t, buf, e⟩ data len (some fr)
      = .done (-ENOENT,
          ⟨{ at_frame r N rev idx c t with
              file := { (at_frame r N rev idx c t).file with eof := true } }, buf, EINVAL⟩,
          some fr) := by
  have hpl := read_planes_end (at_frame r N rev idx c t) buf e data
    (ondisk_of_same r _ hg ⟨rfl, rfl, rfl, rfl, rfl, rfl, rfl, rfl⟩) hd
    (by simp only [at_frame, hN])
  rw [vraw_reader_frame_read]
  simp only [if_neg hd, if_neg hlen]
  rw [if_neg (by simp only [at_frame]; omega)]
  simp only [at_frame] at hpl ⊢
  simp only [hy, ne_eq, not_true_eq_false, if_false, hpl, feof, hl]
  simp

theorem writer_new_raw_file (env : VdefEnv) (cfg : vraw_writer_config) (e0 e1 : Int)
    (w : vraw_writer) (disk : Option (List Byte)) (hy : cfg.y4m = 0)
    (hnew : vraw_writer_new env cfg none e0 = (0, some w, e1, disk)) :
    w.file = [] ∧ disk = some [] := by
  obtain ⟨i1, -⟩ := writer_new_init_fields cfg
  have hf : (writer_new_init cfg).file = [] := by
    by_cases h1 : vdef_frac_is_null cfg.info.framerate = true <;>
      by_cases h2 : vdef_dim_is_null cfg.info.sar = true <;>
      simp [writer_new_init, h1, h2]
  unfold vraw_writer_new at hnew
  split at hnew
  · simp at hnew
  · simp only at hnew
    rw [i1, hy] at hnew
    simp only [ne_eq, not_true_eq_false, if_false, Prod.mk.injEq, Option.some.injEq,
      true_and] at hnew
    obtain ⟨rfl, -, rfl⟩ := hnew
    exact ⟨hf, by rw [hf]⟩

theorem rewrite_loop_run (env : VdefEnv) (r : vraw_reader) (N : Nat)
    (hy : r.cfg.y4m = 0) (hl : r.cfg.loop = 0) (hm : r.cfg.max_count = 0)
    (hn : r.cfg.info.framerate.num ≠ 0) (hg : OnDisk r) (hmem : InMemory env r)
    (hN : r.file.data.length = N * r.file_frame_size)
    (data len : Nat) (hd : data ≠ 0) (hlen : len ≠ 0) (hsz : r.frame_size ≤ len)
    (wcfg : vraw_writer_config) (hwy : wcfg.y4m = 0) (hwf : wcfg.format = r.cfg.format)
    (hwr : wcfg.info.resolution = r.cfg.info.resolution) (fuel k : Nat) :
    ∀ (j p : Nat), p + j = N → ∀ (idx c t : Nat) (buf : Mem) (e : Int) (fr : vraw_frame)
      (w : vraw_writer), w.cfg = wcfg → w.primary_line_width = row_bytes r →
      w.file = r.file.data.take (p * r.file_frame_size) →
      ∃ st w2, rewrite_loop env (fuel + 1) data len (j + 1 + k)
          ⟨at_frame r p 0 idx c t, buf, e⟩ fr w = some (true, st, w2)
        ∧ w2.file = r.file.data := by
  intro j
  induction j with
  | zero =>
    intro p hp idx c t buf e fr w hc hw hf
    have hpN : p = N := by omega
    subst hpN
    have e1 : 0 + 1 + k = k + 1 := by omega
    have h1 : ¬ ((-ENOENT : Int) < 0 ∧ (-ENOENT : Int) ≠ -ENOENT) := by decide
    rw [e1, rewrite_loop, frame_read_eof_gen env r p hy hl hg hN data len hd hlen hsz]
    simp only [if_neg h1, if_true]
    refine ⟨_, _, rfl, ?_⟩
    rw [hf, List.take_of_length_le (by omega)]
  | succ j ih =>
    intro p hp idx c t buf e fr w hc hw hf
    have e1 : j + 1 + 1 + k = (j + 1 + k) + 1 := by omega
    have h1 : ¬ ((0 : Int) < 0 ∧ (0 : Int) ≠ -ENOENT) := by decide
    have h2 : ¬ ((0 : Int) = -ENOENT) := by decide
    have hlt : p < N := by omega
    have hle : (p + 1) * r.file_frame_size ≤ N * r.file_frame_size :=
      Nat.mul_le_mul_right _ (by omega)
    have e2 : (p + 1) * r.file_frame_size = p * r.file_frame_size + r.file_frame_size := by
      ring
    have hrow := hg.row_pos
    have hs0 := hmem.stride0
    have hpc := hmem.count0
    obtain ⟨fst, ffmt, fres, fptr⟩ := fill_frame_info_fields env
      (at_frame r (p + 1) 0 ((idx + 1) % 2 ^ 32) c t) data fr
    have hSc : (at_frame r (p + 1) 0 ((idx + 1) % 2 ^ 32) c t).cfg = r.cfg := rfl
    have hSs : (at_frame r (p + 1) 0 ((idx + 1) % 2 ^ 32) c t).plane_stride
        = r.plane_stride := rfl
    have hSz : (at_frame r (p + 1) 0 ((idx + 1) % 2 ^ 32) c t).plane_size
        = r.plane_size := rfl
    rw [hSc] at ffmt fres fptr
    rw [hSs] at fst
    rw [hSz] at fptr
    have fptr := fptr (by omega)
    have p0 : (fill_frame_info env (at_frame r (p + 1) 0 ((idx + 1) % 2 ^ 32) c t)
        data fr).data 0 = data := by
      rw [fptr 0 (by decide), if_pos (by omega)]
      rfl
    have hwl : w.cfg.format.data_layout = r.cfg.format.data_layout := by rw [hc, hwf]
    have hwrite := frame_write_ok w (read_image r buf data (p * r.file_frame_size))
      (fill_frame_info env (at_frame r (p + 1) 0 ((idx + 1) % 2 ^ 32) c t) data fr) EINVAL
      (by rw [hc]; exact hwy)
      (by
        simp only [writer_check_frame, ffmt, fres, hc, hwf, hwr, vdef_raw_format_cmp]
        simp)
      (by rw [hwl]; exact hg.layout)
      (by rw [p0]; exact hd)
      (by rw [fst]; omega)
      (by rw [hw]; exact hrow)
      (fun hl2 => by
        obtain ⟨c2, -, s1⟩ := hmem.semi (hwl ▸ hl2)
        rw [fptr 1 (by decide), if_pos (by omega), fst]
        exact ⟨by omega, by omega⟩)
      (fun hl2 => by
        obtain ⟨c3, -, s1, -, s2⟩ := hmem.planar (hwl ▸ hl2)
        have hcp := hg.chroma_pos (hwl ▸ hl2)
        rw [fptr 1 (by decide), if_pos (by omega), fptr 2 (by decide), if_pos (by omega), fst,
          hw]
        exact ⟨by omega, by omega, by omega, by omega, hcp⟩)
    rw [hwl, hw, hc, hwr] at hwrite
    rw [read_image_frame env r (at_frame r (p + 1) 0 ((idx + 1) % 2 ^ 32) c t) buf data
      (p * r.file_frame_size) fr hg hmem ⟨rfl, rfl, rfl, rfl, rfl, rfl, rfl, rfl⟩
      (by rw [hN]; omega)] at hwrite
    rw [e1, rewrite_loop, frame_read_forward_gen env r N hy hm hn hg hN data len hd hlen hsz p
      hlt]
    simp only [if_neg h1, if_neg h2, hwrite, lt_self_iff_false, if_false]
    exact ih (p + 1) (by omega) _ _ _ _ _ _ _ rfl rfl (by
      simp only
      rw [hf, e2, ← List.take_add])

theorem sample_aligned_new :
    vraw_reader_new sample_env (some (count_bytes 18)) sample_config_aligned 0
      = .done (0, some sample_reader_aligned, 0) :=
  (reader_new_raw_eval_start sample_env (count_bytes 18) sample_config_aligned 0
    (by decide) (by decide) (by decide) (by decide)).trans rfl

theorem sample_aligned_ondisk : OnDisk sample_reader_aligned := by
  constructor
  · exact Or.inr (Or.inl rfl)
  · decide
  · decide
  · intro _; decide
  · decide
  · decide

theorem sample_aligned_inmemory : InMemory sample_env sample_reader_aligned := by
  constructor
  · decide
  · decide
  · intro h; exact absurd h (by decide)
  · intro _; exact ⟨by decide, by decide, by decide, by decide, by decide⟩

theorem sample_aligned_geometry :
    sample_reader_aligned.plane_stride 0 = 8 ∧ sample_reader_aligned.plane_stride 1 = 8
    ∧ sample_reader_aligned.plane_size 0 = 32 ∧ sample_reader_aligned.plane_size 1 = 32
    ∧ sample_reader_aligned.frame_size = 96 ∧ sample_reader_aligned.file_frame_size = 6 := by
  decide

theorem conv_16le_mode (src : Mem) (step : Nat) :
    ∀ (n in1 in2 : Nat) (dst : Mem) (out : Nat),
      conv_16le_to_10packed src in1 in2 dst out step n
        = conv_mode_to_10packed 0 src in1 in2 dst out step n := by
  intro n
  induction n with
  | zero => intro in1 in2 dst out; rfl
  | succ n ih =>
    intro in1 in2 dst out
    rw [conv_16le_to_10packed, conv_mode_to_10packed, ih]
    rfl

theorem conv_16be_mode (src : Mem) (step : Nat) :
    ∀ (n in1 in2 : Nat) (dst : Mem) (out : Nat),
      conv_16be_to_10packed src in1 in2 dst out step n
        = conv_mode_to_10packed 1 src in1 in2 dst out step n := by
  intro n
  induction n with
  | zero => intro in1 in2 dst out; rfl
  | succ n ih =>
    intro in1 in2 dst out
    rw [conv_16be_to_10packed, conv_mode_to_10packed, ih]
    rfl

theorem conv_8_mode (mode : Int) (h0 : mode ≠ 0) (h1 : mode ≠ 1) (src : Mem) (step : Nat) :
    ∀ (n in1 in2 : Nat) (dst : Mem) (out : Nat),
      conv_8_to_10packed src in1 in2 dst out step n
        = conv_mode_to_10packed mode src in1 in2 dst out step n := by
  intro n
  induction n with
  | zero => intro in1 in2 dst out; rfl
  | succ n ih =>
    intro in1 in2 dst out
    rw [conv_8_to_10packed, conv_mode_to_10packed, ih, conv_block, if_neg h0, if_neg h1]

theorem line_to_mode (mem : Mem) (in1 in2 out nb_blk step : Nat) (mode : Int) :
    line_to_nv21_10packed mem in1 in2 out nb_blk step mode
      = conv_mode_to_10packed mode mem in1 in2 mem out step nb_blk := by
  unfold line_to_nv21_10packed
  by_cases h0 : mode = 0
  · rw [if_pos h0, h0, conv_16le_mode]
  · rw [if_neg h0]
    by_cases h1 : mode = 1
    · rw [if_pos h1, h1, conv_16be_mode]
    · rw [if_neg h1, conv_8_mode mode h0 h1]

theorem conv_mode_frame (mode : Int) (src : Mem) (step : Nat) :
    ∀ (n in1 in2 : Nat) (dst : Mem) (out a : Nat), (a < out ∨ out + 5 * n ≤ a) →
      conv_mode_to_10packed mode src in1 in2 dst out step n a = dst a := by
  intro n
  induction n with
  | zero => intro in1 in2 dst out a _; rfl
  | succ n ih =>
    intro in1 in2 dst out a h
    rw [conv_mode_to_10packed, ih _ _ _ _ _ (by omega),
      store_bytes_frame _ _ _ _ _ (by omega)]

theorem conv_mode_nth (mode : Int) (src : Mem) (step : Nat) :
    ∀ (n in1 in2 : Nat) (dst : Mem) (out k i : Nat), k < n → i < 5 →
      conv_mode_to_10packed mode src in1 in2 dst out step n (out + 5 * k + i)
        = toByte (conv_block mode src (in1 + 2 * step * k) (in2 + 2 * step * k) step
            / 2 ^ (8 * i)) := by
  intro n
  induction n with
  | zero => intro in1 in2 dst out k i hk; omega
  | succ m ih =>
    intro in1 in2 dst out k i hk hi
    rw [conv_mode_to_10packed]
    cases k with
    | zero =>
      rw [conv_mode_frame _ _ _ _ _ _ _ _ _ (Or.inl (by omega))]
      simpa using store_bytes_get dst out _ i hi
    | succ j =>
      have e : out + 5 * (j + 1) + i = out + 5 + 5 * j + i := by ring
      have e1 : in1 + 2 * step * (j + 1) = in1 + 2 * step + 2 * step * j := by ring
      have e2 : in2 + 2 * step * (j + 1) = in2 + 2 * step + 2 * step * j := by ring
      rw [e, e1, e2]
      exact ih _ _ _ _ j i (by omega) hi

theorem sample_value_lt (mode : Int) (m : Mem) (a : Nat) : sample_value mode m a < 1024 := by
  have := (m a).isLt
  unfold sample_value
  split_ifs <;> omega

theorem conv_block_value (mode : Int) (src : Mem) (in1 in2 step : Nat) :
    conv_block mode src in1 in2 step
      = sample_value mode src in1 + 2 ^ 10 * sample_value mode src in2
        + 2 ^ 20 * sample_value mode src (in1 + step)
        + 2 ^ 30 * sample_value mode src (in2 + step) := by
  unfold conv_block sample_value
  by_cases h0 : mode = 0
  · simp only [if_pos h0]
    exact conv_16le_block_eq src in1 in2 step
  · simp only [if_neg h0]
    by_cases h1 : mode = 1
    · simp only [if_pos h1]
      exact conv_16be_block_eq src in1 in2 step
    · simp only [if_neg h1]
      exact conv_8_block_eq src in1 in2 step

theorem block40_of_bytes (m : Mem) (p t : Nat) (ht : t < 2 ^ 40)
    (h : ∀ i, i < 5 → m (p + i) = toByte (t / 2 ^ (8 * i))) : block40 m p = t := by
  have h0 := h 0 (by omega)
  have h1 := h 1 (by omega)
  have h2 := h 2 (by omega)
  have h3 := h 3 (by omega)
  have h4 := h 4 (by omega)
  simp only [Nat.add_zero, Nat.mul_zero, Nat.pow_zero, Nat.div_one] at h0
  simp only [block40, h0, h1, h2, h3, h4, toByte]
  omega

theorem line_components (mem : Mem) (in1 in2 out nb_blk step : Nat) (mode : Int) (k : Nat)
    (hk : k < nb_blk) :
    component (line_to_nv21_10packed mem in1 in2 out nb_blk step mode) (out + 5 * k) 0
        = sample_value mode mem (in1 + 2 * step * k)
    ∧ component (line_to_nv21_10packed mem in1 in2 out nb_blk step mode) (out + 5 * k) 1
        = sample_value mode mem (in2 + 2 * step * k)
    ∧ component (line_to_nv21_10packed mem in1 in2 out nb_blk step mode) (out + 5 * k) 2
        = sample_value mode mem (in1 + 2 * step * k + step)
    ∧ component (line_to_nv21_10packed mem in1 in2 out nb_blk step mode) (out + 5 * k) 3
        = sample_value mode mem (in2 + 2 * step * k + step) := by
  have v0 := sample_value_lt mode mem (in1 + 2 * step * k)
  have v1 := sample_value_lt mode mem (in2 + 2 * step * k)
  have v2 := sample_value_lt mode mem (in1 + 2 * step * k + step)
  have v3 := sample_value_lt mode mem (in2 + 2 * step * k + step)
  have hv := conv_block_value mode mem (in1 + 2 * step * k) (in2 + 2 * step * k) step
  have hb : block40 (line_to_nv21_10packed mem in1 in2 out nb_blk step mode) (out + 5 * k)
      = conv_block mode mem (in1 + 2 * step * k) (in2 + 2 * step * k) step := by
    apply block40_of_bytes _ _ _ (by omega)
    intro i hi
    rw [line_to_mode, conv_mode_nth mode mem step nb_blk in1 in2 mem out k i hk hi]
  simp only [component, hb, hv]
  refine ⟨?_, ?_, ?_, ?_⟩ <;> omega

theorem line_frame (mem : Mem) (in1 in2 out nb_blk step : Nat) (mode : Int) (a : Nat)
    (h : a < out ∨ out + 5 * nb_blk ≤ a) :
    line_to_nv21_10packed mem in1 in2 out nb_blk step mode a = mem a := by
  rw [line_to_mode, conv_mode_frame mode mem step nb_blk in1 in2 mem out a h]

theorem sample_value_congr (mode : Int) (m1 m2 : Mem) (a : Nat)
    (h : ∀ d, d < sample_bytes mode → m1 (a + d) = m2 (a + d)) :
    sample_value mode m1 a = sample_value mode m2 a := by
  unfold sample_value
  unfold sample_bytes at h
  by_cases h0 : mode = 0
  · have e0 := h 0 (by rw [if_pos (Or.inl h0)]; omega)
    have e1 := h 1 (by rw [if_pos (Or.inl h0)]; omega)
    simp only [Nat.add_zero] at e0
    simp only [if_pos h0, sample16le, e0, e1]
  · by_cases h1 : mode = 1
    · have e0 := h 0 (by rw [if_pos (Or.inr h1)]; omega)
      have e1 := h 1 (by rw [if_pos (Or.inr h1)]; omega)
      simp only [Nat.add_zero] at e0
      simp only [if_neg h0, if_pos h1, sample16be, e0, e1]
    · have e0 := h 0 (by rw [if_neg (by tauto)]; omega)
      simp only [Nat.add_zero] at e0
      simp only [if_neg h0, if_neg h1, e0]

theorem component_congr (m1 m2 : Mem) (p c : Nat) (h : ∀ t, t < 5 → m1 (p + t) = m2 (p + t)) :
    component m1 p c = component m2 p c := by
  have h0 := h 0 (by omega)
  simp only [Nat.add_zero] at h0
  simp only [component, block40, h0, h 1 (by omega), h 2 (by omega), h 3 (by omega),
    h 4 (by omega)]

theorem line_component (mem : Mem) (in1 in2 out nb_blk step : Nat) (mode : Int) (k c : Nat)
    (hk : k < nb_blk) (hc : c < 4) :
    component (line_to_nv21_10packed mem in1 in2 out nb_blk step mode) (out + 5 * k) c
      = sample_value mode mem (block_sample_addr in1 in2 step k c) := by
  obtain ⟨c0, c1, c2, c3⟩ := line_components mem in1 in2 out nb_blk step mode k hk
  unfold block_sample_addr
  interval_cases c
  · simpa using c0
  · simpa using c1
  · simpa using c2
  · simpa using c3

theorem rows_frame (in_stride out_stride nb_blk step : Nat) (mode : Int)
    (hos : 5 * nb_blk ≤ out_stride) :
    ∀ (rows : Nat) (mem : Mem) (in1 in2 out a : Nat), (a < out ∨ out + rows * out_stride ≤ a) →
      to_packed_rows in_stride out_stride nb_blk step mode rows mem in1 in2 out a = mem a := by
  intro rows
  induction rows with
  | zero => intro mem in1 in2 out a _; rfl
  | succ n ih =>
    intro mem in1 in2 out a h
    have e : (n + 1) * out_stride = n * out_stride + out_stride := by ring
    rw [to_packed_rows, ih _ _ _ _ _ (by omega), line_frame _ _ _ _ _ _ _ _ (by omega)]

theorem rows_component (in_stride out_stride nb_blk step : Nat) (mode : Int)
    (hos : 5 * nb_blk ≤ out_stride) :
    ∀ (rows : Nat) (mem : Mem) (in1 in2 out : Nat),
      (∀ i k c d, i < rows → k < nb_blk → c < 4 → d < sample_bytes mode →
        (block_sample_addr (in1 + i * in_stride) (in2 + i * in_stride) step k c + d < out
          ∨ out + rows * out_stride
            ≤ block_sample_addr (in1 + i * in_stride) (in2 + i * in_stride) step k c + d)) →
      ∀ i k c, i < rows → k < nb_blk → c < 4 →
        component (to_packed_rows in_stride out_stride nb_blk step mode rows mem in1 in2 out)
            (out + i * out_stride + 5 * k) c
          = sample_value mode mem
              (block_sample_addr (in1 + i * in_stride) (in2 + i * in_stride) step k c) := by
  intro rows
  induction rows with
  | zero => intro mem in1 in2 out _ i k c hi; omega
  | succ n ih =>
    intro mem in1 in2 out hin i k c hi hk hc
    have e : (n + 1) * out_stride = n * out_stride + out_stride := by ring
    rw [to_packed_rows]
    cases i with
    | zero =>
      simp only [Nat.zero_mul, Nat.add_zero]
      rw [component_congr _ (line_to_nv21_10packed mem in1 in2 out nb_blk step mode) _ _
        (fun t ht => rows_frame in_stride out_stride nb_blk step mode hos n _ _ _ _ _
          (Or.inl (by omega)))]
      exact line_component mem in1 in2 out nb_blk step mode k c hk hc
    | succ j =>
      have e1 : in1 + (j + 1) * in_stride = in1 + in_stride + j * in_stride := by ring
      have e2 : in2 + (j + 1) * in_stride = in2 + in_stride + j * in_stride := by ring
      have e3 : out + (j + 1) * out_stride + 5 * k = out + out_stride + j * out_stride + 5 * k := by
        ring
      have hin2 : ∀ i k c d, i < n → k < nb_blk → c < 4 → d < sample_bytes mode →
          (block_sample_addr (in1 + in_stride + i * in_stride) (in2 + in_stride + i * in_stride)
              step k c + d < out + out_stride
            ∨ out + out_stride + n * out_stride
              ≤ block_sample_addr (in1 + in_stride + i * in_stride)
                  (in2 + in_stride + i * in_stride) step k c + d) := by
        intro i2 k2 c2 d2 hi2 hk2 hc2 hd2
        have := hin (i2 + 1) k2 c2 d2 (by omega) hk2 hc2 hd2
        have f1 : in1 + (i2 + 1) * in_stride = in1 + in_stride + i2 * in_stride := by ring
        have f2 : in2 + (i2 + 1) * in_stride = in2 + in_stride + i2 * in_stride := by ring
        rw [f1, f2] at this
        omega
      rw [e3, ih _ _ _ _ hin2 j k c (by omega) hk hc, e1, e2]
      apply sample_value_congr
      intro d hd
      have := hin (j + 1) k c d hi hk hc hd
      rw [e1, e2] at this
      exact line_frame _ _ _ _ _ _ _ _ (by omega)

theorem packed_passes (mem : Mem) (is0 is1 os0 os1 nb elem jmp : Nat) (mode : Int) (h : Nat)
    (y_in u_in v_in y_out vu_out : Nat)
    (hos0 : 5 * nb ≤ os0) (hos1 : 5 * nb ≤ os1)
    (hsep : y_out + h * os0 ≤ vu_out ∨ vu_out + h / 2 * os1 ≤ y_out)
    (hinY : ∀ i k c d, i < h → k < nb → c < 4 → d < sample_bytes mode →
      ((block_sample_addr (y_in + i * is0) (y_in + elem + i * is0) (2 * elem) k c + d < y_out
          ∨ y_out + h * os0
            ≤ block_sample_addr (y_in + i * is0) (y_in + elem + i * is0) (2 * elem) k c + d)))
    (hinC : ∀ j k c d, j < h / 2 → k < nb → c < 4 → d < sample_bytes mode →
      ((block_sample_addr (v_in + j * is1) (u_in + j * is1) jmp k c + d < y_out
          ∨ y_out + h * os0 ≤ block_sample_addr (v_in + j * is1) (u_in + j * is1) jmp k c + d)
        ∧ (block_sample_addr (v_in + j * is1) (u_in + j * is1) jmp k c + d < vu_out
          ∨ vu_out + h / 2 * os1
            ≤ block_sample_addr (v_in + j * is1) (u_in + j * is1) jmp k c + d))) :
    (∀ i k c, i < h → k < nb → c < 4 →
      component (to_packed_rows is1 os1 nb jmp mode (h / 2)
          (to_packed_rows is0 os0 nb (2 * elem) mode h mem y_in (y_in + elem) y_out)
          v_in u_in vu_out) (y_out + i * os0 + 5 * k) c
        = sample_value mode mem
            (block_sample_addr (y_in + i * is0) (y_in + elem + i * is0) (2 * elem) k c))
    ∧ (∀ j k c, j < h / 2 → k < nb → c < 4 →
      component (to_packed_rows is1 os1 nb jmp mode (h / 2)
          (to_packed_rows is0 os0 nb (2 * elem) mode h mem y_in (y_in + elem) y_out)
          v_in u_in vu_out) (vu_out + j * os1 + 5 * k) c
        = sample_value mode mem
            (block_sample_addr (v_in + j * is1) (u_in + j * is1) jmp k c)) := by
  constructor
  · intro i k c hi hk hc
    have hle : (i + 1) * os0 ≤ h * os0 := Nat.mul_le_mul_right _ (by omega)
    have e : (i + 1) * os0 = i * os0 + os0 := by ring
    rw [component_congr _ (to_packed_rows is0 os0 nb (2 * elem) mode h mem y_in (y_in + elem)
      y_out) _ _ (fun t ht => rows_frame is1 os1 nb jmp mode hos1 (h / 2) _ _ _ _ _
        (by omega))]
    exact rows_component is0 os0 nb (2 * elem) mode hos0 h mem y_in (y_in + elem) y_out hinY
      i k c hi hk hc
  · intro j k c hj hk hc
    rw [rows_component is1 os1 nb jmp mode hos1 (h / 2) _ v_in u_in vu_out
      (fun j2 k2 c2 d2 a1 a2 a3 a4 => (hinC j2 k2 c2 d2 a1 a2 a3 a4).2) j k c hj hk hc]
    apply sample_value_congr
    intro d hd
    exact rows_frame is0 os0 nb (2 * elem) mode hos0 h mem _ _ _ _
      (hinC j k c d hj hk hc hd).1

theorem frame_to_passes (env : VdefEnv) (mem : Mem) (in_frame out_frame : vraw_frame)
    (hrec : is_i420 env in_frame.frame.format = true ∨ is_yv12 env in_frame.frame.format = true
      ∨ is_nv12 env in_frame.frame.format = true ∨ is_nv21 env in_frame.frame.format = true)
    (hsame : is_i420 env in_frame.frame.format = true ∨ is_yv12 env in_frame.frame.format = true →
      in_frame.frame.plane_stride 2 = in_frame.frame.plane_stride 1) :
    ∃ u_in v_in jmp,
      frame_to_nv21_10packed env mem in_frame out_frame
        = to_packed_rows (in_frame.frame.plane_stride 1) (out_frame.frame.plane_stride 1)
            (in_frame.frame.info.resolution.width / 4) jmp (pack_mode in_frame.frame.format)
            (in_frame.frame.info.resolution.height / 2)
            (to_packed_rows (in_frame.frame.plane_stride 0) (out_frame.frame.plane_stride 0)
              (in_frame.frame.info.resolution.width / 4)
              (2 * (in_frame.frame.format.data_size / 8)) (pack_mode in_frame.frame.format)
              in_frame.frame.info.resolution.height mem (in_frame.data 0)
              (in_frame.data 0 + in_frame.frame.format.data_size / 8) (out_frame.data 0))
            v_in u_in (out_frame.data 1)
      ∧ (∀ j x, u_sample_addr env in_frame j x
          = u_in + j * in_frame.frame.plane_stride 1 + x * jmp)
      ∧ (∀ j x, v_sample_addr env in_frame j x
          = v_in + j * in_frame.frame.plane_stride 1 + x * jmp) := by
  by_cases h1 : is_i420 env in_frame.frame.format = true
  · have hs := hsame (Or.inl h1)
    have h1' : (vdef_raw_format_cmp in_frame.frame.format env.vdef_i420
        || vdef_raw_format_cmp in_frame.frame.format env.vdef_i420_10_16le
        || vdef_raw_format_cmp in_frame.frame.format env.vdef_i420_10_16be) = true := h1
    refine ⟨in_frame.data 1, in_frame.data 2, in_frame.frame.format.data_size / 8, ?_, ?_, ?_⟩
    · unfold frame_to_nv21_10packed
      simp only [h1', if_true]
      rfl
    · intro j x
      simp only [u_sample_addr, h1, if_true]
    · intro j x
      simp only [v_sample_addr, h1, if_true, hs]
  by_cases h2 : is_yv12 env in_frame.frame.format = true
  · have hs := hsame (Or.inr h2)
    have h1' : ¬ (vdef_raw_format_cmp in_frame.frame.format env.vdef_i420
        || vdef_raw_format_cmp in_frame.frame.format env.vdef_i420_10_16le
        || vdef_raw_format_cmp in_frame.frame.format env.vdef_i420_10_16be) = true := h1
    have h2' : (vdef_raw_format_cmp in_frame.frame.format env.vdef_yv12
        || vdef_raw_format_cmp in_frame.frame.format env.vdef_yv12_10_16le
        || vdef_raw_format_cmp in_frame.frame.format env.vdef_yv12_10_16be) = true := h2
    refine ⟨in_frame.data 2, in_frame.data 1, in_frame.frame.format.data_size / 8, ?_, ?_, ?_⟩
    · unfold frame_to_nv21_10packed
      simp only [if_neg h1', h2', if_true]
      rfl
    · intro j x
      simp only [u_sample_addr, if_neg h1, h2, if_true, hs]
    · intro j x
      simp only [v_sample_addr, if_neg h1, h2, if_true]
  by_cases h3 : is_nv12 env in_frame.frame.format = true
  · have h1' : ¬ (vdef_raw_format_cmp in_frame.frame.format env.vdef_i420
        || vdef_raw_format_cmp in_frame.frame.format env.vdef_i420_10_16le
        || vdef_raw_format_cmp in_frame.frame.format env.vdef_i420_10_16be) = true := h1
    have h2' : ¬ (vdef_raw_format_cmp in_frame.frame.format env.vdef_yv12
        || vdef_raw_format_cmp in_frame.frame.format env.vdef_yv12_10_16le
        || vdef_raw_format_cmp in_frame.frame.format env.vdef_yv12_10_16be) = true := h2
    have h3' : (vdef_raw_format_cmp in_frame.frame.format env.vdef_nv12
        || vdef_raw_format_cmp in_frame.frame.format env.vdef_nv12_10_16le
        || vdef_raw_format_cmp in_frame.frame.format env.vdef_nv12_10_16be) = true := h3
    refine ⟨in_frame.data 1, in_frame.data 1 + in_frame.frame.format.data_size / 8,
      in_frame.frame.format.data_size / 8 * 2, ?_, ?_, ?_⟩
    · unfold frame_to_nv21_10packed
      simp only [if_neg h1', if_neg h2', h3', if_true]
      rfl
    · intro j x
      simp only [u_sample_addr, if_neg h1, if_neg h2, h3, if_true]
    · intro j x
      simp only [v_sample_addr, if_neg h1, if_neg h2, h3, if_true]
  · have h4 : is_nv21 env in_frame.frame.format = true := by tauto
    have h1' : ¬ (vdef_raw_format_cmp in_frame.frame.format env.vdef_i420
        || vdef_raw_format_cmp in_frame.frame.format env.vdef_i420_10_16le
        || vdef_raw_format_cmp in_frame.frame.format env.vdef_i420_10_16be) = true := h1
    have h2' : ¬ (vdef_raw_format_cmp in_frame.frame.format env.vdef_yv12
        || vdef_raw_format_cmp in_frame.frame.format env.vdef_yv12_10_16le
        || vdef_raw_format_cmp in_frame.frame.format env.vdef_yv12_10_16be) = true := h2
    have h3' : ¬ (vdef_raw_format_cmp in_frame.frame.format env.vdef_nv12
        || vdef_raw_format_cmp in_frame.frame.format env.vdef_nv12_10_16le
        || vdef_raw_format_cmp in_frame.frame.format env.vdef_nv12_10_16be) = true := h3
    have h4' : (vdef_raw_format_cmp in_frame.frame.format env.vdef_nv21
        || vdef_raw_format_cmp in_frame.frame.format env.vdef_nv21_10_16le
        || vdef_raw_format_cmp in_frame.frame.format env.vdef_nv21_10_16be) = true := h4
    refine ⟨in_frame.data 1 + in_frame.frame.format.data_size / 8, in_frame.data 1,
      in_frame.frame.format.data_size / 8 * 2, ?_, ?_, ?_⟩
    · unfold frame_to_nv21_10packed
      simp only [if_neg h1', if_neg h2', if_neg h3', h4', if_true]
      rfl
    · intro j x
      simp only [u_sample_addr, if_neg h1, if_neg h2, if_neg h3]
    · intro j x
      simp only [v_sample_addr, if_neg h1, if_neg h2, if_neg h3]

theorem luma_block_addr (y s e i k c : Nat) (hc : c < 4) :
    block_sample_addr (y + i * s) (y + e + i * s) (2 * e) k c = y + i * s + (4 * k + c) * e := by
  unfold block_sample_addr
  interval_cases c <;> simp <;> ring

theorem chroma_block_addr (a b s jmp j k : Nat) :
    block_sample_addr (a + j * s) (b + j * s) jmp k 0 = a + j * s + 2 * k * jmp
    ∧ block_sample_addr (a + j * s) (b + j * s) jmp k 1 = b + j * s + 2 * k * jmp
    ∧ block_sample_addr (a + j * s) (b + j * s) jmp k 2 = a + j * s + (2 * k + 1) * jmp
    ∧ block_sample_addr (a + j * s) (b + j * s) jmp k 3 = b + j * s + (2 * k + 1) * jmp := by
  unfold block_sample_addr
  refine ⟨?_, ?_, ?_, ?_⟩ <;> simp <;> ring

theorem sample_even_inputs (a : Nat) (ha : a < 100) :
    OutsidePacked sample_packed_out sample_even_frame.frame.info.resolution.height a := by
  unfold OutsidePacked
  exact ⟨Or.inl ha, Or.inl (by
    have : sample_packed_out.data 1 = 120 := rfl
    omega)⟩

theorem sample_even_y (i x d : Nat) (hi : i < sample_even_frame.frame.info.resolution.height)
    (hx : x < 4 * (sample_even_frame.frame.info.resolution.width / 4))
    (hd : d < sample_bytes (pack_mode sample_even_frame.frame.format)) :
    y_sample_addr sample_even_frame i x + d < 100 := by
  have hi2 : i < 4 := hi
  have hx2 : x < 4 := hx
  have hd2 : d < 1 := hd
  have e : y_sample_addr sample_even_frame i x = 0 + i * 4 + x * 1 := rfl
  rw [e]
  omega

theorem sample_even_u (j x d : Nat) (hj : j < sample_even_frame.frame.info.resolution.height / 2)
    (hx : x < 2 * (sample_even_frame.frame.info.resolution.width / 4))
    (hd : d < sample_bytes (pack_mode sample_even_frame.frame.format)) :
    u_sample_addr sample_env sample_even_frame j x + d < 100 := by
  have hj2 : j < 2 := hj
  have hx2 : x < 2 := hx
  have hd2 : d < 1 := hd
  have e : u_sample_addr sample_env sample_even_frame j x = 16 + j * 2 + x * 1 := rfl
  rw [e]
  omega

theorem sample_even_v (j x d : Nat) (hj : j < sample_even_frame.frame.info.resolution.height / 2)
    (hx : x < 2 * (sample_even_frame.frame.info.resolution.width / 4))
    (hd : d < sample_bytes (pack_mode sample_even_frame.frame.format)) :
    v_sample_addr sample_env sample_even_frame j x + d < 100 := by
  have hj2 : j < 2 := hj
  have hx2 : x < 2 := hx
  have hd2 : d < 1 := hd
  have e : v_sample_addr sample_env sample_even_frame j x = 32 + j * 2 + x * 1 := rfl
  rw [e]
  omega

/-- The layout of the packed output when the chroma planes share a stride.
For an input frame of one of
the four groups of formats (I420, YV12, NV12, NV21), whose two chroma planes
have the same stride when it is planar, and an output frame whose rows hold the
`width / 4` blocks of a line, whose two planes do not overlap and which no
input sample lies in: in the memory `frame_to_nv21_10packed` leaves, field `c`
of block `b` of luma row `i` is the value of `Y[i][4b + c]`, and block `b` of
chroma row `j` holds the values of `V[j][2b]`, `U[j][2b]`, `V[j][2b+1]`,
`U[j][2b+1]`, the value of a sample being its low 10 bits (16-bit formats) or
the byte shifted left by 2 (8-bit formats). -/
theorem frame_to_nv21_10packed_layout (env : VdefEnv) (mem : Mem)
    (in_frame out_frame : vraw_frame)
    (hrec : is_i420 env in_frame.frame.format = true ∨ is_yv12 env in_frame.frame.format = true
      ∨ is_nv12 env in_frame.frame.format = true ∨ is_nv21 env in_frame.frame.format = true)
    (hsame : is_i420 env in_frame.frame.format = true ∨ is_yv12 env in_frame.frame.format = true →
      in_frame.frame.plane_stride 2 = in_frame.frame.plane_stride 1)
    (hos0 : 5 * (in_frame.frame.info.resolution.width / 4) ≤ out_frame.frame.plane_stride 0)
    (hos1 : 5 * (in_frame.frame.info.resolution.width / 4) ≤ out_frame.frame.plane_stride 1)
    (hsep : out_frame.data 0
          + in_frame.frame.info.resolution.height * out_frame.frame.plane_stride 0
        ≤ out_frame.data 1
      ∨ out_frame.data 1
          + in_frame.frame.info.resolution.height / 2 * out_frame.frame.plane_stride 1
        ≤ out_frame.data 0)
    (hinY : ∀ i, i < in_frame.frame.info.resolution.height →
      ∀ x, x < 4 * (in_frame.frame.info.resolution.width / 4) →
      ∀ d, d < sample_bytes (pack_mode in_frame.frame.format) →
        OutsidePacked out_frame in_frame.frame.info.resolution.height
          (y_sample_addr in_frame i x + d))
    (hinU : ∀ j, j < in_frame.frame.info.resolution.height / 2 →
      ∀ x, x < 2 * (in_frame.frame.info.resolution.width / 4) →
      ∀ d, d < sample_bytes (pack_mode in_frame.frame.format) →
        OutsidePacked out_frame in_frame.frame.info.resolution.height
          (u_sample_addr env in_frame j x + d))
    (hinV : ∀ j, j < in_frame.frame.info.resolution.height / 2 →
      ∀ x, x < 2 * (in_frame.frame.info.resolution.width / 4) →
      ∀ d, d < sample_bytes (pack_mode in_frame.frame.format) →
        OutsidePacked out_frame in_frame.frame.info.resolution.height
          (v_sample_addr env in_frame j x + d)) :
    (∀ i b c, i < in_frame.frame.info.resolution.height →
      b < in_frame.frame.info.resolution.width / 4 → c < 4 →
      component (frame_to_nv21_10packed env mem in_frame out_frame)
          (out_frame.data 0 + i * out_frame.frame.plane_stride 0 + 5 * b) c
        = sample_value (pack_mode in_frame.frame.format) mem
            (y_sample_addr in_frame i (4 * b + c)))
    ∧ (∀ j b, j < in_frame.frame.info.resolution.height / 2 →
      b < in_frame.frame.info.resolution.width / 4 →
      component (frame_to_nv21_10packed env mem in_frame out_frame)
          (out_frame.data 1 + j * out_frame.frame.plane_stride 1 + 5 * b) 0
        = sample_value (pack_mode in_frame.frame.format) mem
            (v_sample_addr env in_frame j (2 * b))
      ∧ component (frame_to_nv21_10packed env mem in_frame out_frame)
          (out_frame.data 1 + j * out_frame.frame.plane_stride 1 + 5 * b) 1
        = sample_value (pack_mode in_frame.frame.format) mem
            (u_sample_addr env in_frame j (2 * b))
      ∧ component (frame_to_nv21_10packed env mem in_frame out_frame)
          (out_frame.data 1 + j * out_frame.frame.plane_stride 1 + 5 * b) 2
        = sample_value (pack_mode in_frame.frame.format) mem
            (v_sample_addr env in_frame j (2 * b + 1))
      ∧ component (frame_to_nv21_10packed env mem in_frame out_frame)
          (out_frame.data 1 + j * out_frame.frame.plane_stride 1 + 5 * b) 3
        = sample_value (pack_mode in_frame.frame.format) mem
            (u_sample_addr env in_frame j (2 * b + 1))) := by
  obtain ⟨u_in, v_in, jmp, hR, hu, hv⟩ := frame_to_passes env mem in_frame out_frame hrec hsame
  have hY : ∀ i k c, c < 4 →
      block_sample_addr (in_frame.data 0 + i * in_frame.frame.plane_stride 0)
        (in_frame.data 0 + in_frame.frame.format.data_size / 8
          + i * in_frame.frame.plane_stride 0)
        (2 * (in_frame.frame.format.data_size / 8)) k c
      = y_sample_addr in_frame i (4 * k + c) := fun i k c hc =>
    luma_block_addr _ _ _ _ _ _ hc
  obtain ⟨pl, pc⟩ := packed_passes mem (in_frame.frame.plane_stride 0)
    (in_frame.frame.plane_stride 1) (out_frame.frame.plane_stride 0)
    (out_frame.frame.plane_stride 1) (in_frame.frame.info.resolution.width / 4)
    (in_frame.frame.format.data_size / 8) jmp (pack_mode in_frame.frame.format)
    in_frame.frame.info.resolution.height (in_frame.data 0) u_in v_in (out_frame.data 0)
    (out_frame.data 1) hos0 hos1 hsep
    (fun i k c d hi hk hc hd => by
      rw [hY i k c hc]
      exact (hinY i hi (4 * k + c) (by omega) d hd).1)
    (fun j k c d hj hk hc hd => by
      obtain ⟨a0, a1, a2, a3⟩ := chroma_block_addr v_in u_in (in_frame.frame.plane_stride 1)
        jmp j k
      interval_cases c
      · rw [a0, ← hv j (2 * k)]
        exact hinV j hj (2 * k) (by omega) d hd
      · rw [a1, ← hu j (2 * k)]
        exact hinU j hj (2 * k) (by omega) d hd
      · rw [a2, ← hv j (2 * k + 1)]
        exact hinV j hj (2 * k + 1) (by omega) d hd
      · rw [a3, ← hu j (2 * k + 1)]
        exact hinU j hj (2 * k + 1) (by omega) d hd)
  rw [hR]
  refine ⟨fun i b c hi hb hc => ?_, fun j b hj hb => ?_⟩
  · rw [pl i b c hi hb hc, hY i b c hc]
  · obtain ⟨a0, a1, a2, a3⟩ := chroma_block_addr v_in u_in (in_frame.frame.plane_stride 1)
      jmp j b
    refine ⟨?_, ?_, ?_, ?_⟩
    · rw [pc j b 0 hj hb (by omega), a0, ← hv j (2 * b)]
    · rw [pc j b 1 hj hb (by omega), a1, ← hu j (2 * b)]
    · rw [pc j b 2 hj hb (by omega), a2, ← hv j (2 * b + 1)]
    · rw [pc j b 3 hj hb (by omega), a3, ← hu j (2 * b + 1)]


/-- The layout of the packed output on an example: the 4x4 I420 frame of
8-bit samples whose chroma planes
both have a stride of 2, in the memory whose byte at `a` is `a`, packed into
the output frame at addresses 100 (luma) and 120 (chroma). -/
theorem sample_even_layout :
    (∀ i b c, i < sample_even_frame.frame.info.resolution.height →
      b < sample_even_frame.frame.info.resolution.width / 4 → c < 4 →
      component (frame_to_nv21_10packed sample_env sample_memory sample_even_frame
            sample_packed_out)
          (sample_packed_out.data 0 + i * sample_packed_out.frame.plane_stride 0 + 5 * b) c
        = sample_value (pack_mode sample_even_frame.frame.format) sample_memory
            (y_sample_addr sample_even_frame i (4 * b + c)))
    ∧ (∀ j b, j < sample_even_frame.frame.info.resolution.height / 2 →
      b < sample_even_frame.frame.info.resolution.width / 4 →
      component (frame_to_nv21_10packed sample_env sample_memory sample_even_frame
            sample_packed_out)
          (sample_packed_out.data 1 + j * sample_packed_out.frame.plane_stride 1 + 5 * b) 0
        = sample_value (pack_mode sample_even_frame.frame.format) sample_memory
            (v_sample_addr sample_env sample_even_frame j (2 * b))
      ∧ component (frame_to_nv21_10packed sample_env sample_memory sample_even_frame
            sample_packed_out)
          (sample_packed_out.data 1 + j * sample_packed_out.frame.plane_stride 1 + 5 * b) 1
        = sample_value (pack_mode sample_even_frame.frame.format) sample_memory
            (u_sample_addr sample_env sample_even_frame j (2 * b))
      ∧ component (frame_to_nv21_10packed sample_env sample_memory sample_even_frame
            sample_packed_out)
          (sample_packed_out.data 1 + j * sample_packed_out.frame.plane_stride 1 + 5 * b) 2
        = sample_value (pack_mode sample_even_frame.frame.format) sample_memory
            (v_sample_addr sample_env sample_even_frame j (2 * b + 1))
      ∧ component (frame_to_nv21_10packed sample_env sample_memory sample_even_frame
            sample_packed_out)
          (sample_packed_out.data 1 + j * sample_packed_out.frame.plane_stride 1 + 5 * b) 3
        = sample_value (pack_mode sample_even_frame.frame.format) sample_memory
            (u_sample_addr sample_env sample_even_frame j (2 * b + 1))) :=
  frame_to_nv21_10packed_layout sample_env sample_memory sample_even_frame sample_packed_out
    (Or.inl (by decide)) (fun _ => rfl) (by decide) (by decide) (Or.inl (by decide))
    (fun i hi x hx d hd => sample_even_inputs _ (sample_even_y i x d hi hx hd))
    (fun j hj x hx d hd => sample_even_inputs _ (sample_even_u j x d hj hx hd))
    (fun j hj x hx d hd => sample_even_inputs _ (sample_even_v j x d hj hx hd))

/-! ## Claims on the reader -/

/-- C1: forward playback.  A reader opened by `vraw_reader_new` without
container header, with `loop = 0`, `max_count = 0`, `start_index = 0` and the
tightly packed geometry, on a file of exactly `N` complete frames: each of the
first `N` calls to `vraw_reader_frame_read` returns 0 and call `k` leaves the
bytes of file frame `k` in the caller's buffer; the call after them returns
`-ENOENT`. -/
theorem forward_playback (env : VdefEnv) (file : List Byte) (cfg : vraw_reader_config)
    (e0 e1 : Int) (r : vraw_reader) (N : Nat) (buf : Mem) (data len fuel : Nat)
    (fr : vraw_frame)
    (hy : cfg.y4m = 0) (hl : cfg.loop = 0) (hm : cfg.max_count = 0)
    (hs : cfg.start_index = 0)
    (hnew : vraw_reader_new env (some file) cfg e0 = .done (0, some r, e1))
    (ht : Tight r) (hN : file.length = N * r.file_frame_size)
    (hd : data ≠ 0) (hlen : len ≠ 0)
    (hsz : vraw_reader_get_min_buf_size r ≤ (len : Int)) :
    (∀ k, k < N → ∃ st fr1 st2 fr2,
        read_frames env (fuel + 1) data len k ⟨r, buf, e1⟩ fr = some (st, fr1)
        ∧ vraw_reader_frame_read env (fuel + 1) st data len (some fr1)
            = .done (0, st2, some fr2)
        ∧ ∀ j, j < r.file_frame_size →
            st2.buf (data + j) = file.getD (k * r.file_frame_size + j) 0)
    ∧ (∃ st fr1 st2,
        read_frames env (fuel + 1) data len N ⟨r, buf, e1⟩ fr = some (st, fr1)
        ∧ vraw_reader_frame_read env (fuel + 1) st data len (some fr1)
            = .done (-ENOENT, st2, some fr1)) := by
  obtain ⟨hr, hr0, hdata, hloop⟩ :=
    reader_new_raw_session env file cfg e0 e1 r N hy hm hs hnew ht hN
  have hsz' : r.frame_size ≤ len := by
    simp only [vraw_reader_get_min_buf_size] at hsz
    omega
  constructor
  · intro k hk
    obtain ⟨idx, c, t, buf1, e2, fr1, h⟩ :=
      read_frames_forward env r N hr data len hd hlen hsz' fuel buf e1 fr k (by omega)
    rw [← hr0] at h
    refine ⟨_, _, _, _, h, frame_read_forward env r N hr data len hd hlen hsz' k hk _ _ _ _ _ _ _,
      ?_⟩
    intro j hj
    simp only
    rw [blit_get _ _ _ _ _ _ hj, hdata]
  · obtain ⟨idx, c, t, buf1, e2, fr1, h⟩ :=
      read_frames_forward env r N hr data len hd hlen hsz' fuel buf e1 fr N (by omega)
    rw [← hr0] at h
    exact ⟨_, _, _, h, frame_read_eof_noloop env r N hr (by rw [hloop, hl]) data len hd hlen
      hsz' _ _ _ _ _ _ _ _⟩


/-- Witness for C1: an I420 file of three 2x2 frames (18 bytes). -/
theorem forward_playback_witness :
    (∀ k, k < 3 → ∃ st fr1 st2 fr2,
        read_frames sample_env (0 + 1) 100 6 k
            ⟨sample_reader 0 (count_bytes 18) 3, fun _ => 0, 0⟩ sample_frame = some (st, fr1)
        ∧ vraw_reader_frame_read sample_env (0 + 1) st 100 6 (some fr1)
            = .done (0, st2, some fr2)
        ∧ ∀ j, j < (sample_reader 0 (count_bytes 18) 3).file_frame_size →
            st2.buf (100 + j) = (count_bytes 18).getD
              (k * (sample_reader 0 (count_bytes 18) 3).file_frame_size + j) 0)
    ∧ (∃ st fr1 st2,
        read_frames sample_env (0 + 1) 100 6 3
            ⟨sample_reader 0 (count_bytes 18) 3, fun _ => 0, 0⟩ sample_frame = some (st, fr1)
        ∧ vraw_reader_frame_read sample_env (0 + 1) st 100 6 (some fr1)
            = .done (-ENOENT, st2, some fr1)) :=
  forward_playback sample_env (count_bytes 18) (sample_config 0 0 sample_env.vdef_i420) 0 0
    (sample_reader 0 (count_bytes 18) 3) 3 (fun _ => 0) 100 6 0 sample_frame
    rfl rfl rfl rfl sample_reader_new sample_reader_tight (by decide) (by decide) (by decide)
    (by decide)

/-- C2: loop-forward playback.  A reader opened without container header, with
`loop = 1`, `max_count = 0`, `start_index = 0` and the tightly packed geometry,
on a file of exactly `N >= 1` complete frames: every call to
`vraw_reader_frame_read` returns 0 and call `i` leaves the bytes of file frame
`i mod N` in the caller's buffer. -/
theorem loop_forward_playback (env : VdefEnv) (file : List Byte) (cfg : vraw_reader_config)
    (e0 e1 : Int) (r : vraw_reader) (N : Nat) (buf : Mem) (data len fuel : Nat)
    (fr : vraw_frame)
    (hy : cfg.y4m = 0) (hl : cfg.loop = 1) (hm : cfg.max_count = 0)
    (hs : cfg.start_index = 0)
    (hnew : vraw_reader_new env (some file) cfg e0 = .done (0, some r, e1))
    (ht : Tight r) (hN : file.length = N * r.file_frame_size) (hN1 : 1 ≤ N)
    (hd : data ≠ 0) (hlen : len ≠ 0)
    (hsz : vraw_reader_get_min_buf_size r ≤ (len : Int)) (i : Nat) :
    ∃ st fr1 st2 fr2,
        read_frames env (fuel + 2) data len i ⟨r, buf, e1⟩ fr = some (st, fr1)
        ∧ vraw_reader_frame_read env (fuel + 2) st data len (some fr1)
            = .done (0, st2, some fr2)
        ∧ ∀ j, j < r.file_frame_size →
            st2.buf (data + j) = file.getD (i % N * r.file_frame_size + j) 0 := by
  obtain ⟨hr, hr0, hdata, hloop⟩ :=
    reader_new_raw_session env file cfg e0 e1 r N hy hm hs hnew ht hN
  have hsz' : r.frame_size ≤ len := by
    simp only [vraw_reader_get_min_buf_size] at hsz
    omega
  have hl' : r.cfg.loop > 0 := by rw [hloop, hl]; decide
  obtain ⟨idx, c, t, buf1, e2, fr1, h⟩ :=
    read_frames_loop env r N hr hl' hN1 data len hd hlen hsz' fuel buf e1 fr i
  rw [← hr0] at h
  obtain ⟨hle, hmod⟩ := loop_pos_spec N hN1 i
  by_cases hp : loop_pos N i < N
  · refine ⟨_, _, _, _, h,
      frame_read_forward env r N hr data len hd hlen hsz' _ hp _ _ _ _ _ _ _, ?_⟩
    intro j hj
    simp only
    rw [blit_get _ _ _ _ _ _ hj, hdata, ← hmod, Nat.mod_eq_of_lt hp]
  · have hN' : loop_pos N i = N := by omega
    rw [hN'] at h
    refine ⟨_, _, _, _, h, frame_read_eof_loop env r N hr hl' hN1 data len hd hlen hsz' _ _ _ _ _
      _ _, ?_⟩
    intro j hj
    simp only
    rw [blit_get _ _ _ _ _ _ hj, hdata, ← hmod, hN', Nat.mod_self]
    simp


/-- Witness for C2: an I420 file of three 2x2 frames read in a forward loop; the
fifth call (`i = 4`) delivers file frame `4 mod 3 = 1`. -/
theorem loop_forward_playback_witness :
    ∃ st fr1 st2 fr2,
        read_frames sample_env (0 + 2) 100 6 4
            ⟨sample_reader 1 (count_bytes 18) 3, fun _ => 0, 0⟩ sample_frame = some (st, fr1)
        ∧ vraw_reader_frame_read sample_env (0 + 2) st 100 6 (some fr1)
            = .done (0, st2, some fr2)
        ∧ ∀ j, j < (sample_reader 1 (count_bytes 18) 3).file_frame_size →
            st2.buf (100 + j) = (count_bytes 18).getD
              (4 % 3 * (sample_reader 1 (count_bytes 18) 3).file_frame_size + j) 0 :=
  loop_forward_playback sample_env (count_bytes 18) (sample_config 0 1 sample_env.vdef_i420) 0 0
    (sample_reader 1 (count_bytes 18) 3) 3 (fun _ => 0) 100 6 0 sample_frame
    rfl rfl rfl rfl sample_reader_new_loop sample_reader_tight_loop (by decide) (by decide)
    (by decide) (by decide) (by decide) 4

/-- C3: loop-reverse (ping-pong) playback.  A reader opened without container
header, with `loop = -1`, `max_count = 0`, `start_index = 0` and the tightly
packed geometry, on a file of exactly `N >= 2` complete frames: every call to
`vraw_reader_frame_read` returns 0 and call `i` leaves in the caller's buffer
the bytes of the file frame at position `r` when `r < N` and `2(N-1) - r`
otherwise, `r = i mod 2(N-1)`; for `N = 5` the first ten positions are
0,1,2,3,4,3,2,1,0,1. -/
theorem loop_reverse_playback (env : VdefEnv) (file : List Byte) (cfg : vraw_reader_config)
    (e0 e1 : Int) (r : vraw_reader) (N : Nat) (buf : Mem) (data len fuel : Nat)
    (fr : vraw_frame)
    (hy : cfg.y4m = 0) (hl : cfg.loop = -1) (hm : cfg.max_count = 0)
    (hs : cfg.start_index = 0)
    (hnew : vraw_reader_new env (some file) cfg e0 = .done (0, some r, e1))
    (ht : Tight r) (hN : file.length = N * r.file_frame_size) (hN2 : 2 ≤ N)
    (hd : data ≠ 0) (hlen : len ≠ 0)
    (hsz : vraw_reader_get_min_buf_size r ≤ (len : Int)) :
    (∀ i, ∃ st fr1 st2 fr2,
        read_frames env (fuel + 2) data len i ⟨r, buf, e1⟩ fr = some (st, fr1)
        ∧ vraw_reader_frame_read env (fuel + 2) st data len (some fr1)
            = .done (0, st2, some fr2)
        ∧ ∀ j, j < r.file_frame_size →
            st2.buf (data + j) = file.getD (pingpong_pos N i * r.file_frame_size + j) 0)
    ∧ (List.range 10).map (pingpong_pos 5) = [0, 1, 2, 3, 4, 3, 2, 1, 0, 1] := by
  refine ⟨?_, by decide⟩
  intro i
  obtain ⟨hr, hr0, hdata, hloop⟩ :=
    reader_new_raw_session env file cfg e0 e1 r N hy hm hs hnew ht hN
  have hsz' : r.frame_size ≤ len := by
    simp only [vraw_reader_get_min_buf_size] at hsz
    omega
  have hl' : r.cfg.loop < 0 := by rw [hloop, hl]; decide
  obtain ⟨idx, c, t, buf1, e2, fr1, h⟩ :=
    read_frames_pingpong env r N hr hl' hN2 data len hd hlen hsz' fuel buf e1 fr i
  rw [← hr0] at h
  obtain ⟨hb1, hb2⟩ := pingpong_state_bound N hN2 i
  have hfr := pingpong_frame_eq N hN2 i
  rcases hs : pingpong_state N i with ⟨p, rev⟩
  rw [hs] at hb1 hb2 hfr h
  simp only at hb1 hb2 h
  cases rev with
  | false =>
    have hp := hb1 rfl
    simp only [Bool.false_eq_true, if_false] at h
    simp only [pingpong_frame] at hfr
    by_cases hlt : p < N
    · rw [if_pos hlt] at hfr
      refine ⟨_, _, _, _, h,
        frame_read_forward env r N hr data len hd hlen hsz' _ hlt _ _ _ _ _ _ _, ?_⟩
      intro j hj
      simp only
      rw [blit_get _ _ _ _ _ _ hj, hdata, hfr]
    · have hN' : p = N := by omega
      subst hN'
      rw [if_neg hlt] at hfr
      have hcall := (frame_read_eof_reverse env r p hr hl' hN2 data len hd hlen hsz' fuel idx c t
        buf1 e2 fr1).trans (frame_read_backward env r p hr data len hd hlen hsz' (p - 2)
          (by omega) fuel _ c t buf1 EINVAL fr1)
      refine ⟨_, _, _, _, h, hcall, ?_⟩
      intro j hj
      simp only
      rw [blit_get _ _ _ _ _ _ hj, hdata, hfr]
  | true =>
    have hp := hb2 rfl
    simp only [if_true] at h
    simp only [pingpong_frame] at hfr
    refine ⟨_, _, _, _, h,
      frame_read_backward env r N hr data len hd hlen hsz' p hp _ _ _ _ _ _ _, ?_⟩
    intro j hj
    simp only
    rw [blit_get _ _ _ _ _ _ hj, hdata, hfr]


/-- Witness for C3: an I420 file of five 2x2 frames read in a reverse loop. -/
theorem loop_reverse_playback_witness :
    (∀ i, ∃ st fr1 st2 fr2,
        read_frames sample_env (0 + 2) 100 6 i
            ⟨sample_reader (-1) (count_bytes 30) 5, fun _ => 0, 0⟩ sample_frame = some (st, fr1)
        ∧ vraw_reader_frame_read sample_env (0 + 2) st 100 6 (some fr1)
            = .done (0, st2, some fr2)
        ∧ ∀ j, j < (sample_reader (-1) (count_bytes 30) 5).file_frame_size →
            st2.buf (100 + j) = (count_bytes 30).getD
              (pingpong_pos 5 i * (sample_reader (-1) (count_bytes 30) 5).file_frame_size + j) 0)
    ∧ (List.range 10).map (pingpong_pos 5) = [0, 1, 2, 3, 4, 3, 2, 1, 0, 1] :=
  loop_reverse_playback sample_env (count_bytes 30) (sample_config 0 (-1) sample_env.vdef_i420)
    0 0 (sample_reader (-1) (count_bytes 30) 5) 5 (fun _ => 0) 100 6 0 sample_frame
    rfl rfl rfl rfl sample_reader_new_reverse sample_reader_tight_reverse (by decide) (by decide)
    (by decide) (by decide) (by decide)

/-- C8 (the code departs from the claim): on a raw I420 2x2 file of 10 bytes,
which is not a multiple of the 6-byte frame extent, `vraw_reader_new` returns 0
with `file_frame_count = 1`; the frame count times the frame extent is 6, not
the 10 bytes of the file.  The quotient is an integer division, so the `rint`
test on its `float` value never rejects a file (`rint_float_of_size_t`,
`reader_new_raw_eval`). -/
theorem reader_new_accepts_partial_frame :
    vraw_reader_new sample_env (some (count_bytes 10))
        (sample_config 0 0 sample_env.vdef_i420) 0
      = .done (0, some (sample_reader 0 (count_bytes 10) 1), 0)
    ∧ (sample_reader 0 (count_bytes 10) 1).file_size = 10
    ∧ (sample_reader 0 (count_bytes 10) 1).header_offset = 0
    ∧ (sample_reader 0 (count_bytes 10) 1).file_frame_size = 6
    ∧ (sample_reader 0 (count_bytes 10) 1).frame_header_size = 0
    ∧ vraw_reader_get_file_frame_count (sample_reader 0 (count_bytes 10) 1) = 1
    ∧ (10 - 0) % (6 + 0) ≠ 0 :=
  ⟨reader_new_raw_eval sample_env (count_bytes 10) (sample_config 0 0 sample_env.vdef_i420) 0
      (by decide) (by decide) (by decide) (by decide) (by decide),
    by decide, by decide, by decide, by decide, by decide, by decide⟩

set_option maxRecDepth 100000 in
/-- C9 (the code departs from the claim): on a well-formed container file of two
2x2 I420 frames, opened with `y4m = 1` and `loop = 0`, the first call to
`vraw_reader_frame_read` reads the marker and returns `-errno` at once (0 when
`errno` is 0, -5 when it is 5): the cursor has moved by the 6 bytes of the
marker instead of the frame extent of 12 bytes, and neither the buffer nor the
frame structure is written. -/
theorem y4m_read_stops_after_marker :
    vraw_reader_new sample_env (some sample_y4m_file)
        (sample_config 1 0 sample_env.vdef_i420) 0
      = .done (0, some sample_y4m_reader, 0)
    ∧ sample_y4m_reader.file.pos = 35
    ∧ sample_y4m_reader.file_frame_size + sample_y4m_reader.frame_header_size = 12
    ∧ vraw_reader_get_file_frame_count sample_y4m_reader = 2
    ∧ vraw_reader_frame_read sample_env 1 ⟨sample_y4m_reader, fun _ => 0, 0⟩ 100 6
          (some sample_frame)
        = .done (-0,
            ⟨{ sample_y4m_reader with
                file := { sample_y4m_reader.file with pos := sample_y4m_reader.file.pos + 6 } },
              fun _ => 0, 0⟩,
            some sample_frame)
    ∧ vraw_reader_frame_read sample_env 1 ⟨sample_y4m_reader, fun _ => 0, 5⟩ 100 6
          (some sample_frame)
        = .done (-5,
            ⟨{ sample_y4m_reader with
                file := { sample_y4m_reader.file with pos := sample_y4m_reader.file.pos + 6 } },
              fun _ => 0, 5⟩,
            some sample_frame) :=
  ⟨sample_y4m_reader_new, by decide, by decide, by decide,
    frame_read_y4m_marker sample_env 0 ⟨sample_y4m_reader, fun _ => 0, 0⟩ 100 6 sample_frame
      (bytes_of "abcdefFRAME\nghijkl") (by decide) (by decide) (by decide) (by decide)
      (by decide) (by decide) (by decide),
    frame_read_y4m_marker sample_env 0 ⟨sample_y4m_reader, fun _ => 0, 5⟩ 100 6 sample_frame
      (bytes_of "abcdefFRAME\nghijkl") (by decide) (by decide) (by decide) (by decide)
      (by decide) (by decide) (by decide)⟩

/-! ## Claims on the writer -/

/-- C10: tightly packed output.  For a writer created by `vraw_writer_new`
(whatever has been written since, `out`), a call to `vraw_writer_frame_write`
that returns 0 appends exactly the marker `FRAME\n` (only when `y4m` is set)
followed by the rows of each plane the layout requires, in plane order and
without padding: row `i` of plane `p` is the `L_p` bytes at
`cdata[p] + i * plane_stride[p]`, with `L_0 = width * data_size / 8` over
`height` rows, and `L_0 / 2` bytes over `height / 2` rows for each planar chroma
plane or `L_0` bytes over `height / 2` rows for the semi-planar chroma plane.
The appended length does not depend on the strides. -/
theorem frame_write_tight (env : VdefEnv) (cfg : vraw_writer_config) (e0 e1 : Int)
    (w : vraw_writer) (disk : Option (List Byte))
    (hnew : vraw_writer_new env cfg none e0 = (0, some w, e1, disk))
    (h32 : cfg.info.resolution.width * cfg.format.data_size < 2 ^ 32)
    (out : List Byte) (mem : Mem) (fr : vraw_frame) (e : Int)
    (hret : (vraw_writer_frame_write { w with file := out } mem (some fr) e).1 = 0) :
    (vraw_writer_frame_write { w with file := out } mem (some fr) e).2.1.file
      = out ++ (if cfg.y4m ≠ 0 then bytes_of "FRAME\n" else [])
          ++ frame_image cfg.format.data_layout
              (cfg.info.resolution.width * cfg.format.data_size / 8)
              cfg.info.resolution.height mem fr
    ∧ (vraw_writer_frame_write { w with file := out } mem (some fr) e).2.1.file.length
      = out.length + (if cfg.y4m ≠ 0 then 6 else 0)
          + frame_image_length cfg.format.data_layout
              (cfg.info.resolution.width * cfg.format.data_size / 8)
              cfg.info.resolution.height := by
  obtain ⟨f1, f2, f3, f4⟩ := writer_new_fields env cfg e0 e1 w disk hnew
  rw [Nat.mod_eq_of_lt h32] at f4
  have h := frame_write_file { w with file := out } mem fr e hret
  dsimp only at h
  rw [f1, f2, f3] at h
  conv_rhs at h => rw [f4]
  refine ⟨h, ?_⟩
  rw [h, List.length_append, List.length_append, frame_image_length_eq]
  by_cases hy : cfg.y4m = 0
  · simp [hy]
  · simp only [ne_eq, hy, not_false_eq_true, if_true]
    rfl


/-- Witness for C10: a 2x2 I420 frame with a luma stride of 4 written in
container mode after the header line. -/
theorem frame_write_tight_witness :
    (vraw_writer_frame_write { sample_writer with file := sample_writer.file } sample_memory
        (some sample_out_frame) 0).2.1.file
      = sample_writer.file
          ++ (if (sample_writer_config 1 sample_env.vdef_i420).y4m ≠ 0 then bytes_of "FRAME\n"
              else [])
          ++ frame_image (sample_writer_config 1 sample_env.vdef_i420).format.data_layout
              ((sample_writer_config 1 sample_env.vdef_i420).info.resolution.width
                * (sample_writer_config 1 sample_env.vdef_i420).format.data_size / 8)
              (sample_writer_config 1 sample_env.vdef_i420).info.resolution.height
              sample_memory sample_out_frame
    ∧ (vraw_writer_frame_write { sample_writer with file := sample_writer.file } sample_memory
        (some sample_out_frame) 0).2.1.file.length
      = sample_writer.file.length
          + (if (sample_writer_config 1 sample_env.vdef_i420).y4m ≠ 0 then 6 else 0)
          + frame_image_length (sample_writer_config 1 sample_env.vdef_i420).format.data_layout
              ((sample_writer_config 1 sample_env.vdef_i420).info.resolution.width
                * (sample_writer_config 1 sample_env.vdef_i420).format.data_size / 8)
              (sample_writer_config 1 sample_env.vdef_i420).info.resolution.height :=
  frame_write_tight sample_env (sample_writer_config 1 sample_env.vdef_i420) 0 0 sample_writer
    (some sample_writer.file) (by decide) (by decide) sample_writer.file sample_memory
    sample_out_frame 0 (by decide)

/-! ## Claims on the checks of the writer -/

/-- C11: frame/session mismatch is rejected.  `vraw_writer_frame_write` returns
`-EINVAL`, and writes nothing, whenever the format of the frame is not equal to
the format of the writer, whenever the width of the frame is neither 0 nor the
configured width, and whenever its height is neither 0 nor the configured
height.  A frame of the configured format whose width and height are 0 passes
the check, and the call then does what it does for the same frame carrying the
configured resolution. -/
theorem frame_write_mismatch (w : vraw_writer) (mem : Mem) (fr : vraw_frame) (e : Int) :
    (fr.frame.format ≠ w.cfg.format →
        vraw_writer_frame_write w mem (some fr) e = (-EINVAL, w, e))
    ∧ (fr.frame.info.resolution.width ≠ 0
        ∧ fr.frame.info.resolution.width ≠ w.cfg.info.resolution.width →
        vraw_writer_frame_write w mem (some fr) e = (-EINVAL, w, e))
    ∧ (fr.frame.info.resolution.height ≠ 0
        ∧ fr.frame.info.resolution.height ≠ w.cfg.info.resolution.height →
        vraw_writer_frame_write w mem (some fr) e = (-EINVAL, w, e))
    ∧ (fr.frame.format = w.cfg.format → fr.frame.info.resolution.width = 0 →
        fr.frame.info.resolution.height = 0 →
        writer_check_frame w fr = none
        ∧ vraw_writer_frame_write w mem (some fr) e
            = vraw_writer_frame_write w mem
                (some { fr with frame := { fr.frame with info := { fr.frame.info with
                    resolution := w.cfg.info.resolution } } }) e) := by
  refine ⟨?_, ?_, ?_, ?_⟩
  · intro h
    simp [vraw_writer_frame_write, writer_check_frame, vdef_raw_format_cmp, h]
  · intro h
    simp only [vraw_writer_frame_write, writer_check_frame]
    split_ifs <;> simp_all
  · intro h
    simp only [vraw_writer_frame_write, writer_check_frame]
    split_ifs <;> simp_all
  · intro h hw hh
    have h1 : writer_check_frame w fr = none := by
      simp [writer_check_frame, vdef_raw_format_cmp, h, hw, hh]
    have h2 : writer_check_frame w { fr with frame := { fr.frame with info :=
        { fr.frame.info with resolution := w.cfg.info.resolution } } } = none := by
      simp [writer_check_frame, vdef_raw_format_cmp, h]
    refine ⟨h1, ?_⟩
    simp only [vraw_writer_frame_write, h1, h2, write_planar_info, write_semi_planar_info,
      write_packed_info]

/-- Witness for C11: the I420 2x2 writer of the examples offered an NV12 frame,
a frame 4 pixels wide, a frame 4 pixels high, and an I420 frame of resolution
0x0, which is written like the 2x2 frame (return value 0). -/
theorem frame_write_mismatch_witness :
    vraw_writer_frame_write sample_writer sample_memory
        (some (sample_out_frame_with sample_env.vdef_nv12 ⟨2, 2⟩)) 0
      = (-EINVAL, sample_writer, 0)
    ∧ vraw_writer_frame_write sample_writer sample_memory
        (some (sample_out_frame_with sample_env.vdef_i420 ⟨4, 2⟩)) 0
      = (-EINVAL, sample_writer, 0)
    ∧ vraw_writer_frame_write sample_writer sample_memory
        (some (sample_out_frame_with sample_env.vdef_i420 ⟨2, 4⟩)) 0
      = (-EINVAL, sample_writer, 0)
    ∧ (writer_check_frame sample_writer (sample_out_frame_with sample_env.vdef_i420 ⟨0, 0⟩)
        = none
      ∧ vraw_writer_frame_write sample_writer sample_memory
          (some (sample_out_frame_with sample_env.vdef_i420 ⟨0, 0⟩)) 0
        = vraw_writer_frame_write sample_writer sample_memory
            (some { sample_out_frame_with sample_env.vdef_i420 ⟨0, 0⟩ with
              frame := { (sample_out_frame_with sample_env.vdef_i420 ⟨0, 0⟩).frame with
                info := { (sample_out_frame_with sample_env.vdef_i420 ⟨0, 0⟩).frame.info with
                  resolution := sample_writer.cfg.info.resolution } } }) 0)
    ∧ (vraw_writer_frame_write sample_writer sample_memory
        (some (sample_out_frame_with sample_env.vdef_i420 ⟨0, 0⟩)) 0).1 = 0 :=
  ⟨(frame_write_mismatch sample_writer sample_memory
      (sample_out_frame_with sample_env.vdef_nv12 ⟨2, 2⟩) 0).1 (by decide),
    (frame_write_mismatch sample_writer sample_memory
      (sample_out_frame_with sample_env.vdef_i420 ⟨4, 2⟩) 0).2.1 (by decide),
    (frame_write_mismatch sample_writer sample_memory
      (sample_out_frame_with sample_env.vdef_i420 ⟨2, 4⟩) 0).2.2.1 (by decide),
    (frame_write_mismatch sample_writer sample_memory
      (sample_out_frame_with sample_env.vdef_i420 ⟨0, 0⟩) 0).2.2.2 (by decide) rfl rfl,
    by decide⟩

/-- C12: mandatory planes.  For a frame that passes the format and resolution
checks, `vraw_writer_frame_write` returns `-EINVAL` whenever a plane the
configured layout requires (planes 0, 1, 2 for planar, 0 and 1 for
semi-planar, 0 for packed) has a `NULL` data pointer or a zero stride. -/
theorem frame_write_missing_plane (w : vraw_writer) (mem : Mem) (fr : vraw_frame) (e : Int)
    (hc : writer_check_frame w fr = none)
    (h : (w.cfg.format.data_layout = .PLANAR
            ∧ ∃ p, p < 3 ∧ (fr.data p = 0 ∨ fr.frame.plane_stride p = 0))
        ∨ (w.cfg.format.data_layout = .SEMI_PLANAR
            ∧ ∃ p, p < 2 ∧ (fr.data p = 0 ∨ fr.frame.plane_stride p = 0))
        ∨ (w.cfg.format.data_layout = .PACKED
            ∧ (fr.data 0 = 0 ∨ fr.frame.plane_stride 0 = 0))) :
    (vraw_writer_frame_write w mem (some fr) e).1 = -EINVAL := by
  simp only [vraw_writer_frame_write, hc]
  rcases h with ⟨hl, p, hp, h⟩ | ⟨hl, p, hp, h⟩ | ⟨hl, h⟩
  · have hl2 : (if w.cfg.y4m ≠ 0 then { w with file := w.file ++ bytes_of "FRAME\n" }
        else w).cfg.format.data_layout = .PLANAR := by split_ifs <;> exact hl
    rw [hl2]
    simp only [write_planar]
    have : p = 0 ∨ p = 1 ∨ p = 2 := by omega
    rcases this with rfl | rfl | rfl <;> rcases h with h | h <;> split_ifs <;> rfl
  · have hl2 : (if w.cfg.y4m ≠ 0 then { w with file := w.file ++ bytes_of "FRAME\n" }
        else w).cfg.format.data_layout = .SEMI_PLANAR := by split_ifs <;> exact hl
    rw [hl2]
    simp only [write_semi_planar]
    have : p = 0 ∨ p = 1 := by omega
    rcases this with rfl | rfl <;> rcases h with h | h <;> split_ifs <;> rfl
  · have hl2 : (if w.cfg.y4m ≠ 0 then { w with file := w.file ++ bytes_of "FRAME\n" }
        else w).cfg.format.data_layout = .PACKED := by split_ifs <;> exact hl
    rw [hl2]
    simp only [write_packed]
    rcases h with h | h <;> split_ifs <;> rfl

/-- Witness for C12: the I420 writer of the examples offered a frame whose
plane 1 has a `NULL` pointer. -/
theorem frame_write_missing_plane_witness :
    (vraw_writer_frame_write sample_writer sample_memory (some sample_out_frame_luma) 0).1
      = -EINVAL :=
  frame_write_missing_plane sample_writer sample_memory sample_out_frame_luma 0 (by decide)
    (Or.inl ⟨rfl, 1, by decide, Or.inl rfl⟩)

/-! ## Claims on the counters, the frame limit and the checks of the reader -/

/-- C13: presentation timestamps.  For a reader opened by `vraw_reader_new`,
whatever its loop mode, frame limit and start index, with or without container
header, and for any sequence of calls to `vraw_reader_frame_read` (the frame
rate is not changed in between): the `k`-th frame produced (`k = 0, 1, 2, ...`)
carries `timescale = 1000000` and `timestamp = k * (1000000 * den / num)`
modulo `2^64`, which is `k * (1000000 * den / num)` as long as that product
fits in the `uint64_t` field.  A call that produces a frame returns 0; without
container header the calls that return 0 are exactly those that produce a
frame. -/
theorem frame_timestamps (env : VdefEnv) (file : List Byte) (cfg : vraw_reader_config)
    (e0 e1 : Int) (r : vraw_reader) (fuel : Nat) (calls : List (Nat × Nat)) (buf : Mem)
    (fr : vraw_frame) (t : List (Int × Option vdef_frame_info)) (k : Nat)
    (info : vdef_frame_info)
    (hnew : vraw_reader_new env (some file) cfg e0 = .done (0, some r, e1))
    (h : call_trace env fuel calls ⟨r, buf, e1⟩ fr = some t)
    (hk : (produced t)[k]? = some info) :
    info.timescale = 1000000
    ∧ info.timestamp
        = k * (1000000 * r.cfg.info.framerate.den / r.cfg.info.framerate.num) % 2 ^ 64
    ∧ (k * (1000000 * r.cfg.info.framerate.den / r.cfg.info.framerate.num) < 2 ^ 64 →
        info.timestamp
          = k * (1000000 * r.cfg.info.framerate.den / r.cfg.info.framerate.num))
    ∧ (∀ x, x ∈ t → (x.2.isSome = true → x.1 = 0)
        ∧ (cfg.y4m = 0 → x.1 = 0 → x.2.isSome = true)) := by
  obtain ⟨hc, ht, hy'⟩ := reader_new_counters env file cfg e0 e1 r hnew
  obtain ⟨hA, hB⟩ := call_trace_stamps env fuel calls ⟨r, buf, e1⟩ fr t
    (by simp only; rw [hc]; decide) (by simp only; rw [ht]; decide) h
  obtain ⟨-, i2, i3⟩ := hB k info hk
  simp only [ht, Nat.zero_add] at i2
  simp only [hy'] at hA
  refine ⟨i3, i2, ?_, hA⟩
  intro hlt
  rw [i2, Nat.mod_eq_of_lt hlt]

/-- Witness for C13: the sixth frame produced by a reverse-looping reader on a
file of five frames, one call in between having failed. -/
theorem frame_timestamps_witness :
    (sample_info 5).timescale = 1000000
    ∧ (sample_info 5).timestamp
        = 5 * (1000000 * (sample_reader (-1) (count_bytes 30) 5).cfg.info.framerate.den
            / (sample_reader (-1) (count_bytes 30) 5).cfg.info.framerate.num) % 2 ^ 64
    ∧ (5 * (1000000 * (sample_reader (-1) (count_bytes 30) 5).cfg.info.framerate.den
            / (sample_reader (-1) (count_bytes 30) 5).cfg.info.framerate.num) < 2 ^ 64 →
        (sample_info 5).timestamp
          = 5 * (1000000 * (sample_reader (-1) (count_bytes 30) 5).cfg.info.framerate.den
              / (sample_reader (-1) (count_bytes 30) 5).cfg.info.framerate.num))
    ∧ (∀ x, x ∈ sample_trace → (x.2.isSome = true → x.1 = 0)
        ∧ ((sample_config 0 (-1) sample_env.vdef_i420).y4m = 0 → x.1 = 0 →
            x.2.isSome = true)) :=
  frame_timestamps sample_env (count_bytes 30) (sample_config 0 (-1) sample_env.vdef_i420) 0 0
    (sample_reader (-1) (count_bytes 30) 5) 2 sample_calls (fun _ => 0) sample_frame
    sample_trace 5 (sample_info 5) sample_reader_new_reverse sample_call_trace (by decide)

/-- C14: the frame index is the output counter.  For a reader opened by
`vraw_reader_new`, whatever its loop mode, frame limit and start index, with or
without container header, and for any sequence of calls to
`vraw_reader_frame_read`: the `k`-th frame produced (`k = 0, 1, 2, ...`)
carries `index = k` modulo `2^32`, which is `k` below the range of the
`unsigned int` counter.  The calls that produce no frame are part of the
sequence and take no index: wrap-arounds and reversals repeat file positions,
never indices.  A call that produces a frame returns 0; without container
header the calls that return 0 are exactly those that produce a frame, so a
failed call consumes no index. -/
theorem frame_index_is_output_counter (env : VdefEnv) (file : List Byte)
    (cfg : vraw_reader_config) (e0 e1 : Int) (r : vraw_reader) (fuel : Nat)
    (calls : List (Nat × Nat)) (buf : Mem) (fr : vraw_frame)
    (t : List (Int × Option vdef_frame_info)) (k : Nat) (info : vdef_frame_info)
    (hnew : vraw_reader_new env (some file) cfg e0 = .done (0, some r, e1))
    (h : call_trace env fuel calls ⟨r, buf, e1⟩ fr = some t)
    (hk : (produced t)[k]? = some info) :
    info.index = k % 2 ^ 32 ∧ (k < 2 ^ 32 → info.index = k)
    ∧ (∀ x, x ∈ t → (x.2.isSome = true → x.1 = 0)
        ∧ (cfg.y4m = 0 → x.1 = 0 → x.2.isSome = true)) := by
  obtain ⟨hc, ht, hy'⟩ := reader_new_counters env file cfg e0 e1 r hnew
  obtain ⟨hA, hB⟩ := call_trace_stamps env fuel calls ⟨r, buf, e1⟩ fr t
    (by simp only; rw [hc]; decide) (by simp only; rw [ht]; decide) h
  obtain ⟨i1, -, -⟩ := hB k info hk
  simp only [hc, Nat.zero_add] at i1
  simp only [hy'] at hA
  refine ⟨i1, ?_, hA⟩
  intro hlt
  rw [i1, Nat.mod_eq_of_lt hlt]

/-- Witness for C14: the seventh frame produced by a reverse-looping reader on
a file of five frames, the fourth of the eight calls having failed. -/
theorem frame_index_is_output_counter_witness :
    (sample_info 6).index = 6 % 2 ^ 32 ∧ (6 < 2 ^ 32 → (sample_info 6).index = 6)
    ∧ (∀ x, x ∈ sample_trace → (x.2.isSome = true → x.1 = 0)
        ∧ ((sample_config 0 (-1) sample_env.vdef_i420).y4m = 0 → x.1 = 0 →
            x.2.isSome = true)) :=
  frame_index_is_output_counter sample_env (count_bytes 30)
    (sample_config 0 (-1) sample_env.vdef_i420) 0 0
    (sample_reader (-1) (count_bytes 30) 5) 2 sample_calls (fun _ => 0) sample_frame
    sample_trace 6 (sample_info 6) sample_reader_new_reverse sample_call_trace (by decide)


/-- C15: maximum frame count.  A reader opened by `vraw_reader_new` without
container header, with `loop = 0`, `start_index = 0`, `max_count = M >= 1` and
the tightly packed geometry, on a file of exactly `N >= M` complete frames
(`M + 1 < 2^32`, the index being an `unsigned int`): each of the first `M`
calls to `vraw_reader_frame_read` returns 0 and call `k` leaves the bytes of
file frame `k` in the caller's buffer; the call after them returns `-ENOENT`. -/
theorem max_count_forward (env : VdefEnv) (file : List Byte) (cfg : vraw_reader_config)
    (e0 e1 : Int) (r : vraw_reader) (N M : Nat) (buf : Mem) (data len fuel : Nat)
    (fr : vraw_frame)
    (hy : cfg.y4m = 0) (hl : cfg.loop = 0) (hm : cfg.max_count = M)
    (hs : cfg.start_index = 0)
    (hnew : vraw_reader_new env (some file) cfg e0 = .done (0, some r, e1))
    (ht : Tight r) (hN : file.length = N * r.file_frame_size)
    (hM : 1 ≤ M) (hMN : M ≤ N) (hM32 : M + 1 < 2 ^ 32)
    (hd : data ≠ 0) (hlen : len ≠ 0)
    (hsz : vraw_reader_get_min_buf_size r ≤ (len : Int)) :
    (∀ k, k < M → ∃ st fr1 st2 fr2,
        read_frames env (fuel + 1) data len k ⟨r, buf, e1⟩ fr = some (st, fr1)
        ∧ vraw_reader_frame_read env (fuel + 1) st data len (some fr1)
            = .done (0, st2, some fr2)
        ∧ ∀ j, j < r.file_frame_size →
            st2.buf (data + j) = file.getD (k * r.file_frame_size + j) 0)
    ∧ (∃ st fr1 st2,
        read_frames env (fuel + 1) data len M ⟨r, buf, e1⟩ fr = some (st, fr1)
        ∧ vraw_reader_frame_read env (fuel + 1) st data len (some fr1)
            = .done (-ENOENT, st2, some fr1)) := by
  obtain ⟨hr, hr0, hdata, hloop, hmax⟩ :=
    reader_new_file_session env file cfg e0 e1 r N hy hs hnew ht hN
  have hsz' : r.frame_size ≤ len := by
    simp only [vraw_reader_get_min_buf_size] at hsz
    omega
  have hmax' : r.cfg.max_count = M := by rw [hmax, hm]
  constructor
  · intro k hk
    obtain ⟨c, t, buf1, e2, fr1, h⟩ :=
      read_frames_forward_max env r N hr data len hd hlen hsz' fuel buf e1 fr k (by omega)
        (by omega) (by omega)
    rw [← hr0] at h
    refine ⟨_, _, _, _, h, frame_read_forward_max env r N hr data len hd hlen hsz' k (by omega)
      _ _ _ _ _ _ _ (by rw [Nat.mod_eq_of_lt (by omega)]; omega), ?_⟩
    intro j hj
    simp only
    rw [blit_get _ _ _ _ _ _ hj, hdata]
  · obtain ⟨c, t, buf1, e2, fr1, h⟩ :=
      read_frames_forward_max env r N hr data len hd hlen hsz' fuel buf e1 fr M (by omega)
        (by omega) (by omega)
    rw [← hr0] at h
    by_cases hlt : M < N
    · exact ⟨_, _, _, h, frame_read_max_noloop env r N hr (by rw [hloop, hl]) data len hd hlen
        hsz' M hlt _ _ _ _ _ _ _ _ (by rw [Nat.mod_eq_of_lt (by omega)]; omega)⟩
    · have hMN' : M = N := by omega
      have hat : at_frame r M 0 M c t = at_frame r N 0 M c t := by rw [hMN']
      rw [hat] at h
      exact ⟨_, _, _, h, frame_read_eof_noloop_max env r N hr (by rw [hloop, hl]) data len hd
        hlen hsz' _ _ _ _ _ _ _ _⟩

/-- Witness for C15: an I420 file of four 2x2 frames (24 bytes) read with `max_count = 2`. -/
theorem max_count_forward_witness :
    (∀ k, k < 2 → ∃ st fr1 st2 fr2,
        read_frames sample_env (0 + 1) 100 6 k
            ⟨sample_reader_of (sample_config_max 0 2) (count_bytes 24) 4, fun _ => 0, 0⟩
            sample_frame = some (st, fr1)
        ∧ vraw_reader_frame_read sample_env (0 + 1) st 100 6 (some fr1)
            = .done (0, st2, some fr2)
        ∧ ∀ j, j < (sample_reader_of (sample_config_max 0 2) (count_bytes 24) 4).file_frame_size →
            st2.buf (100 + j) = (count_bytes 24).getD
              (k * (sample_reader_of (sample_config_max 0 2) (count_bytes 24) 4).file_frame_size
                + j) 0)
    ∧ (∃ st fr1 st2,
        read_frames sample_env (0 + 1) 100 6 2
            ⟨sample_reader_of (sample_config_max 0 2) (count_bytes 24) 4, fun _ => 0, 0⟩
            sample_frame = some (st, fr1)
        ∧ vraw_reader_frame_read sample_env (0 + 1) st 100 6 (some fr1)
            = .done (-ENOENT, st2, some fr1)) :=
  max_count_forward sample_env (count_bytes 24) (sample_config_max 0 2) 0 0
    (sample_reader_of (sample_config_max 0 2) (count_bytes 24) 4) 4 2 (fun _ => 0) 100 6 0
    sample_frame rfl rfl rfl rfl sample_max_new sample_max_tight (by decide) (by decide)
    (by decide) (by decide) (by decide) (by decide) (by decide)

set_option maxRecDepth 100000 in
/-- C16 (the code departs from the claim for `loop = -1`): raw I420 2x2 file of
four frames (24 bytes) read with `max_count = 2`, against its first two frames
(12 bytes) read with `max_count = 0`.  With `loop = 1` the six first calls
deliver the file frames 0, 1, 0, 1, 0, 1 on both.  With `loop = -1` the
truncated file gives 0, 1, 0, 1, 0, 1, but the reader with `max_count = 2`
gives 0, 1, 1, 0, 1, 1: the call that reaches the limit has consumed one more
frame, so the seek back by two frames lands on the frame just delivered. -/
theorem max_count_reverse_repeats_frame :
    vraw_reader_new sample_env (some (count_bytes 24)) (sample_config_max (-1) 2) 0
      = .done (0, some (sample_reader_of (sample_config_max (-1) 2) (count_bytes 24) 4), 0)
    ∧ vraw_reader_new sample_env (some ((count_bytes 24).take 12)) (sample_config_max (-1) 0) 0
      = .done (0, some (sample_reader_of (sample_config_max (-1) 0)
          ((count_bytes 24).take 12) 2), 0)
    ∧ (List.range 6).map (fun n => delivered sample_env 2 100 6 6 (n + 1)
          ⟨sample_reader_of (sample_config_max (-1) 2) (count_bytes 24) 4, fun _ => 0, 0⟩
          sample_frame)
        = [0, 1, 1, 0, 1, 1].map (fun k => some (file_frame (count_bytes 24) 6 k))
    ∧ (List.range 6).map (fun n => delivered sample_env 2 100 6 6 (n + 1)
          ⟨sample_reader_of (sample_config_max (-1) 0) ((count_bytes 24).take 12) 2,
            fun _ => 0, 0⟩ sample_frame)
        = [0, 1, 0, 1, 0, 1].map (fun k => some (file_frame (count_bytes 24) 6 k))
    ∧ (List.range 6).map (fun n => delivered sample_env 2 100 6 6 (n + 1)
          ⟨sample_reader_of (sample_config_max 1 2) (count_bytes 24) 4, fun _ => 0, 0⟩
          sample_frame)
        = [0, 1, 0, 1, 0, 1].map (fun k => some (file_frame (count_bytes 24) 6 k))
    ∧ (List.range 6).map (fun n => delivered sample_env 2 100 6 6 (n + 1)
          ⟨sample_reader_of (sample_config_max 1 0) ((count_bytes 24).take 12) 2,
            fun _ => 0, 0⟩ sample_frame)
        = [0, 1, 0, 1, 0, 1].map (fun k => some (file_frame (count_bytes 24) 6 k)) :=
  ⟨reader_new_raw_eval sample_env (count_bytes 24) (sample_config_max (-1) 2) 0
      (by decide) (by decide) (by decide) (by decide) (by decide),
    reader_new_raw_eval sample_env ((count_bytes 24).take 12) (sample_config_max (-1) 0) 0
      (by decide) (by decide) (by decide) (by decide) (by decide),
    by decide, by decide, by decide, by decide⟩

/-- C17: reader construction validation.  Without container header,
`vraw_reader_new` returns `-EINVAL` whenever the configured width is 0, the
configured height is 0, or the configured format is none of the 32 entries of
the registry of supported formats; this holds whatever the file is, present or
not, and `errno` is left as it was: no file has been opened. -/
theorem reader_new_rejects (env : VdefEnv) (file : Option (List Byte))
    (cfg : vraw_reader_config) (e : Int) (hy : cfg.y4m = 0)
    (h : cfg.info.resolution.width = 0 ∨ cfg.info.resolution.height = 0
        ∨ cfg.format ∉ supported_formats env) :
    vraw_reader_new env file cfg e = .done (-EINVAL, none, e)
    ∧ (supported_formats env).length = 32 := by
  refine ⟨?_, rfl⟩
  have hc : reader_new_check env cfg = some (-EINVAL) := by
    simp only [reader_new_check, hy, true_and]
    rcases h with h | h | h
    · simp [h]
    · simp [h]
    · have : vdef_raw_format_intersect cfg.format (supported_formats env) = false := by
        simp only [vdef_raw_format_intersect, vdef_raw_format_cmp]
        rw [Bool.eq_false_iff]
        intro hany
        rw [List.any_eq_true] at hany
        obtain ⟨b, hb, heq⟩ := hany
        exact h (by rw [of_decide_eq_true heq]; exact hb)
      simp [this]
  simp only [vraw_reader_new, hc]

/-- Witness for C17: a planar 8-bit format whose pixel codes are not in the
registry, on a well-formed file. -/
theorem reader_new_rejects_witness :
    vraw_reader_new sample_env (some (count_bytes 18))
        (sample_config 0 0 (sample_format 99 .PLANAR 8 true)) 0
      = .done (-EINVAL, none, 0)
    ∧ (supported_formats sample_env).length = 32 :=
  reader_new_rejects sample_env (some (count_bytes 18))
    (sample_config 0 0 (sample_format 99 .PLANAR 8 true)) 0 rfl
    (Or.inr (Or.inr (by decide)))

/-- C18: start-reversed requires reverse looping.  `vraw_reader_new` returns
`-EINVAL` (before any file is opened) whenever `start_reversed` is set and
`loop` is not -1; with `loop = -1` the return value of `vraw_reader_new` is the
same with `start_reversed` set as with `start_reversed` clear, on every file. -/
theorem start_reversed_requires_reverse_loop (env : VdefEnv) (file : Option (List Byte))
    (cfg : vraw_reader_config) (e : Int) :
    (cfg.start_reversed = true → cfg.loop ≠ -1 →
        vraw_reader_new env file cfg e = .done (-EINVAL, none, e))
    ∧ (cfg.loop = -1 →
        (vraw_reader_new env file (with_start_reversed true cfg) e).ret
          = (vraw_reader_new env file (with_start_reversed false cfg) e).ret) := by
  refine ⟨?_, ?_⟩
  · intro h1 h2
    have hc : reader_new_check env cfg = some (-EINVAL) := by
      simp [reader_new_check, h1, h2]
    simp only [vraw_reader_new, hc]
  · intro hl
    rw [vraw_reader_new_rev env file cfg e true hl, vraw_reader_new_rev env file cfg e false hl]

/-- Witness for C18: the example configuration with `start_reversed` set, once
with `loop = 1` (rejected) and once with `loop = -1` on a file of five frames
(same return value as with the flag clear). -/
theorem start_reversed_requires_reverse_loop_witness :
    vraw_reader_new sample_env (some (count_bytes 30))
        (with_start_reversed true (sample_config 0 1 sample_env.vdef_i420)) 0
      = .done (-EINVAL, none, 0)
    ∧ (vraw_reader_new sample_env (some (count_bytes 30))
          (with_start_reversed true (sample_config 0 (-1) sample_env.vdef_i420)) 0).ret
        = (vraw_reader_new sample_env (some (count_bytes 30))
          (with_start_reversed false (sample_config 0 (-1) sample_env.vdef_i420)) 0).ret
    ∧ (vraw_reader_new sample_env (some (count_bytes 30))
          (with_start_reversed false (sample_config 0 (-1) sample_env.vdef_i420)) 0).ret
        = some 0 :=
  ⟨(start_reversed_requires_reverse_loop sample_env (some (count_bytes 30))
      (with_start_reversed true (sample_config 0 1 sample_env.vdef_i420)) 0).1 rfl (by decide),
    (start_reversed_requires_reverse_loop sample_env (some (count_bytes 30))
      (sample_config 0 (-1) sample_env.vdef_i420) 0).2 rfl,
    congrArg Run.ret sample_reader_new_reverse⟩

/-- C19: buffer too small.  With a non-null buffer, `vraw_reader_frame_read`
returns `-ENOBUFS` whenever `len` is 0 or smaller than
`vraw_reader_get_min_buf_size`, and the reader, the caller's memory, `errno`
and the frame structure are what they were: nothing is read, and the cursor,
the file-position index, the output counter, the timestamp and the direction
flag are unchanged.  With `len = 0` the result is `-ENOBUFS` also when the
frame pointer is `NULL`. -/
theorem frame_read_small_buffer (env : VdefEnv) (fuel : Nat) (st : State) (data len : Nat)
    (fr : vraw_frame) (hd : data ≠ 0) :
    (len = 0 ∨ (len : Int) < vraw_reader_get_min_buf_size st.self →
        vraw_reader_frame_read env (fuel + 1) st data len (some fr)
          = .done (-ENOBUFS, st, some fr))
    ∧ vraw_reader_frame_read env (fuel + 1) st data 0 none = .done (-ENOBUFS, st, none) := by
  refine ⟨?_, ?_⟩
  · intro h
    rw [vraw_reader_frame_read]
    simp only [if_neg hd]
    by_cases h0 : len = 0
    · simp [h0]
    · have h1 : len < st.self.frame_size := by
        rcases h with h | h
        · exact absurd h h0
        · simp only [vraw_reader_get_min_buf_size] at h
          exact_mod_cast h
      simp [h0, h1]
  · rw [vraw_reader_frame_read]
    simp [hd]

/-- Witness for C19: the example reader (frames of 6 bytes) called with a
buffer of 5 bytes, and with `len = 0` and no frame structure. -/
theorem frame_read_small_buffer_witness :
    vraw_reader_frame_read sample_env (0 + 1)
        ⟨sample_reader 0 (count_bytes 18) 3, fun _ => 0, 0⟩ 100 5 (some sample_frame)
      = .done (-ENOBUFS, ⟨sample_reader 0 (count_bytes 18) 3, fun _ => 0, 0⟩, some sample_frame)
    ∧ vraw_reader_frame_read sample_env (0 + 1)
        ⟨sample_reader 0 (count_bytes 18) 3, fun _ => 0, 0⟩ 100 0 none
      = .done (-ENOBUFS, ⟨sample_reader 0 (count_bytes 18) 3, fun _ => 0, 0⟩, none) :=
  ⟨(frame_read_small_buffer sample_env 0 ⟨sample_reader 0 (count_bytes 18) 3, fun _ => 0, 0⟩
      100 5 sample_frame (by decide)).1 (Or.inr (by decide)),
    (frame_read_small_buffer sample_env 0 ⟨sample_reader 0 (count_bytes 18) 3, fun _ => 0, 0⟩
      100 5 sample_frame (by decide)).2⟩

/-- C20: minimum buffer size without alignment.  For a reader opened by
`vraw_reader_new` with all alignment constraints zero, over a libvideo-defs in
which a zero alignment leaves a plane unconstrained,
`vraw_reader_get_min_buf_size` returns the sum over the planes of the format
of the unaligned plane sizes for the resolution of the reader, which is the
on-disk frame size `file_frame_size` used to count the frames of the file. -/
theorem min_buf_size_unaligned (env : VdefEnv) (file : List Byte) (cfg : vraw_reader_config)
    (e0 e1 : Int) (r : vraw_reader)
    (hlib : ZeroAlignUnconstrained env)
    (hz : ∀ p, cfg.plane_stride_align p = 0 ∧ cfg.plane_scanline_align p = 0
      ∧ cfg.plane_size_align p = 0)
    (hnew : vraw_reader_new env (some file) cfg e0 = .done (0, some r, e1)) :
    vraw_reader_get_min_buf_size r
      = ((sum_planes (env.vdef_calc_raw_frame_size r.cfg.format r.cfg.info.resolution
          (fun _ => 0) none none (fun _ => 0) none).2
          (env.vdef_get_raw_frame_plane_count r.cfg.format) : Nat) : Int)
    ∧ vraw_reader_get_min_buf_size r = (r.file_frame_size : Int) := by
  obtain ⟨s, k, eh, hs, h⟩ := reader_new_inv env file cfg e0 e1 r hnew
  obtain ⟨f1, f2, f3, -, -⟩ := reader_new_start_fields _ _ _ _ h
  have hs' : (∀ p, s.cfg.plane_stride_align p = 0 ∧ s.cfg.plane_scanline_align p = 0
      ∧ s.cfg.plane_size_align p = 0) ∧ s.plane_stride = (fun _ => 0)
      ∧ s.plane_size = (fun _ => 0) := by
    rcases hs with ⟨-, rfl⟩ | ⟨-, rfl⟩
    · exact ⟨hz, rfl, rfl⟩
    · obtain ⟨-, k2, k3, k4, k5, k6, -, -⟩ :=
        y4m_header_read_keeps env (reader_new_open file cfg) e0
      rw [k2, k3, k4, k5, k6]
      exact ⟨hz, rfl, rfl⟩
  obtain ⟨g1, g2, g3, g4⟩ := reader_new_geometry_unaligned env s k hs'.1 hs'.2.1 hs'.2.2 hlib
  simp only [vraw_reader_get_min_buf_size]
  rw [f2, f3, f1, g1, g2, g3, g4]
  exact ⟨rfl, rfl⟩

/-- Witness for C20: the raw I420 reader of the examples, 2x2 pixels, whose
frames take 6 bytes in memory and on disk. -/
theorem min_buf_size_unaligned_witness :
    vraw_reader_get_min_buf_size (sample_reader 0 (count_bytes 18) 3)
      = ((sum_planes (sample_env.vdef_calc_raw_frame_size
          (sample_reader 0 (count_bytes 18) 3).cfg.format
          (sample_reader 0 (count_bytes 18) 3).cfg.info.resolution
          (fun _ => 0) none none (fun _ => 0) none).2
          (sample_env.vdef_get_raw_frame_plane_count
            (sample_reader 0 (count_bytes 18) 3).cfg.format) : Nat) : Int)
    ∧ vraw_reader_get_min_buf_size (sample_reader 0 (count_bytes 18) 3)
      = ((sample_reader 0 (count_bytes 18) 3).file_frame_size : Int) :=
  min_buf_size_unaligned sample_env (count_bytes 18) (sample_config 0 0 sample_env.vdef_i420)
    0 0 (sample_reader 0 (count_bytes 18) 3) sample_env_zero_align
    (fun _ => ⟨rfl, rfl, rfl⟩) sample_reader_new

/-! ## Claims on the container header, the start index, the writer checks and the retries -/

/-- C21: header numeric round trip.  For every writer whose format
`y4m_header_write` accepts (`vdef_i420` or `vdef_i420_10_16le`) and whose
output file is empty, as it is when `vraw_writer_new` writes the header:
`y4m_header_write` returns 0, and on any file that starts with the line it
wrote, `y4m_header_read` returns 0, recovers the width, the height, the frame
rate numerator and denominator and the sample aspect ratio width and height of
the writer (each read as the `unsigned int` it is, that is modulo `2^32`), and
sets `header_offset` to the length of the line.  When the six fields are below
`2^32` the reader holds the very `info` of the writer. -/
theorem y4m_header_round_trip (env : VdefEnv) (w : vraw_writer) (s : vraw_reader)
    (rest : List Byte) (e : Int)
    (hfmt : w.cfg.format = env.vdef_i420 ∨ w.cfg.format = env.vdef_i420_10_16le)
    (hw : w.file = [])
    (hs : s.file = ⟨(y4m_header_write env w).2.file ++ rest, 0, false⟩) :
    (y4m_header_write env w).1 = 0
    ∧ (y4m_header_read env s e).1 = 0
    ∧ (y4m_header_read env s e).2.1.cfg.info.resolution.width
        = w.cfg.info.resolution.width % 2 ^ 32
    ∧ (y4m_header_read env s e).2.1.cfg.info.resolution.height
        = w.cfg.info.resolution.height % 2 ^ 32
    ∧ (y4m_header_read env s e).2.1.cfg.info.framerate.num
        = w.cfg.info.framerate.num % 2 ^ 32
    ∧ (y4m_header_read env s e).2.1.cfg.info.framerate.den
        = w.cfg.info.framerate.den % 2 ^ 32
    ∧ (y4m_header_read env s e).2.1.cfg.info.sar.width = w.cfg.info.sar.width % 2 ^ 32
    ∧ (y4m_header_read env s e).2.1.cfg.info.sar.height = w.cfg.info.sar.height % 2 ^ 32
    ∧ (y4m_header_read env s e).2.1.header_offset = (y4m_header_write env w).2.file.length
    ∧ (w.cfg.info.resolution.width < 2 ^ 32 → w.cfg.info.resolution.height < 2 ^ 32 →
        w.cfg.info.framerate.num < 2 ^ 32 → w.cfg.info.framerate.den < 2 ^ 32 →
        w.cfg.info.sar.width < 2 ^ 32 → w.cfg.info.sar.height < 2 ^ 32 →
        (y4m_header_read env s e).2.1.cfg.info = w.cfg.info) := by
  have htag : ∃ tag : List Byte, (tag = bytes_of "C420" ∨ tag = bytes_of "C420p10")
      ∧ y4m_header_write env w
        = (0, { w with file := y4m_header_fields w.cfg.info ++ (32 :: tag ++ [10]) }) := by
    by_cases h1 : w.cfg.format = env.vdef_i420
    · refine ⟨bytes_of "C420", Or.inl rfl, ?_⟩
      rw [y4m_header_write_i420 env w h1, hw]
      rfl
    · have h2 : w.cfg.format = env.vdef_i420_10_16le := by
        rcases hfmt with h | h
        · exact absurd h h1
        · exact h
      refine ⟨bytes_of "C420p10", Or.inr rfl, ?_⟩
      rw [y4m_header_write_i420_10 env w h2 (by rw [← h2]; exact h1), hw]
      rfl
  obtain ⟨tag, htg, hwr⟩ := htag
  have hlastv : tag ≠ [] ∧ ∀ c ∈ tag, is_tok_byte c := by
    rcases htg with rfl | rfl
    · exact ⟨by decide, literal_tokens_valid.2.2.1⟩
    · exact ⟨by decide, literal_tokens_valid.2.2.2⟩
  have htl : tag.length ≤ 7 := by
    rcases htg with rfl | rfl <;> decide
  rw [hwr] at hs ⊢
  simp only at hs ⊢
  rw [header_fields_join] at hs ⊢
  have hlen := header_tokens_length (print_d w.cfg.info.resolution.width)
    (print_d w.cfg.info.resolution.height) (print_d w.cfg.info.framerate.num)
    (print_d w.cfg.info.framerate.den) (print_d w.cfg.info.sar.width)
    (print_d w.cfg.info.sar.height) tag
  have l1 := print_d_length w.cfg.info.resolution.width
  have l2 := print_d_length w.cfg.info.resolution.height
  have l3 := print_d_length w.cfg.info.framerate.num
  have l4 := print_d_length w.cfg.info.framerate.den
  have l5 := print_d_length w.cfg.info.sar.width
  have l6 := print_d_length w.cfg.info.sar.height
  obtain ⟨r1, r2, r3⟩ := y4m_header_read_line env s e _ tag rest
    (header_tokens_valid _ _ _ _ _ _ (print_d_bytes _) (print_d_bytes _) (print_d_bytes _)
      (print_d_bytes _) (print_d_bytes _) (print_d_bytes _))
    hlastv rfl (by omega) hs
  have hfold := header_tokens_fold env { s.cfg with format := env.vdef_i420 }
    (print_d w.cfg.info.resolution.width) (print_d w.cfg.info.resolution.height)
    (print_d w.cfg.info.framerate.num) (print_d w.cfg.info.framerate.den)
    (print_d w.cfg.info.sar.width) (print_d w.cfg.info.sar.height) (tag ++ [10])
    (print_d_ne_nil _) (print_d_ne_nil _)
    (fun c hc => (is_num_byte_tok c (print_d_bytes _ c hc)).2)
    (fun c hc => (is_num_byte_tok c (print_d_bytes _ c hc)).2)
    (by
      rcases htg with rfl | rfl
      · exact (token_ignored env _).2.2.1
      · exact (token_ignored env _).2.2.2)
  have colon : ∀ b : List Byte, (58 :: b = [] ∨ ∃ c r, 58 :: b = c :: r ∧ ¬ is_digit c) :=
    fun b => Or.inr ⟨58, b, rfl, by simp only [is_digit]; decide⟩
  have a1 := atoi_uint_print_d w.cfg.info.resolution.width [] (Or.inl rfl)
  have a2 := atoi_uint_print_d w.cfg.info.resolution.height [] (Or.inl rfl)
  have a3 := atoi_uint_print_d w.cfg.info.framerate.num
    (58 :: print_d w.cfg.info.framerate.den) (colon _)
  have a4 := atoi_uint_print_d w.cfg.info.framerate.den [] (Or.inl rfl)
  have a5 := atoi_uint_print_d w.cfg.info.sar.width
    (58 :: print_d w.cfg.info.sar.height) (colon _)
  have a6 := atoi_uint_print_d w.cfg.info.sar.height [] (Or.inl rfl)
  simp only [List.append_nil] at a1 a2 a4 a6
  rw [r2, hfold, r3]
  simp only [a1, a2, a3, a4, a5, a6]
  refine ⟨trivial, r1, trivial, trivial, trivial, trivial, trivial, trivial, trivial, ?_⟩
  intro b1 b2 b3 b4 b5 b6
  rw [Nat.mod_eq_of_lt b1, Nat.mod_eq_of_lt b2, Nat.mod_eq_of_lt b3, Nat.mod_eq_of_lt b4,
    Nat.mod_eq_of_lt b5, Nat.mod_eq_of_lt b6]

set_option maxRecDepth 100000 in
/-- Witness for C21: the header of the example writer (2x2 pixels, 30/1 frames
per second, aspect ratio 1:1), read back from the example container file, which
starts with that line (35 bytes) and goes on with two frames. -/
theorem y4m_header_round_trip_witness :
    (y4m_header_write sample_env sample_header_writer).1 = 0
    ∧ (y4m_header_read sample_env sample_header_reader 0).1 = 0
    ∧ (y4m_header_read sample_env sample_header_reader 0).2.1.cfg.info
        = sample_header_writer.cfg.info
    ∧ (y4m_header_read sample_env sample_header_reader 0).2.1.header_offset
        = (y4m_header_write sample_env sample_header_writer).2.file.length
    ∧ (y4m_header_write sample_env sample_header_writer).2.file.length = 35 :=
  ⟨(y4m_header_round_trip sample_env sample_header_writer sample_header_reader
      (bytes_of "FRAME\nabcdefFRAME\nghijkl") 0 (Or.inl rfl) rfl (by decide)).1,
    (y4m_header_round_trip sample_env sample_header_writer sample_header_reader
      (bytes_of "FRAME\nabcdefFRAME\nghijkl") 0 (Or.inl rfl) rfl (by decide)).2.1,
    (y4m_header_round_trip sample_env sample_header_writer sample_header_reader
      (bytes_of "FRAME\nabcdefFRAME\nghijkl") 0 (Or.inl rfl) rfl (by decide)).2.2.2.2.2.2.2.2.2
      (by decide) (by decide) (by decide) (by decide) (by decide) (by decide),
    (y4m_header_round_trip sample_env sample_header_writer sample_header_reader
      (bytes_of "FRAME\nabcdefFRAME\nghijkl") 0 (Or.inl rfl) rfl (by decide)).2.2.2.2.2.2.2.2.1,
    by decide⟩

set_option maxRecDepth 100000 in
/-- C22: format tag selection, evaluated on the header line the writer emits.
For the example configuration with the 10-bit format `vdef_i420_10_16le`,
`vraw_writer_new` writes the line `YUV4MPEG2 W2 H2 F30:1 Ip A1:1 C420p10`
followed by a newline.  `y4m_header_read` accepts that line (it returns 0) and
leaves the 8-bit format `vdef_i420` in the reader, which is not the format
written: the line is split at blanks only, so the last token is `C420p10`
with the newline attached and matches neither tag.  With the same token in the
middle of the line the reader does get `vdef_i420_10_16le`. -/
theorem y4m_format_tag_last_token :
    (vraw_writer_new sample_env (sample_writer_config 1 sample_env.vdef_i420_10_16le) none 0).2.2.2
      = some sample_header_10
    ∧ (y4m_header_read sample_env
        (reader_new_open sample_header_10 (sample_config 1 0 sample_env.vdef_i420_10_16le)) 0).1 = 0
    ∧ (y4m_header_read sample_env
        (reader_new_open sample_header_10 (sample_config 1 0 sample_env.vdef_i420_10_16le)) 0
        ).2.1.cfg.format = sample_env.vdef_i420
    ∧ sample_env.vdef_i420 ≠ sample_env.vdef_i420_10_16le
    ∧ (y4m_header_read sample_env
        (reader_new_open sample_header_10_mid (sample_config 1 0 sample_env.vdef_i420)) 0
        ).2.1.cfg.format = sample_env.vdef_i420_10_16le := by
  decide

set_option maxRecDepth 100000 in
/-- C23: missing frame marker, evaluated on a container file whose first marker
reads `XRAME`.  `vraw_reader_new` accepts the file; the cursor then stands on
the damaged marker and end-of-file is not reached.  `y4m_frame_header_read`
returns the positive value `EPROTO` (it negates its own `-EPROTO`), and
`vraw_reader_frame_read` returns `-errno` with whatever `errno` holds: 0, a
success, when `errno` is 0, and `-7` when `errno` is 7.  In both cases no frame
is produced; in neither is the result `-EPROTO`. -/
theorem y4m_missing_marker_result :
    vraw_reader_new sample_env (some sample_y4m_bad_file)
        (sample_config 1 0 sample_env.vdef_i420) 0
      = .done (0, some sample_y4m_bad_reader, 0)
    ∧ sample_y4m_bad_reader.file.eof = false
    ∧ sample_y4m_bad_reader.file.data.drop sample_y4m_bad_reader.file.pos
        = bytes_of "XRAME\nabcdefFRAME\nghijkl"
    ∧ (y4m_frame_header_read sample_y4m_bad_reader.file 0).1 = EPROTO
    ∧ call_trace sample_env 2 [(100, 6)] ⟨sample_y4m_bad_reader, fun _ => 0, 0⟩ sample_frame
        = some [(0, none)]
    ∧ call_trace sample_env 2 [(100, 6)] ⟨sample_y4m_bad_reader, fun _ => 0, 7⟩ sample_frame
        = some [(-7, none)] :=
  ⟨sample_y4m_bad_reader_new, by decide⟩

set_option maxRecDepth 100000 in
/-- Counterexample for C24: the example reader opened with `start_index = 2` on
a file of five frames.  The first call to `vraw_reader_frame_read` delivers the
bytes of file frame 2, and the three frames produced carry the indices 0, 1
and 2: the first index is 0, not 2. -/
theorem start_index_counter_counterexample :
    vraw_reader_new sample_env (some (count_bytes 30)) (sample_config_start 2) 0
      = .done (0, some sample_reader_start, 0)
    ∧ delivered sample_env 1 100 6 6 1 ⟨sample_reader_start, fun _ => 0, 0⟩ sample_frame
      = some (file_frame (count_bytes 30) 6 2)
    ∧ call_trace sample_env 1 [(100, 6), (100, 6), (100, 6), (100, 6)]
        ⟨sample_reader_start, fun _ => 0, 0⟩ sample_frame
      = some [(0, some (sample_info 0)), (0, some (sample_info 1)), (0, some (sample_info 2)),
          (-ENOENT, none)]
    ∧ (sample_info 0).index ≠ 2 :=
  ⟨sample_start_new, by decide⟩

/-- C24, amended: the start index sets the file position, not the output
counter.  A reader opened by `vraw_reader_new` without container header, with
`loop = 0`, `start_index = S` and the tightly packed geometry, on a file of
exactly `N` complete frames (shorter than `2^63` bytes): for every `k` with
`S + k < N` (below the frame limit, if one is set, and with `S + k + 1` in the
range of the `unsigned int` index), the first `k` calls to
`vraw_reader_frame_read` return 0, and the call after them returns 0, leaves
the bytes of file frame `S + k` in the caller's buffer and stamps the frame
with `info.index = k`.  The first frame produced is file frame `S` with index
0. -/
theorem start_index_first_frame (env : VdefEnv) (file : List Byte) (cfg : vraw_reader_config)
    (e0 e1 : Int) (r : vraw_reader) (N S k : Nat) (buf : Mem) (data len fuel : Nat)
    (fr : vraw_frame)
    (hy : cfg.y4m = 0) (hl : cfg.loop = 0) (hs : cfg.start_index = S)
    (hnew : vraw_reader_new env (some file) cfg e0 = .done (0, some r, e1))
    (ht : Tight r) (hN : file.length = N * r.file_frame_size) (hN63 : file.length < 2 ^ 63)
    (hk : S + k < N) (hm : cfg.max_count = 0 ∨ S + k < cfg.max_count)
    (h32 : S + k + 1 < 2 ^ 32)
    (hd : data ≠ 0) (hlen : len ≠ 0)
    (hsz : vraw_reader_get_min_buf_size r ≤ (len : Int)) :
    ∃ st fr1 st2 fr2,
      read_frames env (fuel + 1) data len k ⟨r, buf, e1⟩ fr = some (st, fr1)
      ∧ vraw_reader_frame_read env (fuel + 1) st data len (some fr1)
          = .done (0, st2, some fr2)
      ∧ (∀ j, j < r.file_frame_size →
          st2.buf (data + j) = file.getD ((S + k) * r.file_frame_size + j) 0)
      ∧ fr2.frame.info.index = k := by
  obtain ⟨h1, h2, h3, h4, h5, h6, h7, h8, h9, h10, h11, h12, h13⟩ :=
    reader_new_raw_from env file cfg e0 e1 r hy (by rw [hl]; decide) hnew
  have hsz2 : r.frame_size ≤ len := by
    simp only [vraw_reader_get_min_buf_size] at hsz
    omega
  have hle : S * r.file_frame_size ≤ N * r.file_frame_size :=
    Nat.mul_le_mul_right _ (by omega)
  have hpos : r.file.pos = S * r.file_frame_size := by
    rw [← hs]
    apply h9
    rw [hs]
    omega
  have hr : FileSession r N := ⟨h1, h4, h5, ht, by rw [h7]; exact hN⟩
  have hr0 : r = at_frame r S 0 S 0 0 :=
    at_frame_self r S 0 S 0 0 hpos h8 h10 (by rw [h11, hs]) h12 h13
  obtain ⟨t, buf1, e2, fr1, h⟩ :=
    read_frames_forward_from env r N hr data len hd hlen hsz2 fuel buf e1 fr S k (by omega)
      (by rw [h3]; omega) (by omega)
  rw [← hr0] at h
  refine ⟨_, _, _, _, h, frame_read_forward_max env r N hr data len hd hlen hsz2 (S + k) hk
    _ _ _ _ _ _ _ (by rw [Nat.mod_eq_of_lt (by omega), h3]; omega), ?_, rfl⟩
  intro j hj
  simp only
  rw [blit_get _ _ _ _ _ _ hj, h7]

/-- Witness for C24: `start_index = 2` on an I420 file of five 2x2 frames, the
second call (`k = 1`), which delivers file frame 3 with index 1. -/
theorem start_index_first_frame_witness :
    ∃ st fr1 st2 fr2,
      read_frames sample_env (0 + 1) 100 6 1 ⟨sample_reader_start, fun _ => 0, 0⟩ sample_frame
        = some (st, fr1)
      ∧ vraw_reader_frame_read sample_env (0 + 1) st 100 6 (some fr1)
          = .done (0, st2, some fr2)
      ∧ (∀ j, j < sample_reader_start.file_frame_size →
          st2.buf (100 + j)
            = (count_bytes 30).getD ((2 + 1) * sample_reader_start.file_frame_size + j) 0)
      ∧ fr2.frame.info.index = 1 :=
  start_index_first_frame sample_env (count_bytes 30) (sample_config_start 2) 0 0
    sample_reader_start 5 2 1 (fun _ => 0) 100 6 0 sample_frame rfl rfl rfl sample_start_new
    (tight_of_same _ _ sample_start_tight rfl rfl rfl rfl) (by decide) (by decide) (by decide)
    (Or.inl rfl) (by decide) (by decide) (by decide) (by decide)

set_option maxRecDepth 100000 in
/-- C25, counterexample: a 4x2 frame in the format `vdef_i420_10_16le_high`,
which the reader accepts and which is not one of the twelve formats of the
codec, converted for a writer of the packed 10-bit format.  Nothing is
reported to the caller: the step of the loop of `main` calls
`vraw_writer_frame_write`, which returns 0, and the 15 bytes `0x80` of the
untouched output buffer have been appended to the output file. -/
theorem conv_step_unrecognised_counterexample :
    sample_high_frame.frame.format ∉ codec_formats sample_env
    ∧ (writer_new_init sample_packed_config).file = []
    ∧ (conv_frame_step sample_env sample_env.vdef_i420_10_16le_high
        (writer_new_init sample_packed_config) sample_conv_memory sample_high_frame
        sample_packed_frame 0).2.1 = 0
    ∧ (conv_frame_step sample_env sample_env.vdef_i420_10_16le_high
        (writer_new_init sample_packed_config) sample_conv_memory sample_high_frame
        sample_packed_frame 0).2.2.1.file = List.replicate 15 0x80 := by
  decide

/-- C25: unrecognised format in the packed codec.  When the format of the
non-packed side is not one of the twelve recognised ones,
`frame_to_nv21_10packed` (format of the input frame) and
`frame_from_nv21_10packed` (format of the output frame) leave the memory as it
is: nothing is written to the planes of the output frame.  Both functions are
`void`, so nothing is reported, and the loop of `main` goes on: the step is
the call to `vraw_writer_frame_write` on the output frame, whose planes hold
what they held before the conversion. -/
theorem conv_step_unrecognised_format (env : VdefEnv) (reader_format : vdef_raw_format)
    (writer : vraw_writer) (mem : Mem) (in_frame out_frame : vraw_frame) (e : Int) :
    (in_frame.frame.format ∉ codec_formats env →
        frame_to_nv21_10packed env mem in_frame out_frame = mem)
    ∧ (out_frame.frame.format ∉ codec_formats env →
        frame_from_nv21_10packed env mem in_frame out_frame = mem)
    ∧ ((writer.cfg.format = env.vdef_nv21_10_packed
          ∧ in_frame.frame.format ∉ codec_formats env)
        ∨ (writer.cfg.format ≠ env.vdef_nv21_10_packed
          ∧ out_frame.frame.format ∉ codec_formats env) →
        conv_frame_step env reader_format writer mem in_frame out_frame e
          = (mem, vraw_writer_frame_write writer mem
              (some (conv_out_frame in_frame out_frame)) e)) := by
  refine ⟨frame_to_unrecognised env mem in_frame out_frame,
    frame_from_unrecognised env mem in_frame out_frame, ?_⟩
  intro h
  rcases h with ⟨hw, hin⟩ | ⟨hw, hout⟩
  · have hc : vdef_raw_format_cmp writer.cfg.format env.vdef_nv21_10_packed = true := by
      simp [vdef_raw_format_cmp, hw]
    simp only [conv_frame_step, hc, if_true]
    rw [frame_to_unrecognised env mem in_frame (conv_out_frame in_frame out_frame) hin]
  · have hc : vdef_raw_format_cmp writer.cfg.format env.vdef_nv21_10_packed = false := by
      simp [vdef_raw_format_cmp, hw]
    simp only [conv_frame_step, hc, Bool.false_eq_true, if_false]
    rw [frame_from_unrecognised env mem in_frame (conv_out_frame in_frame out_frame) hout]
    split_ifs <;> rfl

set_option maxRecDepth 100000 in
/-- Witness for C25: a 4x2 frame in the format `vdef_i420_10_16le_high`, which
the reader accepts and the codec does not recognise, converted for a writer of
the packed 10-bit format.  The conversion leaves the
memory as it is, and `vraw_writer_frame_write` returns 0 and appends to the
file the 15 bytes `0x80` the output buffer was filled with. -/
theorem conv_step_unrecognised_format_witness :
    frame_to_nv21_10packed sample_env sample_conv_memory sample_high_frame sample_packed_frame
      = sample_conv_memory
    ∧ conv_frame_step sample_env sample_env.vdef_i420_10_16le_high (writer_new_init sample_packed_config)
        sample_conv_memory sample_high_frame sample_packed_frame 0
      = (sample_conv_memory, vraw_writer_frame_write (writer_new_init sample_packed_config)
          sample_conv_memory (some (conv_out_frame sample_high_frame sample_packed_frame)) 0)
    ∧ vraw_writer_new sample_env sample_packed_config none 0
      = (0, some (writer_new_init sample_packed_config), 0, some [])
    ∧ (vraw_writer_frame_write (writer_new_init sample_packed_config) sample_conv_memory
        (some (conv_out_frame sample_high_frame sample_packed_frame)) 0).1 = 0
    ∧ (vraw_writer_frame_write (writer_new_init sample_packed_config) sample_conv_memory
        (some (conv_out_frame sample_high_frame sample_packed_frame)) 0).2.1.file
      = List.replicate 15 0x80 :=
  ⟨(conv_step_unrecognised_format sample_env sample_env.vdef_i420_10_16le_high
      (writer_new_init sample_packed_config) sample_conv_memory sample_high_frame
      sample_packed_frame 0).1 (by decide),
    (conv_step_unrecognised_format sample_env sample_env.vdef_i420_10_16le_high
      (writer_new_init sample_packed_config) sample_conv_memory sample_high_frame
      sample_packed_frame 0).2.2 (Or.inl ⟨rfl, by decide⟩),
    rfl, by decide, by decide⟩

/-- C26: writer construction validation.  `vraw_writer_new` returns `-EINVAL`
and no writer, with `errno` as it was and without creating or truncating the
file (the checks stand before `fopen`, so this holds whether or not the file
could be opened), whenever the format is not one of the registry entries, the
width is 0, the height is 0, or the format is `vdef_nv21_10_packed` and the
width is not a multiple of 4.  The registry has 32 entries. -/
theorem writer_new_rejects (env : VdefEnv) (cfg : vraw_writer_config)
    (open_errno : Option Int) (e : Int)
    (h : cfg.format ∉ supported_formats env ∨ cfg.info.resolution.width = 0
        ∨ cfg.info.resolution.height = 0
        ∨ (cfg.format = env.vdef_nv21_10_packed ∧ cfg.info.resolution.width % 4 ≠ 0)) :
    vraw_writer_new env cfg open_errno e = (-EINVAL, none, e, none)
    ∧ (supported_formats env).length = 32 := by
  refine ⟨?_, rfl⟩
  have hc : writer_new_check env cfg = some (-EINVAL) := by
    simp only [writer_new_check]
    split_ifs with h1 h2 h3 h4
    · rfl
    · rfl
    · rfl
    · rfl
    · exfalso
      rcases h with h | h | h | ⟨hf, hw⟩
      · apply h
        have h1' : vdef_raw_format_intersect cfg.format (supported_formats env) = true := by
          simpa using h1
        simp only [vdef_raw_format_intersect, vdef_raw_format_cmp, List.any_eq_true] at h1'
        obtain ⟨b, hb, heq⟩ := h1'
        rw [of_decide_eq_true heq]
        exact hb
      · exact h2 h
      · exact h3 h
      · apply h4
        refine ⟨by simp [vdef_raw_format_cmp, hf], ?_⟩
        have := Nat.and_pow_two_sub_one_eq_mod cfg.info.resolution.width 2
        simp only [Nat.reducePow, Nat.add_one_sub_one] at this
        rw [show (3 : Nat) = 4 - 1 from rfl, this]
        exact hw
  simp only [vraw_writer_new, hc]

/-- Witness for C26: the packed 10-bit format with a width of 2. -/
theorem writer_new_rejects_witness :
    vraw_writer_new sample_env (sample_writer_config 0 sample_env.vdef_nv21_10_packed) none 0
      = (-EINVAL, none, 0, none)
    ∧ (supported_formats sample_env).length = 32 :=
  writer_new_rejects sample_env (sample_writer_config 0 sample_env.vdef_nv21_10_packed) none 0
    (Or.inr (Or.inr (Or.inr ⟨rfl, by decide⟩)))

/-- C27: container writing is restricted to two formats.  With `y4m` set and a
format that is neither `vdef_i420` nor `vdef_i420_10_16le`, `vraw_writer_new`
returns no writer, and its return value is `-EINVAL` when `fopen` succeeded
(the format is looked at after `fopen`; a failed `fopen` returns its own
`-errno`).  For `vdef_i420`, and for `vdef_i420_10_16le` (a descriptor other
than `vdef_i420`), a configuration that passes the checks yields a writer, and
the file then holds one line: the fields `YUV4MPEG2 W.. H.. F..:.. Ip A..:..`
followed by the tag ` C420`, respectively ` C420p10`, and a newline. -/
theorem writer_new_container_formats (env : VdefEnv) (cfg : vraw_writer_config)
    (open_errno : Option Int) (e : Int) (hy : cfg.y4m ≠ 0) :
    (cfg.format ≠ env.vdef_i420 → cfg.format ≠ env.vdef_i420_10_16le →
        (vraw_writer_new env cfg open_errno e).2.1 = none
        ∧ (open_errno = none → (vraw_writer_new env cfg open_errno e).1 = -EINVAL))
    ∧ (cfg.format = env.vdef_i420 → writer_new_check env cfg = none →
        ∃ w, vraw_writer_new env cfg none e = (0, some w, e, some w.file)
          ∧ w.file = y4m_header_fields (writer_new_init cfg).cfg.info ++ bytes_of " C420\n")
    ∧ (cfg.format = env.vdef_i420_10_16le → env.vdef_i420_10_16le ≠ env.vdef_i420 →
        writer_new_check env cfg = none →
        ∃ w, vraw_writer_new env cfg none e = (0, some w, e, some w.file)
          ∧ w.file
            = y4m_header_fields (writer_new_init cfg).cfg.info ++ bytes_of " C420p10\n") := by
  obtain ⟨f1, f2, f3⟩ := writer_new_init_format cfg
  refine ⟨?_, ?_, ?_⟩
  · intro h1 h2
    unfold vraw_writer_new
    cases hc : writer_new_check env cfg with
    | some res =>
      have hres : res = -EINVAL := by
        simp only [writer_new_check] at hc
        split_ifs at hc <;> simp_all
      subst hres
      exact ⟨rfl, fun _ => rfl⟩
    | none =>
      cases open_errno with
      | some oe => exact ⟨rfl, fun h => by simp at h⟩
      | none =>
        simp only [f2, hy, ne_eq, not_false_eq_true, if_true]
        rw [y4m_header_write_rejects env _ (by rw [f1]; exact h1) (by rw [f1]; exact h2)]
        exact ⟨rfl, fun _ => rfl⟩
  · intro hf hc
    unfold vraw_writer_new
    simp only [hc, f2, hy, ne_eq, not_false_eq_true, if_true]
    rw [y4m_header_write_i420 env _ (by rw [f1]; exact hf)]
    simp only [lt_self_iff_false, if_false, f3, List.nil_append]
    exact ⟨_, rfl, rfl⟩
  · intro hf hne hc
    unfold vraw_writer_new
    simp only [hc, f2, hy, ne_eq, not_false_eq_true, if_true]
    rw [y4m_header_write_i420_10 env _ (by rw [f1]; exact hf) hne]
    simp only [lt_self_iff_false, if_false, f3, List.nil_append]
    exact ⟨_, rfl, rfl⟩

/-- Witness for C27: the example configuration in container mode with the
formats `vdef_nv12` (rejected), `vdef_i420` and `vdef_i420_10_16le`. -/
theorem writer_new_container_formats_witness :
    ((vraw_writer_new sample_env (sample_writer_config 1 sample_env.vdef_nv12) none 0).2.1 = none
      ∧ (vraw_writer_new sample_env (sample_writer_config 1 sample_env.vdef_nv12) none 0).1
          = -EINVAL)
    ∧ (∃ w, vraw_writer_new sample_env (sample_writer_config 1 sample_env.vdef_i420) none 0
          = (0, some w, 0, some w.file)
        ∧ w.file = y4m_header_fields
            (writer_new_init (sample_writer_config 1 sample_env.vdef_i420)).cfg.info
          ++ bytes_of " C420\n")
    ∧ (∃ w, vraw_writer_new sample_env (sample_writer_config 1 sample_env.vdef_i420_10_16le)
            none 0
          = (0, some w, 0, some w.file)
        ∧ w.file = y4m_header_fields
            (writer_new_init (sample_writer_config 1 sample_env.vdef_i420_10_16le)).cfg.info
          ++ bytes_of " C420p10\n") :=
  ⟨⟨((writer_new_container_formats sample_env (sample_writer_config 1 sample_env.vdef_nv12)
        none 0 (by decide)).1 (by decide) (by decide)).1,
      ((writer_new_container_formats sample_env (sample_writer_config 1 sample_env.vdef_nv12)
        none 0 (by decide)).1 (by decide) (by decide)).2 rfl⟩,
    (writer_new_container_formats sample_env (sample_writer_config 1 sample_env.vdef_i420)
      none 0 (by decide)).2.1 rfl (by decide),
    (writer_new_container_formats sample_env
      (sample_writer_config 1 sample_env.vdef_i420_10_16le) none 0 (by decide)).2.2 rfl
      (by decide) (by decide)⟩

/-- C28: changing the frame rate.  `vraw_reader_set_framerate` with a frame
rate that is not null returns 0 and stores it in the configuration of the
reader, nothing else being changed; with a null frame rate it returns
`-EINVAL`, the reader (its frame rate included) being unchanged; in both cases
the timestamp accumulator and the output counter are left as they are.  For a
reader opened by `vraw_reader_new` and any sequence of calls to
`vraw_reader_frame_read` and `vraw_reader_set_framerate`: the timestamp of the
`k`-th frame produced is the sum, over the frames produced before it, of
`1000000 * den / num` (integer division) for the frame rate in force when that
earlier frame was produced, that is the frame rate of the last accepted call to
`vraw_reader_set_framerate` before it, or of the reader as opened when there is
none; the sum is taken modulo `2^64`, and it is that sum as long as it fits in
the `uint64_t` accumulator. -/
theorem set_framerate_keeps_accumulator (env : VdefEnv) (file : List Byte)
    (cfg : vraw_reader_config) (e0 e1 : Int) (r : vraw_reader) (fuel : Nat)
    (ops : List reader_op) (buf : Mem) (fr : vraw_frame)
    (t : List (vdef_frame_info × Nat)) (k : Nat) (info : vdef_frame_info) (step : Nat)
    (hnew : vraw_reader_new env (some file) cfg e0 = .done (0, some r, e1))
    (h : rate_trace env fuel ops ⟨r, buf, e1⟩ fr r.cfg.info.framerate = some t)
    (hk : t[k]? = some (info, step)) :
    info.timestamp = ((t.take k).map Prod.snd).sum % 2 ^ 64
    ∧ (((t.take k).map Prod.snd).sum < 2 ^ 64 →
        info.timestamp = ((t.take k).map Prod.snd).sum)
    ∧ (∀ (self : vraw_reader) (f : vdef_frac),
        (vraw_reader_set_framerate self f).2.timestamp = self.timestamp
        ∧ (vraw_reader_set_framerate self f).2.count = self.count)
    ∧ (∀ (self : vraw_reader) (f : vdef_frac), vdef_frac_is_null f = true →
        vraw_reader_set_framerate self f = (-EINVAL, self))
    ∧ (∀ (self : vraw_reader) (f : vdef_frac), vdef_frac_is_null f = false →
        vraw_reader_set_framerate self f
          = (0, { self with cfg := { self.cfg with info := { self.cfg.info with
              framerate := f } } })) := by
  obtain ⟨hc, ht, -⟩ := reader_new_counters env file cfg e0 e1 r hnew
  have h2 : op_trace env fuel ops ⟨r, buf, e1⟩ fr = some t := by
    rw [← rate_trace_op_trace env fuel ops ⟨r, buf, e1⟩ fr]
    exact h
  have hs := op_trace_stamps env fuel ops ⟨r, buf, e1⟩ fr t
    (by simp only; rw [ht]; decide) h2 k info step hk
  simp only [ht, Nat.zero_add] at hs
  refine ⟨hs, ?_, set_framerate_keeps, ?_, set_framerate_stores⟩
  · intro hlt
    rw [hs, Nat.mod_eq_of_lt hlt]
  · intro self f hf
    simp [vraw_reader_set_framerate, hf]

/-- Witness for C28: the fourth frame of the example session, produced after a
change from 30 to 60 frames per second and a rejected change to the null frame
rate: its timestamp is 33333 + 33333 + 16666. -/
theorem set_framerate_keeps_accumulator_witness :
    ({ sample_info 3 with timestamp := 83332 } : vdef_frame_info).timestamp
        = ((sample_op_trace.take 3).map Prod.snd).sum % 2 ^ 64
    ∧ (((sample_op_trace.take 3).map Prod.snd).sum < 2 ^ 64 →
        ({ sample_info 3 with timestamp := 83332 } : vdef_frame_info).timestamp
          = ((sample_op_trace.take 3).map Prod.snd).sum)
    ∧ (∀ (self : vraw_reader) (f : vdef_frac),
        (vraw_reader_set_framerate self f).2.timestamp = self.timestamp
        ∧ (vraw_reader_set_framerate self f).2.count = self.count)
    ∧ (∀ (self : vraw_reader) (f : vdef_frac), vdef_frac_is_null f = true →
        vraw_reader_set_framerate self f = (-EINVAL, self))
    ∧ (∀ (self : vraw_reader) (f : vdef_frac), vdef_frac_is_null f = false →
        vraw_reader_set_framerate self f
          = (0, { self with cfg := { self.cfg with info := { self.cfg.info with
              framerate := f } } })) :=
  set_framerate_keeps_accumulator sample_env (count_bytes 30)
    (sample_config 0 0 sample_env.vdef_i420) 0 0 (sample_reader 0 (count_bytes 30) 5) 1
    sample_ops (fun _ => 0) sample_frame sample_op_trace 3
    { sample_info 3 with timestamp := 83332 } 16666 sample_reader_new_five sample_rate_trace_eq
    (by decide)

/-- C29: bounded retry, on a file without any frame.  A reader opened by
`vraw_reader_new` without container header, with `loop > 0` and
`start_index = 0`, on the empty file (which the constructor accepts, with a
frame count of 0): a call to `vraw_reader_frame_read` with a valid buffer does
not return.  Each read hits end-of-file, seeks back to offset 0 and calls the
function again, so that whatever the bound put on the depth of the self-calls,
the bound is exhausted. -/
theorem frame_read_empty_file_never_returns (env : VdefEnv) (cfg : vraw_reader_config)
    (e0 e1 : Int) (r : vraw_reader) (buf : Mem) (data len fuel : Nat) (fr : vraw_frame)
    (hy : cfg.y4m = 0) (hl : cfg.loop > 0) (hs : cfg.start_index = 0)
    (hnew : vraw_reader_new env (some []) cfg e0 = .done (0, some r, e1))
    (ht : Tight r) (hd : data ≠ 0) (hlen : len ≠ 0)
    (hsz : vraw_reader_get_min_buf_size r ≤ (len : Int)) :
    vraw_reader_frame_read env fuel ⟨r, buf, e1⟩ data len (some fr) = .out_of_fuel := by
  obtain ⟨h1, h2, h3, h4, h5, h6, h7, h8, h9, h10, h11, h12⟩ :=
    reader_new_raw env [] cfg e0 e1 r hy hs hnew
  have hsz2 : r.frame_size ≤ len := by
    simp only [vraw_reader_get_min_buf_size] at hsz
    omega
  exact frame_read_empty_loop env data len hd hlen fr fuel ⟨r, buf, e1⟩ h1
    (by simp only; rw [h2]; exact hl) ht (by simp only; rw [h7]) (by simp only; rw [h7]) h5 hsz2

/-- Witness for C29: the example configuration with `loop = 1` on the empty
file, with a bound of 1000 on the depth of the self-calls. -/
theorem frame_read_empty_file_never_returns_witness :
    vraw_reader_new sample_env (some []) (sample_config 0 1 sample_env.vdef_i420) 0
      = .done (0, some (sample_reader 1 [] 0), 0)
    ∧ vraw_reader_frame_read sample_env 1000 ⟨sample_reader 1 [] 0, fun _ => 0, 0⟩ 100 6
        (some sample_frame) = .out_of_fuel :=
  ⟨sample_reader_new_empty,
    frame_read_empty_file_never_returns sample_env (sample_config 0 1 sample_env.vdef_i420) 0 0
      (sample_reader 1 [] 0) (fun _ => 0) 100 6 1000 sample_frame rfl (by decide) rfl
      sample_reader_new_empty sample_reader_tight_empty (by decide) (by decide) (by decide)⟩

set_option maxRecDepth 100000 in
/-- C30: reverse looping on a file of a single frame.  `vraw_reader_new` accepts
the raw configuration with `loop = -1` on a file of exactly one frame.  The
first call to `vraw_reader_frame_read` returns 0 and produces file frame 0;
the second call and the third return `-EOVERFLOW` and produce nothing: at
end-of-file the reader turns round, `seek_to_previous_frame` would have to go
two frames back from offset 6, and its error is returned to the caller. -/
theorem reverse_loop_single_frame :
    vraw_reader_new sample_env (some (count_bytes 6))
        (sample_config 0 (-1) sample_env.vdef_i420) 0
      = .done (0, some (sample_reader (-1) (count_bytes 6) 1), 0)
    ∧ call_trace sample_env 2 [(100, 6), (100, 6), (100, 6)]
        ⟨sample_reader (-1) (count_bytes 6) 1, fun _ => 0, 0⟩ sample_frame
      = some [(0, some (sample_info 0)), (-EOVERFLOW, none), (-EOVERFLOW, none)] :=
  ⟨sample_reader_new_single, by decide⟩

/-! ## Claims on reverse start, the frame limit, the codec layouts, the invariants and the rewrite -/

/-- C31: starting in reverse.  A reader opened by `vraw_reader_new` without
container header, with `loop = -1`, `max_count = 0`, `start_reversed` set and
`start_index = S`, `0 < S < N`, with the tightly packed geometry, on a file of
exactly `N` complete frames (of a size an `off_t` holds): every call to
`vraw_reader_frame_read` returns 0 and call `i` leaves in the caller's buffer
the bytes of the file frame at position `S - i` while `i <= S`, and at the
ping-pong position of `i - S` afterwards; for `N = 5` and `S = 2` the first ten
positions are 2,1,0,1,2,3,4,3,2,1. -/
theorem reverse_start_playback (env : VdefEnv) (file : List Byte) (cfg : vraw_reader_config)
    (e0 e1 : Int) (r : vraw_reader) (N S : Nat) (buf : Mem) (data len fuel : Nat)
    (fr : vraw_frame)
    (hy : cfg.y4m = 0) (hl : cfg.loop = -1) (hm : cfg.max_count = 0)
    (hrev : cfg.start_reversed = true) (hs : cfg.start_index = S)
    (hS0 : 0 < S) (hSN : S < N)
    (hnew : vraw_reader_new env (some file) cfg e0 = .done (0, some r, e1))
    (ht : Tight r) (hN : file.length = N * r.file_frame_size) (hlen63 : file.length < 2 ^ 63)
    (hd : data ≠ 0) (hlen : len ≠ 0)
    (hsz : vraw_reader_get_min_buf_size r ≤ (len : Int)) :
    (∀ i, ∃ st fr1 st2 fr2,
        read_frames env (fuel + 2) data len i ⟨r, buf, e1⟩ fr = some (st, fr1)
        ∧ vraw_reader_frame_read env (fuel + 2) st data len (some fr1)
            = .done (0, st2, some fr2)
        ∧ ∀ j, j < r.file_frame_size →
            st2.buf (data + j) = file.getD (reverse_start_pos N S i * r.file_frame_size + j) 0)
    ∧ (List.range 10).map (reverse_start_pos 5 2) = [2, 1, 0, 1, 2, 3, 4, 3, 2, 1] := by
  refine ⟨?_, by decide⟩
  intro i
  have hN2 : 2 ≤ N := by omega
  have hle : S * r.file_frame_size ≤ N * r.file_frame_size :=
    Nat.mul_le_mul_right _ (by omega)
  obtain ⟨hr, hr0, hdata, hloop, -⟩ :=
    reader_new_raw_reversed env file cfg e0 e1 r N hy hm hrev (by omega) hnew ht hN
      (by rw [hs]; omega)
  rw [hs] at hr0
  have hsz' : r.frame_size ≤ len := by
    simp only [vraw_reader_get_min_buf_size] at hsz
    omega
  have hl' : r.cfg.loop < 0 := by rw [hloop, hl]; decide
  obtain ⟨idx, c, t, buf1, e2, fr1, h⟩ :=
    read_frames_pingpong_from env r N hr hl' hN2 data len hd hlen hsz' (S, true)
      ⟨fun hf => by simp at hf, fun _ => hSN⟩ S 0 0 fuel buf e1 fr i
  simp only [if_true] at h
  rw [← hr0] at h
  obtain ⟨hb1, hb2⟩ := pingpong_from_bound N hN2 (S, true)
    ⟨fun hf => by simp at hf, fun _ => hSN⟩ i
  have hfr := pingpong_from_frame N S hN2 i
  rcases hs2 : pingpong_from N (S, true) i with ⟨p, rev⟩
  rw [hs2] at hb1 hb2 hfr h
  simp only at hb1 hb2 h
  cases rev with
  | false =>
    have hp := hb1 rfl
    simp only [Bool.false_eq_true, if_false] at h
    simp only [pingpong_frame] at hfr
    by_cases hlt : p < N
    · rw [if_pos hlt] at hfr
      refine ⟨_, _, _, _, h,
        frame_read_forward env r N hr data len hd hlen hsz' _ hlt _ _ _ _ _ _ _, ?_⟩
      intro j hj
      simp only
      rw [blit_get _ _ _ _ _ _ hj, hdata, hfr]
    · have hN' : p = N := by omega
      subst hN'
      rw [if_neg hlt] at hfr
      have hcall := (frame_read_eof_reverse env r p hr hl' hN2 data len hd hlen hsz' fuel idx c t
        buf1 e2 fr1).trans (frame_read_backward env r p hr data len hd hlen hsz' (p - 2)
          (by omega) fuel _ c t buf1 EINVAL fr1)
      refine ⟨_, _, _, _, h, hcall, ?_⟩
      intro j hj
      simp only
      rw [blit_get _ _ _ _ _ _ hj, hdata, hfr]
  | true =>
    have hp := hb2 rfl
    simp only [if_true] at h
    simp only [pingpong_frame] at hfr
    refine ⟨_, _, _, _, h,
      frame_read_backward env r N hr data len hd hlen hsz' p hp _ _ _ _ _ _ _, ?_⟩
    intro j hj
    simp only
    rw [blit_get _ _ _ _ _ _ hj, hdata, hfr]

/-- Witness for C31: an I420 file of five 2x2 frames read with a reversed start
at frame 2. -/
theorem reverse_start_playback_witness :
    (∀ i, ∃ st fr1 st2 fr2,
        read_frames sample_env (0 + 2) 100 6 i ⟨sample_reader_reversed, fun _ => 0, 0⟩
            sample_frame = some (st, fr1)
        ∧ vraw_reader_frame_read sample_env (0 + 2) st 100 6 (some fr1)
            = .done (0, st2, some fr2)
        ∧ ∀ j, j < sample_reader_reversed.file_frame_size →
            st2.buf (100 + j) = (count_bytes 30).getD
              (reverse_start_pos 5 2 i * sample_reader_reversed.file_frame_size + j) 0)
    ∧ (List.range 10).map (reverse_start_pos 5 2) = [2, 1, 0, 1, 2, 3, 4, 3, 2, 1] :=
  reverse_start_playback sample_env (count_bytes 30) (sample_config_reversed 2)
    0 0 sample_reader_reversed 5 2 (fun _ => 0) 100 6 0 sample_frame
    rfl rfl rfl rfl rfl (by decide) (by decide) sample_reversed_new sample_reversed_tight
    (by decide) (by decide) (by decide) (by decide) (by decide)

set_option maxRecDepth 100000 in
/-- C32: maximum frame count with a start index, evaluated.  The example reader
opened with `loop = 0`, `start_index = 2` and `max_count = 3` on a file of six
frames (more than `2 + 3`): the first call to `vraw_reader_frame_read` returns
0 and delivers file frame 2, the second call already returns `-ENOENT`, and so
do the calls after it.  One frame is produced, not three: the limit is compared
with the file-position index, which starts at `start_index`, and not with the
number of frames read. -/
theorem max_count_counts_file_position :
    vraw_reader_new sample_env (some (count_bytes 36)) (sample_config_start_max 2 3) 0
      = .done (0, some sample_reader_start_max, 0)
    ∧ delivered sample_env 1 100 6 6 1 ⟨sample_reader_start_max, fun _ => 0, 0⟩ sample_frame
      = some (file_frame (count_bytes 36) 6 2)
    ∧ call_trace sample_env 1 [(100, 6), (100, 6), (100, 6)]
        ⟨sample_reader_start_max, fun _ => 0, 0⟩ sample_frame
      = some [(0, some (sample_info 0)), (-ENOENT, none), (-ENOENT, none)] :=
  ⟨sample_start_max_new, by decide⟩

/-- C33: big-endian packing is little-endian packing after a byte swap.  For
every source memory, every block count and every step: whenever a memory `swp`
holds, at every sample of the `nb_blk` input blocks, the two bytes of `src`
swapped, `conv_16be_to_10packed` on `src` writes the same memory as
`conv_16le_to_10packed` on `swp`.  And when the four big-endian samples of a
block are below 1024, packing the block and unpacking it with
`line_10packed_to_16`, the low byte at offset 1 and the high byte at offset 0
of each output sample, gives the four samples back (the output samples not
overlapping). -/
theorem conv_16be_is_swapped_16le (src dst dst2 : Mem) (in1 in2 out step : Nat)
    (o1 o2 os : Nat) :
    (∀ (swp : Mem) (nb_blk : Nat),
      (∀ k, k < nb_blk →
        ByteSwapped src swp (in1 + 2 * step * k) ∧ ByteSwapped src swp (in2 + 2 * step * k)
        ∧ ByteSwapped src swp (in1 + 2 * step * k + step)
        ∧ ByteSwapped src swp (in2 + 2 * step * k + step)) →
      conv_16be_to_10packed src in1 in2 dst out step nb_blk
        = conv_16le_to_10packed swp in1 in2 dst out step nb_blk)
    ∧ (sample16be src in1 < 1024 → sample16be src in2 < 1024 →
      sample16be src (in1 + step) < 1024 → sample16be src (in2 + step) < 1024 →
      [o1, o1 + 1, o2, o2 + 1, o1 + os, o1 + os + 1, o2 + os, o2 + os + 1].Nodup →
      sample16be (line_10packed_to_16 (conv_16be_to_10packed src in1 in2 dst out step 1)
          out dst2 (o1 + 1) o1 (o2 + 1) o2 os 1) o1 = sample16be src in1
      ∧ sample16be (line_10packed_to_16 (conv_16be_to_10packed src in1 in2 dst out step 1)
          out dst2 (o1 + 1) o1 (o2 + 1) o2 os 1) o2 = sample16be src in2
      ∧ sample16be (line_10packed_to_16 (conv_16be_to_10packed src in1 in2 dst out step 1)
          out dst2 (o1 + 1) o1 (o2 + 1) o2 os 1) (o1 + os) = sample16be src (in1 + step)
      ∧ sample16be (line_10packed_to_16 (conv_16be_to_10packed src in1 in2 dst out step 1)
          out dst2 (o1 + 1) o1 (o2 + 1) o2 os 1) (o2 + os) = sample16be src (in2 + step)) := by
  constructor
  · intro swp nb_blk hs
    induction nb_blk generalizing in1 in2 dst out with
    | zero => rfl
    | succ n ih =>
      obtain ⟨a1, a2, a3, a4⟩ := hs 0 (by omega)
      simp only [Nat.mul_zero, Nat.add_zero] at a1 a2 a3 a4
      rw [conv_16be_to_10packed, conv_16le_to_10packed,
        conv_16be_block_swapped src swp in1 in2 step a1 a2 a3 a4]
      apply ih
      intro k hk
      have := hs (k + 1) (by omega)
      have e1 : in1 + 2 * step * (k + 1) = in1 + 2 * step + 2 * step * k := by ring
      have e2 : in2 + 2 * step * (k + 1) = in2 + 2 * step + 2 * step * k := by ring
      rw [e1, e2] at this
      exact this
  · intro h0 h1 h2 h3 hd
    obtain ⟨c0, c1, c2, c3⟩ := conv_16be_components src dst in1 in2 out step
    simp only [List.nodup_cons, List.mem_cons, List.mem_singleton, List.not_mem_nil,
      not_or, List.nodup_nil] at hd
    rw [line_10packed_to_16_one, c0, c1, c2, c3, Nat.mod_eq_of_lt h0, Nat.mod_eq_of_lt h1,
      Nat.mod_eq_of_lt h2, Nat.mod_eq_of_lt h3]
    have e1 : o1 + 1 + os = o1 + os + 1 := by omega
    have e2 : o2 + 1 + os = o2 + os + 1 := by omega
    rw [e1, e2]
    refine ⟨?_, ?_, ?_, ?_⟩
    · simp (disch := omega) only [sample16be, Mem.set_other, Mem.set_same]
      exact toByte_sample_be _ h0
    · simp (disch := omega) only [sample16be, Mem.set_other, Mem.set_same]
      exact toByte_sample_be _ h1
    · simp (disch := omega) only [sample16be, Mem.set_other, Mem.set_same]
      exact toByte_sample_be _ h2
    · simp (disch := omega) only [sample16be, Mem.set_other, Mem.set_same]
      exact toByte_sample_be _ h3

/-- Witness for C33: the big-endian samples 1023, 564, 0, 257 laid out as a
luma line (`in2 = in1 + 2`, `step = 4`), one block, with the little-endian
samples of `sample_src16` as the swapped memory. -/
theorem conv_16be_is_swapped_16le_witness :
    conv_16be_to_10packed sample_src16be 0 2 (memOfList []) 0 4 1
        = conv_16le_to_10packed sample_src16 0 2 (memOfList []) 0 4 1
    ∧ sample16be (line_10packed_to_16
        (conv_16be_to_10packed sample_src16be 0 2 (memOfList []) 0 4 1)
        0 (memOfList []) (0 + 1) 0 (2 + 1) 2 4 1) 0 = sample16be sample_src16be 0
    ∧ sample16be (line_10packed_to_16
        (conv_16be_to_10packed sample_src16be 0 2 (memOfList []) 0 4 1)
        0 (memOfList []) (0 + 1) 0 (2 + 1) 2 4 1) 2 = sample16be sample_src16be 2
    ∧ sample16be (line_10packed_to_16
        (conv_16be_to_10packed sample_src16be 0 2 (memOfList []) 0 4 1)
        0 (memOfList []) (0 + 1) 0 (2 + 1) 2 4 1) (0 + 4) = sample16be sample_src16be (0 + 4)
    ∧ sample16be (line_10packed_to_16
        (conv_16be_to_10packed sample_src16be 0 2 (memOfList []) 0 4 1)
        0 (memOfList []) (0 + 1) 0 (2 + 1) 2 4 1) (2 + 4) = sample16be sample_src16be (2 + 4) :=
  ⟨(conv_16be_is_swapped_16le sample_src16be (memOfList []) (memOfList []) 0 2 0 4
      0 2 4).1 sample_src16 1
      (fun k hk => by
        have hk0 : k = 0 := by omega
        subst hk0
        exact ⟨⟨rfl, rfl⟩, ⟨rfl, rfl⟩, ⟨rfl, rfl⟩, ⟨rfl, rfl⟩⟩),
    (conv_16be_is_swapped_16le sample_src16be (memOfList []) (memOfList []) 0 2 0 4
      0 2 4).2 (by decide) (by decide) (by decide) (by decide) (by decide)⟩

/-- C34: 8-bit packing is 10-bit packing of the value shifted left by 2.  When
the four 16-bit little-endian samples of a block of `src16` hold `v << 2` for
the four bytes `v` of a block of `src8`, `conv_8_to_10packed` on `src8` writes
the same 5 bytes (the same memory) as `conv_16le_to_10packed` on `src16`; each
10-bit field of the block is `4 * v`: the byte in its high 8 bits, zeros in its
low 2 bits. -/
theorem conv_8_is_shifted_16le (src8 src16 dst : Mem) (in1 in2 step j1 j2 jstep out : Nat)
    (h0 : sample16le src16 j1 = (src8 in1).val <<< 2)
    (h1 : sample16le src16 j2 = (src8 in2).val <<< 2)
    (h2 : sample16le src16 (j1 + jstep) = (src8 (in1 + step)).val <<< 2)
    (h3 : sample16le src16 (j2 + jstep) = (src8 (in2 + step)).val <<< 2) :
    conv_8_to_10packed src8 in1 in2 dst out step 1
        = conv_16le_to_10packed src16 j1 j2 dst out jstep 1
    ∧ (component (conv_8_to_10packed src8 in1 in2 dst out step 1) out 0 / 4 = (src8 in1).val
      ∧ component (conv_8_to_10packed src8 in1 in2 dst out step 1) out 0 % 4 = 0)
    ∧ (component (conv_8_to_10packed src8 in1 in2 dst out step 1) out 1 / 4 = (src8 in2).val
      ∧ component (conv_8_to_10packed src8 in1 in2 dst out step 1) out 1 % 4 = 0)
    ∧ (component (conv_8_to_10packed src8 in1 in2 dst out step 1) out 2 / 4
        = (src8 (in1 + step)).val
      ∧ component (conv_8_to_10packed src8 in1 in2 dst out step 1) out 2 % 4 = 0)
    ∧ (component (conv_8_to_10packed src8 in1 in2 dst out step 1) out 3 / 4
        = (src8 (in2 + step)).val
      ∧ component (conv_8_to_10packed src8 in1 in2 dst out step 1) out 3 % 4 = 0) := by
  have a0 := (src8 in1).isLt
  have a1 := (src8 in2).isLt
  have a2 := (src8 (in1 + step)).isLt
  have a3 := (src8 (in2 + step)).isLt
  obtain ⟨c0, c1, c2, c3⟩ := conv_8_components src8 dst in1 in2 out step
  rw [Nat.shiftLeft_eq] at h0 h1 h2 h3
  refine ⟨?_, ⟨?_, ?_⟩, ⟨?_, ?_⟩, ⟨?_, ?_⟩, ⟨?_, ?_⟩⟩
  · simp only [conv_8_to_10packed, conv_16le_to_10packed]
    rw [conv_8_block_eq, conv_16le_block_eq, h0, h1, h2, h3]
    have e : ∀ v : Nat, v < 256 → v * 2 ^ 2 % 1024 = 4 * v := by
      intro v hv
      omega
    rw [e _ a0, e _ a1, e _ a2, e _ a3]
  all_goals first
    | (rw [c0]; omega)
    | (rw [c1]; omega)
    | (rw [c2]; omega)
    | (rw [c3]; omega)

/-- Witness for C34: the bytes 255, 0, 128, 7 and the 16-bit samples 1020, 0,
512, 28, both laid out as a luma line. -/
theorem conv_8_is_shifted_16le_witness :
    conv_8_to_10packed sample_src8 0 1 (memOfList []) 0 2 1
        = conv_16le_to_10packed sample_src8_shifted 0 2 (memOfList []) 0 4 1
    ∧ (component (conv_8_to_10packed sample_src8 0 1 (memOfList []) 0 2 1) 0 0 / 4
        = (sample_src8 0).val
      ∧ component (conv_8_to_10packed sample_src8 0 1 (memOfList []) 0 2 1) 0 0 % 4 = 0)
    ∧ (component (conv_8_to_10packed sample_src8 0 1 (memOfList []) 0 2 1) 0 1 / 4
        = (sample_src8 1).val
      ∧ component (conv_8_to_10packed sample_src8 0 1 (memOfList []) 0 2 1) 0 1 % 4 = 0)
    ∧ (component (conv_8_to_10packed sample_src8 0 1 (memOfList []) 0 2 1) 0 2 / 4
        = (sample_src8 (0 + 2)).val
      ∧ component (conv_8_to_10packed sample_src8 0 1 (memOfList []) 0 2 1) 0 2 % 4 = 0)
    ∧ (component (conv_8_to_10packed sample_src8 0 1 (memOfList []) 0 2 1) 0 3 / 4
        = (sample_src8 (1 + 2)).val
      ∧ component (conv_8_to_10packed sample_src8 0 1 (memOfList []) 0 2 1) 0 3 % 4 = 0) :=
  conv_8_is_shifted_16le sample_src8 sample_src8_shifted (memOfList []) 0 1 2 0 2 4 0
    (by decide) (by decide) (by decide) (by decide)

/-- C36: plane pointers of a produced frame.  Take any call to
`vraw_reader_frame_read` with buffer `data` that produces a frame: in raw mode
a call that returns 0, in any mode a call that moves the output counter.  With
a format of at least one plane, the frame structure then holds, for every
plane `p` of the array, `data[p] = data + plane_size[0] + ... + plane_size[p-1]`
when `p` is below the plane count of the format and `NULL` otherwise; its
`plane_stride` is the stride array of the reader and its `format` the
configured format. -/
theorem produced_frame_plane_pointers (env : VdefEnv) (data len : Nat) (fr : vraw_frame)
    (fuel : Nat) (st : State) (ret : Int) (st2 : State) (fr2 : Option vraw_frame)
    (h : vraw_reader_frame_read env fuel st data len (some fr) = .done (ret, st2, fr2))
    (hprod : (st.self.cfg.y4m = 0 ∧ ret = 0) ∨ st2.self.count ≠ st.self.count)
    (hpc : 0 < env.vdef_get_raw_frame_plane_count st.self.cfg.format) :
    ∃ f, fr2 = some f
      ∧ (∀ p, p < VDEF_RAW_MAX_PLANE_COUNT →
          f.data p = if p < env.vdef_get_raw_frame_plane_count st.self.cfg.format
            then data + sum_planes st.self.plane_size p else 0)
      ∧ f.frame.plane_stride = st.self.plane_stride
      ∧ f.frame.format = st.self.cfg.format := by
  obtain ⟨s, ⟨hc, hst, hsz, -⟩, hf, -⟩ :=
    frame_read_produced env data len fr fuel st ret st2 fr2 h hprod
  refine ⟨_, hf, ?_, ?_, ?_⟩
  · intro p hp
    simp only [fill_frame_info]
    rw [fill_plane_ptrs_get _ _ data _ _ _ _ (by rw [hc, if_pos hpc]; rfl) p, hc, hsz]
    rw [if_pos ⟨Nat.zero_le _, by omega⟩]
  · simp only [fill_frame_info]
    exact hst
  · simp only [fill_frame_info]
    rw [hc]

/-- Witness for C36: the first call of the example reader on a file of three
I420 frames of 2x2 pixels, with the buffer at address 100: the three plane
pointers are 100, 104 and 105, the fourth is `NULL`. -/
theorem produced_frame_plane_pointers_witness :
    ∃ f, some (fill_frame_info sample_env
          (at_frame (sample_reader 0 (count_bytes 18) 3) (0 + 1) 0 ((0 + 1) % 2 ^ 32) 0 0)
          100 sample_frame) = some f
      ∧ (∀ p, p < VDEF_RAW_MAX_PLANE_COUNT →
          f.data p = if p < sample_env.vdef_get_raw_frame_plane_count
              (at_frame (sample_reader 0 (count_bytes 18) 3) 0 0 0 0 0).cfg.format
            then 100 + sum_planes (at_frame (sample_reader 0 (count_bytes 18) 3) 0 0 0 0 0).plane_size p
            else 0)
      ∧ f.frame.plane_stride = (at_frame (sample_reader 0 (count_bytes 18) 3) 0 0 0 0 0).plane_stride
      ∧ f.frame.format = (at_frame (sample_reader 0 (count_bytes 18) 3) 0 0 0 0 0).cfg.format :=
  produced_frame_plane_pointers sample_env 100 6 sample_frame 1
    ⟨at_frame (sample_reader 0 (count_bytes 18) 3) 0 0 0 0 0, fun _ => 0, 0⟩ 0 _ _
    (frame_read_forward sample_env (sample_reader 0 (count_bytes 18) 3) 3
      (reader_new_raw_session sample_env (count_bytes 18)
        (sample_config 0 0 sample_env.vdef_i420) 0 0 _ 3 rfl rfl rfl sample_reader_new
        sample_reader_tight (by decide)).1
      100 6 (by decide) (by decide) (by decide) 0 (by decide) 0 0 0 0 (fun _ => 0) 0 sample_frame)
    (Or.inl ⟨rfl, rfl⟩) (by decide)

/-- C37: cursor/index invariant.  A reader opened by `vraw_reader_new` without
container header (`y4m = 0`), in any loop mode and with any frame limit, on a
file of exactly `N` frames of the on-disk frame size `F = file_frame_size`
(`F` being the number of bytes read per frame, `N < 2^32` as the index is an
`unsigned int`, the file size an `off_t`), with `start_index <= N`: after
construction and after any sequence of calls to `vraw_reader_frame_read` that
return, whatever their arguments and return values, the file cursor is
`index * F` and `index <= N`, so the index has not wrapped below zero. -/
theorem cursor_index_invariant (env : VdefEnv) (file : List Byte) (cfg : vraw_reader_config)
    (e0 e1 : Int) (r : vraw_reader) (N : Nat) (hy : cfg.y4m = 0)
    (hnew : vraw_reader_new env (some file) cfg e0 = .done (0, some r, e1))
    (hg : OnDisk r) (hN : file.length = N * r.file_frame_size) (hlen : file.length < 2 ^ 63)
    (hS : cfg.start_index ≤ N) (hN32 : N < 2 ^ 32)
    (calls : List (Nat × Nat × Nat × Option vraw_frame)) (buf : Mem) (e : Int) (st2 : State)
    (hc : reader_calls env calls ⟨r, buf, e⟩ = some st2) :
    st2.self.file.pos = st2.self.index * r.file_frame_size ∧ st2.self.index ≤ N
    ∧ st2.self.file_frame_size = r.file_frame_size := by
  obtain ⟨k1, -, -, -, k5, -, k7, -, k9, -, k11, -⟩ :=
    reader_new_raw_any env file cfg e0 e1 r hy hnew
  have hle : cfg.start_index * r.file_frame_size ≤ N * r.file_frame_size :=
    Nat.mul_le_mul_right _ hS
  have h0 : CursorInv r N r :=
    ⟨SameSetup.refl r, by rw [k9 (by omega), k11], by rw [k11]; exact hS⟩
  obtain ⟨hs, hp, hi⟩ := cursor_inv_calls env r N hg k1 k5 (by rw [k7]; exact hN) hN32 calls
    ⟨r, buf, e⟩ st2 h0 hc
  exact ⟨hp, hi, hs.2.2.2.2.1⟩

set_option maxRecDepth 100000 in
/-- Witness for C37: the reverse-looping example reader on a file of five
frames, after the eight calls of `sample_call_list`. -/
theorem cursor_index_invariant_witness :
    ((reader_calls sample_env sample_call_list
        ⟨sample_reader (-1) (count_bytes 30) 5, fun _ => 0, 0⟩).getD
          ⟨sample_reader (-1) (count_bytes 30) 5, fun _ => 0, 0⟩).self.file.pos
      = ((reader_calls sample_env sample_call_list
          ⟨sample_reader (-1) (count_bytes 30) 5, fun _ => 0, 0⟩).getD
            ⟨sample_reader (-1) (count_bytes 30) 5, fun _ => 0, 0⟩).self.index
        * (sample_reader (-1) (count_bytes 30) 5).file_frame_size
    ∧ ((reader_calls sample_env sample_call_list
          ⟨sample_reader (-1) (count_bytes 30) 5, fun _ => 0, 0⟩).getD
            ⟨sample_reader (-1) (count_bytes 30) 5, fun _ => 0, 0⟩).self.index ≤ 5
    ∧ ((reader_calls sample_env sample_call_list
          ⟨sample_reader (-1) (count_bytes 30) 5, fun _ => 0, 0⟩).getD
            ⟨sample_reader (-1) (count_bytes 30) 5, fun _ => 0, 0⟩).self.file_frame_size
      = (sample_reader (-1) (count_bytes 30) 5).file_frame_size :=
  cursor_index_invariant sample_env (count_bytes 30) (sample_config 0 (-1) sample_env.vdef_i420)
    0 0 (sample_reader (-1) (count_bytes 30) 5) 5 rfl sample_reader_new_reverse
    (ondisk_of_tight _ sample_reader_tight_reverse) (by decide) (by decide) (by decide)
    (by decide) sample_call_list (fun _ => 0) 0 _ (option_some_getD _ _ (by decide))

set_option maxRecDepth 100000 in
/-- C38: rejected writes, evaluated on a frame whose plane 1 has a `NULL`
pointer.  In container mode `vraw_writer_frame_write` returns `-EINVAL` and the
output stream has grown by the 6 bytes of the marker `FRAME\n`: the marker is
written before the plane pointers and strides are looked at.  The same frame
offered to the raw writer is rejected with the stream untouched, and so is, in
container mode, a frame rejected by the format check. -/
theorem frame_write_rejected_after_marker :
    (vraw_writer_frame_write sample_writer sample_memory (some sample_out_frame_luma) 0).1
      = -EINVAL
    ∧ (vraw_writer_frame_write sample_writer sample_memory (some sample_out_frame_luma) 0).2.1.file
      = sample_writer.file ++ bytes_of "FRAME\n"
    ∧ (vraw_writer_frame_write sample_raw_writer sample_memory (some sample_out_frame_luma) 0).1
      = -EINVAL
    ∧ (vraw_writer_frame_write sample_raw_writer sample_memory
        (some sample_out_frame_luma) 0).2.1.file = sample_raw_writer.file
    ∧ (vraw_writer_frame_write sample_writer sample_memory
        (some (sample_out_frame_with sample_env.vdef_nv12 { width := 2, height := 2 })) 0).1
      = -EINVAL
    ∧ (vraw_writer_frame_write sample_writer sample_memory
        (some (sample_out_frame_with sample_env.vdef_nv12 { width := 2, height := 2 })) 0).2.1.file
      = sample_writer.file := by
  decide

set_option maxRecDepth 100000 in
/-- C39: backward seek in container mode, evaluated.  The example reader opened
with `y4m` set and `loop = -1` on a container file of 77 bytes (a header of 35
bytes, one marker, one frame of 36 bytes) reaches the end of the file with its
sixth call.  There `seek_to_previous_frame` returns `-EOVERFLOW`, and so does
the call, but the cursor has moved from offset 77 to offset 5: the first seek,
by two frame sizes, was executed before the test for the two markers failed.
Offset 5 lies inside the header line, before `header_offset = 35`. -/
theorem seek_to_previous_frame_partial :
    vraw_reader_new sample_env (some sample_y4m_wide_file)
        (sample_config 1 (-1) sample_env.vdef_i420) 0
      = .done (0, some sample_y4m_wide_reader, 0)
    ∧ sample_y4m_wide_reader.header_offset = 35
    ∧ sample_y4m_wide_reader.file_frame_size = 36
    ∧ cursor_trace sample_env 2
        [(100, 36), (100, 36), (100, 36), (100, 36), (100, 36), (100, 36)]
        ⟨sample_y4m_wide_reader, fun _ => 0, 0⟩ sample_frame
      = some [(0, 41, 0, 0), (0, 50, 0, 0), (0, 52, 0, 0), (0, 61, 0, 0), (0, 70, 0, 0),
          (-EOVERFLOW, 5, 0, 1)]
    ∧ (seek_to_previous_frame
        { sample_y4m_wide_reader with file := { sample_y4m_wide_reader.file with
            pos := 77, eof := true }, reverse := 1 } 0).1 = -EOVERFLOW
    ∧ (seek_to_previous_frame
        { sample_y4m_wide_reader with file := { sample_y4m_wide_reader.file with
            pos := 77, eof := true }, reverse := 1 } 0).2.1.file.pos = 5 :=
  ⟨sample_y4m_wide_reader_new, by decide⟩

/-- C40: rewrite identity.  A reader opened by `vraw_reader_new` without
container header, with `loop = 0`, `max_count = 0` and `start_index = 0`, with
or without alignment constraints, on a file of exactly `N` frames of the
on-disk frame size; the geometry of libvideo-defs is such that the on-disk
frame size is the number of bytes read per frame, the rows of a plane do not
overlap in memory and a plane ends before the next one begins.  A writer is
opened by `vraw_writer_new` in raw mode with the format and the frame
information of the reader.  Then the loop of `vraw_rewrite`, which passes every
frame read to `vraw_writer_frame_write` unchanged, ends without failure after
the reader returned `-ENOENT`, and the output stream is the input file, byte
for byte. -/
theorem rewrite_identity (env : VdefEnv) (file : List Byte) (cfg : vraw_reader_config)
    (e0 e1 e2 : Int) (r : vraw_reader) (N : Nat) (w : vraw_writer) (disk : Option (List Byte))
    (buf : Mem) (data len fuel k : Nat) (fr : vraw_frame)
    (hy : cfg.y4m = 0) (hl : cfg.loop = 0) (hm : cfg.max_count = 0)
    (hs : cfg.start_index = 0)
    (hnew : vraw_reader_new env (some file) cfg e0 = .done (0, some r, e1))
    (hg : OnDisk r) (hmem : InMemory env r) (hN : file.length = N * r.file_frame_size)
    (hw : vraw_writer_new env { y4m := 0, format := r.cfg.format, info := r.cfg.info } none e1
      = (0, some w, e2, disk))
    (hd : data ≠ 0) (hlen : len ≠ 0)
    (hsz : vraw_reader_get_min_buf_size r ≤ (len : Int)) :
    ∃ st w2, rewrite_loop env (fuel + 1) data len (N + 1 + k) ⟨r, buf, e2⟩ fr w
        = some (true, st, w2)
      ∧ w2.file = file := by
  obtain ⟨h1, h2, h3, h4, h5, h6, h7, h8, h9, h10, h11, h12, h13, -⟩ :=
    reader_new_raw_any env file cfg e0 e1 r hy hnew
  rw [if_neg (fun h => absurd h.2 (by omega))] at h10
  have h9' := h9 (by rw [hs]; simp)
  rw [hs] at h9' h11
  obtain ⟨w1, w2, w3, w4⟩ := writer_new_fields env _ e1 e2 w disk hw
  obtain ⟨w5, -⟩ := writer_new_raw_file env _ e1 e2 w disk rfl hw
  have hsz' : r.frame_size ≤ len := by
    simp only [vraw_reader_get_min_buf_size] at hsz
    omega
  have hr0 : r = at_frame r 0 0 0 0 0 := by
    obtain ⟨cfg', f, rev, ho, fh, pst, psz, fs, ffs, fsz, ffc, ts, idx, cnt⟩ := r
    obtain ⟨d, p, eof⟩ := f
    simp only at h8 h9' h10 h11 h12 h13
    simp only [Nat.zero_mul] at h9'
    subst h8 h9' h10 h11 h12 h13
    simp [at_frame]
  have hrun := rewrite_loop_run env r N h1 (by rw [h2, hl]) (by rw [h3, hm]) h4 hg hmem
    (by rw [h7]; exact hN) data len hd hlen hsz' w.cfg w1 w2 w3 fuel k N 0 (by omega)
    0 0 0 buf e2 fr w rfl w4 (by rw [w5]; simp)
  rw [← hr0, h7] at hrun
  exact hrun

set_option maxRecDepth 100000 in
/-- Witness for C40: an I420 file of three 2x2 frames rewritten through a
reader with aligned planes (strides of 8 bytes, planes of 32 bytes). -/
theorem rewrite_identity_witness :
    ∃ st w2, rewrite_loop sample_env (0 + 1) 100 96 (3 + 1 + 0)
        ⟨sample_reader_aligned, fun _ => 0, 0⟩ sample_frame sample_rewrite_writer
        = some (true, st, w2)
      ∧ w2.file = count_bytes 18 :=
  rewrite_identity sample_env (count_bytes 18) sample_config_aligned 0 0 0
    sample_reader_aligned 3 sample_rewrite_writer (some []) (fun _ => 0) 100 96 0 0 sample_frame
    rfl rfl rfl rfl sample_aligned_new sample_aligned_ondisk sample_aligned_inmemory
    (by decide) (by decide) (by decide) (by decide) (by decide)

end Vraw
